import Mathlib

/-!
# V4L2 control framework (`v4l2-ctrls.c`): a shallow embedding

The development follows `linux/drivers/media/video/v4l2-ctrls.c`.

Conventions of the embedding:

* `s32` values are integers in `[-2^31, 2^31)`, `u32` values are naturals below `2^32`;
  every C operation that can wrap is followed by an explicit `s32`/`u32` reduction.
* Pointers to controls are indices into a store (`Store.ctrls`); pointers to control
  references are indices into the arena of the handler (`Handler.refs`); `NULL` is `none`.
  A read through a pointer that addresses no object sees `Ctrl.null`, a write through it is
  dropped, an identity test on it fails.  Such pointers do not occur in well-formed states.
* The unnamed unions of `struct v4l2_ctrl` (`val`/`val64`/`string`, and the same under
  `cur`) and of `struct v4l2_ext_control` are kept as one field per member; the C code
  selects the member by the type of the control.
* A control string is kept as its bytes up to (not including) the terminating zero.
* Locks are not modelled: the functions are the sequential behaviour of one caller.
  Allocation (`kzalloc`, `kmalloc`) succeeds.
* The backend callbacks (`try_ctrl`, `s_ctrl`, `g_volatile_ctrl`) are pure functions of the
  view of the cluster; they return an error code and the new pending values of the members.
  Every invocation is recorded in `Store.log`, and so is every queued event.
-/

namespace V4L2

/-! ## Machine integers -/

/-- Reduction of an integer to the `u32` range. -/
def u32 (x : Int) : Int := x % 4294967296

/-- Reduction of an integer to the `s32` range (two's complement). -/
def s32 (x : Int) : Int := (x + 2147483648) % 4294967296 - 2147483648

/-- Reduction of an integer to the range of `size_t` (64 bit). -/
def usize (x : Int) : Int := x % 18446744073709551616

/-- The value is representable as an `s32`. -/
def isS32 (x : Int) : Prop := -2147483648 ≤ x ∧ x ≤ 2147483647

instance (x : Int) : Decidable (isS32 x) := by unfold isS32; infer_instance

/-- Bitwise and of two `s32` values, computed on their two's complement images. -/
def and32 (a b : Int) : Int := s32 (((u32 a).toNat &&& (u32 b).toNat : Nat) : Int)

/-! ## Constants of the missing headers -/

/-- Modelled from the spec: error code `InvalidArgument`; the number is the one of the
missing header `errno.h`. -/
def EINVAL : Int := 22
/-- Modelled from the spec: error code `OutOfRange` (`errno.h` is not part of the source). -/
def ERANGE : Int := 34
/-- Modelled from the spec: error code `AccessDenied` (`errno.h` is not part of the source). -/
def EACCES : Int := 13
/-- Modelled from the spec: error code `Busy` (`errno.h` is not part of the source). -/
def EBUSY : Int := 16
/-- Modelled from the spec: error code `OutOfMemory` (`errno.h` is not part of the source). -/
def ENOMEM : Int := 12
/-- Modelled from the spec: the error of a failed copy from or to the caller
(`errno.h` is not part of the source). -/
def EFAULT : Int := 14
/-- Modelled from the spec: the error of a caller buffer that is too small
(`errno.h` is not part of the source). -/
def ENOSPC : Int := 28

/-- Modelled from the spec: the flag `disabled` of a control; the bit is the one of the
missing header `videodev2.h`. -/
def V4L2_CTRL_FLAG_DISABLED : Nat := 0x0001
/-- Modelled from the spec: the flag `grabbed`; bit 1, as `v4l2_ctrl_grab` sets it. -/
def V4L2_CTRL_FLAG_GRABBED : Nat := 0x0002
/-- Modelled from the spec: the flag `read-only` (`videodev2.h` is not part of the source). -/
def V4L2_CTRL_FLAG_READ_ONLY : Nat := 0x0004
/-- Modelled from the spec: the flag `update-triggers-others`
(`videodev2.h` is not part of the source). -/
def V4L2_CTRL_FLAG_UPDATE : Nat := 0x0008
/-- Modelled from the spec: the flag `inactive`; bit 4, as `v4l2_ctrl_activate` sets it. -/
def V4L2_CTRL_FLAG_INACTIVE : Nat := 0x0010
/-- Modelled from the spec: the flag `slider-hint` (`videodev2.h` is not part of the source). -/
def V4L2_CTRL_FLAG_SLIDER : Nat := 0x0020
/-- Modelled from the spec: the flag `write-only` (`videodev2.h` is not part of the source). -/
def V4L2_CTRL_FLAG_WRITE_ONLY : Nat := 0x0040

/-- Modelled from the spec: the mask that strips the next-flag from a control ID
(`videodev2.h` is not part of the source). -/
def V4L2_CTRL_ID_MASK : Nat := 0x0fffffff
/-- Modelled from the spec: the private base of the legacy IDs
(`videodev2.h` is not part of the source). -/
def V4L2_CID_PRIVATE_BASE : Nat := 0x08000000
/-- Modelled from the spec: the class of the user controls
(`videodev2.h` is not part of the source). -/
def V4L2_CTRL_CLASS_USER : Nat := 0x00980000
/-- Modelled from the spec: the class part of a control ID, the macro
`V4L2_CTRL_ID2CLASS` of the missing header `videodev2.h`. -/
def V4L2_CTRL_ID2CLASS (id : Nat) : Nat := id &&& 0x0fff0000
/-- Modelled from the spec: the test for a driver-private ID, the macro
`V4L2_CTRL_DRIVER_PRIV` of the missing header `videodev2.h`. -/
def V4L2_CTRL_DRIVER_PRIV (id : Nat) : Bool := decide (0x1000 ≤ (id &&& 0xffff))

/-- Modelled from the spec: the event type of a control change
(`videodev2.h` is not part of the source). -/
def V4L2_EVENT_CTRL : Nat := 3
/-- Modelled from the spec: the change bit `value-changed`
(`videodev2.h` is not part of the source). -/
def V4L2_EVENT_CTRL_CH_VALUE : Nat := 1
/-- Modelled from the spec: the change bit `flags-changed`
(`videodev2.h` is not part of the source). -/
def V4L2_EVENT_CTRL_CH_FLAGS : Nat := 2
/-- Modelled from the spec: the subscription flag `send initial state`
(`videodev2.h` is not part of the source). -/
def V4L2_EVENT_SUB_FL_SEND_INITIAL : Nat := 1
/-- Modelled from the spec: the subscription flag `allow feedback to self`
(`videodev2.h` is not part of the source). -/
def V4L2_EVENT_SUB_FL_ALLOW_FEEDBACK : Nat := 2

/-- The C test `flags & f`. -/
def hasFlag (flags f : Nat) : Bool := (flags &&& f) != 0

/-! ## Data model -/

/-- The members of `enum v4l2_ctrl_type`; `OTHER` stands for any value outside the
enumeration (the `default:` branches of the switches). -/
inductive CtrlType where
  | INTEGER | BOOLEAN | MENU | BUTTON | INTEGER64 | CTRL_CLASS | STRING | BITMASK | OTHER
  deriving DecidableEq, Repr

/-- The C type `struct v4l2_subscribed_event`, the fields the framework reads. -/
structure Sev where
  fh : Option Nat
  flags : Nat
  deriving DecidableEq, Repr

/-- The pending value of a control: the second unnamed union of `struct v4l2_ctrl`. -/
structure Pending where
  val : Int
  val64 : Int
  string : List Nat
  deriving DecidableEq, Repr

/-- What a backend callback sees of one cluster member. -/
structure MemberView where
  id : Nat
  type : CtrlType
  flags : Nat
  minimum : Int
  maximum : Int
  step : Nat
  is_new : Bool
  cur : Pending
  new : Pending
  deriving DecidableEq, Repr

/-- A backend callback: from the view of the cluster (slot by slot, `none` for a `NULL`
slot) to its return code and the pending values it leaves in the slots. -/
abbrev Backend := List (Option MemberView) → Int × List (Option Pending)

/-- The C type `struct v4l2_ctrl_ops`; an absent operation is a `NULL` function pointer. -/
structure Ops where
  g_volatile_ctrl : Option Backend
  try_ctrl : Option Backend
  s_ctrl : Option Backend

/-- The C type `struct v4l2_ctrl`. -/
structure Ctrl where
  handler : Nat
  ops : Option Ops
  ev_subs : List Sev
  id : Nat
  name : String
  type : CtrlType
  flags : Nat
  minimum : Int
  maximum : Int
  step : Nat
  default_value : Int
  qmenu : Option (List String)
  is_new : Bool
  is_private : Bool
  is_volatile : Bool
  is_auto : Bool
  done : Bool
  manual_mode_value : Nat
  cluster : List (Option Nat)
  cur : Pending
  new : Pending

/-- The `menu_skip_mask` member of the union with `step`. -/
def Ctrl.menu_skip_mask (c : Ctrl) : Nat := c.step

/-- The field `ncontrols`: the length of the cluster array. -/
def Ctrl.ncontrols (c : Ctrl) : Nat := c.cluster.length

/-- What a read through a pointer that addresses no control sees. -/
def Ctrl.null : Ctrl :=
  { handler := 0, ops := none, ev_subs := [], id := 0, name := "", type := .OTHER, flags := 0,
    minimum := 0, maximum := 0, step := 0, default_value := 0, qmenu := none,
    is_new := false, is_private := false, is_volatile := false, is_auto := false,
    done := false, manual_mode_value := 0, cluster := [],
    cur := ⟨0, 0, []⟩, new := ⟨0, 0, []⟩ }

/-- The C type `struct v4l2_event` as `fill_event` fills it for a control. -/
structure Event where
  type : Nat
  id : Nat
  changes : Nat
  ctrl_type : CtrlType
  flags : Nat
  value64 : Int
  minimum : Int
  maximum : Int
  step : Nat
  default_value : Int
  deriving DecidableEq, Repr

/-- The three operations of `struct v4l2_ctrl_ops`. -/
inductive OpKind where
  | g_volatile_ctrl | try_ctrl | s_ctrl
  deriving DecidableEq, Repr

/-- What the framework does to the outside: a call of a backend operation on a master
control, or an event queued to a file handle (`v4l2_event_queue_fh`). -/
inductive LogEntry where
  | call (op : OpKind) (master : Option Nat)
  | event (fh : Nat) (ev : Event)
  deriving DecidableEq, Repr

/-- The memory that holds the controls, and the trace of the outside effects. -/
structure Store where
  ctrls : List Ctrl
  log : List LogEntry

/-- The replacement of the element at an index of a list; an index past the end changes
nothing. -/
def updAt {α : Type} : List α → Nat → (α → α) → List α
  | [], _, _ => []
  | x :: xs, 0, f => f x :: xs
  | x :: xs, n + 1, f => x :: updAt xs n f

/-- The control a pointer addresses (`Ctrl.null` when it addresses none). -/
def Store.get (s : Store) (p : Option Nat) : Ctrl :=
  match p with
  | none => Ctrl.null
  | some i => s.ctrls.getD i Ctrl.null

/-- The control a pointer addresses, when it addresses one. -/
def Store.get? (s : Store) (p : Option Nat) : Option Ctrl :=
  match p with
  | none => none
  | some i => s.ctrls.get? i

/-- A write to the control a pointer addresses. -/
def Store.upd (s : Store) (p : Option Nat) (f : Ctrl → Ctrl) : Store :=
  match p with
  | none => s
  | some i => { s with ctrls := updAt s.ctrls i f }

/-- The C type `struct v4l2_ctrl_ref`: the control and the transient helper slot. The links `node`
and `next` are the positions of the reference in the lists of the handler. -/
structure Ref where
  ctrl : Option Nat
  helper : Option Nat
  deriving DecidableEq, Repr

/-- The C type `struct v4l2_ctrl_handler`. `hid` is the address of the handler, `refs` the arena of
its references, `ctrl_refs` the list sorted by ID, `buckets` the hash chains. -/
structure Handler where
  hid : Nat
  refs : List Ref
  ctrls : List Nat
  ctrl_refs : List Nat
  cached : Option Nat
  buckets : Option (List (List Nat))
  nr_of_buckets : Nat
  error : Int
  deriving DecidableEq, Repr

/-- The reference a pointer addresses (an empty reference when it addresses none). -/
def Handler.ref (h : Handler) (r : Option Nat) : Ref :=
  match r with
  | none => ⟨none, none⟩
  | some i => h.refs.getD i ⟨none, none⟩

/-- A write to the reference a pointer addresses. -/
def Handler.updRef (h : Handler) (r : Option Nat) (f : Ref → Ref) : Handler :=
  match r with
  | none => h
  | some i => { h with refs := updAt h.refs i f }

/-- The ID `ref->ctrl->id` of a reference, when the reference and its control exist. -/
def refId (h : Handler) (s : Store) (r : Nat) : Option Nat :=
  match h.refs.get? r with
  | none => none
  | some ref => (s.get? ref.ctrl).map (fun c => c.id)

/-- Internal temporary helper struct, one for each `v4l2_ext_control`. -/
structure Helper where
  mref : Option Nat
  ctrl : Option Nat
  next : Nat
  deriving DecidableEq, Repr

/-- The C type `struct v4l2_ext_control`; `string` is the caller memory the pointer addresses. -/
structure ExtControl where
  id : Nat
  size : Nat
  value : Int
  value64 : Int
  string : List Nat
  deriving DecidableEq, Repr

/-- The C type `struct v4l2_ext_controls`; the field `count` is the length of `controls`. -/
structure ExtControls where
  ctrl_class : Nat
  error_idx : Nat
  controls : List ExtControl
  deriving DecidableEq, Repr

/-- The field `count`. -/
def ExtControls.count (cs : ExtControls) : Nat := cs.controls.length

/-- The bytes of a C string: what precedes the first zero byte. -/
def cstr (bytes : List Nat) : List Nat := bytes.takeWhile (fun b => b != 0)

/-! ## Validation of a scalar value -/

/-- The entry `qmenu[val]` is the empty string (`qmenu[val][0] == 0`). An index past the
array addresses no string and counts as empty. -/
def menuEntryEmpty (c : Ctrl) (val : Int) : Bool :=
  match c.qmenu with
  | none => true
  | some m =>
    match m.get? val.toNat with
    | none => true
    | some s => s.isEmpty

/-- The test `ctrl->menu_skip_mask & (1 << val)`. -/
def menuSkipped (c : Ctrl) (val : Int) : Bool :=
  (c.menu_skip_mask &&& ((1 <<< val.toNat) % 4294967296)) != 0

/-- The function `validate_new_int`: the return code and the value left in `*pval`. -/
def validate_new_int (ctrl : Ctrl) (pval : Int) : Int × Int :=
  match ctrl.type with
  | .INTEGER =>
    -- Round towards the closest legal value
    let val := s32 (pval + (ctrl.step / 2 : Nat))
    let val := if val < ctrl.minimum then ctrl.minimum else val
    let val := if val > ctrl.maximum then ctrl.maximum else val
    let offset := u32 (val - ctrl.minimum)
    let offset := u32 (ctrl.step * (offset / ctrl.step))
    let val := s32 (ctrl.minimum + offset)
    (0, val)
  | .BOOLEAN => (0, if pval ≠ 0 then 1 else 0)
  | .MENU =>
    if pval < ctrl.minimum ∨ pval > ctrl.maximum then (-ERANGE, pval)
    else if menuEntryEmpty ctrl pval || menuSkipped ctrl pval then (-EINVAL, pval)
    else (0, pval)
  | .BITMASK => (0, and32 pval ctrl.maximum)
  | .BUTTON => (0, 0)
  | .CTRL_CLASS => (0, 0)
  | _ => (-EINVAL, pval)

/-- The reference definition of the quantization of an integer control. -/
def clamp (x lo hi : Int) : Int :=
  let x := if x < lo then lo else x
  if x > hi then hi else x

/-- The quantization of the spec: bias by half the step, clamp, snap down to the grid, with
truncating integer division. -/
def quantizeRef (min max : Int) (step : Nat) (v : Int) : Int :=
  min + step * Int.tdiv (clamp (v + (step / 2 : Nat)) min max - min) step

/-! ## Events and value copies -/

/-- The function `type_is_int`: the control type is compatible with the scalar get and set. -/
def type_is_int (ctrl : Ctrl) : Bool :=
  match ctrl.type with
  | .INTEGER64 => false
  | .STRING => false
  | _ => true

/-- The function `is_cur_manual`: the autocluster is set to manual mode. -/
def is_cur_manual (master : Ctrl) : Bool :=
  master.is_auto && decide (master.cur.val = master.manual_mode_value)

/-- The function `is_new_manual`: the same test on the new value. -/
def is_new_manual (master : Ctrl) : Bool :=
  master.is_auto && decide (master.new.val = master.manual_mode_value)

/-- The function `fill_event`. The read of `cur.val64` of a control that keeps its value in `cur.val`
sees the 32 bits of `val` in zeroed storage. -/
def fill_event (ctrl : Ctrl) (changes : Nat) : Event :=
  { type := V4L2_EVENT_CTRL
    id := ctrl.id
    changes := changes
    ctrl_type := ctrl.type
    flags := ctrl.flags
    value64 := match ctrl.type with
      | .STRING => 0
      | .INTEGER64 => ctrl.cur.val64
      | _ => u32 ctrl.cur.val
    minimum := ctrl.minimum
    maximum := ctrl.maximum
    step := match ctrl.type with
      | .MENU => 1
      | _ => ctrl.step
    default_value := ctrl.default_value }

/-- The subscriber `sev` is sent the event of a change that `fh` made. -/
def sev_receives (fh : Option Nat) (sev : Sev) : Bool :=
  sev.fh.isSome && (sev.fh != fh || hasFlag sev.flags V4L2_EVENT_SUB_FL_ALLOW_FEEDBACK)

/-- The function `send_event`: queue the event to the subscribers of the control. -/
def send_event (s : Store) (fh : Option Nat) (p : Option Nat) (changes : Nat) : Store :=
  let ctrl := s.get p
  if ctrl.ev_subs.isEmpty then s
  else
    let ev := fill_event ctrl changes
    let queued := List.map (fun sev => LogEntry.event (sev.fh.getD 0) ev)
      (ctrl.ev_subs.filter (sev_receives fh))
    { s with log := s.log ++ queued }

/-- The committed value after the new value is copied over it, by the type. -/
def copy_new_to_cur (c : Ctrl) : Ctrl :=
  match c.type with
  | .BUTTON => c
  | .STRING => { c with cur := { c.cur with string := c.new.string } }
  | .INTEGER64 => { c with cur := { c.cur with val64 := c.new.val64 } }
  | _ => { c with cur := { c.cur with val := c.new.val } }

/-- The new value differs from the committed one, by the type (`changed` of `new_to_cur`). -/
def value_changed (c : Ctrl) : Bool :=
  match c.type with
  | .BUTTON => true
  | .STRING => c.new.string != c.cur.string
  | .INTEGER64 => c.new.val64 != c.cur.val64
  | _ => c.new.val != c.cur.val

/-- The flags with the bits of `f` cleared (`flags &= ~f`). -/
def clearFlag (flags f : Nat) : Nat := flags ^^^ (flags &&& f)

/-- The function `new_to_cur`: copy the new value to the current value. -/
def new_to_cur (s : Store) (fh : Option Nat) (p : Option Nat) (update_inactive : Bool) :
    Store :=
  match p with
  | none => s
  | some _ =>
    let changed := value_changed (s.get p)
    let s := s.upd p copy_new_to_cur
    let s :=
      if update_inactive then
        let s := s.upd p (fun c => { c with flags := clearFlag c.flags V4L2_CTRL_FLAG_INACTIVE })
        if !is_cur_manual (s.get ((s.get p).cluster.headD none)) then
          s.upd p (fun c => { c with flags := c.flags ||| V4L2_CTRL_FLAG_INACTIVE })
        else s
      else s
    if changed || update_inactive then
      -- If a control was changed that was not one of the controls modified by the
      -- application, then send the event to all.
      let fh := if !(s.get p).is_new then none else fh
      send_event s fh p
        ((if changed then V4L2_EVENT_CTRL_CH_VALUE else 0) |||
         (if update_inactive then V4L2_EVENT_CTRL_CH_FLAGS else 0))
    else s

/-- The new value after the committed value is copied over it, by the type. -/
def copy_cur_to_new (c : Ctrl) : Ctrl :=
  match c.type with
  | .STRING => { c with new := { c.new with string := c.cur.string } }
  | .INTEGER64 => { c with new := { c.new with val64 := c.cur.val64 } }
  | _ => { c with new := { c.new with val := c.cur.val } }

/-- The function `cur_to_new`: copy the current value to the new value. -/
def cur_to_new (s : Store) (p : Option Nat) : Store := s.upd p copy_cur_to_new

/-- The loop of `cluster_changed` over the slots of the cluster. -/
def cluster_changed_loop (s : Store) : List (Option Nat) → Bool
  | [] => false
  | none :: rest => cluster_changed_loop s rest
  | some i :: rest =>
    let ctrl := s.get (some i)
    match ctrl.type with
    | .BUTTON => true  -- Button controls are always 'different'
    | .STRING =>
      if ctrl.new.string != ctrl.cur.string then true else cluster_changed_loop s rest
    | .INTEGER64 =>
      if ctrl.new.val64 != ctrl.cur.val64 then true else cluster_changed_loop s rest
    | _ => if ctrl.new.val != ctrl.cur.val then true else cluster_changed_loop s rest

/-- The function `cluster_changed`: one or more of the controls in the cluster has a new value that
differs from the current value. -/
def cluster_changed (s : Store) (master : Option Nat) : Bool :=
  cluster_changed_loop s (s.get master).cluster

/-! ## Backend calls -/

/-- The view a backend gets of a control. -/
def memberView (c : Ctrl) : MemberView :=
  { id := c.id, type := c.type, flags := c.flags, minimum := c.minimum,
    maximum := c.maximum, step := c.step, is_new := c.is_new, cur := c.cur, new := c.new }

/-- The view a backend gets of the cluster of a master. -/
def clusterView (s : Store) (master : Ctrl) : List (Option MemberView) :=
  master.cluster.map (fun slot => slot.map (fun i => memberView (s.get (some i))))

/-- The pending values a backend leaves are written to the members, slot by slot. -/
def setPending : Store → List (Option Nat) → List (Option Pending) → Store
  | s, some i :: ps, some v :: vs =>
    setPending (s.upd (some i) (fun c => { c with new := v })) ps vs
  | s, _ :: ps, _ :: vs => setPending s ps vs
  | s, _, _ => s

/-- The operation of the given kind in a `struct v4l2_ctrl_ops`. -/
def Ops.sel (o : Ops) : OpKind → Option Backend
  | .g_volatile_ctrl => o.g_volatile_ctrl
  | .try_ctrl => o.try_ctrl
  | .s_ctrl => o.s_ctrl

/-- The macro `has_op(master, op)`. -/
def has_op (master : Ctrl) (op : OpKind) : Bool :=
  match master.ops with
  | none => false
  | some o => (o.sel op).isSome

/-- The macro `call_op(master, op)`: zero when the operation is absent. -/
def call_op (s : Store) (master : Option Nat) (op : OpKind) : Int × Store :=
  let m := s.get master
  match m.ops with
  | none => (0, s)
  | some o =>
    match o.sel op with
    | none => (0, s)
    | some f =>
      let r := f (clusterView s m)
      let s := setPending s m.cluster r.2
      (r.1, { s with log := s.log ++ [LogEntry.call op master] })

/-! ## Lookup -/

/-- The loop of `find_private_ref` over the sorted list: the n-th private user control
that is compatible with the scalar get and set. -/
def find_private_loop (h : Handler) (s : Store) : List Nat → Nat → Option Nat
  | [], _ => none
  | r :: rest, n =>
    let c := s.get (h.ref (some r)).ctrl
    if V4L2_CTRL_ID2CLASS c.id = V4L2_CTRL_CLASS_USER ∧ V4L2_CTRL_DRIVER_PRIV c.id = true then
      if !type_is_int c then find_private_loop h s rest n
      else
        match n with
        | 0 => some r
        | k + 1 => find_private_loop h s rest k
    else find_private_loop h s rest n

/-- The function `find_private_ref`. -/
def find_private_ref (h : Handler) (s : Store) (id : Nat) : Option Nat :=
  find_private_loop h s h.ctrl_refs (id - V4L2_CID_PRIVATE_BASE)

/-- The chain of the bucket of an ID (`hdl->buckets ? hdl->buckets[bucket] : NULL`). -/
def Handler.chain (h : Handler) (id : Nat) : List Nat :=
  match h.buckets with
  | none => []
  | some b => b.getD (id % h.nr_of_buckets) []

/-- The test `hdl->cached && hdl->cached->ctrl->id == id` of `find_ref`. -/
def cacheHit (h : Handler) (s : Store) (id : Nat) : Bool :=
  match h.cached with
  | none => false
  | some r => refId h s r == some id

/-- The function `find_ref`: find a control with the given ID; the reference found and the handler with
its cache updated. -/
def find_ref (h : Handler) (s : Store) (id : Nat) : Option Nat × Handler :=
  let id := id &&& V4L2_CTRL_ID_MASK
  -- Old-style private controls need special handling
  if V4L2_CID_PRIVATE_BASE ≤ id then (find_private_ref h s id, h)
  -- Simple optimization: cache the last control found
  else if cacheHit h s id = true then (h.cached, h)
  else
    -- Not in cache, search the hash
    match (h.chain id).find? (fun r => refId h s r == some id) with
    | some r => (some r, { h with cached := some r })
    | none => (none, h)

/-- The function `find_ref_lock`: the same for a handler that may be `NULL`. -/
def find_ref_lock (hdl : Option Handler) (s : Store) (id : Nat) :
    Option Nat × Option Handler :=
  match hdl with
  | none => (none, none)
  | some h => let r := find_ref h s id; (r.1, some r.2)

/-- The function `v4l2_ctrl_find`: the control of the reference found, or `NULL`. -/
def v4l2_ctrl_find (hdl : Option Handler) (s : Store) (id : Nat) :
    Option Nat × Option Handler :=
  let r := find_ref_lock hdl s id
  match r.1, r.2 with
  | some ref, some h => ((h.ref (some ref)).ctrl, some h)
  | _, h => (none, h)

/-! ## The scalar get and set -/

/-- The first loop of `try_or_set_cluster`: a member without a new value gets its current
value as the new one; on a set a member with a new value must not be grabbed. -/
def stage_cluster (set : Bool) : Store → List (Option Nat) → Option Int × Store
  | s, [] => (none, s)
  | s, none :: rest => stage_cluster set s rest
  | s, some i :: rest =>
    let ctrl := s.get (some i)
    if !ctrl.is_new then stage_cluster set (cur_to_new s (some i)) rest
    else if set && hasFlag ctrl.flags V4L2_CTRL_FLAG_GRABBED then (some (-EBUSY), s)
    else stage_cluster set s rest

/-- The last loop of `try_or_set_cluster`: make the new values permanent; `i` is the index
of the first slot of the list. -/
def commit_cluster (fh : Option Nat) (update_flag : Bool) :
    Store → List (Option Nat) → Nat → Store
  | s, [], _ => s
  | s, p :: rest, i =>
    commit_cluster fh update_flag (new_to_cur s fh p (update_flag && decide (0 < i))) rest (i + 1)

/-- The function `try_or_set_cluster`: call `try_ctrl` and, on a set, `s_ctrl`, and copy the new value
to the current value on a set. -/
def try_or_set_cluster (s : Store) (fh : Option Nat) (master : Option Nat) (set : Bool) :
    Int × Store :=
  match stage_cluster set s (s.get master).cluster with
  | (some err, s) => (err, s)
  | (none, s) =>
    let r := call_op s master .try_ctrl
    let ret := r.1
    let s := r.2
    -- Don't set if there is no change
    if ret ≠ 0 ∨ set = false ∨ cluster_changed s master = false then (ret, s)
    else
      let r := call_op s master .s_ctrl
      let ret := r.1
      let s := r.2
      if ret ≠ 0 then (ret, s)
      else
        -- If OK, then make the new values permanent.
        let update_flag := is_cur_manual (s.get master) != is_new_manual (s.get master)
        (0, commit_cluster fh update_flag s (s.get master).cluster 0)

/-- The loop that resets the `is_new` flags of the cluster. -/
def reset_is_new : Store → List (Option Nat) → Store
  | s, [] => s
  | s, p :: rest => reset_is_new (s.upd p (fun c => { c with is_new := false })) rest

/-- The loop that copies the current values of the cluster to the new values. -/
def cluster_cur_to_new : Store → List (Option Nat) → Store
  | s, [] => s
  | s, p :: rest => cluster_cur_to_new (cur_to_new s p) rest

/-- The function `get_ctrl`: the return code, the value left in `*val` and the store. -/
def get_ctrl (s : Store) (p : Option Nat) (val : Int) : Int × Int × Store :=
  let ctrl := s.get p
  let master := ctrl.cluster.headD none
  if hasFlag ctrl.flags V4L2_CTRL_FLAG_WRITE_ONLY then (-EACCES, val, s)
  else if ctrl.is_volatile && !is_cur_manual (s.get master) then
    -- g_volatile_ctrl will update the current control values
    let s := cluster_cur_to_new s (s.get master).cluster
    let r := call_op s master .g_volatile_ctrl
    (r.1, (r.2.get p).new.val, r.2)
  else (0, ctrl.cur.val, s)

/-- The function `v4l2_g_ctrl`: the return code, the value left in `control->value`, the handler and
the store. -/
def v4l2_g_ctrl (hdl : Option Handler) (s : Store) (id : Nat) (value : Int) :
    Int × Int × Option Handler × Store :=
  let f := v4l2_ctrl_find hdl s id
  match f.1 with
  | none => (-EINVAL, value, f.2, s)
  | some i =>
    if !type_is_int (s.get (some i)) then (-EINVAL, value, f.2, s)
    else
      let r := get_ctrl s (some i) value
      (r.1, r.2.1, f.2, r.2.2)

/-- The function `set_ctrl`: the return code, the value left in `*val` and the store. -/
def set_ctrl (s : Store) (fh : Option Nat) (p : Option Nat) (val : Int) :
    Int × Int × Store :=
  let ctrl := s.get p
  let master := ctrl.cluster.headD none
  let v := validate_new_int ctrl val
  if v.1 ≠ 0 then (v.1, v.2, s)
  else
    -- Reset the 'is_new' flags of the cluster
    let s := reset_is_new s (s.get master).cluster
    let s := s.upd p (fun c => { c with new := { c.new with val := v.2 }, is_new := true })
    let r := try_or_set_cluster s fh master true
    (r.1, (r.2.get p).cur.val, r.2)

/-- The function `v4l2_s_ctrl`: the return code, the value left in `control->value`, the handler and
the store. -/
def v4l2_s_ctrl (fh : Option Nat) (hdl : Option Handler) (s : Store) (id : Nat)
    (value : Int) : Int × Int × Option Handler × Store :=
  let f := v4l2_ctrl_find hdl s id
  match f.1 with
  | none => (-EINVAL, value, f.2, s)
  | some i =>
    let ctrl := s.get (some i)
    if !type_is_int ctrl then (-EINVAL, value, f.2, s)
    else if hasFlag ctrl.flags V4L2_CTRL_FLAG_READ_ONLY then (-EACCES, value, f.2, s)
    else
      let r := set_ctrl s fh (some i) value
      (r.1, r.2.1, f.2, r.2.2)

/-! ## Copies between the caller and a control -/

/-- An entry past the end of the caller array. -/
def ExtControl.null : ExtControl := ⟨0, 0, 0, 0, []⟩

/-- A helper past the end of the helper array. -/
def Helper.null : Helper := ⟨none, none, 0⟩

/-- The function `cur_to_user`: copy the current control value back to the caller. The copy to the
caller fails when the caller memory is shorter than the string with its terminator. -/
def cur_to_user (c : ExtControl) (ctrl : Ctrl) : Int × ExtControl :=
  match ctrl.type with
  | .STRING =>
    let len := ctrl.cur.string.length
    if c.size < len + 1 then (-ENOSPC, { c with size := len + 1 })
    else if c.string.length < len + 1 then (-EFAULT, c)
    else (0, { c with string := ctrl.cur.string ++ [0] ++ c.string.drop (len + 1) })
  | .INTEGER64 => (0, { c with value64 := ctrl.cur.val64 })
  | _ => (0, { c with value := ctrl.cur.val })

/-- The function `user_to_new`: copy the caller-provided value as the new control value. The copy from
the caller fails when the caller memory is shorter than the size to copy. -/
def user_to_new (s : Store) (c : ExtControl) (p : Option Nat) : Int × Store :=
  let s := s.upd p (fun ctrl => { ctrl with is_new := true })
  let ctrl := s.get p
  match ctrl.type with
  | .INTEGER64 => (0, s.upd p (fun ctrl => { ctrl with new := { ctrl.new with val64 := c.value64 } }))
  | .STRING =>
    if c.size = 0 then (-ERANGE, s)
    else
      let size :=
        if u32 (ctrl.maximum + 1) < c.size then (u32 (ctrl.maximum + 1)).toNat else c.size
      if c.string.length < size then (-EFAULT, s)
      else
        let last := c.string.getD (size - 1) 0
        let str := cstr (c.string.take (size - 1))
        let s := s.upd p (fun ctrl => { ctrl with new := { ctrl.new with string := str } })
        -- If the string was longer than ctrl->maximum, then return an error.
        if (str.length : Int) = ctrl.maximum ∧ last ≠ 0 then (-ERANGE, s) else (0, s)
  | _ => (0, s.upd p (fun ctrl => { ctrl with new := { ctrl.new with val := c.value } }))

/-- The function `new_to_user`: copy the new control value back to the caller. -/
def new_to_user (c : ExtControl) (ctrl : Ctrl) : Int × ExtControl :=
  match ctrl.type with
  | .STRING =>
    let len := ctrl.new.string.length
    if c.size < len + 1 then (-ENOSPC, { c with size := (u32 (ctrl.maximum + 1)).toNat })
    else if c.string.length < len + 1 then (-EFAULT, c)
    else (0, { c with string := ctrl.new.string ++ [0] ++ c.string.drop (len + 1) })
  | .INTEGER64 => (0, { c with value64 := ctrl.new.val64 })
  | _ => (0, { c with value := ctrl.new.val })

/-- The function `validate_new`: validate a new control value; the return code and the entry, whose
value `validate_new_int` may have replaced. -/
def validate_new (ctrl : Ctrl) (c : ExtControl) : Int × ExtControl :=
  match ctrl.type with
  | .INTEGER64 => (0, c)
  | .STRING =>
    let len : Int := (cstr c.string).length
    if len < usize ctrl.minimum then (-ERANGE, c)
    else if usize (len - usize ctrl.minimum) % ctrl.step ≠ 0 then (-ERANGE, c)
    else (0, c)
  | .OTHER => (-EINVAL, c)
  | _ =>
    let v := validate_new_int ctrl c.value
    (v.1, { c with value := v.2 })

/-! ## The batch calls -/

/-- What `prepare_ext_ctrls` leaves: the return code, `cs->error_idx`, the handler and
the helper array. -/
structure Prep where
  ret : Int
  error_idx : Nat
  hdl : Handler
  helpers : List Helper
  have_clusters : Bool

/-- The first loop of `prepare_ext_ctrls`: find the controls of the entries and do some
basic checks; `i` is the index of the first entry of the list. -/
def prepare_loop (s : Store) (ctrl_class : Nat) :
    List ExtControl → Nat → Nat → Handler → List Helper → Bool → Prep
  | [], _, eidx, h, hs, hc => ⟨0, eidx, h, hs, hc⟩
  | c :: rest, i, _, h, hs, hc =>
    let id := c.id &&& V4L2_CTRL_ID_MASK
    if ctrl_class ≠ 0 ∧ V4L2_CTRL_ID2CLASS id ≠ ctrl_class then ⟨-EINVAL, i, h, hs, hc⟩
    -- Old-style private controls are not allowed for extended controls
    else if V4L2_CID_PRIVATE_BASE ≤ id then ⟨-EINVAL, i, h, hs, hc⟩
    else
      let f := find_ref h s id
      match f.1 with
      | none => ⟨-EINVAL, i, f.2, hs, hc⟩
      | some r =>
        let h := f.2
        let cp := (h.ref (some r)).ctrl
        let ctrl := s.get cp
        if hasFlag ctrl.flags V4L2_CTRL_FLAG_DISABLED then ⟨-EINVAL, i, h, hs, hc⟩
        else
          let mp := ctrl.cluster.headD none
          let hc := hc || decide (1 < (s.get mp).ncontrols)
          let g := if mp ≠ cp then find_ref h s (s.get mp).id else (some r, h)
          -- Store the ref to the master control of the cluster
          prepare_loop s ctrl_class rest (i + 1) i g.2 (hs ++ [⟨g.1, cp, 0⟩]) hc

/-- The loop of `prepare_ext_ctrls` that zeroes the helper field in the master control
references. -/
def zero_helpers : Handler → List Helper → Handler
  | h, [] => h
  | h, x :: rest => zero_helpers (h.updRef x.mref (fun r => { r with helper := none })) rest

/-- The loop of `prepare_ext_ctrls` that links the helpers of one cluster, over the
indices of the helper array. -/
def link_helpers : Handler → List Helper → List Nat → Handler × List Helper
  | h, hs, [] => (h, hs)
  | h, hs, i :: rest =>
    let mref := (hs.getD i Helper.null).mref
    let hs :=
      match (h.ref mref).helper with
      | some j =>
        -- the earlier helper now points to the next helper in the same cluster;
        -- mref should be set only for the first helper in the cluster
        updAt (updAt hs j (fun x => { x with next := i })) i (fun x => { x with mref := none })
      | none => hs
    -- Point the mref helper to the current helper struct.
    link_helpers (h.updRef mref (fun r => { r with helper := some i })) hs rest

/-- The function `prepare_ext_ctrls`. -/
def prepare_ext_ctrls (h : Handler) (s : Store) (cs : ExtControls) : Prep :=
  let p := prepare_loop s cs.ctrl_class cs.controls 0 cs.error_idx h [] false
  if p.ret ≠ 0 then p
  -- We are done if there were no controls that belong to a multi-control cluster.
  else if p.have_clusters = false then p
  else
    let l := link_helpers (zero_helpers p.hdl p.helpers) p.helpers (List.range cs.count)
    { p with hdl := l.1, helpers := l.2 }

/-- The function `class_check`: the corner case of a batch without entries. -/
def class_check (h : Handler) (s : Store) (ctrl_class : Nat) : Int × Handler :=
  if ctrl_class = 0 then (if h.ctrl_refs.isEmpty then -EINVAL else 0, h)
  else
    let f := find_ref h s (ctrl_class ||| 1)
    (if f.1.isSome then 0 else -EINVAL, f.2)

/-- What a batch call leaves: the return code, the caller structure, the handler and the
store. -/
structure Batch where
  ret : Int
  cs : ExtControls
  hdl : Option Handler
  store : Store

/-- The loop of `validate_ctrls`; `i` is the index of the first entry of the list, `done`
the entries validated so far. -/
def validate_loop (s : Store) (helpers : List Helper) (set : Bool) :
    List ExtControl → Nat → Nat → List ExtControl → Int × Nat × List ExtControl
  | [], _, eidx, done => (0, eidx, done)
  | c :: rest, i, _, done =>
    let ctrl := s.get (helpers.getD i Helper.null).ctrl
    if hasFlag ctrl.flags V4L2_CTRL_FLAG_READ_ONLY then (-EACCES, i, done ++ c :: rest)
    else if set && hasFlag ctrl.flags V4L2_CTRL_FLAG_GRABBED then (-EBUSY, i, done ++ c :: rest)
    else
      let v := validate_new ctrl c
      if v.1 ≠ 0 then (v.1, i, done ++ v.2 :: rest)
      else validate_loop s helpers set rest (i + 1) i (done ++ [v.2])

/-- The function `validate_ctrls`: the return code and the caller structure. -/
def validate_ctrls (s : Store) (cs : ExtControls) (helpers : List Helper) (set : Bool) :
    Int × ExtControls :=
  let r := validate_loop s helpers set cs.controls 0 cs.count []
  (r.1, { cs with error_idx := r.2.1, controls := r.2.2 })

/-- The loop of `v4l2_g_ext_ctrls` that rejects a write-only control. -/
def write_only_check (s : Store) : List Helper → Int
  | [] => 0
  | x :: rest =>
    if hasFlag (s.get x.ctrl).flags V4L2_CTRL_FLAG_WRITE_ONLY then -EACCES
    else write_only_check s rest

/-- The `do ... while (!ret && idx)` loop that copies the values of the entries of one
cluster back to the caller, from the entry `idx` along the `next` links; `volatile` selects
`new_to_user` instead of `cur_to_user`. The first argument bounds the number of rounds. -/
def to_user_chain (s : Store) (helpers : List Helper) (volatile : Bool) :
    Nat → Nat → List ExtControl → Int × List ExtControl
  | 0, _, cs => (0, cs)
  | fuel + 1, idx, cs =>
    let x := helpers.getD idx Helper.null
    let c := cs.getD idx ExtControl.null
    let r := if volatile then new_to_user c (s.get x.ctrl) else cur_to_user c (s.get x.ctrl)
    let cs := updAt cs idx (fun _ => r.2)
    if r.1 ≠ 0 ∨ x.next = 0 then (r.1, cs) else to_user_chain s helpers volatile fuel x.next cs

/-- The `do ... while (!ret && idx)` loop that copies the caller-supplied values of the
entries of one cluster to the new values. -/
def user_to_new_chain (helpers : List Helper) (cs : List ExtControl) :
    Nat → Nat → Store → Int × Store
  | 0, _, s => (0, s)
  | fuel + 1, idx, s =>
    let x := helpers.getD idx Helper.null
    let r := user_to_new s (cs.getD idx ExtControl.null) x.ctrl
    if r.1 ≠ 0 ∨ x.next = 0 then r else user_to_new_chain helpers cs fuel x.next r.2

/-- The body of the cluster loop of `v4l2_g_ext_ctrls` for the entry `i`, whose helper
holds the master reference `mref`. -/
def g_ext_cluster (h : Handler) (helpers : List Helper) (i : Nat) (mref : Option Nat)
    (cs : ExtControls) (s : Store) : Int × ExtControls × Store :=
  let master := (h.ref mref).ctrl
  let cs := { cs with error_idx := i }
  -- g_volatile_ctrl will update the new control values
  if has_op (s.get master) .g_volatile_ctrl && !is_cur_manual (s.get master) then
    let s := cluster_cur_to_new s (s.get master).cluster
    let r := call_op s master .g_volatile_ctrl
    if r.1 ≠ 0 then (r.1, cs, r.2)
    else
      let u := to_user_chain r.2 helpers true cs.count i cs.controls
      (u.1, { cs with controls := u.2 }, r.2)
  else
    let u := to_user_chain s helpers false cs.count i cs.controls
    (u.1, { cs with controls := u.2 }, s)

/-- The cluster loop of `v4l2_g_ext_ctrls`, over the indices of the entries. -/
def g_ext_loop (h : Handler) (helpers : List Helper) :
    List Nat → ExtControls → Store → Int × ExtControls × Store
  | [], cs, s => (0, cs, s)
  | i :: rest, cs, s =>
    match (helpers.getD i Helper.null).mref with
    | none => g_ext_loop h helpers rest cs s
    | some m =>
      let r := g_ext_cluster h helpers i (some m) cs s
      if r.1 ≠ 0 then r else g_ext_loop h helpers rest r.2.1 r.2.2

/-- The function `v4l2_g_ext_ctrls`: get extended controls. -/
def v4l2_g_ext_ctrls (hdl : Option Handler) (s : Store) (cs : ExtControls) : Batch :=
  let cs := { cs with error_idx := cs.count, ctrl_class := V4L2_CTRL_ID2CLASS cs.ctrl_class }
  match hdl with
  | none => ⟨-EINVAL, cs, none, s⟩
  | some h =>
    if cs.count = 0 then
      let r := class_check h s cs.ctrl_class
      ⟨r.1, cs, some r.2, s⟩
    else
      let p := prepare_ext_ctrls h s cs
      let cs := { cs with error_idx := cs.count }
      let ret := if p.ret ≠ 0 then p.ret else write_only_check s p.helpers
      if ret ≠ 0 then ⟨ret, cs, some p.hdl, s⟩
      else
        let r := g_ext_loop p.hdl p.helpers (List.range cs.count) cs s
        ⟨r.1, r.2.1, some p.hdl, r.2.2⟩

/-- The body of the cluster loop of `try_set_ext_ctrls` for the entry `i`, whose helper
holds the master reference `mref`. -/
def try_set_cluster (fh : Option Nat) (h : Handler) (helpers : List Helper) (set : Bool)
    (i : Nat) (mref : Option Nat) (cs : ExtControls) (s : Store) :
    Int × ExtControls × Store :=
  let cs := { cs with error_idx := i }
  let master := (h.ref mref).ctrl
  -- Reset the 'is_new' flags of the cluster
  let s := reset_is_new s (s.get master).cluster
  -- Copy the new caller-supplied control values.
  let r := user_to_new_chain helpers cs.controls cs.count i s
  if r.1 ≠ 0 then (r.1, cs, r.2)
  else
    let t := try_or_set_cluster r.2 fh master set
    if t.1 ≠ 0 then (t.1, cs, t.2)
    else
      -- Copy the new values back to userspace.
      let u := to_user_chain t.2 helpers true cs.count i cs.controls
      (u.1, { cs with controls := u.2 }, t.2)

/-- The cluster loop of `try_set_ext_ctrls`, over the indices of the entries. -/
def try_set_loop (fh : Option Nat) (h : Handler) (helpers : List Helper) (set : Bool) :
    List Nat → ExtControls → Store → Int × ExtControls × Store
  | [], cs, s => (0, cs, s)
  | i :: rest, cs, s =>
    match (helpers.getD i Helper.null).mref with
    | none => try_set_loop fh h helpers set rest cs s
    | some m =>
      let r := try_set_cluster fh h helpers set i (some m) cs s
      if r.1 ≠ 0 then r else try_set_loop fh h helpers set rest r.2.1 r.2.2

/-- The function `try_set_ext_ctrls`: try or try-and-set controls. -/
def try_set_ext_ctrls (fh : Option Nat) (hdl : Option Handler) (s : Store)
    (cs : ExtControls) (set : Bool) : Batch :=
  let cs := { cs with error_idx := cs.count, ctrl_class := V4L2_CTRL_ID2CLASS cs.ctrl_class }
  match hdl with
  | none => ⟨-EINVAL, cs, none, s⟩
  | some h =>
    if cs.count = 0 then
      let r := class_check h s cs.ctrl_class
      ⟨r.1, cs, some r.2, s⟩
    else
      let p := prepare_ext_ctrls h s cs
      let cs := { cs with error_idx := p.error_idx }
      let v := if p.ret ≠ 0 then (p.ret, cs) else validate_ctrls s cs p.helpers set
      let ret := v.1
      let cs := v.2
      if ret ≠ 0 then
        ⟨ret, if set then { cs with error_idx := cs.count } else cs, some p.hdl, s⟩
      else
        let r := try_set_loop fh p.hdl p.helpers set (List.range cs.count) cs s
        ⟨r.1, r.2.1, some p.hdl, r.2.2⟩

/-- The function `v4l2_try_ext_ctrls`. -/
def v4l2_try_ext_ctrls (hdl : Option Handler) (s : Store) (cs : ExtControls) : Batch :=
  try_set_ext_ctrls none hdl s cs false

/-- The function `v4l2_s_ext_ctrls`. -/
def v4l2_s_ext_ctrls (fh : Option Nat) (hdl : Option Handler) (s : Store)
    (cs : ExtControls) : Batch :=
  try_set_ext_ctrls fh hdl s cs true

/-! ## The scenario of the specification -/

/-- The integer control of the scenario: `id=10`, range `[0,10]`, step 3, default 0, in a
cluster of its own. -/
def scenarioCtrl : Ctrl :=
  { Ctrl.null with
    handler := 1, id := 10, type := .INTEGER, minimum := 0, maximum := 10, step := 3,
    default_value := 0, cluster := [some 0] }

/-- The store of the scenario: the one control, nothing traced yet. -/
def scenarioStore : Store := ⟨[scenarioCtrl], []⟩

/-- The registry of the scenario, as the specification describes it: one reference to the
one control, one bucket. -/
def scenarioHdl : Handler :=
  { hid := 1, refs := [⟨some 0, none⟩], ctrls := [0], ctrl_refs := [0], cached := none,
    buckets := some [[0]], nr_of_buckets := 1, error := 0 }

/-! ## The phases of a batch call -/

/-- The resolve phase of a batch call: `prepare_ext_ctrls` on the caller structure as
`v4l2_g_ext_ctrls` and `try_set_ext_ctrls` set it up. -/
def resolved (h : Handler) (s : Store) (cs : ExtControls) : Prep :=
  prepare_ext_ctrls h s
    { cs with error_idx := cs.count, ctrl_class := V4L2_CTRL_ID2CLASS cs.ctrl_class }

/-- The entry is rejected in the resolve phase: its class differs from a non-zero class
filter, its ID is an old-style private one, no reference of the registry has its ID, or
the registry has the ID for a disabled control only. -/
def entryUnresolvable (h : Handler) (s : Store) (ctrl_class : Nat) (c : ExtControl) : Prop :=
  (ctrl_class ≠ 0 ∧ V4L2_CTRL_ID2CLASS (c.id &&& V4L2_CTRL_ID_MASK) ≠ ctrl_class) ∨
  V4L2_CID_PRIVATE_BASE ≤ (c.id &&& V4L2_CTRL_ID_MASK) ∨
  (∀ r, refId h s r ≠ some (c.id &&& V4L2_CTRL_ID_MASK)) ∨
  (∀ r, refId h s r = some (c.id &&& V4L2_CTRL_ID_MASK) →
    hasFlag (s.get (h.ref (some r)).ctrl).flags V4L2_CTRL_FLAG_DISABLED = true)

/-- The error of one entry in the validate phase: the control of its helper is read-only,
or grabbed on a set, or the value is rejected by the rule of the type; zero when the entry
passes. -/
def entryError (s : Store) (set : Bool) (x : Helper) (c : ExtControl) : Int :=
  if hasFlag (s.get x.ctrl).flags V4L2_CTRL_FLAG_READ_ONLY then -EACCES
  else if set && hasFlag (s.get x.ctrl).flags V4L2_CTRL_FLAG_GRABBED then -EBUSY
  else (validate_new (s.get x.ctrl) c).1

/-! ## A registry with one control of each kind -/

/-- The class marker of the user class, as `v4l2_ctrl_fill` shapes it. -/
def exClass : Ctrl :=
  { Ctrl.null with
    handler := 1, id := 0x00980001, name := "User Controls", type := .CTRL_CLASS,
    flags := 0x44, cluster := [some 0] }

/-- An integer control: brightness, range `[0,10]`, step 1, committed value 0. -/
def exInt : Ctrl :=
  { Ctrl.null with
    handler := 1, id := 0x00980900, name := "Brightness", type := .INTEGER,
    minimum := 0, maximum := 10, step := 1, cluster := [some 1] }

/-- A menu control with three options. -/
def exMenu : Ctrl :=
  { Ctrl.null with
    handler := 1, id := 0x00980918, name := "Power Line Frequency", type := .MENU,
    minimum := 0, maximum := 2, step := 0, qmenu := some ["Disabled", "50 Hz", "60 Hz"],
    cluster := [some 2] }

/-- A menu control with 40 options, all with the label `Option`, whose skip mask has the
bit 2 set. -/
def exBigMenu : Ctrl :=
  { Ctrl.null with
    handler := 1, id := 0x00980919, name := "Big Menu", type := .MENU,
    minimum := 0, maximum := 39, step := 4, qmenu := some (List.replicate 40 "Option"),
    cluster := [some 7] }

/-- A string control of at most 4 characters, any length in steps of 1. -/
def exString : Ctrl :=
  { Ctrl.null with
    handler := 1, id := 0x00981001, name := "Label", type := .STRING,
    minimum := 0, maximum := 4, step := 1, cluster := [some 3] }

/-- A button control, write-only as `v4l2_ctrl_new` makes every button, without backend
callbacks and with one subscriber (the file handle 7). -/
def exButton : Ctrl :=
  { Ctrl.null with
    handler := 1, ev_subs := [⟨some 7, 0⟩], id := 0x00981002, name := "Reset",
    type := .BUTTON, flags := 0x40, cluster := [some 4] }

/-- An integer control with the two legal values 0 and `2^31 - 1`. -/
def exWide : Ctrl :=
  { Ctrl.null with
    handler := 1, id := 0x00981003, name := "Wide", type := .INTEGER,
    minimum := 0, maximum := 2147483647, step := 2147483647, cluster := [some 5] }

/-- A backend whose `try_ctrl` succeeds and adds one to the pending value of every member. -/
def exBumpOps : Ops :=
  ⟨none,
    some (fun view =>
      (0, view.map (fun m => m.map (fun x => { x.new with val := x.new.val + 1 })))),
    none⟩

/-- An integer control, range `[0,10]`, step 1, with the backend `exBumpOps`. -/
def exBump : Ctrl :=
  { Ctrl.null with
    handler := 1, ops := some exBumpOps, id := 0x00981004, name := "Bump", type := .INTEGER,
    minimum := 0, maximum := 10, step := 1, cluster := [some 6] }

/-- The store of the example registry. -/
def exStore : Store := ⟨[exClass, exInt, exMenu, exString, exButton, exWide, exBump], []⟩

/-- The example registry: references in ascending ID order, one bucket. -/
def exHdl : Handler :=
  { hid := 1,
    refs := [⟨some 0, none⟩, ⟨some 1, none⟩, ⟨some 2, none⟩, ⟨some 3, none⟩, ⟨some 4, none⟩,
      ⟨some 5, none⟩, ⟨some 6, none⟩],
    ctrls := [0, 1, 2, 3, 4, 5, 6], ctrl_refs := [0, 1, 2, 3, 4, 5, 6], cached := none,
    buckets := some [[6, 5, 4, 3, 2, 1, 0]], nr_of_buckets := 1, error := 0 }

/-- A batch for the example registry: brightness 5, then the menu index 7, which is out of
the range `[0,2]` of the menu. -/
def exBatchBadMenu : ExtControls :=
  ⟨0, 0, [⟨0x00980900, 0, 5, 0, []⟩, ⟨0x00980918, 0, 7, 0, []⟩]⟩

/-- A batch for the example registry: brightness 5, then an ID the registry does not have. -/
def exBatchUnknown : ExtControls :=
  ⟨0, 0, [⟨0x00980900, 0, 5, 0, []⟩, ⟨0x00980999, 0, 1, 0, []⟩]⟩

/-- A batch for the example registry: brightness 5, then the string control with a buffer
of size 0 (the caller memory holds the empty string). -/
def exBatchEmptyString : ExtControls :=
  ⟨0, 0, [⟨0x00980900, 0, 5, 0, []⟩, ⟨0x00981001, 0, 0, 0, [0]⟩]⟩

/-- A batch for the example registry: brightness 5, then the string control (capacity 4)
with the eight characters `abcdefgh` and their terminator in a buffer of size 9. -/
def exBatchLongString : ExtControls :=
  ⟨0, 0, [⟨0x00980900, 0, 5, 0, []⟩,
    ⟨0x00981001, 9, 0, 0, [97, 98, 99, 100, 101, 102, 103, 104, 0]⟩]⟩

/-! ## What a call may change -/

/-- The control with its pending value and its `is_new` mark erased. -/
def erasePending (c : Ctrl) : Ctrl := { c with new := ⟨0, 0, []⟩, is_new := false }

/-- The control with its pending value, its `is_new` mark, its committed value and its
`inactive` flag erased: what a set cannot change. -/
def eraseDynamic (c : Ctrl) : Ctrl :=
  { c with
    new := ⟨0, 0, []⟩, is_new := false, cur := ⟨0, 0, []⟩,
    flags := clearFlag c.flags V4L2_CTRL_FLAG_INACTIVE }

/-- The committed state of a control: its committed value and its flags. -/
def Ctrl.committed (c : Ctrl) : Pending × Nat := (c.cur, c.flags)

/-- The store `s'` comes from `s` by changes of the controls that the erasure `E` does not
see, and by outside effects that all satisfy `ok`. -/
def Step (E : Ctrl → Ctrl) (ok : LogEntry → Prop) (s s' : Store) : Prop :=
  s'.ctrls.map E = s.ctrls.map E ∧ ∃ l, s'.log = s.log ++ l ∧ ∀ e ∈ l, ok e

/-- The outside effect is a call of `try_ctrl`. -/
def isTryCall (e : LogEntry) : Prop := ∃ m, e = LogEntry.call .try_ctrl m

/-- The pointer addresses a control of the store. -/
def Store.valid (s : Store) (p : Option Nat) : Prop :=
  match p with
  | none => False
  | some i => i < s.ctrls.length

instance (s : Store) (p : Option Nat) : Decidable (s.valid p) := by
  unfold Store.valid; cases p <;> infer_instance

/-- The type keeps the value of the control in `val`, and is not a button. -/
def scalarType (t : CtrlType) : Prop := t ≠ .BUTTON ∧ t ≠ .STRING ∧ t ≠ .INTEGER64

/-- The operation `op` of the control is absent (a `NULL` pointer). -/
def opAbsent (c : Ctrl) (op : OpKind) : Prop := ∀ o, c.ops = some o → o.sel op = none

/-- The operation `op` of the control, when present, leaves the pending values as they
are. -/
def opQuiet (c : Ctrl) (op : OpKind) : Prop :=
  ∀ o f, c.ops = some o → o.sel op = some f → ∀ view, (f view).2 = []

/-- The store on which `set_ctrl` calls `try_or_set_cluster`: the `is_new` marks of the
cluster are reset and the validated value `q` is the new value of the control. -/
def set_ctrl_staged (s : Store) (p : Option Nat) (q : Int) : Store :=
  (reset_is_new s (s.get ((s.get p).cluster.headD none)).cluster).upd p
    (fun c => { c with new := { c.new with val := q }, is_new := true })

/-! ## The catalog of standard controls -/

/-- The case group of the first `switch` of `v4l2_ctrl_fill` an ID falls in. -/
inductive FillKind where
  | boolean | button | menu | string | ctrl_class | bg_color | bitmask | min_buffers | other
  deriving DecidableEq, Repr

/-- The case group of the second `switch` of `v4l2_ctrl_fill` an ID falls in. -/
inductive FlagKind where
  | update | slider | write_only | read_only | other
  deriving DecidableEq, Repr

/-- The tables of the standard controls. Their case labels are the `V4L2_CID_*` constants
of the missing header, so the catalog is a parameter: the name of an ID
(`v4l2_ctrl_get_name`), its menu (`v4l2_ctrl_get_menu`), and the case group of the ID in
each `switch` of `v4l2_ctrl_fill`. -/
structure Catalog where
  get_name : Nat → Option String
  get_menu : Nat → Option (List String)
  fillKind : Nat → FillKind
  flagKind : Nat → FlagKind

/-- What `v4l2_ctrl_fill` leaves in the variables of its caller. -/
structure Fill where
  name : Option String
  type : CtrlType
  min : Int
  max : Int
  step : Nat
  dflt : Int
  flags : Nat
  deriving DecidableEq, Repr

/-- The function `v4l2_ctrl_fill`: name, type and flags of a standard control; the range
is the one of the caller unless the case group of the ID fixes it. -/
def v4l2_ctrl_fill (cat : Catalog) (id : Nat) (min max : Int) (step : Nat) (dflt : Int) :
    Fill :=
  let name := cat.get_name id
  let f : Fill :=
    match cat.fillKind id with
    | .boolean => ⟨name, .BOOLEAN, 0, 1, 1, dflt, 0⟩
    | .button => ⟨name, .BUTTON, 0, 0, 0, 0, 0 ||| V4L2_CTRL_FLAG_WRITE_ONLY⟩
    | .menu => ⟨name, .MENU, min, max, step, dflt, 0⟩
    | .string => ⟨name, .STRING, min, max, step, dflt, 0⟩
    | .ctrl_class =>
      -- You can neither read not write these
      ⟨name, .CTRL_CLASS, 0, 0, 0, 0,
        0 ||| (V4L2_CTRL_FLAG_READ_ONLY ||| V4L2_CTRL_FLAG_WRITE_ONLY)⟩
    | .bg_color => ⟨name, .INTEGER, 0, 0xFFFFFF, 1, dflt, 0⟩
    | .bitmask => ⟨name, .BITMASK, min, max, step, dflt, 0⟩
    | .min_buffers => ⟨name, .INTEGER, min, max, step, dflt, 0 ||| V4L2_CTRL_FLAG_READ_ONLY⟩
    | .other => ⟨name, .INTEGER, min, max, step, dflt, 0⟩
  match cat.flagKind id with
  | .update => { f with flags := f.flags ||| V4L2_CTRL_FLAG_UPDATE }
  | .slider => { f with flags := f.flags ||| V4L2_CTRL_FLAG_SLIDER }
  | .write_only => { f with flags := f.flags ||| V4L2_CTRL_FLAG_WRITE_ONLY }
  | .read_only => { f with flags := f.flags ||| V4L2_CTRL_FLAG_READ_ONLY }
  | .other => f

/-! ## Building a registry -/

/-- The function `handler_set_err`: set the error code of the handler if it was not set
earlier already. -/
def handler_set_err (h : Handler) (err : Int) : Handler :=
  if h.error = 0 then { h with error := err } else h

/-- The function `v4l2_ctrl_handler_init` for the handler at address `hid`; the allocation
of the buckets succeeds. -/
def v4l2_ctrl_handler_init (hid : Nat) (nr_of_controls_hint : Nat) : Int × Handler :=
  let nr := 1 + (nr_of_controls_hint % 4294967296) / 8
  (0, { hid := hid, refs := [], ctrls := [], ctrl_refs := [], cached := none,
        buckets := some (List.replicate nr []), nr_of_buckets := nr, error := 0 })

/-- The function `node2id`: the ID of the control of a reference of the list. -/
def node2id (h : Handler) (s : Store) (r : Nat) : Nat := (s.get (h.ref (some r)).ctrl).id

/-- The loop of `handler_new_ref` that finds the insert position in the sorted list:
`none` when a reference with the ID is met (the new reference is freed), else the list
after the loop. A loop that runs off the end of the list inserts nothing. -/
def insert_sorted (h : Handler) (s : Store) (new_ref id : Nat) : List Nat → Option (List Nat)
  | [] => some []
  | r :: rest =>
    if node2id h s r < id then (insert_sorted h s new_ref id rest).map (fun l => r :: l)
    -- Don't add duplicates
    else if node2id h s r = id then none
    else some (new_ref :: r :: rest)

/-- The statement `hdl->buckets[bucket] = new_ref` with the old head as `new_ref->next`. -/
def bucket_push (b : Option (List (List Nat))) (bucket new_ref : Nat) :
    Option (List (List Nat)) :=
  b.map (fun l => updAt l bucket (fun chain => new_ref :: chain))

/-- The part of `handler_new_ref` after the control class is there: allocate the
reference, give an owned control its cluster of one, hook the reference into the sorted
list and into the hash. -/
def handler_new_ref_tail (h : Handler) (s : Store) (cp : Option Nat) (id bucket : Nat) :
    Int × Handler × Store :=
  if h.error ≠ 0 then (h.error, h, s)
  else
    let new_ref := h.refs.length
    let s :=
      if (s.get cp).handler = h.hid then s.upd cp (fun c => { c with cluster := [cp] })
      else s
    let hn := { h with refs := h.refs ++ [Ref.mk cp none] }
    -- Add immediately at the end of the list if the list is empty, or if the last
    -- element in the list has a lower ID.
    if h.ctrl_refs = [] ∨ node2id h s (h.ctrl_refs.getLastD 0) < id then
      (0, { hn with
            ctrl_refs := h.ctrl_refs ++ [new_ref],
            buckets := bucket_push h.buckets bucket new_ref }, s)
    else
      match insert_sorted h s new_ref id h.ctrl_refs with
      | none => (0, h, s)
      | some l =>
        (0, { hn with ctrl_refs := l, buckets := bucket_push h.buckets bucket new_ref }, s)

/-- The result of a call that may create a control: the control or `NULL`, the handler
and the store after the call. -/
structure Made where
  ctrl : Option Nat
  hdl : Handler
  store : Store

/-- The statement `kfree(ctrl)` in `v4l2_ctrl_new`: the control allocated last leaves the
store. -/
def Store.free (s : Store) (p : Option Nat) : Store :=
  if s.ctrls.length ≠ 0 ∧ p = some (s.ctrls.length - 1) then
    { s with ctrls := s.ctrls.dropLast }
  else s

/-- The control that `v4l2_ctrl_new` allocates with `kzalloc` and fills in: the current and
the new value are the default, a string control starts with `minimum` spaces, the cluster
pointer is `NULL`. The default is written through the member `val` of the unions
(`ctrl->cur.val = ctrl->val = ctrl->default_value = def`): a 64-bit control reads the 32
bits of the default, in zeroed storage, in its member `val64`. -/
def ctrl_alloc (h : Handler) (ops : Option Ops) (id : Nat) (name : Option String)
    (type : CtrlType) (min max : Int) (step : Nat) (dflt : Int) (flags : Nat)
    (qmenu : Option (List String)) : Ctrl :=
  { handler := h.hid, ops := ops, ev_subs := [], id := id, name := name.getD "",
    type := type, flags := flags, minimum := min, maximum := max, step := step,
    default_value := dflt, qmenu := qmenu,
    is_new := false, is_private := false, is_volatile := false, is_auto := false,
    done := false, manual_mode_value := 0, cluster := [],
    cur := ⟨dflt, if type = .INTEGER64 then u32 dflt else 0,
      if type = .STRING then List.replicate min.toNat 32 else []⟩,
    new := ⟨dflt, if type = .INTEGER64 then u32 dflt else 0, []⟩ }

/-- The function `v4l2_ctrl_new`, with the function that hooks the new control into the
handler as a parameter (`handler_new_ref` and `v4l2_ctrl_new` call each other). -/
def v4l2_ctrl_new_with (new_ref : Handler → Store → Option Nat → Int × Handler × Store)
    (h : Handler) (s : Store) (ops : Option Ops) (id : Nat) (name : Option String)
    (type : CtrlType) (min max : Int) (step : Nat) (dflt : Int) (flags : Nat)
    (qmenu : Option (List String)) : Made :=
  if h.error ≠ 0 then ⟨none, h, s⟩
  -- Sanity checks
  else if id = 0 ∨ name = none ∨ V4L2_CID_PRIVATE_BASE ≤ id ∨
      (type = .INTEGER ∧ step = 0) ∨
      (type = .BITMASK ∧ max = 0) ∨
      (type = .MENU ∧ qmenu = none) ∨
      (type = .STRING ∧ max = 0) then
    ⟨none, handler_set_err h (-ERANGE), s⟩
  else if type ≠ .BITMASK ∧ max < min then ⟨none, handler_set_err h (-ERANGE), s⟩
  else if (type = .INTEGER ∨ type = .MENU ∨ type = .BOOLEAN) ∧ (dflt < min ∨ dflt > max) then
    ⟨none, handler_set_err h (-ERANGE), s⟩
  else if type = .BITMASK ∧ (and32 dflt (-max - 1) ≠ 0 ∨ min ≠ 0 ∨ step ≠ 0) then
    ⟨none, handler_set_err h (-ERANGE), s⟩
  else
    let flags :=
      if type = .BUTTON then flags ||| V4L2_CTRL_FLAG_WRITE_ONLY
      else if type = .CTRL_CLASS then flags ||| V4L2_CTRL_FLAG_READ_ONLY
      else flags
    let p := s.ctrls.length
    let ctrl := ctrl_alloc h ops id name type min max step dflt flags qmenu
    let r := new_ref h { s with ctrls := s.ctrls ++ [ctrl] } (some p)
    if r.1 ≠ 0 then ⟨none, r.2.1, r.2.2.free (some p)⟩
    else ⟨some p, { r.2.1 with ctrls := r.2.1.ctrls ++ [p] }, r.2.2⟩

/-- The function `v4l2_ctrl_new_std`, helper function for standard non-menu controls,
with the hook function as a parameter. -/
def v4l2_ctrl_new_std_with (new_ref : Handler → Store → Option Nat → Int × Handler × Store)
    (cat : Catalog) (h : Handler) (s : Store) (ops : Option Ops) (id : Nat)
    (min max : Int) (step : Nat) (dflt : Int) : Made :=
  let f := v4l2_ctrl_fill cat id min max step dflt
  if f.type = .MENU then ⟨none, handler_set_err h (-EINVAL), s⟩
  else v4l2_ctrl_new_with new_ref h s ops id f.name f.type f.min f.max f.step f.dflt f.flags none

/-- The function `handler_new_ref`: allocate a new reference and hook it into the handler;
the return code, the handler and the store. The first argument bounds the depth of the
calls through `v4l2_ctrl_new_std`: the class of a class control is the control itself, so
the depth is at most two. -/
def handler_new_ref_depth (cat : Catalog) :
    Nat → Handler → Store → Option Nat → Int × Handler × Store
  | 0, h, s, _ => (h.error, h, s)
  | n + 1, h, s, cp =>
    let id := (s.get cp).id
    let class_ctrl := V4L2_CTRL_ID2CLASS id ||| 1
    let bucket := id % h.nr_of_buckets
    -- Automatically add the control class if it is not yet present.
    if id ≠ class_ctrl then
      let f := find_ref h s class_ctrl
      match f.1 with
      | none =>
        let m := v4l2_ctrl_new_std_with (handler_new_ref_depth cat n) cat f.2 s none
          class_ctrl 0 0 0 0
        match m.ctrl with
        | none => (m.hdl.error, m.hdl, m.store)
        | some _ => handler_new_ref_tail m.hdl m.store cp id bucket
      | some _ => handler_new_ref_tail f.2 s cp id bucket
    else handler_new_ref_tail h s cp id bucket

/-- The function `handler_new_ref`. -/
def handler_new_ref (cat : Catalog) (h : Handler) (s : Store) (cp : Option Nat) :
    Int × Handler × Store :=
  handler_new_ref_depth cat 2 h s cp

/-- The function `v4l2_ctrl_new`: add a new control. -/
def v4l2_ctrl_new (cat : Catalog) (h : Handler) (s : Store) (ops : Option Ops) (id : Nat)
    (name : Option String) (type : CtrlType) (min max : Int) (step : Nat) (dflt : Int)
    (flags : Nat) (qmenu : Option (List String)) : Made :=
  v4l2_ctrl_new_with (handler_new_ref cat) h s ops id name type min max step dflt flags qmenu

/-- The C type `struct v4l2_ctrl_config`. -/
structure Config where
  ops : Option Ops
  id : Nat
  name : Option String
  type : CtrlType
  min : Int
  max : Int
  step : Nat
  dflt : Int
  flags : Nat
  menu_skip_mask : Nat
  qmenu : Option (List String)
  is_private : Bool
  is_volatile : Bool

/-- The function `v4l2_ctrl_new_custom`. -/
def v4l2_ctrl_new_custom (cat : Catalog) (h : Handler) (s : Store) (cfg : Config) : Made :=
  let f : Fill :=
    if cfg.name = none then v4l2_ctrl_fill cat cfg.id cfg.min cfg.max cfg.step cfg.dflt
    else ⟨cfg.name, cfg.type, cfg.min, cfg.max, cfg.step, cfg.dflt, cfg.flags⟩
  let is_menu := decide (cfg.type = .MENU)
  let qmenu := if is_menu = true ∧ cfg.qmenu = none then cat.get_menu cfg.id else cfg.qmenu
  let m := v4l2_ctrl_new cat h s cfg.ops cfg.id f.name f.type f.min f.max
    (if is_menu = true then cfg.menu_skip_mask else f.step) f.dflt f.flags qmenu
  match m.ctrl with
  | none => m
  | some p =>
    { m with
      store := m.store.upd (some p)
        (fun c => { c with is_private := cfg.is_private, is_volatile := cfg.is_volatile }) }

/-- The function `v4l2_ctrl_new_std`. -/
def v4l2_ctrl_new_std (cat : Catalog) (h : Handler) (s : Store) (ops : Option Ops) (id : Nat)
    (min max : Int) (step : Nat) (dflt : Int) : Made :=
  v4l2_ctrl_new_std_with (handler_new_ref cat) cat h s ops id min max step dflt

/-- The function `v4l2_ctrl_new_std_menu`, helper function for standard menu controls. The
locals `min` and `step` it hands to `v4l2_ctrl_fill` are not initialised and not read
afterwards; they are zero here. -/
def v4l2_ctrl_new_std_menu (cat : Catalog) (h : Handler) (s : Store) (ops : Option Ops)
    (id : Nat) (max mask dflt : Int) : Made :=
  let qmenu := cat.get_menu id
  let f := v4l2_ctrl_fill cat id 0 max 0 dflt
  if f.type ≠ .MENU then ⟨none, handler_set_err h (-EINVAL), s⟩
  else v4l2_ctrl_new cat h s ops id f.name f.type 0 f.max (u32 mask).toNat f.dflt f.flags qmenu

/-- The function `v4l2_ctrl_add_ctrl`: add a control from another handler to this handler;
the control or `NULL`, the handler and the store. -/
def v4l2_ctrl_add_ctrl (cat : Catalog) (hdl : Option Handler) (s : Store) (ctrl : Option Nat) :
    Option Nat × Option Handler × Store :=
  match hdl with
  | none => (none, none, s)
  | some h =>
    if h.error ≠ 0 then (none, some h, s)
    else if ctrl = none then (none, some (handler_set_err h (-EINVAL)), s)
    else if (s.get ctrl).handler = h.hid then (ctrl, some h, s)
    else
      let r := handler_new_ref cat h s ctrl
      (if r.1 ≠ 0 then none else ctrl, some r.2.1, r.2.2)

/-- The loop of `v4l2_ctrl_add_handler` over the controls the other handler owns. -/
def add_handler_loop (cat : Catalog) : Handler → Store → List Nat → Int × Handler × Store
  | h, s, [] => (0, h, s)
  | h, s, p :: rest =>
    -- Skip handler-private controls.
    if (s.get (some p)).is_private = true then add_handler_loop cat h s rest
    -- And control classes
    else if (s.get (some p)).type = .CTRL_CLASS then add_handler_loop cat h s rest
    else
      let r := handler_new_ref cat h s (some p)
      if r.1 ≠ 0 then r else add_handler_loop cat r.2.1 r.2.2 rest

/-- The function `v4l2_ctrl_add_handler`: add the controls from another handler to our
own. Two handlers are the same when their addresses are. -/
def v4l2_ctrl_add_handler (cat : Catalog) (hdl add : Option Handler) (s : Store) :
    Int × Option Handler × Store :=
  match hdl, add with
  | some h, some a =>
    -- Do nothing if either handler is NULL or if they are the same
    if h.hid = a.hid then (0, some h, s)
    else if h.error ≠ 0 then (h.error, some h, s)
    else
      let r := add_handler_loop cat h s a.ctrls
      (r.1, some r.2.1, r.2.2)
  | _, _ => (0, hdl, s)

/-! ## Enumeration -/

/-- Modelled from the spec: the flag `V4L2_CTRL_FLAG_NEXT_CTRL` of the missing header. -/
def V4L2_CTRL_FLAG_NEXT_CTRL : Nat := 0x80000000

/-- The C type `struct v4l2_queryctrl`; the name is an array of 32 bytes in the missing
header. -/
structure QueryCtrl where
  id : Nat
  type : Option CtrlType
  name : List Char
  minimum : Int
  maximum : Int
  step : Int
  default_value : Int
  flags : Nat
  deriving DecidableEq, Repr

/-- The element after the first occurrence of `r` in a list (`ref->node.next`). -/
def list_next (r : Nat) : List Nat → Option Nat
  | [] => none
  | x :: rest => if x = r then rest.head? else list_next r rest

/-- The statements of `v4l2_queryctrl` that fill the structure of the caller from the
control found; `id` is the masked ID of the request. -/
def fill_query (id : Nat) (ctrl : Ctrl) : QueryCtrl :=
  { id := if V4L2_CID_PRIVATE_BASE ≤ id then id else ctrl.id,
    type := some ctrl.type,
    name := ctrl.name.toList.take 31,
    minimum := ctrl.minimum,
    maximum := ctrl.maximum,
    step := if ctrl.type = .MENU then 1 else s32 ctrl.step,
    default_value := ctrl.default_value,
    flags := ctrl.flags }

/-- The reference that `v4l2_queryctrl` settles on, given the reference `f` that
`find_ref` returned for the masked ID `id`. -/
def query_ref (h : Handler) (s : Store) (qid id : Nat) (f : Option Nat) : Option Nat :=
  if (qid &&& V4L2_CTRL_FLAG_NEXT_CTRL) ≠ 0 ∧ h.ctrl_refs ≠ [] then
    -- Find the next control with ID > qc->id
    -- Did we reach the end of the control list?
    if node2id h s (h.ctrl_refs.getLastD 0) ≤ id then none
    else
      match f with
      -- We found a control with the given ID, so just get the next one in the list.
      | some r => list_next r h.ctrl_refs
      -- No control with the given ID exists, so start searching for the next
      -- largest ID.
      | none => h.ctrl_refs.find? (fun r => decide (id < node2id h s r))
  else f

/-- The function `v4l2_queryctrl`, which implements `VIDIOC_QUERYCTRL`: the return code,
the structure of the caller and the handler. -/
def v4l2_queryctrl (hdl : Option Handler) (s : Store) (qc : QueryCtrl) :
    Int × QueryCtrl × Option Handler :=
  let id := qc.id &&& V4L2_CTRL_ID_MASK
  match hdl with
  | none => (-EINVAL, qc, none)
  | some h =>
    -- Try to find it
    let f := find_ref h s id
    match query_ref f.2 s qc.id id f.1 with
    | none => (-EINVAL, qc, some f.2)
    | some r => (0, fill_query id (s.get (f.2.ref (some r)).ctrl), some f.2)

/-- The loop of a caller that enumerates the controls: it asks for the control after the
cursor with the flag `V4L2_CTRL_FLAG_NEXT_CTRL`, takes the ID returned as the next cursor
and stops when the call fails; the IDs returned, in the order of the calls. The first
argument bounds the number of calls. -/
def enumerate (s : Store) : Nat → Handler → Nat → List Nat
  | 0, _, _ => []
  | n + 1, h, cursor =>
    let r := v4l2_queryctrl (some h) s
      ⟨cursor ||| V4L2_CTRL_FLAG_NEXT_CTRL, none, [], 0, 0, 0, 0, 0⟩
    if r.1 ≠ 0 then [] else r.2.1.id :: enumerate s n (r.2.2.getD h) r.2.1.id

/-! ## A catalog and a registry built through the calls -/

/-- The entries of the catalog of the source for the user class (`"User Controls"`),
brightness (`"Brightness"`, a slider), contrast (`"Contrast"`, a slider), mute (`"Mute"`, a
boolean) and the power line frequency (a menu); every other ID has no name and the default
group. The IDs are the values of the `V4L2_CID_*` constants of the missing header. -/
def exCatalog : Catalog :=
  { get_name := fun id =>
      if id = 0x00980001 then some "User Controls"
      else if id = 0x00980900 then some "Brightness"
      else if id = 0x00980901 then some "Contrast"
      else if id = 0x00980909 then some "Mute"
      else if id = 0x00980918 then some "Power Line Frequency"
      else none,
    get_menu := fun id =>
      if id = 0x00980918 then some ["Disabled", "50 Hz", "60 Hz"] else none,
    fillKind := fun id =>
      if id = 0x00980001 then .ctrl_class
      else if id = 0x00980909 then .boolean
      else if id = 0x00980918 then .menu
      else .other,
    flagKind := fun id =>
      if id = 0x00980900 ∨ id = 0x00980901 then .slider else .other }

/-! ## The registry invariant -/

/-- The reference of the sorted list whose control has the ID, by a scan of the list: what
a lookup is to return. -/
def lookup (h : Handler) (s : Store) (id : Nat) : Option Nat :=
  h.ctrl_refs.find? (fun r => node2id h s r == id)

/-- Every control of the store has an ID that `v4l2_ctrl_new` accepts: not zero and below
the private base. -/
def Store.wf (s : Store) : Prop :=
  ∀ c ∈ s.ctrls, c.id ≠ 0 ∧ c.id < V4L2_CID_PRIVATE_BASE

/-- The store `s'` holds every control of `s` at its address and with its ID; the values,
flags and clusters may differ and new controls may have come. -/
def StoreExt (s s' : Store) : Prop :=
  s.ctrls.length ≤ s'.ctrls.length ∧
  ∀ i, i < s.ctrls.length → (s'.get (some i)).id = (s.get (some i)).id

/-- The invariant of the index of a registry: the list of references is strictly ascending
by ID, it holds exactly the references that are allocated, every reference addresses a
control of the store, the bucket chains hold the references of the list, each in the
bucket of its ID, and every ID comes with the control class of the ID. -/
structure RegInv (h : Handler) (s : Store) : Prop where
  sorted : h.ctrl_refs.Pairwise (fun a b => node2id h s a < node2id h s b)
  arena : ∀ r, r ∈ h.ctrl_refs ↔ r < h.refs.length
  valid : ∀ r ∈ h.ctrl_refs, s.valid (h.ref (some r)).ctrl
  nr_pos : 0 < h.nr_of_buckets
  chains : ∃ b, h.buckets = some b ∧ b.length = h.nr_of_buckets ∧
    (∀ k r, r ∈ b.getD k [] → r ∈ h.ctrl_refs ∧ node2id h s r % h.nr_of_buckets = k) ∧
    (∀ r ∈ h.ctrl_refs, r ∈ b.getD (node2id h s r % h.nr_of_buckets) [])
  marker : ∀ r ∈ h.ctrl_refs, ∃ r' ∈ h.ctrl_refs,
    node2id h s r' = V4L2_CTRL_ID2CLASS (node2id h s r) ||| 1

/-- The states of a registry and of the store of the controls that are reachable from
`v4l2_ctrl_handler_init` by the calls that create a control (`v4l2_ctrl_new_custom`,
`v4l2_ctrl_new_std`, `v4l2_ctrl_new_std_menu`), by `v4l2_ctrl_add_ctrl` and
`v4l2_ctrl_add_handler` with pointers to controls of the store, and by anything outside
the registry that keeps the controls of the store and their IDs. -/
inductive Reachable (cat : Catalog) : Handler → Store → Prop
  | init (hid hint : Nat) (s : Store) : s.wf →
      Reachable cat (v4l2_ctrl_handler_init hid hint).2 s
  | outside (h : Handler) (s s' : Store) : Reachable cat h s → StoreExt s s' → s'.wf →
      Reachable cat h s'
  | new_custom (h : Handler) (s : Store) (cfg : Config) : Reachable cat h s →
      Reachable cat (v4l2_ctrl_new_custom cat h s cfg).hdl
        (v4l2_ctrl_new_custom cat h s cfg).store
  | new_std (h : Handler) (s : Store) (ops : Option Ops) (id : Nat) (min max : Int)
      (step : Nat) (dflt : Int) : Reachable cat h s →
      Reachable cat (v4l2_ctrl_new_std cat h s ops id min max step dflt).hdl
        (v4l2_ctrl_new_std cat h s ops id min max step dflt).store
  | new_std_menu (h : Handler) (s : Store) (ops : Option Ops) (id : Nat)
      (max mask dflt : Int) : Reachable cat h s →
      Reachable cat (v4l2_ctrl_new_std_menu cat h s ops id max mask dflt).hdl
        (v4l2_ctrl_new_std_menu cat h s ops id max mask dflt).store
  | add_ctrl (h : Handler) (s : Store) (p : Option Nat) : Reachable cat h s →
      (p = none ∨ s.valid p) →
      Reachable cat ((v4l2_ctrl_add_ctrl cat (some h) s p).2.1.getD h)
        (v4l2_ctrl_add_ctrl cat (some h) s p).2.2
  | add_handler (h : Handler) (s : Store) (a : Option Handler) : Reachable cat h s →
      (∀ x, a = some x → ∀ p ∈ x.ctrls, s.valid (some p)) →
      Reachable cat ((v4l2_ctrl_add_handler cat (some h) a s).2.1.getD h)
        (v4l2_ctrl_add_handler cat (some h) a s).2.2

/-- The control without its cluster array. -/
def eraseCluster (c : Ctrl) : Ctrl := { c with cluster := [] }

/-- The registry `h1` with the store `s1` comes from `h` with `s` by hooking references
in: the controls of `s` are kept but for their cluster arrays and nothing is logged, the
references of `h` are kept with their controls, a reference that is new addresses a
control of the list `ps` or a control that `s` does not hold, and the controls that `h1`
owns are those of `h` followed by controls that `s` does not hold. -/
structure Grows (ps : List (Option Nat)) (h : Handler) (s : Store) (h1 : Handler)
    (s1 : Store) : Prop where
  hid : h1.hid = h.hid
  nr : h1.nr_of_buckets = h.nr_of_buckets
  len : s.ctrls.length ≤ s1.ctrls.length
  kept : ∀ p, s.valid p → eraseCluster (s1.get p) = eraseCluster (s.get p)
  log : s1.log = s.log
  old : ∀ r ∈ h.ctrl_refs, r ∈ h1.ctrl_refs ∧ (h1.ref (some r)).ctrl = (h.ref (some r)).ctrl
  fresh : ∀ r ∈ h1.ctrl_refs, r ∈ h.ctrl_refs ∨ (h1.ref (some r)).ctrl ∈ ps ∨
    ∃ q, (h1.ref (some r)).ctrl = some q ∧ s.ctrls.length ≤ q
  owned : ∃ l, h1.ctrls = h.ctrls ++ l ∧ ∀ q ∈ l, s.ctrls.length ≤ q

/-- A registry built through the calls: `v4l2_ctrl_handler_init` with the hint 0 on the
empty store, then `v4l2_ctrl_new_std` for brightness with the range `[0,10]`, step 1 and
default 5, which creates the class control of the user class on the way. -/
def builtReg : Made :=
  v4l2_ctrl_new_std exCatalog (v4l2_ctrl_handler_init 1 0).2 ⟨[], []⟩ none 0x00980900 0 10 1 5

/-- The call of `v4l2_ctrl_new` on a fresh registry for an integer control with step 0:
brightness, range `[0,10]`, default 5. -/
def badStepCall : Made :=
  v4l2_ctrl_new exCatalog (v4l2_ctrl_handler_init 1 0).2 ⟨[], []⟩ none 0x00980900
    (some "Brightness") .INTEGER 0 10 0 5 0 none

/-- The registry that the call `badStepCall` leaves: it has an error stored. -/
def errReg : Handler := badStepCall.hdl

/-- A second registry, at the address 2, that shares the store of `builtReg`: after
`v4l2_ctrl_handler_init` it is given the class control of `builtReg` (the control 1) with
`v4l2_ctrl_add_ctrl`. -/
def foreignReg : Option Nat × Option Handler × Store :=
  v4l2_ctrl_add_ctrl exCatalog (some (v4l2_ctrl_handler_init 2 0).2) builtReg.store (some 1)

/-- The call of `v4l2_ctrl_new` for contrast on the registry `foreignReg`. -/
def foreignCall : Made :=
  v4l2_ctrl_new exCatalog (foreignReg.2.1.getD (v4l2_ctrl_handler_init 2 0).2) foreignReg.2.2
    none 0x00980901 (some "Contrast") .INTEGER 0 10 1 5 0x20 none

/-- The registry `builtReg` after a second `v4l2_ctrl_new_std` for brightness, with the
range `[0,20]` and the default 7: the call returns the control 2 and the registry owns
it. -/
def dupReg : Made :=
  v4l2_ctrl_new_std exCatalog builtReg.hdl builtReg.store none 0x00980900 0 20 1 7

/-- The merge of the registry `dupReg` into a fresh registry at the address 2. -/
def dupMerge : Int × Option Handler × Store :=
  v4l2_ctrl_add_handler exCatalog (some (v4l2_ctrl_handler_init 2 0).2) (some dupReg.hdl)
    dupReg.store

/-- The merge of the registry `builtReg` into a fresh registry at the address 2. -/
def builtMerge : Int × Option Handler × Store :=
  v4l2_ctrl_add_handler exCatalog (some (v4l2_ctrl_handler_init 2 0).2) (some builtReg.hdl)
    builtReg.store

/-- A registry built through the calls: `v4l2_ctrl_handler_init`, then
`v4l2_ctrl_new_custom` for a driver-private integer control of the user class, with the ID
`0x00981000` and the name `Private`. -/
def privReg : Made :=
  v4l2_ctrl_new_custom exCatalog (v4l2_ctrl_handler_init 1 0).2 ⟨[], []⟩
    ⟨none, 0x00981000, some "Private", .INTEGER, 0, 10, 1, 0, 0, 0, none, false, false⟩

/-- The helper that the resolve phase is to build for an entry of a batch: the control of
the reference that the scan of the sorted list finds for the ID, and the reference that
the scan finds for the ID of the master of its cluster. -/
def entryHelper (h : Handler) (s : Store) (c : ExtControl) : Helper :=
  let r := lookup h s (c.id &&& V4L2_CTRL_ID_MASK)
  let cp := (h.ref r).ctrl
  let mp := (s.get cp).cluster.headD none
  ⟨if mp ≠ cp then lookup h s (s.get mp).id else r, cp, 0⟩

/-- A batch for the registry `builtReg`: brightness 5, then the class control of the user
class, which is read-only. -/
def builtBatchClass : ExtControls :=
  ⟨0, 0, [⟨0x00980900, 0, 5, 0, []⟩, ⟨0x00980001, 0, 0, 0, []⟩]⟩

/-- A registry built through the calls: `v4l2_ctrl_handler_init`, then
`v4l2_ctrl_new_custom` for an integer control with the backend `exBumpOps`, the ID
`0x00981004`, the name `Bump` and the range `[0,10]`. The control is the control 0 of the
store, in a cluster of its own. -/
def bumpReg : Made :=
  v4l2_ctrl_new_custom exCatalog (v4l2_ctrl_handler_init 1 0).2 ⟨[], []⟩
    ⟨some exBumpOps, 0x00981004, some "Bump", .INTEGER, 0, 10, 1, 0, 0, 0, none, false, false⟩

/-- A batch for the registry `bumpReg` that names its control twice, with the values 1
and 2. -/
def bumpBatchTwice : ExtControls :=
  ⟨0, 0, [⟨0x00981004, 0, 1, 0, []⟩, ⟨0x00981004, 0, 2, 0, []⟩]⟩

/-- The number of calls of the operation `op` on the master control `master` that the
trace of the store holds. -/
def callCount (s : Store) (op : OpKind) (master : Option Nat) : Nat :=
  s.log.count (LogEntry.call op master)

/-- A registry built through the calls: `v4l2_ctrl_handler_init`, then `v4l2_ctrl_new_std`
for brightness and for contrast, both with the backend `exBumpOps` and the range `[0,10]`.
Brightness is the control 0 of the store, the class control of the user class the
control 1, contrast the control 2. -/
def pairReg : Made :=
  let a := v4l2_ctrl_new_std exCatalog (v4l2_ctrl_handler_init 1 0).2 ⟨[], []⟩
    (some exBumpOps) 0x00980900 0 10 1 5
  v4l2_ctrl_new_std exCatalog a.hdl a.store (some exBumpOps) 0x00980901 0 10 1 5

/-- The store of `pairReg` after brightness and contrast are made one cluster with
brightness as the master: both controls point to the cluster array of the two. -/
def pairStore : Store :=
  (pairReg.store.upd (some 0) (fun c => { c with cluster := [some 0, some 2] })).upd (some 2)
    (fun c => { c with cluster := [some 0, some 2] })

/-- A batch for the registry `pairReg` with three entries of the one cluster: brightness,
contrast, and brightness again. -/
def pairBatch : ExtControls :=
  ⟨0, 0, [⟨0x00980900, 0, 1, 0, []⟩, ⟨0x00980901, 0, 2, 0, []⟩, ⟨0x00980900, 0, 3, 0, []⟩]⟩

/-! ## Menu queries, clusters, flag toggles and subscriptions -/

/-- The C type `struct v4l2_querymenu`; the name is a byte array whose size is declared in
a header that is not part of the file. -/
structure QueryMenu where
  id : Nat
  index : Nat
  name : List Char
  reserved : Nat
  deriving DecidableEq, Repr

/-- The kernel library function `strlcpy` with a destination of `size` bytes: at most
`size - 1` characters of the source and a terminator; nothing is written when the size is
zero. -/
def strlcpy (dest src : List Char) (size : Nat) : List Char :=
  if size = 0 then dest else src.take (size - 1)

/-- The function `v4l2_querymenu`, which implements `VIDIOC_QUERYMENU`: the return code,
the structure of the caller and the handler. The index is a `u32`, so the bounds are
compared as `u32`. The parameter `name_size` is `sizeof(qm->name)`, the size of the name
array of `struct v4l2_querymenu` (32 in the kernel headers). -/
def v4l2_querymenu (name_size : Nat) (hdl : Option Handler) (s : Store) (qm : QueryMenu) :
    Int × QueryMenu × Option Handler :=
  let i := qm.index
  let f := v4l2_ctrl_find hdl s qm.id
  match f.1 with
  | none => (-EINVAL, qm, f.2)
  | some p =>
    let ctrl := s.get (some p)
    let qm := { qm with reserved := 0 }
    -- Sanity checks
    match ctrl.qmenu with
    | none => (-EINVAL, qm, f.2)
    | some m =>
      if (i : Int) < u32 ctrl.minimum ∨ (i : Int) > u32 ctrl.maximum then (-EINVAL, qm, f.2)
      -- Use mask to see if this menu item should be skipped
      else if (ctrl.menu_skip_mask &&& ((1 <<< i) % 4294967296)) ≠ 0 then (-EINVAL, qm, f.2)
      else
        -- Empty menu items should also be skipped
        match m.get? i with
        | none => (-EINVAL, qm, f.2)
        | some label =>
          if label.isEmpty then (-EINVAL, qm, f.2)
          else (0, { qm with name := strlcpy qm.name label.toList name_size }, f.2)

/-- The loop of `v4l2_ctrl_cluster` over the slots of the array `controls`: every control
of the array gets the array as its cluster. -/
def cluster_loop (controls : List (Option Nat)) : Store → List (Option Nat) → Store
  | s, [] => s
  | s, p :: rest => cluster_loop controls (s.upd p (fun c => { c with cluster := controls })) rest

/-- The function `v4l2_ctrl_cluster`: cluster controls. The result is `none` when the
`BUG_ON` fires: the first control is the master control and it must not be `NULL`. -/
def v4l2_ctrl_cluster (s : Store) (controls : List (Option Nat)) : Option Store :=
  if controls.length = 0 ∨ controls.headD none = none then none
  else some (cluster_loop controls s controls)

/-- The loop of `v4l2_ctrl_auto_cluster` over the slots after the master. -/
def auto_cluster_loop (set_volatile : Bool) (flag : Nat) : Store → List (Option Nat) → Store
  | s, [] => s
  | s, p :: rest =>
    auto_cluster_loop set_volatile flag
      (s.upd p (fun c => { c with is_volatile := set_volatile, flags := c.flags ||| flag })) rest

/-- The function `v4l2_ctrl_auto_cluster`; `manual_val` is a `u8`. -/
def v4l2_ctrl_auto_cluster (s : Store) (controls : List (Option Nat)) (manual_val : Nat)
    (set_volatile : Bool) : Option Store :=
  let master := controls.headD none
  match v4l2_ctrl_cluster s controls with
  | none => none
  | some s =>
    let s := s.upd master (fun c =>
      { c with
        is_auto := true, manual_mode_value := manual_val % 256,
        flags := c.flags ||| V4L2_CTRL_FLAG_UPDATE })
    let flag := if is_cur_manual (s.get master) then 0 else V4L2_CTRL_FLAG_INACTIVE
    some (auto_cluster_loop set_volatile flag s controls.tail)

/-- The function `v4l2_ctrl_activate`: activate or deactivate a control. The bit 4 of the
flags is `V4L2_CTRL_FLAG_INACTIVE`. -/
def v4l2_ctrl_activate (s : Store) (p : Option Nat) (active : Bool) : Store :=
  -- invert since the actual flag is called 'inactive'
  let inactive := !active
  match p with
  | none => s
  | some _ =>
    let old := (s.get p).flags.testBit 4
    let s :=
      if inactive then s.upd p (fun c => { c with flags := c.flags ||| (1 <<< 4) })
      else s.upd p (fun c => { c with flags := clearFlag c.flags (1 <<< 4) })
    if old != inactive then send_event s none p V4L2_EVENT_CTRL_CH_FLAGS else s

/-- The function `v4l2_ctrl_grab`: grab or ungrab a control. The bit 1 of the flags is
`V4L2_CTRL_FLAG_GRABBED`. -/
def v4l2_ctrl_grab (s : Store) (p : Option Nat) (grabbed : Bool) : Store :=
  match p with
  | none => s
  | some _ =>
    let old := (s.get p).flags.testBit 1
    let s :=
      if grabbed then s.upd p (fun c => { c with flags := c.flags ||| (1 <<< 1) })
      else s.upd p (fun c => { c with flags := clearFlag c.flags (1 <<< 1) })
    if old != grabbed then send_event s none p V4L2_EVENT_CTRL_CH_FLAGS else s

/-- The function `v4l2_ctrl_add_event`: the subscription is added at the tail of the list
of the control, and it is sent the initial event when it asks for it. -/
def v4l2_ctrl_add_event (s : Store) (p : Option Nat) (sev : Sev) : Store :=
  let s := s.upd p (fun c => { c with ev_subs := c.ev_subs ++ [sev] })
  let ctrl := s.get p
  if ctrl.type ≠ .CTRL_CLASS ∧ hasFlag sev.flags V4L2_EVENT_SUB_FL_SEND_INITIAL then
    let changes :=
      if !hasFlag ctrl.flags V4L2_CTRL_FLAG_WRITE_ONLY then
        V4L2_EVENT_CTRL_CH_FLAGS ||| V4L2_EVENT_CTRL_CH_VALUE
      else V4L2_EVENT_CTRL_CH_FLAGS
    { s with log := s.log ++ [LogEntry.event (sev.fh.getD 0) (fill_event ctrl changes)] }
  else s

/-! ## More example states -/

/-- A string control with the lengths 2, 5 and 8: minimum 2, maximum 8, step 3. -/
def exString23 : Ctrl :=
  { Ctrl.null with
    handler := 1, id := 0x00981005, name := "Code", type := .STRING,
    minimum := 2, maximum := 8, step := 3, cluster := [some 0] }

/-- The store of the example registry after `v4l2_ctrl_grab` grabbed brightness. -/
def exGrabbed : Store := v4l2_ctrl_grab exStore (some 1) true

/-- A backend whose `g_volatile_ctrl` succeeds and leaves the pending value 7 in every
member. -/
def exVolatileOps : Ops :=
  ⟨some (fun view => (0, view.map (fun m => m.map (fun x => { x.new with val := 7 })))),
    none, none⟩

/-- A registry built through the calls: `v4l2_ctrl_handler_init`, then `v4l2_ctrl_new_std`
for brightness and for contrast, both with the backend `exVolatileOps`, the range `[0,10]`
and the default 5. Brightness is the control 0 of the store and contrast the control 2. -/
def autoReg : Made :=
  let a := v4l2_ctrl_new_std exCatalog (v4l2_ctrl_handler_init 1 0).2 ⟨[], []⟩
    (some exVolatileOps) 0x00980900 0 10 1 5
  v4l2_ctrl_new_std exCatalog a.hdl a.store (some exVolatileOps) 0x00980901 0 10 1 5

/-- The store of `autoReg` after `v4l2_ctrl_auto_cluster` made brightness and contrast an
auto-cluster with the manual value 5, which is the committed value of brightness, and with
contrast volatile. -/
def autoManual : Store :=
  (v4l2_ctrl_auto_cluster autoReg.store [some 0, some 2] 5 true).getD autoReg.store

/-- The same with the manual value 4, which the committed value 5 of brightness is not. -/
def autoAuto : Store :=
  (v4l2_ctrl_auto_cluster autoReg.store [some 0, some 2] 4 true).getD autoReg.store

/-- The store of `builtReg` after the file handles 1 and 2 subscribed to brightness with
`v4l2_ctrl_add_event`, both without the feedback flag. -/
def subStore : Store :=
  v4l2_ctrl_add_event (v4l2_ctrl_add_event builtReg.store (some 0) ⟨some 1, 0⟩) (some 0)
    ⟨some 2, 0⟩

/-- A bitmask control with the mask 6. -/
def exMask : Ctrl :=
  { Ctrl.null with
    handler := 1, id := 0x00981006, name := "Mask", type := .BITMASK,
    minimum := 0, maximum := 6, step := 0, cluster := [some 0] }

/-- The registry of `foreignReg`: it holds a reference to the class control of `builtReg`
and owns no control. -/
def foreignHdl : Handler := foreignReg.2.1.getD (v4l2_ctrl_handler_init 2 0).2

/-- The registry after `v4l2_ctrl_handler_init` and one successful call of
`v4l2_ctrl_new_custom` for a driver-private menu control of the user class, with the ID
`0x00981002` and two labels, the second of 42 characters. -/
def longReg : Made :=
  v4l2_ctrl_new_custom exCatalog (v4l2_ctrl_handler_init 1 0).2 ⟨[], []⟩
    ⟨none, 0x00981002, some "Pattern", .MENU, 0, 1, 0, 0, 0, 0,
      some ["Off", "A label of more than thirty-one characters"], false, false⟩

/-- The file handles that the events of a trace were queued to, in the order of the
trace. -/
def eventHandles : List LogEntry → List Nat
  | [] => []
  | .event f _ :: rest => f :: eventHandles rest
  | .call _ _ :: rest => eventHandles rest

/-- The registry after `v4l2_ctrl_handler_init` and one call of `v4l2_ctrl_new_custom` for
a driver-private string control of the user class, with the ID `0x00981003`, the lengths
`[0,8]` and the step 0. -/
def zeroStepReg : Made :=
  v4l2_ctrl_new_custom exCatalog (v4l2_ctrl_handler_init 1 0).2 ⟨[], []⟩
    ⟨none, 0x00981003, some "Text", .STRING, 0, 8, 0, 0, 0, 0, none, false, false⟩

/-! ## The stages of a set of a cluster -/

/-- The first loop of `try_or_set_cluster` on a set, over the cluster of the master: the
error of the loop, if any, and the store it leaves. -/
def set_staged (s : Store) (master : Option Nat) : Option Int × Store :=
  stage_cluster true s (s.get master).cluster

/-- The statement `ret = call_op(master, try_ctrl)` of `try_or_set_cluster` after the first
loop: the return code of the validate callback and the store it leaves. -/
def set_tried (s : Store) (master : Option Nat) : Int × Store :=
  call_op (set_staged s master).2 master .try_ctrl

/-- The statement `ret = call_op(master, s_ctrl)` of `try_or_set_cluster` after the validate
callback: the return code of the apply callback and the store it leaves. -/
def set_applied (s : Store) (master : Option Nat) : Int × Store :=
  call_op (set_tried s master).2 master .s_ctrl

/-- A backend whose `try_ctrl` fails with `-ERANGE` and leaves the pending values. -/
def exRejectOps : Ops :=
  ⟨none, some (fun view => (-ERANGE, view.map (fun _ => none))), none⟩

/-- A backend whose `s_ctrl` fails with `-EFAULT` and leaves the pending values. -/
def exFailOps : Ops :=
  ⟨none, none, some (fun view => (-EFAULT, view.map (fun _ => none)))⟩

/-- A backend whose `s_ctrl` succeeds and leaves the pending values. -/
def exApplyOps : Ops :=
  ⟨none, none, some (fun view => (0, view.map (fun _ => none)))⟩

/-- The registry after `v4l2_ctrl_handler_init` and `v4l2_ctrl_new_std` for brightness with
the backend `exRejectOps`, range `[0,10]`, default 5, and with the file handle 1 subscribed
to brightness. Brightness is the control 0. -/
def rejectStore : Store :=
  v4l2_ctrl_add_event
    (v4l2_ctrl_new_std exCatalog (v4l2_ctrl_handler_init 1 0).2 ⟨[], []⟩ (some exRejectOps)
      0x00980900 0 10 1 5).store (some 0) ⟨some 1, 0⟩

/-- The same with the backend `exFailOps`. -/
def failStore : Store :=
  v4l2_ctrl_add_event
    (v4l2_ctrl_new_std exCatalog (v4l2_ctrl_handler_init 1 0).2 ⟨[], []⟩ (some exFailOps)
      0x00980900 0 10 1 5).store (some 0) ⟨some 1, 0⟩

/-- The same with the backend `exApplyOps`. -/
def applyStore : Store :=
  v4l2_ctrl_add_event
    (v4l2_ctrl_new_std exCatalog (v4l2_ctrl_handler_init 1 0).2 ⟨[], []⟩ (some exApplyOps)
      0x00980900 0 10 1 5).store (some 0) ⟨some 1, 0⟩

/-- The control with its pending value erased: what the staging loop and the backend
callbacks of a set cannot change. -/
def eraseNew (c : Ctrl) : Ctrl := { c with new := ⟨0, 0, []⟩ }

/-- A button control whose default value is 5, made with `v4l2_ctrl_new_custom` after
`v4l2_ctrl_handler_init`: the control 0 of the store, with the committed and the pending
value 5 in its storage. -/
def buttonReg : Made :=
  v4l2_ctrl_new_custom exCatalog (v4l2_ctrl_handler_init 1 0).2 ⟨[], []⟩
    ⟨none, 0x00981005, some "Reset", .BUTTON, 0, 0, 0, 5, 0, 0, none, false, false⟩

/-- The flags that `new_to_cur` leaves in a control: with `update_inactive` the inactive
flag is cleared and then set when the master of the control is not in manual mode. -/
def commitFlags (s : Store) (p : Option Nat) (b : Bool) : Nat :=
  if b = true then
    if is_cur_manual ((s.upd p copy_new_to_cur).get ((s.get p).cluster.headD none)) = true then
      clearFlag (s.get p).flags V4L2_CTRL_FLAG_INACTIVE
    else clearFlag (s.get p).flags V4L2_CTRL_FLAG_INACTIVE ||| V4L2_CTRL_FLAG_INACTIVE
  else (s.get p).flags

/-- The store `autoManual` after the file handle 1 subscribed to contrast, the control 2,
without the feedback flag. -/
def autoSubStore : Store := v4l2_ctrl_add_event autoManual (some 2) ⟨some 1, 0⟩

/-- A registry built through the calls: `v4l2_ctrl_handler_init`, then
`v4l2_ctrl_new_custom` for a volatile driver-private integer control of the user class with
the backend `exVolatileOps`, the range `[0,10]` and the default 5: the control 0. -/
def volReg : Made :=
  v4l2_ctrl_new_custom exCatalog (v4l2_ctrl_handler_init 1 0).2 ⟨[], []⟩
    ⟨some exVolatileOps, 0x00981004, some "Level", .INTEGER, 0, 10, 1, 5, 0, 0, none, false,
      true⟩

/-- The state of the linking loop of `prepare_ext_ctrls` before the round `k`, for a batch
of `n` entries whose helpers had the master references `M` before the loop: the helpers
from `k` on are untouched; of the helpers before `k` the first of each master reference
keeps it and the later ones have none; the `next` field of a helper is the index of the
next helper before `k` with the same master reference, or 0; and the helper field of a
master reference names the last helper before `k` with that reference. -/
structure LinkInv (n : Nat) (M : Nat → Option Nat) (k : Nat) (h : Handler)
    (hs : List Helper) : Prop where
  len : hs.length = n
  todo : ∀ i, k ≤ i → (hs.getD i Helper.null).mref = M i
  first : ∀ i, i < k → (∀ j, j < i → M j ≠ M i) → (hs.getD i Helper.null).mref = M i
  later : ∀ i, i < k → ∀ j, j < i → M j = M i → (hs.getD i Helper.null).mref = none
  next_some : ∀ i j, i < j → j < k → M j = M i → (∀ j', i < j' → j' < j → M j' ≠ M i) →
    (hs.getD i Helper.null).next = j
  next_zero : ∀ i, (∀ j, i < j → j < k → M j ≠ M i) → (hs.getD i Helper.null).next = 0
  last : ∀ i, i < n → ∀ r, M i = some r → ∀ j,
    ((h.ref (some r)).helper = some j ↔
      (j < k ∧ M j = some r ∧ ∀ j', j < j' → j' < k → M j' ≠ some r))
  refs : ∀ i, i < n → ∀ r, M i = some r → r < h.refs.length

/-- The indices that the loops `do { ...; idx = helpers[idx].next; } while (!ret && idx)` of
the batch calls visit from the entry `idx` on when no entry fails; the first argument
bounds the number of rounds. -/
def chain_from (helpers : List Helper) : Nat → Nat → List Nat
  | 0, _ => []
  | fuel + 1, idx =>
    idx :: (if (helpers.getD idx Helper.null).next = 0 then []
      else chain_from helpers fuel (helpers.getD idx Helper.null).next)

/-- The master reference that the first loop of `prepare_ext_ctrls` stores in the helper of
the entry `i` of a batch; none past the end of the batch. -/
def entryMaster (h : Handler) (s : Store) (cs : ExtControls) (i : Nat) : Option Nat :=
  ((cs.controls.map (entryHelper h s)).getD i Helper.null).mref

/-- The first loop of `v4l2_ctrl_handler_setup`: the `done` mark of every control of the
handler is cleared. -/
def setup_clear_done : Store → List Nat → Store
  | s, [] => s
  | s, p :: rest => setup_clear_done (s.upd (some p) (fun c => { c with done := false })) rest

/-- The inner loop of `v4l2_ctrl_handler_setup` over the slots of the cluster of the master:
for every member `cur_to_new`, then `is_new = 1` and `done = true`. -/
def setup_cluster : Store → List (Option Nat) → Store
  | s, [] => s
  | s, none :: rest => setup_cluster s rest
  | s, some i :: rest =>
    setup_cluster
      ((cur_to_new s (some i)).upd (some i) (fun c => { c with is_new := true, done := true }))
      rest

/-- The second loop of `v4l2_ctrl_handler_setup` over the controls of the handler: a control
that is done, a button or read-only is skipped; for another one the cluster is prepared and
`s_ctrl` of the master is called, and a non-zero return ends the loop. -/
def setup_loop : Store → List Nat → Int × Store
  | s, [] => (0, s)
  | s, p :: rest =>
    let ctrl := s.get (some p)
    let master := ctrl.cluster.headD none
    if ctrl.done || ctrl.type == .BUTTON || hasFlag ctrl.flags V4L2_CTRL_FLAG_READ_ONLY then
      setup_loop s rest
    else
      let r := call_op (setup_cluster s (s.get master).cluster) master .s_ctrl
      if r.1 ≠ 0 then r else setup_loop r.2 rest

/-- The function `v4l2_ctrl_handler_setup`: call `s_ctrl` for all controls owned by the
handler. -/
def v4l2_ctrl_handler_setup (hdl : Option Handler) (s : Store) : Int × Store :=
  match hdl with
  | none => (0, s)
  | some h => setup_loop (setup_clear_done s h.ctrls) h.ctrls

/-- The master `ctrl->cluster[0]` of a control. -/
def masterOf (s : Store) (p : Nat) : Option Nat := (s.get (some p)).cluster.headD none

/-- The control is neither a button nor read-only. -/
def setupEligible (s : Store) (p : Nat) : Bool :=
  !((s.get (some p)).type == .BUTTON) &&
    !hasFlag (s.get (some p)).flags V4L2_CTRL_FLAG_READ_ONLY

/-- The clusters of the controls of a handler are consistent: every control of the handler
has a master, is a member of the cluster of its master, and every control of the handler
in that cluster has the same master. -/
def ClusterWf (h : Handler) (s : Store) : Prop :=
  ∀ p ∈ h.ctrls, masterOf s p ≠ none ∧ some p ∈ (s.get (masterOf s p)).cluster ∧
    ∀ q ∈ h.ctrls, some q ∈ (s.get (masterOf s p)).cluster → masterOf s q = masterOf s p

instance (h : Handler) (s : Store) : Decidable (ClusterWf h s) := by
  unfold ClusterWf; infer_instance

/-- The reference for the order of the setup: of the controls `l` that follow the controls
`before` in creation order, those that are neither a button nor read-only and have no
earlier such control in their cluster. -/
def setupFirsts (s : Store) : List Nat → List Nat → List Nat
  | _, [] => []
  | before, p :: rest =>
    if setupEligible s p = true ∧
        ∀ q ∈ before, setupEligible s q = true → masterOf s q ≠ masterOf s p then
      p :: setupFirsts s (before ++ [p]) rest
    else setupFirsts s (before ++ [p]) rest

/-- The reference for the setup: for each control of the list in turn, the committed values
of the members of its cluster (as the store `s0` has the clusters) are copied to the
pending values and `s_ctrl` of the master is called once; the first call that fails ends
the setup with its return code. -/
def setup_visit (s0 : Store) : Store → List Nat → Int × Store
  | s, [] => (0, s)
  | s, p :: rest =>
    let r := call_op (setup_cluster s (s0.get (masterOf s0 p)).cluster) (masterOf s0 p) .s_ctrl
    if r.1 ≠ 0 then r else setup_visit s0 r.2 rest

/-- The control with its pending value and its marks `is_new` and `done` erased: what the
setup cannot change. -/
def eraseSetup (c : Ctrl) : Ctrl :=
  { c with new := ⟨0, 0, []⟩, is_new := false, done := false }

/-- A registry built through the calls: `v4l2_ctrl_handler_init`, then `v4l2_ctrl_new_std`
for brightness and contrast with the backend `exApplyOps`, for mute with the backend
`exFailOps`, and `v4l2_ctrl_new_std_menu` for the power line frequency with the backend
`exApplyOps`. Brightness is the control 0 of the store, the class control of the user class
the control 1, contrast the control 2, mute the control 3 and the power line frequency the
control 4. -/
def setupReg : Made :=
  let a := v4l2_ctrl_new_std exCatalog (v4l2_ctrl_handler_init 1 0).2 ⟨[], []⟩
    (some exApplyOps) 0x00980900 0 10 1 5
  let b := v4l2_ctrl_new_std exCatalog a.hdl a.store (some exApplyOps) 0x00980901 0 10 1 5
  let c := v4l2_ctrl_new_std exCatalog b.hdl b.store (some exFailOps) 0x00980909 0 1 1 0
  v4l2_ctrl_new_std_menu exCatalog c.hdl c.store (some exApplyOps) 0x00980918 2 0 0

/-- The store of `setupReg` after `v4l2_ctrl_cluster` made brightness and contrast one
cluster with brightness as the master. -/
def setupStore : Store :=
  (v4l2_ctrl_cluster setupReg.store [some 0, some 2]).getD setupReg.store

/-- What the preparation of a cluster member writes. -/
def setupMark (c : Ctrl) : Ctrl := { copy_cur_to_new c with is_new := true, done := true }

/-- A registry built through the calls: `v4l2_ctrl_handler_init`, `v4l2_ctrl_new_std` for
brightness with the range `[0,10]` and the default 5, and `v4l2_ctrl_new_custom` for a
string control of the user class with the ID `0x00981001`, the lengths `[0,4]` and the
step 1. Brightness is the control 0 of the store, the class control of the user class the
control 1 and the string control the control 2. -/
def chainReg : Made :=
  let a := v4l2_ctrl_new_std exCatalog (v4l2_ctrl_handler_init 1 0).2 ⟨[], []⟩ none
    0x00980900 0 10 1 5
  v4l2_ctrl_new_custom exCatalog a.hdl a.store
    ⟨none, 0x00981001, some "Text", .STRING, 0, 4, 1, 0, 0, 0, none, false, false⟩

/-- The store of `chainReg` after `v4l2_ctrl_cluster` made brightness and the string
control one cluster with brightness as the master. -/
def chainStore : Store :=
  (v4l2_ctrl_cluster chainReg.store [some 0, some 2]).getD chainReg.store

/-! # Properties -/

/-! ## Machine integers -/

theorem s32_of_isS32 {x : Int} (h : isS32 x) : s32 x = x := by
  unfold isS32 at h; unfold s32; omega

theorem u32_of_range {x : Int} (h0 : 0 ≤ x) (h1 : x < 4294967296) : u32 x = x := by
  unfold u32; omega

theorem s32_isS32 (x : Int) : isS32 (s32 x) := by
  unfold isS32 s32; omega

/-- Snapping a non-negative offset down to the grid of the step does not leave `[0, off]`. -/
theorem snap_bounds (step : Nat) (off : Int) (hs : 0 < step) (h0 : 0 ≤ off) :
    0 ≤ (step : Int) * (off / step) ∧ (step : Int) * (off / step) ≤ off := by
  have hs' : (0 : Int) < step := by exact_mod_cast hs
  constructor
  · exact Int.mul_nonneg (le_of_lt hs') (Int.ediv_nonneg h0 (le_of_lt hs'))
  · exact Int.mul_ediv_self_le (ne_of_gt hs')

theorem clamp_bounds (x lo hi : Int) (h : lo ≤ hi) : lo ≤ clamp x lo hi ∧ clamp x lo hi ≤ hi := by
  unfold clamp
  simp only
  split_ifs <;> omega

/-! ## Integer quantization -/

/-- The value `validate_new_int` computes for an integer control, with the wrap of the
biased candidate kept. -/
theorem validate_new_int_integer (c : Ctrl) (v : Int) (ht : c.type = .INTEGER)
    (hmin : isS32 c.minimum) (hmax : isS32 c.maximum)
    (hle : c.minimum ≤ c.maximum) (hpos : 0 < c.step) :
    validate_new_int c v =
      (0, c.minimum + c.step *
        ((clamp (s32 (v + (c.step / 2 : Nat))) c.minimum c.maximum - c.minimum) / c.step)) := by
  have hw := s32_isS32 (v + (c.step / 2 : Nat))
  obtain ⟨hx0, hx1⟩ := clamp_bounds (s32 (v + (c.step / 2 : Nat))) c.minimum c.maximum hle
  have hcl : clamp (s32 (v + (c.step / 2 : Nat))) c.minimum c.maximum =
      (if (if s32 (v + (c.step / 2 : Nat)) < c.minimum then c.minimum
            else s32 (v + (c.step / 2 : Nat))) > c.maximum then c.maximum
       else (if s32 (v + (c.step / 2 : Nat)) < c.minimum then c.minimum
            else s32 (v + (c.step / 2 : Nat)))) := rfl
  unfold validate_new_int
  rw [ht]
  simp only
  rw [← hcl]
  generalize clamp (s32 (v + (c.step / 2 : Nat))) c.minimum c.maximum = x at hx0 hx1 ⊢
  unfold isS32 at hmin hmax
  have ho : u32 (x - c.minimum) = x - c.minimum := u32_of_range (by omega) (by omega)
  rw [ho]
  obtain ⟨hq0, hq1⟩ := snap_bounds c.step (x - c.minimum) hpos (by omega)
  rw [u32_of_range hq0 (by omega), s32_of_isS32]
  unfold isS32; omega

/-- Claim C1. Integer quantization equals its reference definition: for an integer control
with `min ≤ max` and `step > 0` and a candidate `v` for which `v + step/2` does not overflow
32 bits, `validate_new_int` succeeds and replaces `v` by
`min + step * ((clamp(v + step/2, min, max) - min) / step)`. -/
theorem C1_validate_new_int_eq_quantizeRef (c : Ctrl) (v : Int) (ht : c.type = .INTEGER)
    (hmin : isS32 c.minimum) (hmax : isS32 c.maximum)
    (hle : c.minimum ≤ c.maximum) (hpos : 0 < c.step) (hv : isS32 v)
    (hno : v + (c.step / 2 : Nat) ≤ 2147483647) :
    validate_new_int c v = (0, quantizeRef c.minimum c.maximum c.step v) := by
  rw [validate_new_int_integer c v ht hmin hmax hle hpos]
  have hb : isS32 (v + (c.step / 2 : Nat)) := by
    unfold isS32 at hv ⊢; omega
  obtain ⟨hx0, _⟩ := clamp_bounds (v + (c.step / 2 : Nat)) c.minimum c.maximum hle
  rw [s32_of_isS32 hb]
  unfold quantizeRef
  rw [Int.tdiv_eq_ediv (by omega) (Int.ofNat_nonneg _)]

/-- The witness of C1: range `[0,10]`, step 3, `v = 4` gives 3. -/
theorem C1_witness :
    validate_new_int scenarioCtrl 4 = (0, quantizeRef 0 10 3 4) ∧ quantizeRef 0 10 3 4 = 3 :=
  ⟨C1_validate_new_int_eq_quantizeRef scenarioCtrl 4 rfl (by decide) (by decide) (by decide)
    (by decide) (by decide) (by decide), by decide⟩

/-- The claim C2 fails: in the scenario `setValue(10, 11)` does not return 6. -/
theorem C2_counterexample :
    ¬ ((v4l2_s_ctrl none (some scenarioHdl) scenarioStore 10 11).2.1 = 6) := by
  decide

/-- Claim C2, amended. In the scenario (one integer control `id=10`, range `[0,10]`, step 3,
default 0) `setValue(10, 11)` succeeds, returns 9 and commits 9: the biased candidate 12 is
clamped to 10, the offset 10 is snapped down to `3 * (10 / 3) = 9`. -/
theorem C2_setValue_11_commits_9 :
    (v4l2_s_ctrl none (some scenarioHdl) scenarioStore 10 11).1 = 0 ∧
    (v4l2_s_ctrl none (some scenarioHdl) scenarioStore 10 11).2.1 = 9 ∧
    ((v4l2_s_ctrl none (some scenarioHdl) scenarioStore 10 11).2.2.2.get (some 0)).cur.val = 9 := by
  decide

/-- Claim C3. Integer quantization always lands in range and on the step grid: for an
integer control with `min ≤ max` and `step > 0` and every candidate (the arithmetic is the
one of the code, modulo `2^32`), validation succeeds and the validated value `r` satisfies
`min ≤ r ≤ max` and `step ∣ r - min`. -/
theorem C3_validate_new_int_in_range_on_grid (c : Ctrl) (v : Int) (ht : c.type = .INTEGER)
    (hmin : isS32 c.minimum) (hmax : isS32 c.maximum)
    (hle : c.minimum ≤ c.maximum) (hpos : 0 < c.step) :
    (validate_new_int c v).1 = 0 ∧
    c.minimum ≤ (validate_new_int c v).2 ∧ (validate_new_int c v).2 ≤ c.maximum ∧
    (c.step : Int) ∣ (validate_new_int c v).2 - c.minimum := by
  rw [validate_new_int_integer c v ht hmin hmax hle hpos]
  obtain ⟨hx0, hx1⟩ := clamp_bounds (s32 (v + (c.step / 2 : Nat))) c.minimum c.maximum hle
  obtain ⟨hq0, hq1⟩ := snap_bounds c.step
    (clamp (s32 (v + (c.step / 2 : Nat))) c.minimum c.maximum - c.minimum) hpos (by omega)
  refine ⟨rfl, ?_, ?_, ?_⟩
  · simp only; omega
  · simp only; omega
  · simp only [add_sub_cancel_left]
    exact Dvd.intro _ rfl

/-- The witness of C3: the scenario control and the candidate 11, which lands on 9. -/
theorem C3_witness :
    (validate_new_int scenarioCtrl 11).1 = 0 ∧
    scenarioCtrl.minimum ≤ (validate_new_int scenarioCtrl 11).2 ∧
    (validate_new_int scenarioCtrl 11).2 ≤ scenarioCtrl.maximum ∧
    (scenarioCtrl.step : Int) ∣ (validate_new_int scenarioCtrl 11).2 - scenarioCtrl.minimum :=
  C3_validate_new_int_in_range_on_grid scenarioCtrl 11 rfl (by decide) (by decide) (by decide)
    (by decide)

/-! ## The resolve phase -/

theorem find_ref_refs (h : Handler) (s : Store) (id : Nat) :
    (find_ref h s id).2.refs = h.refs := by
  unfold find_ref
  simp only
  split_ifs
  · rfl
  · rfl
  · split <;> rfl

theorem refId_congr {h h' : Handler} (hr : h'.refs = h.refs) (s : Store) (r : Nat) :
    refId h' s r = refId h s r := by
  unfold refId; rw [hr]

theorem ref_congr {h h' : Handler} (hr : h'.refs = h.refs) (r : Option Nat) :
    h'.ref r = h.ref r := by
  unfold Handler.ref; rw [hr]

theorem and_mask_idem (id : Nat) :
    id &&& V4L2_CTRL_ID_MASK &&& V4L2_CTRL_ID_MASK = id &&& V4L2_CTRL_ID_MASK := by
  rw [Nat.land_assoc]; rfl

/-- A reference that `find_ref` finds below the private base has the ID looked for. -/
theorem find_ref_found (h : Handler) (s : Store) (id : Nat) (r : Nat)
    (hid : ¬ V4L2_CID_PRIVATE_BASE ≤ (id &&& V4L2_CTRL_ID_MASK))
    (hf : (find_ref h s id).1 = some r) : refId h s r = some (id &&& V4L2_CTRL_ID_MASK) := by
  unfold find_ref at hf
  simp only [hid, if_false] at hf
  split_ifs at hf with hc
  · simp only at hf
    unfold cacheHit at hc
    rw [hf] at hc
    simpa using hc
  · split at hf
    · rename_i r' hfind
      simp only [Option.some.injEq] at hf
      subst hf
      have := List.find?_some hfind
      simpa using this
    · simp at hf

/-- The first loop of `prepare_ext_ctrls` fails with `-EINVAL` as soon as one entry of the
list cannot be resolved, whatever the cache holds. -/
theorem prepare_loop_rejects (s : Store) (k : Nat) (h0 : Handler) (l : List ExtControl) :
    ∀ (i eidx : Nat) (h : Handler) (hs : List Helper) (hc : Bool), h.refs = h0.refs →
    (∃ c ∈ l, entryUnresolvable h0 s k c) →
    (prepare_loop s k l i eidx h hs hc).ret = -EINVAL := by
  induction l with
  | nil => intro i eidx h hs hc _ hex; obtain ⟨c, hc', _⟩ := hex; simp at hc'
  | cons c rest ih =>
    intro i eidx h hs hc hr hex
    unfold prepare_loop
    simp only
    split_ifs with h1 h2
    · rfl
    · rfl
    · split
      · rfl
      · rename_i r hfr
        have hfound := find_ref_found h s (c.id &&& V4L2_CTRL_ID_MASK) r
          (by rw [and_mask_idem]; exact h2) hfr
        rw [and_mask_idem] at hfound
        have hr1 : (find_ref h s (c.id &&& V4L2_CTRL_ID_MASK)).2.refs = h0.refs := by
          rw [find_ref_refs]; exact hr
        have hex' : ¬ hasFlag (s.get ((find_ref h s (c.id &&& V4L2_CTRL_ID_MASK)).2.ref
            (some r)).ctrl).flags V4L2_CTRL_FLAG_DISABLED = true →
            ∃ c ∈ rest, entryUnresolvable h0 s k c := by
          intro h3
          obtain ⟨c', hmem, hbad⟩ := hex
          rcases List.mem_cons.1 hmem with heq | hmem'
          · exfalso
            subst heq
            rcases hbad with hb | hb | hb | hb
            · exact h1 hb
            · exact h2 hb
            · exact hb r (by rw [← refId_congr hr]; exact hfound)
            · have := hb r (by rw [← refId_congr hr]; exact hfound)
              rw [← ref_congr hr1] at this
              exact h3 this
          · exact ⟨c', hmem', hbad⟩
        split_ifs with h3 h4
        · rfl
        · exact ih _ _ _ _ _ (by rw [find_ref_refs]; exact hr1) (hex' h3)
        · exact ih _ _ _ _ _ hr1 (hex' h3)

/-- The resolve phase fails with `-EINVAL` when one entry cannot be resolved. -/
theorem resolved_rejects (h : Handler) (s : Store) (cs : ExtControls)
    (hbad : ∃ c ∈ cs.controls, entryUnresolvable h s (V4L2_CTRL_ID2CLASS cs.ctrl_class) c) :
    (resolved h s cs).ret = -EINVAL := by
  have hl := prepare_loop_rejects s (V4L2_CTRL_ID2CLASS cs.ctrl_class) h cs.controls 0
    cs.count h [] false rfl hbad
  unfold resolved prepare_ext_ctrls
  simp only
  rw [if_pos (by rw [hl]; decide)]
  exact hl

/-- Claim C10. Resolve-phase rejection: for `getExtended`, `tryExtended` and `setExtended`, if
an entry of the batch has an ID that (after masking) is an old-style private ID, is not
present in the registry, names a disabled control, or has a class different from the
non-zero (normalised) class filter, the call fails with `InvalidArgument` and returns the
store as it was: no committed value, pending value or flag is changed and no backend
callback is invoked. -/
theorem C10_resolve_phase_rejection (fh : Option Nat) (h : Handler) (s : Store)
    (cs : ExtControls)
    (hbad : ∃ c ∈ cs.controls, entryUnresolvable h s (V4L2_CTRL_ID2CLASS cs.ctrl_class) c) :
    ((v4l2_g_ext_ctrls (some h) s cs).ret = -EINVAL ∧
      (v4l2_g_ext_ctrls (some h) s cs).store = s) ∧
    ((v4l2_try_ext_ctrls (some h) s cs).ret = -EINVAL ∧
      (v4l2_try_ext_ctrls (some h) s cs).store = s) ∧
    ((v4l2_s_ext_ctrls fh (some h) s cs).ret = -EINVAL ∧
      (v4l2_s_ext_ctrls fh (some h) s cs).store = s) := by
  have hret := resolved_rejects h s cs hbad
  have hne : (resolved h s cs).ret ≠ 0 := by rw [hret]; decide
  have hcount : cs.controls.length ≠ 0 := by
    obtain ⟨c, hc, _⟩ := hbad
    intro h0
    rw [List.length_eq_zero] at h0
    rw [h0] at hc
    simp at hc
  unfold resolved at hret hne
  simp only [ExtControls.count] at hret hne
  refine ⟨?_, ?_, ?_⟩
  · unfold v4l2_g_ext_ctrls
    simp only [ExtControls.count, hcount, if_false, hne, ne_eq, not_false_eq_true, if_true]
    exact ⟨hret, trivial⟩
  · unfold v4l2_try_ext_ctrls try_set_ext_ctrls
    simp only [ExtControls.count, hcount, if_false, hne, ne_eq, not_false_eq_true, if_true]
    exact ⟨hret, trivial⟩
  · unfold v4l2_s_ext_ctrls try_set_ext_ctrls
    simp only [ExtControls.count, hcount, if_false, hne, ne_eq, not_false_eq_true, if_true]
    exact ⟨hret, trivial⟩

/-- The witness of C10: the example registry and a batch whose second ID it lacks. -/
theorem C10_witness :
    ((v4l2_g_ext_ctrls (some exHdl) exStore exBatchUnknown).ret = -EINVAL ∧
      (v4l2_g_ext_ctrls (some exHdl) exStore exBatchUnknown).store = exStore) ∧
    ((v4l2_try_ext_ctrls (some exHdl) exStore exBatchUnknown).ret = -EINVAL ∧
      (v4l2_try_ext_ctrls (some exHdl) exStore exBatchUnknown).store = exStore) ∧
    ((v4l2_s_ext_ctrls none (some exHdl) exStore exBatchUnknown).ret = -EINVAL ∧
      (v4l2_s_ext_ctrls none (some exHdl) exStore exBatchUnknown).store = exStore) :=
  C10_resolve_phase_rejection none exHdl exStore exBatchUnknown
    ⟨⟨0x00980999, 0, 1, 0, []⟩, by decide, Or.inr (Or.inr (Or.inl (by
      intro r
      rcases r with _ | _ | _ | _ | _ | _ | _ | r
      · decide
      · decide
      · decide
      · decide
      · decide
      · decide
      · decide
      · simp [refId, exHdl])))⟩

/-! ## The validate phase -/

theorem validate_loop_length (s : Store) (helpers : List Helper) (set : Bool)
    (l : List ExtControl) : ∀ (i eidx : Nat) (done : List ExtControl),
    (validate_loop s helpers set l i eidx done).2.2.length = done.length + l.length := by
  induction l with
  | nil => intro i eidx done; simp [validate_loop]
  | cons c rest ih =>
    intro i eidx done
    unfold validate_loop
    simp only
    split_ifs
    · simp
    · simp
    · simp
    · rw [ih]; simp; omega

/-- One round of the loop of `validate_ctrls`: the entry fails with its error, or the loop
goes on with the next entry. -/
theorem validate_loop_cons (s : Store) (helpers : List Helper) (set : Bool) (c : ExtControl)
    (rest : List ExtControl) (i eidx : Nat) (done : List ExtControl) :
    (entryError s set (helpers.getD i Helper.null) c ≠ 0 →
      (validate_loop s helpers set (c :: rest) i eidx done).1 =
        entryError s set (helpers.getD i Helper.null) c) ∧
    (entryError s set (helpers.getD i Helper.null) c = 0 →
      validate_loop s helpers set (c :: rest) i eidx done =
        validate_loop s helpers set rest (i + 1) i
          (done ++ [(validate_new (s.get (helpers.getD i Helper.null).ctrl) c).2])) := by
  unfold entryError
  conv => enter [1, 2, 1, 1]; unfold validate_loop
  conv => enter [2, 2, 1]; unfold validate_loop
  simp only
  constructor
  · intro h0
    split_ifs at h0 ⊢ <;> rfl
  · intro h0
    split_ifs at h0 ⊢ with h1 h2 h3
    · simp [EACCES] at h0
    · simp [EBUSY] at h0
    · exact absurd h0 h3
    · rfl

theorem validate_loop_fail (s : Store) (helpers : List Helper) (set : Bool)
    (l : List ExtControl) : ∀ (i eidx : Nat) (done : List ExtControl),
    (∃ j, j < l.length ∧
      entryError s set (helpers.getD (i + j) Helper.null) (l.getD j ExtControl.null) ≠ 0) →
    ∃ j, j < l.length ∧
      (validate_loop s helpers set l i eidx done).1 =
        entryError s set (helpers.getD (i + j) Helper.null) (l.getD j ExtControl.null) ∧
      (validate_loop s helpers set l i eidx done).1 ≠ 0 ∧
      ∀ k, k < j →
        entryError s set (helpers.getD (i + k) Helper.null) (l.getD k ExtControl.null) = 0 := by
  induction l with
  | nil => intro i eidx done hex; obtain ⟨j, hj, _⟩ := hex; simp at hj
  | cons c rest ih =>
    intro i eidx done hex
    obtain ⟨hfail, hpass⟩ := validate_loop_cons s helpers set c rest i eidx done
    by_cases h0 : entryError s set (helpers.getD i Helper.null) c = 0
    · have hrest : ∃ j, j < rest.length ∧
          entryError s set (helpers.getD (i + 1 + j) Helper.null)
            (rest.getD j ExtControl.null) ≠ 0 := by
        obtain ⟨j, hj, hne⟩ := hex
        cases j with
        | zero => exact absurd h0 (by simpa using hne)
        | succ j =>
          refine ⟨j, by simpa using hj, ?_⟩
          have : i + 1 + j = i + (j + 1) := by omega
          rw [this]
          simpa using hne
      obtain ⟨j, hj, hret, hne, hall⟩ := ih (i + 1) i
        (done ++ [(validate_new (s.get (helpers.getD i Helper.null).ctrl) c).2]) hrest
      refine ⟨j + 1, by simpa using hj, ?_, ?_, ?_⟩
      · rw [hpass h0, hret]
        have : i + 1 + j = i + (j + 1) := by omega
        rw [this]; simp
      · rw [hpass h0]; exact hne
      · intro k hk
        cases k with
        | zero => simpa using h0
        | succ k =>
          have := hall k (by omega)
          have e : i + 1 + k = i + (k + 1) := by omega
          rw [e] at this
          simpa using this
    · refine ⟨0, by simp, ?_, ?_, ?_⟩
      · simpa using hfail h0
      · rw [hfail h0]; exact h0
      · intro k hk; omega

/-- A set whose batch passes the resolve phase and has an entry that fails the validate
phase: the error of the first such entry is returned, the error index is the batch length
and the store is returned as it was. -/
theorem set_ext_validation_failure (fh : Option Nat) (h : Handler) (s : Store)
    (cs : ExtControls) (hres : (resolved h s cs).ret = 0)
    (hbad : ∃ i, i < cs.count ∧ entryError s true ((resolved h s cs).helpers.getD i Helper.null)
      (cs.controls.getD i ExtControl.null) ≠ 0) :
    ∃ j, j < cs.count ∧
      (v4l2_s_ext_ctrls fh (some h) s cs).ret =
        entryError s true ((resolved h s cs).helpers.getD j Helper.null)
          (cs.controls.getD j ExtControl.null) ∧
      (v4l2_s_ext_ctrls fh (some h) s cs).ret ≠ 0 ∧
      (∀ k, k < j → entryError s true ((resolved h s cs).helpers.getD k Helper.null)
          (cs.controls.getD k ExtControl.null) = 0) ∧
      (v4l2_s_ext_ctrls fh (some h) s cs).cs.error_idx = cs.count ∧
      (v4l2_s_ext_ctrls fh (some h) s cs).store = s := by
  have hcount : cs.count ≠ 0 := by
    obtain ⟨i, hi, _⟩ := hbad; omega
  have hbad' : ∃ j, j < cs.controls.length ∧
      entryError s true ((resolved h s cs).helpers.getD (0 + j) Helper.null)
        (cs.controls.getD j ExtControl.null) ≠ 0 := by
    simpa [ExtControls.count] using hbad
  obtain ⟨j, hj, hret, hne, hall⟩ :=
    validate_loop_fail s (resolved h s cs).helpers true cs.controls 0 cs.count [] hbad'
  have hlen := validate_loop_length s (resolved h s cs).helpers true cs.controls 0 cs.count []
  simp only [Nat.zero_add] at hret hall
  refine ⟨j, hj, ?_⟩
  unfold v4l2_s_ext_ctrls try_set_ext_ctrls
  simp only [ExtControls.count] at hcount ⊢
  simp only [hcount, if_false]
  unfold resolved at hres hret hne hall hlen
  simp only [ExtControls.count] at hres hret hne hall hlen
  simp only [hres, ne_eq, not_true_eq_false, if_false, validate_ctrls, ExtControls.count]
  rw [if_pos hne]
  simp only [if_true]
  refine ⟨hret, hne, hall, ?_, trivial⟩
  simp [hlen]


/-- Claim C6. Batch set is all-or-nothing on validation failure: if `setExtended` passes the
resolve phase but some entry fails the validate phase (control read-only, control grabbed,
or value rejected by its type rule), the call returns that error (the one of the first such
entry), the reported error index equals the batch length, and the store is returned as it
was: no backend callback is invoked and no committed value, pending value or flag is
changed. -/
theorem C6_set_all_or_nothing_on_validation_failure (fh : Option Nat) (h : Handler)
    (s : Store) (cs : ExtControls) (hres : (resolved h s cs).ret = 0)
    (hbad : ∃ i, i < cs.count ∧ entryError s true ((resolved h s cs).helpers.getD i Helper.null)
      (cs.controls.getD i ExtControl.null) ≠ 0) :
    (v4l2_s_ext_ctrls fh (some h) s cs).ret ≠ 0 ∧
    (∃ j, j < cs.count ∧
      (v4l2_s_ext_ctrls fh (some h) s cs).ret =
        entryError s true ((resolved h s cs).helpers.getD j Helper.null)
          (cs.controls.getD j ExtControl.null) ∧
      ∀ k, k < j → entryError s true ((resolved h s cs).helpers.getD k Helper.null)
          (cs.controls.getD k ExtControl.null) = 0) ∧
    (v4l2_s_ext_ctrls fh (some h) s cs).cs.error_idx = cs.count ∧
    (v4l2_s_ext_ctrls fh (some h) s cs).store = s := by
  obtain ⟨j, hj, hret, hne, hall, hidx, hst⟩ := set_ext_validation_failure fh h s cs hres hbad
  exact ⟨hne, ⟨j, hj, hret, hall⟩, hidx, hst⟩

/-- The witness of C6: in the example registry the batch of brightness 5 and the menu
index 7 passes the resolve phase and fails the validation of its second entry. -/
theorem C6_witness :
    (v4l2_s_ext_ctrls none (some exHdl) exStore exBatchBadMenu).ret ≠ 0 ∧
    (∃ j, j < exBatchBadMenu.count ∧
      (v4l2_s_ext_ctrls none (some exHdl) exStore exBatchBadMenu).ret =
        entryError exStore true ((resolved exHdl exStore exBatchBadMenu).helpers.getD j
          Helper.null) (exBatchBadMenu.controls.getD j ExtControl.null) ∧
      ∀ k, k < j → entryError exStore true
        ((resolved exHdl exStore exBatchBadMenu).helpers.getD k Helper.null)
        (exBatchBadMenu.controls.getD k ExtControl.null) = 0) ∧
    (v4l2_s_ext_ctrls none (some exHdl) exStore exBatchBadMenu).cs.error_idx =
      exBatchBadMenu.count ∧
    (v4l2_s_ext_ctrls none (some exHdl) exStore exBatchBadMenu).store = exStore :=
  C6_set_all_or_nothing_on_validation_failure none exHdl exStore exBatchBadMenu (by decide)
    ⟨1, by decide, by decide⟩

/-- The claim C7 fails: in the example registry the batch of brightness 5 and the menu
index 7 fails the validation of its second entry, and the error index is not 1. -/
theorem C7_counterexample :
    (resolved exHdl exStore exBatchBadMenu).ret = 0 ∧
    entryError exStore true ((resolved exHdl exStore exBatchBadMenu).helpers.getD 0 Helper.null)
      (exBatchBadMenu.controls.getD 0 ExtControl.null) = 0 ∧
    (validate_new (exStore.get ((resolved exHdl exStore exBatchBadMenu).helpers.getD 1
      Helper.null).ctrl) (exBatchBadMenu.controls.getD 1 ExtControl.null)).1 = -ERANGE ∧
    ¬ ((v4l2_s_ext_ctrls none (some exHdl) exStore exBatchBadMenu).cs.error_idx = 1) := by
  decide

/-- Claim C7, amended. For a two-entry batch submitted to `setExtended` that passes the
resolve phase, whose first entry passes the validate phase and whose second entry fails it,
the call fails with the error of the second entry and with error index 2, the batch length,
and the store is returned as it was: the control of the first entry keeps its committed
value. -/
theorem C7_two_entry_batch_error_index (fh : Option Nat) (h : Handler) (s : Store)
    (k e : Nat) (c1 c2 : ExtControl) (hres : (resolved h s ⟨k, e, [c1, c2]⟩).ret = 0)
    (h1 : entryError s true ((resolved h s ⟨k, e, [c1, c2]⟩).helpers.getD 0 Helper.null) c1 = 0)
    (h2 : entryError s true ((resolved h s ⟨k, e, [c1, c2]⟩).helpers.getD 1 Helper.null) c2
      ≠ 0) :
    (v4l2_s_ext_ctrls fh (some h) s ⟨k, e, [c1, c2]⟩).ret =
      entryError s true ((resolved h s ⟨k, e, [c1, c2]⟩).helpers.getD 1 Helper.null) c2 ∧
    (v4l2_s_ext_ctrls fh (some h) s ⟨k, e, [c1, c2]⟩).ret ≠ 0 ∧
    (v4l2_s_ext_ctrls fh (some h) s ⟨k, e, [c1, c2]⟩).cs.error_idx = 2 ∧
    (v4l2_s_ext_ctrls fh (some h) s ⟨k, e, [c1, c2]⟩).store = s := by
  obtain ⟨j, hj, hret, hne, hall, hidx, hst⟩ :=
    set_ext_validation_failure fh h s ⟨k, e, [c1, c2]⟩ hres ⟨1, Nat.lt_succ_self 1, h2⟩
  have hj2 : j < 2 := hj
  have hj1 : j = 1 := by
    rcases Nat.lt_or_ge j 1 with hlt | hge
    · exfalso
      have hj0 : j = 0 := by omega
      subst hj0
      rw [hret] at hne
      exact hne h1
    · omega
  subst hj1
  exact ⟨hret, hne, hidx, hst⟩

/-- The witness of C7: the example registry, brightness 5 and the menu index 7. -/
theorem C7_witness :
    (v4l2_s_ext_ctrls none (some exHdl) exStore
      ⟨0, 0, [⟨0x00980900, 0, 5, 0, []⟩, ⟨0x00980918, 0, 7, 0, []⟩]⟩).ret =
      entryError exStore true ((resolved exHdl exStore
        ⟨0, 0, [⟨0x00980900, 0, 5, 0, []⟩, ⟨0x00980918, 0, 7, 0, []⟩]⟩).helpers.getD 1
          Helper.null) ⟨0x00980918, 0, 7, 0, []⟩ ∧
    (v4l2_s_ext_ctrls none (some exHdl) exStore
      ⟨0, 0, [⟨0x00980900, 0, 5, 0, []⟩, ⟨0x00980918, 0, 7, 0, []⟩]⟩).ret ≠ 0 ∧
    (v4l2_s_ext_ctrls none (some exHdl) exStore
      ⟨0, 0, [⟨0x00980900, 0, 5, 0, []⟩, ⟨0x00980918, 0, 7, 0, []⟩]⟩).cs.error_idx = 2 ∧
    (v4l2_s_ext_ctrls none (some exHdl) exStore
      ⟨0, 0, [⟨0x00980900, 0, 5, 0, []⟩, ⟨0x00980918, 0, 7, 0, []⟩]⟩).store = exStore :=
  C7_two_entry_batch_error_index none exHdl exStore 0 0 ⟨0x00980900, 0, 5, 0, []⟩
    ⟨0x00980918, 0, 7, 0, []⟩ (by decide) (by decide) (by decide)

/-- The behaviour of the code at the failing inputs of C8: in the example registry a set
of brightness 5 together with an invalid string value (a buffer of size 0, or eight
characters for a capacity of four) passes the validate phase, commits brightness 5 over the
committed value 0, and only then fails with `-ERANGE` at error index 1. -/
theorem C8_set_commits_before_string_error :
    (exStore.get (some 1)).cur.val = 0 ∧
    (v4l2_s_ext_ctrls none (some exHdl) exStore exBatchEmptyString).ret = -ERANGE ∧
    (v4l2_s_ext_ctrls none (some exHdl) exStore exBatchEmptyString).cs.error_idx = 1 ∧
    ((v4l2_s_ext_ctrls none (some exHdl) exStore exBatchEmptyString).store.get
      (some 1)).cur.val = 5 ∧
    (v4l2_s_ext_ctrls none (some exHdl) exStore exBatchLongString).ret = -ERANGE ∧
    (v4l2_s_ext_ctrls none (some exHdl) exStore exBatchLongString).cs.error_idx = 1 ∧
    ((v4l2_s_ext_ctrls none (some exHdl) exStore exBatchLongString).store.get
      (some 1)).cur.val = 5 := by
  decide

/-! ## Steps: what the functions leave alone -/

theorem updAt_map {α β : Type} (E : α → β) (f : α → α) (hf : ∀ c, E (f c) = E c)
    (l : List α) : ∀ i, (updAt l i f).map E = l.map E := by
  induction l with
  | nil => intro i; rfl
  | cons x xs ih =>
    intro i
    cases i with
    | zero => simp [updAt, hf]
    | succ n => simp [updAt, ih]

theorem step_refl (E : Ctrl → Ctrl) (ok : LogEntry → Prop) (s : Store) : Step E ok s s :=
  ⟨rfl, [], by simp, by simp⟩

theorem step_trans {E : Ctrl → Ctrl} {ok : LogEntry → Prop} {s1 s2 s3 : Store}
    (h1 : Step E ok s1 s2) (h2 : Step E ok s2 s3) : Step E ok s1 s3 := by
  obtain ⟨e1, l1, hl1, ht1⟩ := h1
  obtain ⟨e2, l2, hl2, ht2⟩ := h2
  refine ⟨e2.trans e1, l1 ++ l2, by rw [hl2, hl1, List.append_assoc], ?_⟩
  intro e he
  rcases List.mem_append.1 he with h | h
  · exact ht1 e h
  · exact ht2 e h

theorem step_mono {E : Ctrl → Ctrl} {ok ok' : LogEntry → Prop} {s s' : Store}
    (h : Step E ok s s') (hok : ∀ e, ok e → ok' e) : Step E ok' s s' := by
  obtain ⟨e1, l1, hl1, ht1⟩ := h
  exact ⟨e1, l1, hl1, fun e he => hok e (ht1 e he)⟩

theorem step_upd (E : Ctrl → Ctrl) (ok : LogEntry → Prop) (s : Store) (p : Option Nat)
    (f : Ctrl → Ctrl) (hf : ∀ c, E (f c) = E c) : Step E ok s (s.upd p f) := by
  cases p with
  | none => exact step_refl E ok s
  | some i => exact ⟨updAt_map E f hf s.ctrls i, [], by simp [Store.upd], by simp⟩

/-- A write that touches the pending value and the `is_new` mark only is a step for every
erasure that does not see these. -/
theorem step_upd_pending {E : Ctrl → Ctrl} (hE : ∀ c, E (erasePending c) = E c)
    (ok : LogEntry → Prop) (s : Store) (p : Option Nat) (f : Ctrl → Ctrl)
    (hf : ∀ c, erasePending (f c) = erasePending c) : Step E ok s (s.upd p f) :=
  step_upd E ok s p f (fun c => by rw [← hE (f c), hf c, hE c])

theorem erasePending_copy_cur_to_new (c : Ctrl) :
    erasePending (copy_cur_to_new c) = erasePending c := by
  unfold copy_cur_to_new; split <;> rfl

theorem step_cur_to_new {E : Ctrl → Ctrl} (hE : ∀ c, E (erasePending c) = E c)
    (ok : LogEntry → Prop) (s : Store) (p : Option Nat) : Step E ok s (cur_to_new s p) :=
  step_upd_pending hE ok s p _ erasePending_copy_cur_to_new

theorem step_reset_is_new {E : Ctrl → Ctrl} (hE : ∀ c, E (erasePending c) = E c)
    (ok : LogEntry → Prop) (l : List (Option Nat)) :
    ∀ s, Step E ok s (reset_is_new s l) := by
  induction l with
  | nil => intro s; exact step_refl E ok s
  | cons p rest ih =>
    intro s
    refine step_trans (step_upd_pending hE ok s p (fun c => { c with is_new := false }) ?_)
      (ih _)
    intro c; rfl

theorem step_cluster_cur_to_new {E : Ctrl → Ctrl} (hE : ∀ c, E (erasePending c) = E c)
    (ok : LogEntry → Prop) (l : List (Option Nat)) :
    ∀ s, Step E ok s (cluster_cur_to_new s l) := by
  induction l with
  | nil => intro s; exact step_refl E ok s
  | cons p rest ih =>
    intro s
    exact step_trans (step_cur_to_new hE ok s p) (ih _)

theorem step_setPending {E : Ctrl → Ctrl} (hE : ∀ c, E (erasePending c) = E c)
    (ok : LogEntry → Prop) (ps : List (Option Nat)) :
    ∀ (vs : List (Option Pending)) (s : Store), Step E ok s (setPending s ps vs) := by
  induction ps with
  | nil => intro vs s; exact step_refl E ok s
  | cons p rest ih =>
    intro vs s
    cases p with
    | none =>
      cases vs with
      | nil => exact step_refl E ok s
      | cons v vs => exact ih vs s
    | some i =>
      cases vs with
      | nil => exact step_refl E ok s
      | cons v vs =>
        cases v with
        | none => exact ih vs s
        | some v =>
          refine step_trans
            (step_upd_pending hE ok s (some i) (fun c => { c with new := v }) ?_) (ih vs _)
          intro c; rfl

/-- A backend call is a step: it writes pending values and records itself. -/
theorem step_call_op {E : Ctrl → Ctrl} (hE : ∀ c, E (erasePending c) = E c)
    (ok : LogEntry → Prop) (s : Store) (master : Option Nat) (op : OpKind)
    (hok : ok (LogEntry.call op master)) : Step E ok s (call_op s master op).2 := by
  unfold call_op
  simp only
  split
  · exact step_refl E ok s
  · split
    · exact step_refl E ok s
    · refine step_trans (step_setPending hE ok _ _ s) ⟨rfl, [LogEntry.call op master], rfl, ?_⟩
      intro e he
      simp at he
      subst he
      exact hok

theorem step_stage_cluster {E : Ctrl → Ctrl} (hE : ∀ c, E (erasePending c) = E c)
    (ok : LogEntry → Prop) (set : Bool) (l : List (Option Nat)) :
    ∀ s, Step E ok s (stage_cluster set s l).2 := by
  induction l with
  | nil => intro s; exact step_refl E ok s
  | cons p rest ih =>
    intro s
    cases p with
    | none => unfold stage_cluster; exact ih s
    | some i =>
      unfold stage_cluster
      simp only
      split_ifs
      · exact step_trans (step_cur_to_new hE ok s (some i)) (ih _)
      · exact step_refl E ok s
      · exact ih s

/-- A try of a cluster is a step that calls `try_ctrl` only. -/
theorem step_try_cluster {E : Ctrl → Ctrl} (hE : ∀ c, E (erasePending c) = E c)
    (s : Store) (fh master : Option Nat) :
    Step E isTryCall s (try_or_set_cluster s fh master false).2 := by
  unfold try_or_set_cluster
  have hst := step_stage_cluster hE isTryCall false (s.get master).cluster s
  generalize stage_cluster false s (s.get master).cluster = r at hst
  obtain ⟨e, s1⟩ := r
  cases e with
  | some err => exact hst
  | none =>
    simp only [true_or, or_true, if_true]
    exact step_trans hst (step_call_op hE isTryCall s1 master .try_ctrl ⟨master, rfl⟩)

theorem step_user_to_new {E : Ctrl → Ctrl} (hE : ∀ c, E (erasePending c) = E c)
    (ok : LogEntry → Prop) (s : Store) (c : ExtControl) (p : Option Nat) :
    Step E ok s (user_to_new s c p).2 := by
  have h0 : Step E ok s (s.upd p (fun ctrl => { ctrl with is_new := true })) :=
    step_upd_pending hE ok s p _ (fun _ => rfl)
  have h1 : ∀ f : Ctrl → Ctrl, (∀ c, erasePending (f c) = erasePending c) →
      Step E ok s ((s.upd p (fun ctrl => { ctrl with is_new := true })).upd p f) :=
    fun f hf => step_trans h0 (step_upd_pending hE ok _ p f hf)
  unfold user_to_new
  simp only
  split
  · exact h1 _ (fun _ => rfl)
  · split_ifs <;> first | exact h0 | exact h1 _ (fun _ => rfl)
  · exact h1 _ (fun _ => rfl)

theorem step_user_to_new_chain {E : Ctrl → Ctrl} (hE : ∀ c, E (erasePending c) = E c)
    (ok : LogEntry → Prop) (helpers : List Helper) (cs : List ExtControl) (fuel : Nat) :
    ∀ (idx : Nat) (s : Store), Step E ok s (user_to_new_chain helpers cs fuel idx s).2 := by
  induction fuel with
  | zero => intro idx s; exact step_refl E ok s
  | succ n ih =>
    intro idx s
    unfold user_to_new_chain
    simp only
    split_ifs
    · exact step_user_to_new hE ok _ _ _
    · exact step_trans (step_user_to_new hE ok _ _ _) (ih _ _)

theorem step_try_set_cluster {E : Ctrl → Ctrl} (hE : ∀ c, E (erasePending c) = E c)
    (fh : Option Nat) (h : Handler) (helpers : List Helper) (i : Nat) (mref : Option Nat)
    (cs : ExtControls) (s : Store) :
    Step E isTryCall s (try_set_cluster fh h helpers false i mref cs s).2.2 := by
  unfold try_set_cluster
  simp only
  have h1 := step_reset_is_new hE isTryCall (s.get (h.ref mref).ctrl).cluster s
  have h2 := step_user_to_new_chain hE isTryCall helpers cs.controls
    ({ cs with error_idx := i } : ExtControls).count i
    (reset_is_new s (s.get (h.ref mref).ctrl).cluster)
  split_ifs
  · exact step_trans h1 h2
  · exact step_trans (step_trans h1 h2) (step_try_cluster hE _ _ _)
  · exact step_trans (step_trans h1 h2) (step_try_cluster hE _ _ _)

theorem step_try_set_loop {E : Ctrl → Ctrl} (hE : ∀ c, E (erasePending c) = E c)
    (fh : Option Nat) (h : Handler) (helpers : List Helper) (l : List Nat) :
    ∀ (cs : ExtControls) (s : Store),
      Step E isTryCall s (try_set_loop fh h helpers false l cs s).2.2 := by
  induction l with
  | nil => intro cs s; exact step_refl E isTryCall s
  | cons i rest ih =>
    intro cs s
    unfold try_set_loop
    split
    · exact ih cs s
    · simp only
      split_ifs
      · exact step_try_set_cluster hE _ _ _ _ _ _ _
      · exact step_trans (step_try_set_cluster hE _ _ _ _ _ _ _) (ih _ _)

/-- A try of a batch is a step that changes pending values and `is_new` marks only and
calls `try_ctrl` only. -/
theorem step_try_ext (hdl : Option Handler) (s : Store) (cs : ExtControls) :
    Step erasePending isTryCall s (v4l2_try_ext_ctrls hdl s cs).store := by
  have hE : ∀ c, erasePending (erasePending c) = erasePending c := fun _ => rfl
  unfold v4l2_try_ext_ctrls try_set_ext_ctrls
  simp only
  cases hdl with
  | none => exact step_refl _ _ s
  | some h =>
    simp only
    split_ifs <;> first | exact step_refl _ _ s | exact step_try_set_loop hE _ _ _ _ _ _

/-- Claim C9. `tryExtended` never mutates committed state: for every registry state, every
batch and every outcome, after the call the committed value and the flags of every control
are what they were, and the only outside effects of the call are calls of the backend
`try_ctrl` (which acts on pending values only): the backend `s_ctrl` is not invoked and no
change event is queued. -/
theorem C9_try_never_mutates_committed (hdl : Option Handler) (s : Store)
    (cs : ExtControls) :
    (v4l2_try_ext_ctrls hdl s cs).store.ctrls.map Ctrl.committed =
      s.ctrls.map Ctrl.committed ∧
    ∃ l, (v4l2_try_ext_ctrls hdl s cs).store.log = s.log ++ l ∧
      ∀ e ∈ l, ∃ m, e = LogEntry.call .try_ctrl m := by
  obtain ⟨he, l, hl, ht⟩ := step_try_ext hdl s cs
  refine ⟨?_, l, hl, ht⟩
  have hc : Ctrl.committed = (fun c => Ctrl.committed c) ∘ erasePending := by
    funext c; rfl
  rw [hc, ← List.map_map, ← List.map_map, he]

/-! ## Reads and writes of the store -/

theorem length_updAt {α : Type} (f : α → α) (l : List α) : ∀ i, (updAt l i f).length = l.length := by
  induction l with
  | nil => intro i; rfl
  | cons x xs ih =>
    intro i
    cases i with
    | zero => rfl
    | succ n => simp [updAt, ih]

theorem getD_updAt {α : Type} (f : α → α) (d : α) (l : List α) :
    ∀ i j, (updAt l i f).getD j d = if i = j ∧ j < l.length then f (l.getD j d) else l.getD j d := by
  induction l with
  | nil => intro i j; simp [updAt]
  | cons x xs ih =>
    intro i j
    cases i with
    | zero =>
      cases j with
      | zero => simp [updAt]
      | succ m => simp [updAt]
    | succ n =>
      cases j with
      | zero => simp [updAt]
      | succ m =>
        simp only [updAt, List.getD_cons_succ, ih, List.length_cons, Nat.add_lt_add_iff_right,
          Nat.add_right_cancel_iff]

theorem get_upd (s : Store) (p q : Option Nat) (f : Ctrl → Ctrl) :
    (s.upd p f).get q = if p = q ∧ s.valid q then f (s.get q) else s.get q := by
  cases p with
  | none =>
    have : ¬ (none = q ∧ s.valid q) := by
      rintro ⟨rfl, h⟩; exact h
    rw [if_neg this]; rfl
  | some i =>
    cases q with
    | none => simp [Store.upd, Store.get]
    | some j =>
      simp only [Store.upd, Store.get, getD_updAt, Store.valid, Option.some.injEq]

theorem get_of_not_valid (s : Store) (q : Option Nat) (h : ¬ s.valid q) : s.get q = Ctrl.null := by
  cases q with
  | none => rfl
  | some j =>
    simp only [Store.get]
    exact List.getD_eq_default _ _ (Nat.le_of_not_lt h)

/-- A write that fixes `Ctrl.null` is seen by every read. -/
theorem get_upd_null (s : Store) (p q : Option Nat) (f : Ctrl → Ctrl)
    (hf : f Ctrl.null = Ctrl.null) :
    (s.upd p f).get q = if p = q then f (s.get q) else s.get q := by
  rw [get_upd]
  by_cases hv : s.valid q
  · simp [hv]
  · by_cases hpq : p = q
    · simp [hv, hpq, get_of_not_valid s q hv, hf]
    · simp [hpq]

theorem valid_upd (s : Store) (p q : Option Nat) (f : Ctrl → Ctrl) :
    (s.upd p f).valid q ↔ s.valid q := by
  cases p with
  | none => rfl
  | some i => cases q <;> simp [Store.valid, Store.upd, length_updAt]

theorem step_get {E : Ctrl → Ctrl} {ok : LogEntry → Prop} {s s' : Store} (h : Step E ok s s')
    (x : Option Nat) : E (s'.get x) = E (s.get x) := by
  cases x with
  | none => rfl
  | some i =>
    have := congrArg (fun l => l.getD i (E Ctrl.null)) h.1
    simpa [Store.get, List.getD_map] using this

theorem step_valid {E : Ctrl → Ctrl} {ok : LogEntry → Prop} {s s' : Store} (h : Step E ok s s')
    (x : Option Nat) : s'.valid x ↔ s.valid x := by
  have := congrArg List.length h.1
  simp only [List.length_map] at this
  cases x <;> simp [Store.valid, this]

/-! ## A set is a step that leaves the static fields alone -/

theorem clearFlag_testBit (f X : Nat) (k : Nat) :
    (clearFlag f X).testBit k = (f.testBit k && !X.testBit k) := by
  unfold clearFlag
  simp only [Nat.testBit_xor, Nat.testBit_and]
  cases f.testBit k <;> cases X.testBit k <;> rfl

theorem clearFlag_clearFlag (f X : Nat) : clearFlag (clearFlag f X) X = clearFlag f X := by
  apply Nat.eq_of_testBit_eq
  intro k
  simp only [clearFlag_testBit]
  cases f.testBit k <;> cases X.testBit k <;> rfl

theorem clearFlag_or (f X : Nat) : clearFlag (f ||| X) X = clearFlag f X := by
  apply Nat.eq_of_testBit_eq
  intro k
  simp only [clearFlag_testBit, Nat.testBit_or]
  cases f.testBit k <;> cases X.testBit k <;> rfl

/-- A flag other than `inactive` is untouched by clearing `inactive`. -/
theorem and_clearFlag_inactive (f : Nat) (k : Nat) (hk : k ≠ 4) :
    clearFlag f V4L2_CTRL_FLAG_INACTIVE &&& 2 ^ k = f &&& 2 ^ k := by
  apply Nat.eq_of_testBit_eq
  intro j
  have h16 : V4L2_CTRL_FLAG_INACTIVE = 2 ^ 4 := rfl
  simp only [Nat.testBit_and, clearFlag_testBit, h16, Nat.testBit_two_pow]
  by_cases hj : k = j
  · subst hj
    have : ¬ (4 = k) := fun h => hk h.symm
    simp [this]
  · simp [hj]

theorem hasFlag_clearFlag_inactive (f : Nat) (k : Nat) (hk : k ≠ 4) :
    hasFlag (clearFlag f V4L2_CTRL_FLAG_INACTIVE) (2 ^ k) = hasFlag f (2 ^ k) := by
  unfold hasFlag
  rw [and_clearFlag_inactive f k hk]

theorem hasFlag_of_eraseDynamic {c c' : Ctrl} (h : eraseDynamic c' = eraseDynamic c) (k : Nat)
    (hk : k ≠ 4) : hasFlag c'.flags (2 ^ k) = hasFlag c.flags (2 ^ k) := by
  have := congrArg Ctrl.flags h
  simp only [eraseDynamic] at this
  rw [← hasFlag_clearFlag_inactive c'.flags k hk, this, hasFlag_clearFlag_inactive c.flags k hk]

theorem eraseDynamic_erasePending (c : Ctrl) : eraseDynamic (erasePending c) = eraseDynamic c := rfl

theorem eraseDynamic_copy_new_to_cur (c : Ctrl) :
    eraseDynamic (copy_new_to_cur c) = eraseDynamic c := by
  unfold copy_new_to_cur; split <;> rfl

theorem step_send_event (E : Ctrl → Ctrl) (s : Store) (fh p : Option Nat) (changes : Nat) :
    Step E (fun _ => True) s (send_event s fh p changes) := by
  unfold send_event
  simp only
  split_ifs
  · exact step_refl _ _ s
  · exact ⟨rfl, _, rfl, fun _ _ => trivial⟩

theorem step_new_to_cur (s : Store) (fh p : Option Nat) (b : Bool) :
    Step eraseDynamic (fun _ => True) s (new_to_cur s fh p b) := by
  unfold new_to_cur
  cases p with
  | none => exact step_refl _ _ s
  | some i =>
    simp only
    have h1 : Step eraseDynamic (fun _ => True) s (s.upd (some i) copy_new_to_cur) :=
      step_upd _ _ s _ _ eraseDynamic_copy_new_to_cur
    have h2 : Step eraseDynamic (fun _ => True) s
        ((s.upd (some i) copy_new_to_cur).upd (some i)
          (fun c => { c with flags := clearFlag c.flags V4L2_CTRL_FLAG_INACTIVE })) := by
      refine step_trans h1 (step_upd _ _ _ _ _ ?_)
      intro c
      simp only [eraseDynamic, clearFlag_clearFlag]
    have h3 : Step eraseDynamic (fun _ => True) s
        (((s.upd (some i) copy_new_to_cur).upd (some i)
          (fun c => { c with flags := clearFlag c.flags V4L2_CTRL_FLAG_INACTIVE })).upd (some i)
          (fun c => { c with flags := c.flags ||| V4L2_CTRL_FLAG_INACTIVE })) := by
      refine step_trans h2 (step_upd _ _ _ _ _ ?_)
      intro c
      simp only [eraseDynamic, clearFlag_or]
    split_ifs <;>
      first
      | exact h1
      | exact h2
      | exact h3
      | exact step_trans h1 (step_send_event _ _ _ _ _)
      | exact step_trans h2 (step_send_event _ _ _ _ _)
      | exact step_trans h3 (step_send_event _ _ _ _ _)

theorem step_commit_cluster (fh : Option Nat) (uf : Bool) (l : List (Option Nat)) :
    ∀ (s : Store) (i : Nat),
      Step eraseDynamic (fun _ => True) s (commit_cluster fh uf s l i) := by
  induction l with
  | nil => intro s i; exact step_refl _ _ s
  | cons p rest ih =>
    intro s i
    exact step_trans (step_new_to_cur s fh p _) (ih _ _)

theorem step_try_or_set_cluster (s : Store) (fh master : Option Nat) (set : Bool) :
    Step eraseDynamic (fun _ => True) s (try_or_set_cluster s fh master set).2 := by
  have hE := eraseDynamic_erasePending
  unfold try_or_set_cluster
  have hst := step_stage_cluster hE (fun _ => True) set (s.get master).cluster s
  generalize stage_cluster set s (s.get master).cluster = r at hst
  obtain ⟨e, s1⟩ := r
  cases e with
  | some err => exact hst
  | none =>
    simp only
    have h1 := step_trans hst (step_call_op hE (fun _ => True) s1 master .try_ctrl trivial)
    split_ifs
    · exact h1
    · exact step_trans h1 (step_call_op hE (fun _ => True) _ master .s_ctrl trivial)
    · exact step_trans (step_trans h1 (step_call_op hE (fun _ => True) _ master .s_ctrl trivial))
        (step_commit_cluster _ _ _ _ _)

theorem step_set_ctrl (s : Store) (fh p : Option Nat) (v : Int) :
    Step eraseDynamic (fun _ => True) s (set_ctrl s fh p v).2.2 := by
  have hE := eraseDynamic_erasePending
  unfold set_ctrl
  simp only
  split_ifs
  · exact step_refl _ _ s
  · refine step_trans (step_trans (step_reset_is_new hE _ _ s)
      (step_upd_pending hE _ _ p _ ?_)) (step_try_or_set_cluster _ _ _ _)
    intro c; rfl

/-! ## The stores along a set -/

theorem get_congr {s s' : Store} (h : s'.ctrls = s.ctrls) (x : Option Nat) : s'.get x = s.get x := by
  cases x with
  | none => rfl
  | some i => simp only [Store.get, h]

theorem valid_congr {s s' : Store} (h : s'.ctrls = s.ctrls) (x : Option Nat) :
    s'.valid x ↔ s.valid x := by
  cases x with
  | none => rfl
  | some i => simp only [Store.valid, h]

theorem copy_cur_to_new_null : copy_cur_to_new Ctrl.null = Ctrl.null := rfl

theorem copy_cur_to_new_idem (c : Ctrl) : copy_cur_to_new (copy_cur_to_new c) = copy_cur_to_new c := by
  unfold copy_cur_to_new
  cases h : c.type <;> simp [h]

theorem copy_cur_to_new_is_new (c : Ctrl) : (copy_cur_to_new c).is_new = c.is_new := by
  unfold copy_cur_to_new; split <;> rfl

theorem copy_cur_to_new_flags (c : Ctrl) : (copy_cur_to_new c).flags = c.flags := by
  unfold copy_cur_to_new; split <;> rfl

theorem cur_to_new_get (s : Store) (p x : Option Nat) :
    (cur_to_new s p).get x = if p = x then copy_cur_to_new (s.get x) else s.get x :=
  get_upd_null s p x _ copy_cur_to_new_null

theorem reset_is_new_get (l : List (Option Nat)) : ∀ (s : Store) (x : Option Nat),
    (reset_is_new s l).get x =
      if x ∈ l then { s.get x with is_new := false } else s.get x := by
  induction l with
  | nil => intro s x; simp [reset_is_new]
  | cons p rest ih =>
    intro s x
    unfold reset_is_new
    rw [ih, get_upd_null s p x _ rfl]
    by_cases h1 : x ∈ rest
    · by_cases h2 : p = x
      · simp [h1, h2]
      · simp [h1, h2]
    · by_cases h2 : p = x
      · simp [h1, h2]
      · have : ¬ x = p := fun h => h2 h.symm
        simp [h1, h2, this]

theorem cluster_cur_to_new_get (l : List (Option Nat)) : ∀ (s : Store) (x : Option Nat),
    (cluster_cur_to_new s l).get x =
      if x ∈ l then copy_cur_to_new (s.get x) else s.get x := by
  induction l with
  | nil => intro s x; simp [cluster_cur_to_new]
  | cons p rest ih =>
    intro s x
    unfold cluster_cur_to_new
    rw [ih, cur_to_new_get]
    by_cases h1 : x ∈ rest
    · by_cases h2 : p = x
      · simp [h1, h2, copy_cur_to_new_idem]
      · simp [h1, h2]
    · by_cases h2 : p = x
      · simp [h1, h2]
      · have : ¬ x = p := fun h => h2 h.symm
        simp [h1, h2, this]

theorem stage_cluster_cons_none (set : Bool) (s : Store) (rest : List (Option Nat)) :
    stage_cluster set s (none :: rest) = stage_cluster set s rest := rfl

theorem stage_cluster_cons_some (set : Bool) (s : Store) (i : Nat) (rest : List (Option Nat)) :
    stage_cluster set s (some i :: rest) =
      if (s.get (some i)).is_new = false then stage_cluster set (cur_to_new s (some i)) rest
      else if set = true ∧ hasFlag (s.get (some i)).flags V4L2_CTRL_FLAG_GRABBED = true then
        (some (-EBUSY), s)
      else stage_cluster set s rest := by
  conv => lhs; unfold stage_cluster
  simp only
  cases (s.get (some i)).is_new <;> cases set <;>
    cases hasFlag (s.get (some i)).flags V4L2_CTRL_FLAG_GRABBED <;> rfl

/-- What the first loop of `try_or_set_cluster` leaves when it does not fail. -/
theorem stage_cluster_get (set : Bool) (l : List (Option Nat)) : ∀ (s : Store),
    (stage_cluster set s l).1 = none → ∀ x : Option Nat,
    (stage_cluster set s l).2.get x =
      if x ∈ l ∧ (s.get x).is_new = false then copy_cur_to_new (s.get x) else s.get x := by
  induction l with
  | nil => intro s _ x; simp [stage_cluster]
  | cons p rest ih =>
    intro s hnone x
    cases p with
    | none =>
      rw [stage_cluster_cons_none] at hnone ⊢
      rw [ih s hnone x]
      by_cases hx : x = none
      · subst hx
        have : copy_cur_to_new (s.get none) = s.get none := rfl
        simp [this]
      · simp [hx]
    | some i =>
      rw [stage_cluster_cons_some] at hnone ⊢
      by_cases hn : (s.get (some i)).is_new = false
      · -- no new value: the current value is copied
        rw [if_pos hn] at hnone ⊢
        rw [ih _ hnone x, cur_to_new_get]
        by_cases hx : some i = x
        · subst hx
          simp [hn, copy_cur_to_new_idem, copy_cur_to_new_is_new]
        · have : ¬ x = some i := fun h => hx h.symm
          simp [hx, this]
      · rw [if_neg hn] at hnone ⊢
        by_cases hg : set = true ∧ hasFlag (s.get (some i)).flags V4L2_CTRL_FLAG_GRABBED = true
        · rw [if_pos hg] at hnone; cases hnone
        · rw [if_neg hg] at hnone ⊢
          rw [ih _ hnone x]
          by_cases hx : some i = x
          · subst hx
            simp [hn]
          · have : ¬ x = some i := fun h => hx h.symm
            simp [this]

/-- The first loop of `try_or_set_cluster` does not fail on a set exactly when no member
with a new value is grabbed. -/
theorem stage_cluster_none_iff (l : List (Option Nat)) : ∀ (s : Store),
    (stage_cluster true s l).1 = none ↔
      ∀ x ∈ l, (s.get x).is_new = true →
        hasFlag (s.get x).flags V4L2_CTRL_FLAG_GRABBED = false := by
  induction l with
  | nil => intro s; simp [stage_cluster]
  | cons p rest ih =>
    intro s
    cases p with
    | none =>
      rw [stage_cluster_cons_none, ih s]
      constructor
      · intro h x hx hn
        rcases List.mem_cons.1 hx with rfl | hx
        · cases hn
        · exact h x hx hn
      · intro h x hx hn
        exact h x (List.mem_cons_of_mem _ hx) hn
    | some i =>
      rw [stage_cluster_cons_some]
      by_cases hn : (s.get (some i)).is_new = false
      · rw [if_pos hn, ih]
        constructor
        · intro h x hx hnew
          rcases List.mem_cons.1 hx with rfl | hx
          · rw [hn] at hnew; cases hnew
          · have := h x hx
            rw [cur_to_new_get] at this
            by_cases hxi : some i = x
            · subst hxi; rw [hn] at hnew; cases hnew
            · simp only [hxi, if_false] at this
              exact this hnew
        · intro h x hx hnew
          rw [cur_to_new_get] at hnew ⊢
          by_cases hxi : some i = x
          · subst hxi
            simp only [if_true, copy_cur_to_new_is_new] at hnew
            rw [hn] at hnew; cases hnew
          · simp only [hxi, if_false] at hnew ⊢
            exact h x (List.mem_cons_of_mem _ hx) hnew
      · rw [if_neg hn]
        have hn' : (s.get (some i)).is_new = true := by simpa using hn
        by_cases hg : hasFlag (s.get (some i)).flags V4L2_CTRL_FLAG_GRABBED = true
        · rw [if_pos ⟨rfl, hg⟩]
          constructor
          · intro h; cases h
          · intro h
            have := h (some i) (List.mem_cons_self _ _) hn'
            rw [hg] at this; cases this
        · rw [if_neg (fun h => hg h.2), ih]
          constructor
          · intro h x hx hnew
            rcases List.mem_cons.1 hx with rfl | hx
            · simpa using hg
            · exact h x hx hnew
          · intro h x hx hnew
            exact h x (List.mem_cons_of_mem _ hx) hnew

theorem value_changed_scalar {c : Ctrl} (h : scalarType c.type) :
    value_changed c = (c.new.val != c.cur.val) := by
  obtain ⟨h1, h2, h3⟩ := h
  unfold value_changed
  cases ht : c.type <;> simp_all

theorem copy_new_to_cur_scalar {c : Ctrl} (h : scalarType c.type) :
    (copy_new_to_cur c).cur.val = c.new.val := by
  obtain ⟨h1, h2, h3⟩ := h
  unfold copy_new_to_cur
  cases ht : c.type <;> simp_all

theorem copy_cur_to_new_scalar {c : Ctrl} (h : scalarType c.type) :
    (copy_cur_to_new c).new.val = c.cur.val := by
  obtain ⟨h1, h2, h3⟩ := h
  unfold copy_cur_to_new
  cases ht : c.type <;> simp_all

theorem copy_cur_to_new_cur (c : Ctrl) : (copy_cur_to_new c).cur = c.cur := by
  unfold copy_cur_to_new; split <;> rfl

theorem copy_cur_to_new_type (c : Ctrl) : (copy_cur_to_new c).type = c.type := by
  unfold copy_cur_to_new; split <;> rfl

theorem value_changed_copy_cur_to_new (c : Ctrl) (h : c.type ≠ .BUTTON) :
    value_changed (copy_cur_to_new c) = false := by
  unfold value_changed copy_cur_to_new
  cases ht : c.type <;> simp_all

/-- The loop of `cluster_changed` finds no change exactly when no member is a button and
no member has a new value that differs from the current one. -/
theorem cluster_changed_loop_false_iff (s : Store) (l : List (Option Nat)) :
    cluster_changed_loop s l = false ↔
      ∀ i, some i ∈ l → (s.get (some i)).type ≠ .BUTTON ∧
        value_changed (s.get (some i)) = false := by
  induction l with
  | nil => simp [cluster_changed_loop]
  | cons p rest ih =>
    cases p with
    | none =>
      unfold cluster_changed_loop
      rw [ih]
      simp
    | some j =>
      unfold cluster_changed_loop
      simp only [List.mem_cons, Option.some.injEq]
      cases ht : (s.get (some j)).type <;>
        simp only [ht, value_changed] <;>
        (try split_ifs) <;>
        (try rw [ih]) <;>
        constructor <;> intro h <;>
        first
        | (intro i hi
           rcases hi with rfl | hi
           · simp_all [value_changed]
           · exact h i hi)
        | (intro i hi; exact h i (Or.inr hi))
        | (exfalso; have := h j (Or.inl rfl); simp_all [value_changed])
        | cases h

theorem call_op_absent (s : Store) (m : Option Nat) (op : OpKind)
    (h : opAbsent (s.get m) op) : call_op s m op = (0, s) := by
  unfold call_op
  simp only
  split
  · rfl
  · rename_i o ho
    rw [h o ho]

theorem setPending_nil (ps : List (Option Nat)) (s : Store) : setPending s ps [] = s := by
  cases ps with
  | nil => rfl
  | cons p rest => cases p <;> rfl

theorem call_op_quiet (s : Store) (m : Option Nat) (op : OpKind)
    (h : opQuiet (s.get m) op) : (call_op s m op).2.ctrls = s.ctrls := by
  unfold call_op
  simp only
  split
  · rfl
  · rename_i o ho
    split
    · rfl
    · rename_i f hf
      simp only [h o f ho hf, setPending_nil]

theorem upd_upd (s : Store) (p : Option Nat) (f g : Ctrl → Ctrl) :
    (s.upd p f).upd p g = s.upd p (g ∘ f) := by
  cases p with
  | none => rfl
  | some i =>
    simp only [Store.upd]
    congr 1
    generalize s.ctrls = l
    induction l generalizing i with
    | nil => rfl
    | cons x xs ih =>
      cases i with
      | zero => rfl
      | succ n => simp only [updAt, ih]

theorem send_event_ctrls (s : Store) (fh p : Option Nat) (ch : Nat) :
    (send_event s fh p ch).ctrls = s.ctrls := by
  unfold send_event
  simp only
  split_ifs <;> rfl

/-- What `new_to_cur` does to the controls: the new value of the one control is copied to
its current value, and its flags may change. -/
theorem new_to_cur_ctrls (s : Store) (fh y : Option Nat) (b : Bool) :
    ∃ g : Ctrl → Ctrl, (∀ c, g c = { copy_new_to_cur c with flags := (g c).flags }) ∧
      (new_to_cur s fh y b).ctrls = (s.upd y g).ctrls := by
  unfold new_to_cur
  cases y with
  | none => exact ⟨copy_new_to_cur, fun _ => rfl, rfl⟩
  | some i =>
    simp only
    have e1 : ∃ g : Ctrl → Ctrl, (∀ c, g c = { copy_new_to_cur c with flags := (g c).flags }) ∧
        (s.upd (some i) copy_new_to_cur).ctrls = (s.upd (some i) g).ctrls :=
      ⟨copy_new_to_cur, fun _ => rfl, rfl⟩
    have e2 : ∃ g : Ctrl → Ctrl, (∀ c, g c = { copy_new_to_cur c with flags := (g c).flags }) ∧
        ((s.upd (some i) copy_new_to_cur).upd (some i)
          (fun c => { c with flags := clearFlag c.flags V4L2_CTRL_FLAG_INACTIVE })).ctrls =
          (s.upd (some i) g).ctrls :=
      ⟨_, fun _ => rfl, by rw [upd_upd]⟩
    have e3 : ∃ g : Ctrl → Ctrl, (∀ c, g c = { copy_new_to_cur c with flags := (g c).flags }) ∧
        (((s.upd (some i) copy_new_to_cur).upd (some i)
          (fun c => { c with flags := clearFlag c.flags V4L2_CTRL_FLAG_INACTIVE })).upd (some i)
          (fun c => { c with flags := c.flags ||| V4L2_CTRL_FLAG_INACTIVE })).ctrls =
          (s.upd (some i) g).ctrls :=
      ⟨_, fun _ => rfl, by rw [upd_upd, upd_upd]⟩
    split_ifs <;> (try simp only [send_event_ctrls]) <;> first | exact e1 | exact e2 | exact e3

theorem copy_new_to_cur_new (c : Ctrl) : (copy_new_to_cur c).new = c.new := by
  unfold copy_new_to_cur; split <;> rfl

theorem copy_new_to_cur_type (c : Ctrl) : (copy_new_to_cur c).type = c.type := by
  unfold copy_new_to_cur; split <;> rfl

/-- After `new_to_cur` on `y`, a scalar control `x` that had the new value `q` still has
it, and its current value is `q` if it was or if `x` is `y`. -/
theorem new_to_cur_scalar (s : Store) (fh y x : Option Nat) (b : Bool) (q : Int)
    (hty : scalarType (s.get x).type) (hK : (s.get x).new.val = q) :
    scalarType ((new_to_cur s fh y b).get x).type ∧
    ((new_to_cur s fh y b).get x).new.val = q ∧
    (((s.get x).cur.val = q ∨ (y = x ∧ s.valid x)) →
      ((new_to_cur s fh y b).get x).cur.val = q) ∧
    ((new_to_cur s fh y b).valid x ↔ s.valid x) := by
  obtain ⟨g, hg, hc⟩ := new_to_cur_ctrls s fh y b
  rw [get_congr hc x, valid_congr hc x, get_upd, valid_upd]
  by_cases h : y = x ∧ s.valid x
  · rw [if_pos h, hg]
    refine ⟨?_, ?_, ?_, Iff.rfl⟩
    · simpa [copy_new_to_cur_type] using hty
    · simpa [copy_new_to_cur_new] using hK
    · intro _
      simp only [copy_new_to_cur_scalar hty]
      exact hK
  · rw [if_neg h]
    refine ⟨hty, hK, ?_, Iff.rfl⟩
    intro h'
    rcases h' with h' | h'
    · exact h'
    · exact absurd h' h

/-- After the last loop of `try_or_set_cluster`, a scalar member of the cluster whose new
value was `q` has the current value `q`. -/
theorem commit_cluster_scalar (fh : Option Nat) (uf : Bool) (q : Int) (x : Option Nat)
    (l : List (Option Nat)) : ∀ (s : Store) (i : Nat),
    scalarType (s.get x).type → (s.get x).new.val = q →
    ((s.get x).cur.val = q ∨ (x ∈ l ∧ s.valid x)) →
    ((commit_cluster fh uf s l i).get x).cur.val = q := by
  induction l with
  | nil =>
    intro s i _ _ h
    rcases h with h | h
    · exact h
    · simp at h
  | cons y rest ih =>
    intro s i hty hK h
    unfold commit_cluster
    obtain ⟨h1, h2, h3, h4⟩ := new_to_cur_scalar s fh y x (uf && decide (0 < i)) q hty hK
    apply ih _ _ h1 h2
    rcases h with h | ⟨hmem, hv⟩
    · exact Or.inl (h3 (Or.inl h))
    · rcases List.mem_cons.1 hmem with rfl | hmem
      · exact Or.inl (h3 (Or.inr ⟨rfl, hv⟩))
      · exact Or.inr ⟨hmem, h4.2 hv⟩

theorem erasePending_fields {c c' : Ctrl} (h : erasePending c' = erasePending c) :
    c'.cluster = c.cluster ∧ c'.ops = c.ops ∧ c'.type = c.type ∧ c'.flags = c.flags ∧
    c'.cur = c.cur := by
  have h1 := congrArg Ctrl.cluster h
  have h2 := congrArg Ctrl.ops h
  have h3 := congrArg Ctrl.type h
  have h4 := congrArg Ctrl.flags h
  have h5 := congrArg Ctrl.cur h
  exact ⟨h1, h2, h3, h4, h5⟩

theorem erasePending_idem (c : Ctrl) : erasePending (erasePending c) = erasePending c := rfl

theorem stage_cluster_err (set : Bool) (l : List (Option Nat)) : ∀ (s : Store) (err : Int),
    (stage_cluster set s l).1 = some err → err = -EBUSY := by
  induction l with
  | nil => intro s err h; simp [stage_cluster] at h
  | cons p rest ih =>
    intro s err h
    cases p with
    | none => rw [stage_cluster_cons_none] at h; exact ih s err h
    | some i =>
      rw [stage_cluster_cons_some] at h
      split_ifs at h
      · exact ih _ err h
      · simp only [Option.some.injEq] at h; exact h.symm
      · exact ih _ err h

theorem set_ctrl_staged_step (s : Store) (p : Option Nat) (q : Int) :
    Step erasePending (fun _ => False) s (set_ctrl_staged s p q) := by
  unfold set_ctrl_staged
  refine step_trans (step_reset_is_new erasePending_idem _ _ s)
    (step_upd_pending erasePending_idem _ _ p _ ?_)
  intro c; rfl

theorem set_ctrl_staged_get_self (s : Store) (p : Option Nat) (q : Int) (hv : s.valid p) :
    ((set_ctrl_staged s p q).get p).new.val = q ∧
    ((set_ctrl_staged s p q).get p).is_new = true := by
  unfold set_ctrl_staged
  have hv' : (reset_is_new s (s.get ((s.get p).cluster.headD none)).cluster).valid p :=
    (step_valid (step_reset_is_new erasePending_idem (fun _ => False) _ s) p).2 hv
  rw [get_upd, if_pos ⟨rfl, hv'⟩]
  exact ⟨rfl, rfl⟩

theorem set_ctrl_staged_get_other (s : Store) (p x : Option Nat) (q : Int) (hx : p ≠ x)
    (hmem : x ∈ (s.get ((s.get p).cluster.headD none)).cluster) :
    ((set_ctrl_staged s p q).get x).is_new = false := by
  unfold set_ctrl_staged
  rw [get_upd, if_neg (fun h => hx h.1), reset_is_new_get, if_pos hmem]

theorem set_ctrl_eq (s : Store) (fh p : Option Nat) (v : Int) :
    set_ctrl s fh p v =
      if (validate_new_int (s.get p) v).1 ≠ 0 then
        ((validate_new_int (s.get p) v).1, (validate_new_int (s.get p) v).2, s)
      else
        ((try_or_set_cluster (set_ctrl_staged s p (validate_new_int (s.get p) v).2) fh
            ((s.get p).cluster.headD none) true).1,
          ((try_or_set_cluster (set_ctrl_staged s p (validate_new_int (s.get p) v).2) fh
            ((s.get p).cluster.headD none) true).2.get p).cur.val,
          (try_or_set_cluster (set_ctrl_staged s p (validate_new_int (s.get p) v).2) fh
            ((s.get p).cluster.headD none) true).2) := rfl

/-- A successful set of a cluster without a validate callback, whose apply callback leaves
the pending values alone: a scalar member with a new value ends with that value committed,
and it was not grabbed. -/
theorem try_or_set_cluster_commits (s : Store) (fh m p : Option Nat) (q : Int)
    (hv : s.valid p) (hmem : p ∈ (s.get m).cluster) (hty : scalarType (s.get p).type)
    (hq : (s.get p).new.val = q) (hnew : (s.get p).is_new = true)
    (hTry : opAbsent (s.get m) .try_ctrl) (hSet : opQuiet (s.get m) .s_ctrl)
    (hret : (try_or_set_cluster s fh m true).1 = 0) :
    ((try_or_set_cluster s fh m true).2.get p).cur.val = q ∧
    hasFlag (s.get p).flags V4L2_CTRL_FLAG_GRABBED = false := by
  have hstep := step_stage_cluster erasePending_idem (fun _ => False) true (s.get m).cluster s
  have hget := stage_cluster_get true (s.get m).cluster s
  have hiff := stage_cluster_none_iff (s.get m).cluster s
  have herr := stage_cluster_err true (s.get m).cluster s
  unfold try_or_set_cluster at hret ⊢
  generalize stage_cluster true s (s.get m).cluster = st at hstep hget hiff herr hret ⊢
  obtain ⟨e, s3⟩ := st
  cases e with
  | some err =>
    exfalso
    simp only at hret
    have := herr err rfl
    rw [hret] at this
    simp [EBUSY] at this
  | none =>
    simp only at hstep hget hiff hret ⊢
    have hget := hget trivial
    have hng := hiff.1 trivial p hmem hnew
    refine ⟨?_, hng⟩
    -- the staged store
    have hp3 : s3.get p = s.get p := by
      rw [hget p, if_neg]
      rintro ⟨_, h⟩
      rw [hnew] at h; cases h
    obtain ⟨hcl, hops, _, _, _⟩ := erasePending_fields (step_get hstep m)
    have hTry3 : opAbsent (s3.get m) .try_ctrl := by
      intro o ho; rw [hops] at ho; exact hTry o ho
    have hSet3 : opQuiet (s3.get m) .s_ctrl := by
      intro o f ho; rw [hops] at ho; exact hSet o f ho
    rw [call_op_absent s3 m .try_ctrl hTry3] at hret ⊢
    simp only [ne_eq, not_true_eq_false, Bool.true_eq_false, false_or] at hret ⊢
    by_cases hch : cluster_changed s3 m = false
    · rw [if_pos hch]
      simp only
      unfold cluster_changed at hch
      rw [hcl] at hch
      cases p with
      | none => exact absurd hv (by simp [Store.valid])
      | some i =>
        have := ((cluster_changed_loop_false_iff s3 _).1 hch i hmem).2
        rw [value_changed_scalar (by rw [hp3]; exact hty)] at this
        simp only [bne_eq_false_iff_eq] at this
        rw [← this, hp3]; exact hq
    · rw [if_neg hch] at hret ⊢
      have hc := call_op_quiet s3 m .s_ctrl hSet3
      by_cases hr2 : (call_op s3 m .s_ctrl).1 ≠ 0
      · rw [if_pos hr2] at hret
        exact absurd hret hr2
      · rw [if_neg hr2]
        simp only
        apply commit_cluster_scalar
        · rw [get_congr hc, hp3]; exact hty
        · rw [get_congr hc, hp3]; exact hq
        · right
          refine ⟨?_, ?_⟩
          · rw [get_congr hc, hcl]; exact hmem
          · rw [valid_congr hc, step_valid hstep]; exact hv

/-- A set of a cluster without a validate callback and without button members, in which
the one member with a new value has it equal to its current value and is not grabbed:
nothing is applied and nothing is committed. -/
theorem try_or_set_cluster_no_change (s : Store) (fh m p : Option Nat)
    (hmem : p ∈ (s.get m).cluster) (hty : scalarType (s.get p).type)
    (hq : (s.get p).new.val = (s.get p).cur.val) (hnew : (s.get p).is_new = true)
    (hothers : ∀ x ∈ (s.get m).cluster, p ≠ x → (s.get x).is_new = false)
    (hnb : ∀ x ∈ (s.get m).cluster, (s.get x).type ≠ .BUTTON)
    (hng : hasFlag (s.get p).flags V4L2_CTRL_FLAG_GRABBED = false)
    (hTry : opAbsent (s.get m) .try_ctrl) :
    (try_or_set_cluster s fh m true).1 = 0 ∧
    Step erasePending (fun _ => False) s (try_or_set_cluster s fh m true).2 := by
  have hstep := step_stage_cluster erasePending_idem (fun _ => False) true (s.get m).cluster s
  have hget := stage_cluster_get true (s.get m).cluster s
  have hiff := stage_cluster_none_iff (s.get m).cluster s
  have hnone : (stage_cluster true s (s.get m).cluster).1 = none := by
    rw [hiff]
    intro x hx hxn
    by_cases hpx : p = x
    · subst hpx; exact hng
    · rw [hothers x hx hpx] at hxn; cases hxn
  unfold try_or_set_cluster
  generalize stage_cluster true s (s.get m).cluster = st at hstep hget hnone ⊢
  obtain ⟨e, s3⟩ := st
  simp only at hnone
  subst hnone
  simp only at hstep hget ⊢
  have hget := hget trivial
  obtain ⟨hcl, hops, _, _, _⟩ := erasePending_fields (step_get hstep m)
  have hTry3 : opAbsent (s3.get m) .try_ctrl := by
    intro o ho; rw [hops] at ho; exact hTry o ho
  rw [call_op_absent s3 m .try_ctrl hTry3]
  have hch : cluster_changed s3 m = false := by
    unfold cluster_changed
    rw [hcl, cluster_changed_loop_false_iff]
    intro i hi
    rw [hget (some i)]
    by_cases hpx : p = some i
    · subst hpx
      rw [if_neg (by rintro ⟨_, h⟩; rw [hnew] at h; cases h)]
      refine ⟨hnb _ hi, ?_⟩
      rw [value_changed_scalar hty, hq]
      simp
    · rw [if_pos ⟨hi, hothers _ hi hpx⟩]
      refine ⟨by rw [copy_cur_to_new_type]; exact hnb _ hi, ?_⟩
      exact value_changed_copy_cur_to_new _ (hnb _ hi)
  simp only [hch, or_true, if_true]
  exact ⟨trivial, hstep⟩

/-! ## Validation is idempotent -/

theorem validate_new_int_eraseDynamic (c : Ctrl) (v : Int) :
    validate_new_int (eraseDynamic c) v = validate_new_int c v := rfl

theorem validate_new_int_congr {c c' : Ctrl} (h : eraseDynamic c' = eraseDynamic c) (v : Int) :
    validate_new_int c' v = validate_new_int c v := by
  rw [← validate_new_int_eraseDynamic c', h, validate_new_int_eraseDynamic]

theorem u32_s32 (x : Int) : u32 (s32 x) = u32 x := by
  unfold u32 s32; omega

theorem and32_idem (v m : Int) : and32 (and32 v m) m = and32 v m := by
  unfold and32
  rw [u32_s32]
  have hm : 0 ≤ u32 m ∧ u32 m < 4294967296 := by unfold u32; omega
  have hlt : ((u32 v).toNat &&& (u32 m).toNat) < 2 ^ 32 := by
    apply Nat.and_lt_two_pow
    have : (u32 m).toNat < 4294967296 := by omega
    simpa using this
  have hu : u32 (((u32 v).toNat &&& (u32 m).toNat : Nat) : Int) =
      (((u32 v).toNat &&& (u32 m).toNat : Nat) : Int) := by
    apply u32_of_range
    · exact Int.ofNat_nonneg _
    · have : (2 : Nat) ^ 32 = 4294967296 := by norm_num
      omega
  rw [hu, Int.toNat_ofNat, Nat.and_assoc, Nat.and_self]

/-- Validation is idempotent: the validated value passes validation unchanged, for an
integer control provided the bias of the validated value does not overflow. -/
theorem validate_new_int_idem (c : Ctrl) (v : Int) (h0 : (validate_new_int c v).1 = 0)
    (hint : c.type = .INTEGER → isS32 c.minimum ∧ isS32 c.maximum ∧ c.minimum ≤ c.maximum ∧
      0 < c.step ∧ (validate_new_int c v).2 + (c.step / 2 : Nat) ≤ 2147483647) :
    validate_new_int c (validate_new_int c v).2 = (0, (validate_new_int c v).2) := by
  cases ht : c.type with
  | INTEGER =>
    obtain ⟨hmin, hmax, hle, hpos, hno⟩ := hint ht
    rw [validate_new_int_integer c v ht hmin hmax hle hpos] at hno ⊢
    simp only at hno ⊢
    obtain ⟨hx0, hx1⟩ := clamp_bounds (s32 (v + (c.step / 2 : Nat))) c.minimum c.maximum hle
    obtain ⟨hq0, hq1⟩ := snap_bounds c.step
      (clamp (s32 (v + (c.step / 2 : Nat))) c.minimum c.maximum - c.minimum) hpos (by omega)
    generalize (clamp (s32 (v + (c.step / 2 : Nat))) c.minimum c.maximum - c.minimum) / c.step
      = k at hno hq0 hq1 ⊢
    rw [validate_new_int_integer c _ ht hmin hmax hle hpos]
    have hb : isS32 (c.minimum + c.step * k + (c.step / 2 : Nat)) := by
      unfold isS32 at hmin ⊢; omega
    rw [s32_of_isS32 hb]
    have hstep : (0 : Int) < c.step := by exact_mod_cast hpos
    have hhalf : ((c.step / 2 : Nat) : Int) < c.step := by omega
    have hk : (clamp (c.minimum + c.step * k + (c.step / 2 : Nat)) c.minimum c.maximum -
        c.minimum) / c.step = k := by
      have hsplit : ∃ t : Int, 0 ≤ t ∧ t < c.step ∧
          clamp (c.minimum + c.step * k + (c.step / 2 : Nat)) c.minimum c.maximum - c.minimum
            = t + c.step * k := by
        unfold clamp
        simp only
        split_ifs
        · exact ⟨c.maximum - c.minimum - c.step * k, by omega, by omega, by omega⟩
        · exact ⟨c.minimum - c.minimum - c.step * k, by omega, by omega, by omega⟩
        · exact ⟨c.maximum - c.minimum - c.step * k, by omega, by omega, by omega⟩
        · exact ⟨(c.step / 2 : Nat), by omega, hhalf, by omega⟩
      obtain ⟨t, ht0, ht1, hte⟩ := hsplit
      rw [hte, Int.add_mul_ediv_left _ _ (ne_of_gt hstep), Int.ediv_eq_zero_of_lt ht0 ht1]
      omega
    rw [hk]
  | BOOLEAN =>
    unfold validate_new_int
    simp only [ht]
    split_ifs <;> simp_all
  | MENU =>
    unfold validate_new_int at h0 ⊢
    simp only [ht] at h0 ⊢
    split_ifs at h0 ⊢ <;> simp_all [ERANGE, EINVAL]
  | BITMASK =>
    unfold validate_new_int
    simp only [ht, and32_idem]
  | BUTTON => unfold validate_new_int; simp only [ht]
  | CTRL_CLASS => unfold validate_new_int; simp only [ht]
  | INTEGER64 => unfold validate_new_int at h0; simp [ht, EINVAL] at h0
  | STRING => unfold validate_new_int at h0; simp [ht, EINVAL] at h0
  | OTHER => unfold validate_new_int at h0; simp [ht, EINVAL] at h0

/-! ## The scalar set and get on a member of a cluster -/

theorem eraseDynamic_fields {c c' : Ctrl} (h : eraseDynamic c' = eraseDynamic c) :
    c'.cluster = c.cluster ∧ c'.ops = c.ops ∧ c'.type = c.type ∧ c'.id = c.id ∧
    c'.is_volatile = c.is_volatile ∧ c'.is_auto = c.is_auto ∧
    c'.manual_mode_value = c.manual_mode_value := by
  have h1 := congrArg Ctrl.cluster h
  have h2 := congrArg Ctrl.ops h
  have h3 := congrArg Ctrl.type h
  have h4 := congrArg Ctrl.id h
  have h5 := congrArg Ctrl.is_volatile h
  have h6 := congrArg Ctrl.is_auto h
  have h7 := congrArg Ctrl.manual_mode_value h
  exact ⟨h1, h2, h3, h4, h5, h6, h7⟩

/-- A successful `set_ctrl` on a scalar member of a cluster without a validate callback,
whose apply callback leaves the pending values alone: the validated value is committed and
returned, and the control was not grabbed. -/
theorem set_ctrl_commits (s : Store) (fh p : Option Nat) (v : Int)
    (hv : s.valid p) (hmem : p ∈ (s.get ((s.get p).cluster.headD none)).cluster)
    (hty : scalarType (s.get p).type)
    (hTry : opAbsent (s.get ((s.get p).cluster.headD none)) .try_ctrl)
    (hSet : opQuiet (s.get ((s.get p).cluster.headD none)) .s_ctrl)
    (hret : (set_ctrl s fh p v).1 = 0) :
    (validate_new_int (s.get p) v).1 = 0 ∧
    (set_ctrl s fh p v).2.1 = (validate_new_int (s.get p) v).2 ∧
    ((set_ctrl s fh p v).2.2.get p).cur.val = (validate_new_int (s.get p) v).2 ∧
    hasFlag (s.get p).flags V4L2_CTRL_FLAG_GRABBED = false := by
  rw [set_ctrl_eq] at hret ⊢
  by_cases hval : (validate_new_int (s.get p) v).1 ≠ 0
  · rw [if_pos hval] at hret; exact absurd hret hval
  · rw [if_neg hval] at hret ⊢
    simp only at hret ⊢
    have hst := set_ctrl_staged_step s p (validate_new_int (s.get p) v).2
    obtain ⟨hq, hnew⟩ := set_ctrl_staged_get_self s p (validate_new_int (s.get p) v).2 hv
    obtain ⟨hcl, hops, _, _, _⟩ := erasePending_fields
      (step_get hst ((s.get p).cluster.headD none))
    obtain ⟨_, _, htp, hfl, _⟩ := erasePending_fields (step_get hst p)
    obtain ⟨h1, h2⟩ := try_or_set_cluster_commits
      (set_ctrl_staged s p (validate_new_int (s.get p) v).2) fh
      ((s.get p).cluster.headD none) p (validate_new_int (s.get p) v).2
      ((step_valid hst p).2 hv) (by rw [hcl]; exact hmem) (by rw [htp]; exact hty) hq hnew
      (by intro o ho; rw [hops] at ho; exact hTry o ho)
      (by intro o f ho; rw [hops] at ho; exact hSet o f ho) hret
    rw [hfl] at h2
    exact ⟨by simpa using hval, h1, h1, h2⟩

/-- A `set_ctrl` with a value that validation leaves as it is and that is the committed
value already, in a cluster without a validate callback and without button members: the
call succeeds, returns the value, and changes pending values and `is_new` marks only. -/
theorem set_ctrl_no_change (s : Store) (fh p : Option Nat) (r : Int)
    (hv : s.valid p) (hmem : p ∈ (s.get ((s.get p).cluster.headD none)).cluster)
    (hty : scalarType (s.get p).type)
    (hnb : ∀ x ∈ (s.get ((s.get p).cluster.headD none)).cluster, (s.get x).type ≠ .BUTTON)
    (hTry : opAbsent (s.get ((s.get p).cluster.headD none)) .try_ctrl)
    (hval : validate_new_int (s.get p) r = (0, r)) (hcur : (s.get p).cur.val = r)
    (hng : hasFlag (s.get p).flags V4L2_CTRL_FLAG_GRABBED = false) :
    (set_ctrl s fh p r).1 = 0 ∧ (set_ctrl s fh p r).2.1 = r ∧
    Step erasePending (fun _ => False) s (set_ctrl s fh p r).2.2 := by
  rw [set_ctrl_eq, hval]
  simp only [ne_eq, not_true_eq_false, if_false]
  have hst := set_ctrl_staged_step s p r
  obtain ⟨hq, hnew⟩ := set_ctrl_staged_get_self s p r hv
  obtain ⟨hcl, hops, _, _, _⟩ := erasePending_fields
    (step_get hst ((s.get p).cluster.headD none))
  obtain ⟨_, _, htp, hfl, hcu⟩ := erasePending_fields (step_get hst p)
  obtain ⟨h1, h2⟩ := try_or_set_cluster_no_change (set_ctrl_staged s p r) fh
    ((s.get p).cluster.headD none) p (by rw [hcl]; exact hmem) (by rw [htp]; exact hty)
    (by rw [hq, hcu, hcur]) hnew
    (by
      intro x hx hpx
      rw [hcl] at hx
      exact set_ctrl_staged_get_other s p x r hpx hx)
    (by
      intro x hx
      rw [hcl] at hx
      rw [(erasePending_fields (step_get hst x)).2.2.1]
      exact hnb x hx)
    (by rw [hfl]; exact hng)
    (by intro o ho; rw [hops] at ho; exact hTry o ho)
  refine ⟨h1, ?_, step_trans hst h2⟩
  rw [(erasePending_fields (step_get (step_trans hst h2) p)).2.2.2.2, hcur]

/-- What `get_ctrl` returns for a readable control whose cluster has no refresh callback:
the committed value. -/
theorem get_ctrl_committed (s : Store) (p : Option Nat) (x : Int)
    (hmem : p ∈ (s.get ((s.get p).cluster.headD none)).cluster)
    (hty : type_is_int (s.get p) = true)
    (hwo : hasFlag (s.get p).flags V4L2_CTRL_FLAG_WRITE_ONLY = false)
    (hG : opAbsent (s.get ((s.get p).cluster.headD none)) .g_volatile_ctrl) :
    (get_ctrl s p x).1 = 0 ∧ (get_ctrl s p x).2.1 = (s.get p).cur.val := by
  unfold get_ctrl
  simp only [hwo, Bool.false_eq_true, if_false]
  split_ifs
  · have hst := step_cluster_cur_to_new erasePending_idem (fun _ => False)
      (s.get ((s.get p).cluster.headD none)).cluster s
    obtain ⟨_, hops, _, _, _⟩ := erasePending_fields
      (step_get hst ((s.get p).cluster.headD none))
    rw [call_op_absent _ _ _ (by intro o ho; rw [hops] at ho; exact hG o ho)]
    simp only
    rw [cluster_cur_to_new_get, if_pos hmem]
    refine ⟨trivial, ?_⟩
    unfold type_is_int at hty
    unfold copy_cur_to_new
    cases ht : (s.get p).type <;> simp_all
  · exact ⟨rfl, rfl⟩

/-! ## The lookup before and after a set -/

theorem get?_step {E : Ctrl → Ctrl} {ok : LogEntry → Prop} {s s' : Store}
    (h : Step E ok s s') (x : Option Nat) : (s'.get? x).map E = (s.get? x).map E := by
  cases x with
  | none => rfl
  | some i =>
    have := congrArg (fun l => l.get? i) h.1
    simpa [Store.get?, List.getElem?_map] using this

theorem refId_step {ok : LogEntry → Prop} {s s' : Store}
    (hs : Step eraseDynamic ok s s') (h : Handler) (r : Nat) : refId h s' r = refId h s r := by
  unfold refId
  split
  · rfl
  · rename_i ref _
    have := congrArg (Option.map (fun c => c.id)) (get?_step hs ref.ctrl)
    simpa [Option.map_map, Function.comp, eraseDynamic] using this

theorem find_private_loop_step {ok : LogEntry → Prop} {s s' : Store}
    (hs : Step eraseDynamic ok s s') (h : Handler) (l : List Nat) :
    ∀ n, find_private_loop h s' l n = find_private_loop h s l n := by
  induction l with
  | nil => intro n; rfl
  | cons r rest ih =>
    intro n
    obtain ⟨_, _, hty, hid, _⟩ := eraseDynamic_fields (step_get hs (h.ref (some r)).ctrl)
    unfold find_private_loop
    simp only [hid, type_is_int, hty, ih]

/-- The lookup does not depend on what a set changes in the store. -/
theorem find_ref_step {ok : LogEntry → Prop} {s s' : Store}
    (hs : Step eraseDynamic ok s s') (h : Handler) (id : Nat) :
    find_ref h s' id = find_ref h s id := by
  have hfun : (fun r => refId h s' r == some (id &&& V4L2_CTRL_ID_MASK)) =
      (fun r => refId h s r == some (id &&& V4L2_CTRL_ID_MASK)) := by
    funext r; rw [refId_step hs]
  have hhit : cacheHit h s' (id &&& V4L2_CTRL_ID_MASK) =
      cacheHit h s (id &&& V4L2_CTRL_ID_MASK) := by
    unfold cacheHit
    split
    · rfl
    · rw [refId_step hs]
  unfold find_ref find_private_ref
  simp only [find_private_loop_step hs, hfun, hhit]

theorem find_ref_hit (h : Handler) (s : Store) (id : Nat)
    (hp : ¬ V4L2_CID_PRIVATE_BASE ≤ id &&& V4L2_CTRL_ID_MASK) (hc : cacheHit h s (id &&& V4L2_CTRL_ID_MASK) = true) :
    find_ref h s id = (h.cached, h) := by
  unfold find_ref
  simp only [hp, if_false, hc, if_true]

theorem find_ref_miss_some (h : Handler) (s : Store) (id r : Nat)
    (hp : ¬ V4L2_CID_PRIVATE_BASE ≤ id &&& V4L2_CTRL_ID_MASK)
    (hc : cacheHit h s (id &&& V4L2_CTRL_ID_MASK) = false)
    (hfind : (h.chain (id &&& V4L2_CTRL_ID_MASK)).find?
      (fun r => refId h s r == some (id &&& V4L2_CTRL_ID_MASK)) = some r) :
    find_ref h s id = (some r, { h with cached := some r }) := by
  unfold find_ref
  simp only [hp, if_false, hc, Bool.false_eq_true, hfind]

theorem find_ref_miss_none (h : Handler) (s : Store) (id : Nat)
    (hp : ¬ V4L2_CID_PRIVATE_BASE ≤ id &&& V4L2_CTRL_ID_MASK)
    (hc : cacheHit h s (id &&& V4L2_CTRL_ID_MASK) = false)
    (hfind : (h.chain (id &&& V4L2_CTRL_ID_MASK)).find?
      (fun r => refId h s r == some (id &&& V4L2_CTRL_ID_MASK)) = none) :
    find_ref h s id = (none, h) := by
  unfold find_ref
  simp only [hp, if_false, hc, Bool.false_eq_true, hfind]

theorem find_ref_private (h : Handler) (s : Store) (id : Nat)
    (hp : V4L2_CID_PRIVATE_BASE ≤ id &&& V4L2_CTRL_ID_MASK) :
    find_ref h s id = (find_private_ref h s (id &&& V4L2_CTRL_ID_MASK), h) := by
  unfold find_ref
  simp only [hp, if_true]

/-- A lookup that found a reference finds it again in the handler it returned. -/
theorem find_ref_idem (h : Handler) (s : Store) (id : Nat) (r : Nat)
    (hf : (find_ref h s id).1 = some r) :
    find_ref (find_ref h s id).2 s id = (some r, (find_ref h s id).2) := by
  by_cases hp : V4L2_CID_PRIVATE_BASE ≤ id &&& V4L2_CTRL_ID_MASK
  · rw [find_ref_private h s id hp] at hf ⊢
    simp only at hf ⊢
    rw [find_ref_private h s id hp, hf]
  · cases hc : cacheHit h s (id &&& V4L2_CTRL_ID_MASK) with
    | true =>
      rw [find_ref_hit h s id hp hc] at hf ⊢
      simp only at hf ⊢
      rw [find_ref_hit h s id hp hc, hf]
    | false =>
      cases hfind : (h.chain (id &&& V4L2_CTRL_ID_MASK)).find?
          (fun r => refId h s r == some (id &&& V4L2_CTRL_ID_MASK)) with
      | none => rw [find_ref_miss_none h s id hp hc hfind] at hf; cases hf
      | some r' =>
        rw [find_ref_miss_some h s id r' hp hc hfind] at hf ⊢
        simp only [Option.some.injEq] at hf
        subst hf
        have hr := List.find?_some hfind
        have hc' : cacheHit { h with cached := some r' } s (id &&& V4L2_CTRL_ID_MASK) = true := hr
        rw [find_ref_hit _ s id hp hc']

theorem v4l2_ctrl_find_some (h : Handler) (s : Store) (id : Nat) (i : Nat)
    (hf : (v4l2_ctrl_find (some h) s id).1 = some i) :
    ∃ r, (find_ref h s id).1 = some r ∧ ((find_ref h s id).2.ref (some r)).ctrl = some i ∧
      (v4l2_ctrl_find (some h) s id).2 = some (find_ref h s id).2 := by
  unfold v4l2_ctrl_find find_ref_lock at hf ⊢
  simp only at hf ⊢
  cases hr : (find_ref h s id).1 with
  | none => rw [hr] at hf; cases hf
  | some r =>
    rw [hr] at hf
    exact ⟨r, rfl, hf, rfl⟩

/-- A control found by its ID is found again, in the handler the lookup returned and in a
store that a set has changed. -/
theorem v4l2_ctrl_find_again {ok : LogEntry → Prop} {s s' : Store}
    (hs : Step eraseDynamic ok s s') (h : Handler) (id : Nat) (i : Nat)
    (hf : (v4l2_ctrl_find (some h) s id).1 = some i) :
    v4l2_ctrl_find (v4l2_ctrl_find (some h) s id).2 s' id =
      (some i, (v4l2_ctrl_find (some h) s id).2) := by
  obtain ⟨r, hr, hc, hh⟩ := v4l2_ctrl_find_some h s id i hf
  rw [hh]
  have h2 := find_ref_idem h s id r hr
  unfold v4l2_ctrl_find find_ref_lock
  simp only [find_ref_step hs, h2, hc]

/-- The scalar set on a control that the lookup finds. -/
theorem v4l2_s_ctrl_found (fh : Option Nat) (hdl : Option Handler) (s : Store) (id : Nat)
    (v : Int) (i : Nat) (hf : (v4l2_ctrl_find hdl s id).1 = some i) :
    v4l2_s_ctrl fh hdl s id v =
      if type_is_int (s.get (some i)) = false then (-EINVAL, v, (v4l2_ctrl_find hdl s id).2, s)
      else if hasFlag (s.get (some i)).flags V4L2_CTRL_FLAG_READ_ONLY = true then
        (-EACCES, v, (v4l2_ctrl_find hdl s id).2, s)
      else ((set_ctrl s fh (some i) v).1, (set_ctrl s fh (some i) v).2.1,
        (v4l2_ctrl_find hdl s id).2, (set_ctrl s fh (some i) v).2.2) := by
  unfold v4l2_s_ctrl
  simp only [hf]
  cases type_is_int (s.get (some i)) <;>
    cases hasFlag (s.get (some i)).flags V4L2_CTRL_FLAG_READ_ONLY <;> rfl

/-- The scalar get on a control that the lookup finds. -/
theorem v4l2_g_ctrl_found (hdl : Option Handler) (s : Store) (id : Nat)
    (x : Int) (i : Nat) (hf : (v4l2_ctrl_find hdl s id).1 = some i) :
    v4l2_g_ctrl hdl s id x =
      if type_is_int (s.get (some i)) = false then (-EINVAL, x, (v4l2_ctrl_find hdl s id).2, s)
      else ((get_ctrl s (some i) x).1, (get_ctrl s (some i) x).2.1,
        (v4l2_ctrl_find hdl s id).2, (get_ctrl s (some i) x).2.2) := by
  unfold v4l2_g_ctrl
  simp only [hf]
  cases type_is_int (s.get (some i)) <;> rfl

/-- What a successful scalar set tells: the control is scalar-compatible and not
read-only, and `set_ctrl` succeeded. -/
theorem v4l2_s_ctrl_ok (fh : Option Nat) (hdl : Option Handler) (s : Store) (id : Nat)
    (v : Int) (i : Nat) (hf : (v4l2_ctrl_find hdl s id).1 = some i)
    (hret : (v4l2_s_ctrl fh hdl s id v).1 = 0) :
    type_is_int (s.get (some i)) = true ∧
    hasFlag (s.get (some i)).flags V4L2_CTRL_FLAG_READ_ONLY = false ∧
    (set_ctrl s fh (some i) v).1 = 0 ∧
    v4l2_s_ctrl fh hdl s id v = ((set_ctrl s fh (some i) v).1, (set_ctrl s fh (some i) v).2.1,
        (v4l2_ctrl_find hdl s id).2, (set_ctrl s fh (some i) v).2.2) := by
  rw [v4l2_s_ctrl_found fh hdl s id v i hf] at hret ⊢
  cases h1 : type_is_int (s.get (some i)) with
  | false => rw [h1] at hret; simp [EINVAL] at hret
  | true =>
    cases h2 : hasFlag (s.get (some i)).flags V4L2_CTRL_FLAG_READ_ONLY with
    | true => rw [h1, h2] at hret; simp [EACCES] at hret
    | false =>
      rw [h1, h2] at hret
      simp only [Bool.true_eq_false, Bool.false_eq_true, if_false] at hret ⊢
      exact ⟨trivial, trivial, hret, trivial⟩

theorem scalarType_of_type_is_int {c : Ctrl} (h : type_is_int c = true)
    (hb : c.type ≠ .BUTTON) : scalarType c.type := by
  unfold type_is_int at h
  refine ⟨hb, ?_, ?_⟩ <;> intro ht <;> simp [ht] at h

theorem type_is_int_congr {c c' : Ctrl} (h : c'.type = c.type) :
    type_is_int c' = type_is_int c := by
  unfold type_is_int; rw [h]

/-! ## The round trip and the repeated set -/

theorem opQuiet_of_opAbsent {c : Ctrl} {op : OpKind} (h : opAbsent c op) : opQuiet c op := by
  intro o f ho hf
  rw [h o ho] at hf; cases hf

/-- Claim C4, amended. Set/get round trip: for every control type except string, 64-bit
integer and button, on a control that is not write-only and whose cluster master has no
backend callbacks (the no-op default), a successful `setValue(id, v)` followed by
`getValue(id)` succeeds and returns the quantized form of `v`, the value `validate_new_int`
produces for `v`. The control is a valid member of the cluster of its master. -/
theorem C4_set_get_round_trip (fh : Option Nat) (h : Handler) (s : Store) (id : Nat)
    (v x : Int) (i : Nat)
    (hfind : (v4l2_ctrl_find (some h) s id).1 = some i)
    (hvalid : s.valid (some i))
    (hmem : some i ∈ (s.get ((s.get (some i)).cluster.headD none)).cluster)
    (hbtn : (s.get (some i)).type ≠ .BUTTON)
    (hwo : hasFlag (s.get (some i)).flags V4L2_CTRL_FLAG_WRITE_ONLY = false)
    (hops : ∀ op, opAbsent (s.get ((s.get (some i)).cluster.headD none)) op)
    (hset : (v4l2_s_ctrl fh (some h) s id v).1 = 0) :
    (v4l2_g_ctrl (v4l2_s_ctrl fh (some h) s id v).2.2.1
      (v4l2_s_ctrl fh (some h) s id v).2.2.2 id x).1 = 0 ∧
    (v4l2_g_ctrl (v4l2_s_ctrl fh (some h) s id v).2.2.1
      (v4l2_s_ctrl fh (some h) s id v).2.2.2 id x).2.1 =
      (validate_new_int (s.get (some i)) v).2 := by
  obtain ⟨hti, _, hsr, heq⟩ := v4l2_s_ctrl_ok fh (some h) s id v i hfind hset
  have hstep := step_set_ctrl s fh (some i) v
  have hagain := v4l2_ctrl_find_again hstep h id i hfind
  obtain ⟨_, _, hcur, _⟩ := set_ctrl_commits s fh (some i) v hvalid hmem
    (scalarType_of_type_is_int hti hbtn) (hops .try_ctrl) (opQuiet_of_opAbsent (hops .s_ctrl)) hsr
  obtain ⟨hcl, _, hty, _⟩ := eraseDynamic_fields (step_get hstep (some i))
  obtain ⟨hclm, hopsm, _⟩ := eraseDynamic_fields
    (step_get hstep ((s.get (some i)).cluster.headD none))
  have hwo' : hasFlag ((set_ctrl s fh (some i) v).2.2.get (some i)).flags
      V4L2_CTRL_FLAG_WRITE_ONLY = false := by
    have := hasFlag_of_eraseDynamic (step_get hstep (some i)) 6 (by decide)
    exact this.trans hwo
  obtain ⟨g1, g2⟩ := get_ctrl_committed (set_ctrl s fh (some i) v).2.2 (some i) x
    (by rw [hcl, hclm]; exact hmem) (by rw [type_is_int_congr hty]; exact hti) hwo'
    (by
      rw [hcl]
      intro o ho
      rw [hopsm] at ho
      exact hops .g_volatile_ctrl o ho)
  rw [heq]
  simp only
  rw [v4l2_g_ctrl_found _ _ id x i (by rw [hagain])]
  rw [if_neg (by rw [type_is_int_congr hty, hti]; decide)]
  exact ⟨g1, g2.trans hcur⟩

/-- The witness of C4: the scenario registry, `setValue(10, 11)` then `getValue(10)`. -/
theorem C4_witness :
    (v4l2_g_ctrl (v4l2_s_ctrl none (some scenarioHdl) scenarioStore 10 11).2.2.1
      (v4l2_s_ctrl none (some scenarioHdl) scenarioStore 10 11).2.2.2 10 0).1 = 0 ∧
    (v4l2_g_ctrl (v4l2_s_ctrl none (some scenarioHdl) scenarioStore 10 11).2.2.1
      (v4l2_s_ctrl none (some scenarioHdl) scenarioStore 10 11).2.2.2 10 0).2.1 =
      (validate_new_int (scenarioStore.get (some 0)) 11).2 :=
  C4_set_get_round_trip none scenarioHdl scenarioStore 10 11 0 0 (by decide) (by decide)
    (by decide) (by decide) (by decide) (fun _ o ho => by cases ho) (by decide)

/-- The claim C4 fails: the button of the example registry is write-only (as
`v4l2_ctrl_new` makes every button) and has no backend callbacks; `setValue` on it succeeds
and the `getValue` that follows fails with `-EACCES`. -/
theorem C4_counterexample :
    (exStore.get (some 4)).type = .BUTTON ∧ (exStore.get (some 4)).ops = none ∧
    (v4l2_s_ctrl none (some exHdl) exStore 0x00981002 1).1 = 0 ∧
    ¬ ((v4l2_g_ctrl (v4l2_s_ctrl none (some exHdl) exStore 0x00981002 1).2.2.1
      (v4l2_s_ctrl none (some exHdl) exStore 0x00981002 1).2.2.2 0x00981002 0).1 = 0) :=
  ⟨by decide, rfl, by decide, by decide⟩

/-- Claim C5, amended. Repeated set is idempotent: for a control of a type other than string,
64-bit integer and button, in a cluster without button members whose master has no
`try_ctrl` callback and whose `s_ctrl` callback (if any) leaves the pending values as they
are, if `setValue(id, v)` succeeds and returns `r` and, for an integer control, `r + step/2`
does not overflow 32 bits, then `setValue(id, r)` succeeds and returns `r`, has no outside
effect (the backend `s_ctrl` is not invoked and no event is queued), leaves the committed
value and the flags of every control as they are, and the committed value is `r`. -/
theorem C5_repeated_set_idempotent (fh fh2 : Option Nat) (h : Handler) (s : Store) (id : Nat)
    (v : Int) (i : Nat)
    (hfind : (v4l2_ctrl_find (some h) s id).1 = some i)
    (hvalid : s.valid (some i))
    (hmem : some i ∈ (s.get ((s.get (some i)).cluster.headD none)).cluster)
    (hnb : ∀ x ∈ (s.get ((s.get (some i)).cluster.headD none)).cluster,
      (s.get x).type ≠ .BUTTON)
    (hTry : opAbsent (s.get ((s.get (some i)).cluster.headD none)) .try_ctrl)
    (hSet : opQuiet (s.get ((s.get (some i)).cluster.headD none)) .s_ctrl)
    (hset : (v4l2_s_ctrl fh (some h) s id v).1 = 0)
    (hint : (s.get (some i)).type = .INTEGER →
      isS32 (s.get (some i)).minimum ∧ isS32 (s.get (some i)).maximum ∧
      (s.get (some i)).minimum ≤ (s.get (some i)).maximum ∧ 0 < (s.get (some i)).step ∧
      (v4l2_s_ctrl fh (some h) s id v).2.1 + ((s.get (some i)).step / 2 : Nat) ≤ 2147483647) :
    (v4l2_s_ctrl fh2 (v4l2_s_ctrl fh (some h) s id v).2.2.1
      (v4l2_s_ctrl fh (some h) s id v).2.2.2 id (v4l2_s_ctrl fh (some h) s id v).2.1).1 = 0 ∧
    (v4l2_s_ctrl fh2 (v4l2_s_ctrl fh (some h) s id v).2.2.1
      (v4l2_s_ctrl fh (some h) s id v).2.2.2 id (v4l2_s_ctrl fh (some h) s id v).2.1).2.1 =
      (v4l2_s_ctrl fh (some h) s id v).2.1 ∧
    (v4l2_s_ctrl fh2 (v4l2_s_ctrl fh (some h) s id v).2.2.1
      (v4l2_s_ctrl fh (some h) s id v).2.2.2 id
        (v4l2_s_ctrl fh (some h) s id v).2.1).2.2.2.log =
      (v4l2_s_ctrl fh (some h) s id v).2.2.2.log ∧
    (v4l2_s_ctrl fh2 (v4l2_s_ctrl fh (some h) s id v).2.2.1
      (v4l2_s_ctrl fh (some h) s id v).2.2.2 id
        (v4l2_s_ctrl fh (some h) s id v).2.1).2.2.2.ctrls.map Ctrl.committed =
      (v4l2_s_ctrl fh (some h) s id v).2.2.2.ctrls.map Ctrl.committed ∧
    ((v4l2_s_ctrl fh (some h) s id v).2.2.2.get (some i)).cur.val =
      (v4l2_s_ctrl fh (some h) s id v).2.1 := by
  obtain ⟨hti, hro, hsr, heq⟩ := v4l2_s_ctrl_ok fh (some h) s id v i hfind hset
  have hstep := step_set_ctrl s fh (some i) v
  have hagain := v4l2_ctrl_find_again hstep h id i hfind
  have hsc := scalarType_of_type_is_int hti (hnb _ hmem)
  obtain ⟨hv0, hret1, hcur, hng⟩ := set_ctrl_commits s fh (some i) v hvalid hmem hsc hTry hSet hsr
  obtain ⟨hcl, _, hty, _⟩ := eraseDynamic_fields (step_get hstep (some i))
  obtain ⟨hclm, hopsm, _⟩ := eraseDynamic_fields
    (step_get hstep ((s.get (some i)).cluster.headD none))
  rw [heq] at hint ⊢
  simp only at hint ⊢
  rw [hret1] at hint ⊢
  -- the second call
  have hro' : hasFlag ((set_ctrl s fh (some i) v).2.2.get (some i)).flags
      V4L2_CTRL_FLAG_READ_ONLY = false :=
    (hasFlag_of_eraseDynamic (step_get hstep (some i)) 2 (by decide)).trans hro
  have hng' : hasFlag ((set_ctrl s fh (some i) v).2.2.get (some i)).flags
      V4L2_CTRL_FLAG_GRABBED = false :=
    (hasFlag_of_eraseDynamic (step_get hstep (some i)) 1 (by decide)).trans hng
  have hidem := validate_new_int_idem (s.get (some i)) v hv0 hint
  obtain ⟨k1, k2, k3⟩ := set_ctrl_no_change (set_ctrl s fh (some i) v).2.2 fh2 (some i)
    (validate_new_int (s.get (some i)) v).2 ((step_valid hstep _).2 hvalid)
    (by rw [hcl, hclm]; exact hmem) (by rw [hty]; exact hsc)
    (by
      rw [hcl, hclm]
      intro y hy
      rw [(eraseDynamic_fields (step_get hstep y)).2.2.1]
      exact hnb y hy)
    (by
      rw [hcl]
      intro o ho
      rw [hopsm] at ho
      exact hTry o ho)
    (by rw [validate_new_int_congr (step_get hstep (some i))]; exact hidem) hcur hng'
  rw [v4l2_s_ctrl_found fh2 _ _ id _ i (by rw [hagain])]
  rw [if_neg (by rw [type_is_int_congr hty, hti]; decide), if_neg (by rw [hro']; decide)]
  simp only
  obtain ⟨hmap, l, hl, hnil⟩ := k3
  have hl' : l = [] := by
    cases l with
    | nil => rfl
    | cons e _ => exact (hnil e (List.mem_cons_self _ _)).elim
  refine ⟨k1, k2, by rw [hl, hl', List.append_nil], ?_, hcur⟩
  have hc : Ctrl.committed = (fun c => Ctrl.committed c) ∘ erasePending := by
    funext c; rfl
  rw [hc, ← List.map_map, ← List.map_map, hmap]

/-- The witness of C5: the scenario registry, `setValue(10, 11)` returns 9, then
`setValue(10, 9)`. -/
theorem C5_witness :
    (v4l2_s_ctrl none (v4l2_s_ctrl none (some scenarioHdl) scenarioStore 10 11).2.2.1
      (v4l2_s_ctrl none (some scenarioHdl) scenarioStore 10 11).2.2.2 10
        (v4l2_s_ctrl none (some scenarioHdl) scenarioStore 10 11).2.1).1 = 0 ∧
    (v4l2_s_ctrl none (v4l2_s_ctrl none (some scenarioHdl) scenarioStore 10 11).2.2.1
      (v4l2_s_ctrl none (some scenarioHdl) scenarioStore 10 11).2.2.2 10
        (v4l2_s_ctrl none (some scenarioHdl) scenarioStore 10 11).2.1).2.1 =
      (v4l2_s_ctrl none (some scenarioHdl) scenarioStore 10 11).2.1 ∧
    (v4l2_s_ctrl none (v4l2_s_ctrl none (some scenarioHdl) scenarioStore 10 11).2.2.1
      (v4l2_s_ctrl none (some scenarioHdl) scenarioStore 10 11).2.2.2 10
        (v4l2_s_ctrl none (some scenarioHdl) scenarioStore 10 11).2.1).2.2.2.log =
      (v4l2_s_ctrl none (some scenarioHdl) scenarioStore 10 11).2.2.2.log ∧
    (v4l2_s_ctrl none (v4l2_s_ctrl none (some scenarioHdl) scenarioStore 10 11).2.2.1
      (v4l2_s_ctrl none (some scenarioHdl) scenarioStore 10 11).2.2.2 10
        (v4l2_s_ctrl none (some scenarioHdl) scenarioStore 10 11).2.1).2.2.2.ctrls.map
          Ctrl.committed =
      (v4l2_s_ctrl none (some scenarioHdl) scenarioStore 10 11).2.2.2.ctrls.map
        Ctrl.committed ∧
    ((v4l2_s_ctrl none (some scenarioHdl) scenarioStore 10 11).2.2.2.get (some 0)).cur.val =
      (v4l2_s_ctrl none (some scenarioHdl) scenarioStore 10 11).2.1 :=
  C5_repeated_set_idempotent none none scenarioHdl scenarioStore 10 11 0 (by decide)
    (by decide) (by decide) (by decide) (fun _ ho => by cases ho)
    (fun _ _ ho => by cases ho) (by decide) (by decide)

/-- The claim C5 fails in three ways in the example registry. On the button the second
set queues a second change event (a button is always changed). On the integer control with
the legal values 0 and `2^31 - 1` the set of 1073741824 returns `2^31 - 1`, and the set of
`2^31 - 1` returns 0, as its bias overflows. On the control whose `try_ctrl` adds one to the
pending value the set of 5 returns 6 and the set of 6 returns 7. -/
theorem C5_counterexample :
    ((v4l2_s_ctrl none (some exHdl) exStore 0x00981002 1).1 = 0 ∧
      (v4l2_s_ctrl none (some exHdl) exStore 0x00981002 1).2.1 = 0 ∧
      (v4l2_s_ctrl none (some exHdl) exStore 0x00981002 1).2.2.2.log.length = 1 ∧
      (v4l2_s_ctrl none (v4l2_s_ctrl none (some exHdl) exStore 0x00981002 1).2.2.1
        (v4l2_s_ctrl none (some exHdl) exStore 0x00981002 1).2.2.2 0x00981002
          0).2.2.2.log.length = 2) ∧
    ((v4l2_s_ctrl none (some exHdl) exStore 0x00981003 1073741824).1 = 0 ∧
      (v4l2_s_ctrl none (some exHdl) exStore 0x00981003 1073741824).2.1 = 2147483647 ∧
      (v4l2_s_ctrl none (v4l2_s_ctrl none (some exHdl) exStore 0x00981003 1073741824).2.2.1
        (v4l2_s_ctrl none (some exHdl) exStore 0x00981003 1073741824).2.2.2 0x00981003
          2147483647).2.1 = 0) ∧
    ((v4l2_s_ctrl none (some exHdl) exStore 0x00981004 5).1 = 0 ∧
      (v4l2_s_ctrl none (some exHdl) exStore 0x00981004 5).2.1 = 6 ∧
      (v4l2_s_ctrl none (v4l2_s_ctrl none (some exHdl) exStore 0x00981004 5).2.2.1
        (v4l2_s_ctrl none (some exHdl) exStore 0x00981004 5).2.2.2 0x00981004 6).2.1 = 7) := by
  decide

/-! ## The registry invariant -/

theorem node2id_refs {h h' : Handler} (s : Store) (r : Nat) (hr : h'.refs = h.refs) :
    node2id h' s r = node2id h s r := by
  unfold node2id Handler.ref
  rw [hr]

theorem refId_some_iff (h : Handler) (s : Store) (r x : Nat) :
    refId h s r = some x ↔
      r < h.refs.length ∧ s.valid (h.ref (some r)).ctrl ∧ node2id h s r = x := by
  unfold refId node2id Handler.ref Store.valid
  by_cases hlt : r < h.refs.length
  · have hget : h.refs.get? r = some (h.refs.get ⟨r, hlt⟩) := List.get?_eq_get hlt
    have hd : h.refs.getD r ⟨none, none⟩ = h.refs.get ⟨r, hlt⟩ := by
      rw [List.getD_eq_getElem?_getD, ← List.get?_eq_getElem?, hget]; rfl
    rw [hget]
    simp only [hd]
    rcases (h.refs.get ⟨r, hlt⟩).ctrl with _ | p
    · simp [Store.get?]
    · by_cases hp : p < s.ctrls.length
      · have hg : s.ctrls.get? p = some (s.ctrls.get ⟨p, hp⟩) := List.get?_eq_get hp
        have hg2 : s.ctrls.getD p Ctrl.null = s.ctrls.get ⟨p, hp⟩ := by
          rw [List.getD_eq_getElem?_getD, ← List.get?_eq_getElem?, hg]; rfl
        simp only [Store.get?, Store.get, hg, hg2, Option.map_some', Option.some.injEq, hlt, hp,
          true_and]
      · have hg : s.ctrls.get? p = none := List.get?_eq_none.2 (by omega)
        simp only [Store.get?, hg, Option.map_none', hp, false_and, and_false, iff_false]
        intro hc; cases hc
  · have hget : h.refs.get? r = none := List.get?_eq_none.2 (by omega)
    rw [hget]
    simp only [hlt, false_and, iff_false]
    intro hc; cases hc

theorem refId_of_mem {h : Handler} {s : Store} (inv : RegInv h s) {r : Nat}
    (hr : r ∈ h.ctrl_refs) : refId h s r = some (node2id h s r) :=
  (refId_some_iff h s r _).2 ⟨(inv.arena r).1 hr, inv.valid r hr, rfl⟩

theorem mem_of_refId {h : Handler} {s : Store} (inv : RegInv h s) {r x : Nat}
    (hr : refId h s r = some x) : r ∈ h.ctrl_refs ∧ node2id h s r = x := by
  obtain ⟨h1, _, h3⟩ := (refId_some_iff h s r x).1 hr
  exact ⟨(inv.arena r).2 h1, h3⟩

/-- Two references of the sorted list with the same ID are the same reference. -/
theorem ref_unique {h : Handler} {s : Store} (inv : RegInv h s) {a b : Nat}
    (ha : a ∈ h.ctrl_refs) (hb : b ∈ h.ctrl_refs) (hab : node2id h s a = node2id h s b) :
    a = b := by
  have key : ∀ l : List Nat, l.Pairwise (fun a b => node2id h s a < node2id h s b) →
      a ∈ l → b ∈ l → a = b := by
    intro l
    induction l with
    | nil => intro _ h1; simp at h1
    | cons x rest ih =>
      intro hp h1 h2
      rw [List.pairwise_cons] at hp
      rcases List.mem_cons.1 h1 with e1 | m1 <;> rcases List.mem_cons.1 h2 with e2 | m2
      · rw [e1, e2]
      · have := hp.1 b m2; rw [← e1, hab] at this; omega
      · have := hp.1 a m1; rw [← e2, hab] at this; omega
      · exact ih hp.2 m1 m2
  exact key _ inv.sorted ha hb

theorem lookup_some {h : Handler} {s : Store} {id r : Nat} (hl : lookup h s id = some r) :
    r ∈ h.ctrl_refs ∧ node2id h s r = id := by
  unfold lookup at hl
  have h1 := List.find?_some hl
  have h2 := List.mem_of_find?_eq_some hl
  exact ⟨h2, by simpa using h1⟩

theorem lookup_none {h : Handler} {s : Store} {id : Nat} (hl : lookup h s id = none) :
    ∀ r ∈ h.ctrl_refs, node2id h s r ≠ id := by
  unfold lookup at hl
  rw [List.find?_eq_none] at hl
  intro r hr
  simpa using hl r hr

theorem lookup_of_mem {h : Handler} {s : Store} (inv : RegInv h s) {r : Nat}
    (hr : r ∈ h.ctrl_refs) : lookup h s (node2id h s r) = some r := by
  rcases hl : lookup h s (node2id h s r) with _ | r'
  · exact absurd rfl (lookup_none hl r hr)
  · obtain ⟨h1, h2⟩ := lookup_some hl
    rw [ref_unique inv h1 hr h2]

/-- The invariant does not read the cache. -/
theorem RegInv_cached {h : Handler} {s : Store} (inv : RegInv h s) (c : Option Nat) :
    RegInv { h with cached := c } s :=
  ⟨inv.sorted, inv.arena, inv.valid, inv.nr_pos, inv.chains, inv.marker⟩

/-- The invariant does not read the error code. -/
theorem RegInv_error {h : Handler} {s : Store} (inv : RegInv h s) (e : Int) :
    RegInv { h with error := e } s :=
  ⟨inv.sorted, inv.arena, inv.valid, inv.nr_pos, inv.chains, inv.marker⟩

/-- The invariant does not read the list of the owned controls. -/
theorem RegInv_ctrls {h : Handler} {s : Store} (inv : RegInv h s) (l : List Nat) :
    RegInv { h with ctrls := l } s :=
  ⟨inv.sorted, inv.arena, inv.valid, inv.nr_pos, inv.chains, inv.marker⟩

/-- Under the invariant `find_ref` is the scan of the sorted list, whatever the cache
holds, and it changes the cache only. -/
theorem find_ref_lookup {h : Handler} {s : Store} (inv : RegInv h s) (id : Nat)
    (hid : (id &&& V4L2_CTRL_ID_MASK) < V4L2_CID_PRIVATE_BASE) :
    (find_ref h s id).1 = lookup h s (id &&& V4L2_CTRL_ID_MASK) ∧
    ∃ c, (find_ref h s id).2 = { h with cached := c } := by
  obtain ⟨b, hb, hlen, hin, hall⟩ := inv.chains
  by_cases hhit : cacheHit h s (id &&& V4L2_CTRL_ID_MASK) = true
  · have hf := find_ref_hit h s id (by omega) hhit
    rw [hf]
    refine ⟨?_, h.cached, rfl⟩
    unfold cacheHit at hhit
    rcases hc : h.cached with _ | r
    · rw [hc] at hhit; cases hhit
    · rw [hc] at hhit
      simp only [beq_iff_eq] at hhit
      obtain ⟨h1, h2⟩ := mem_of_refId inv hhit
      rw [← h2, lookup_of_mem inv h1]
  · have hchain : h.chain (id &&& V4L2_CTRL_ID_MASK) =
        b.getD ((id &&& V4L2_CTRL_ID_MASK) % h.nr_of_buckets) [] := by
      unfold Handler.chain; rw [hb]
    rcases hfind : (h.chain (id &&& V4L2_CTRL_ID_MASK)).find?
        (fun r => refId h s r == some (id &&& V4L2_CTRL_ID_MASK)) with _ | r
    · have hf := find_ref_miss_none h s id (by omega) (by simpa using hhit) hfind
      rw [hf]
      refine ⟨?_, h.cached, rfl⟩
      rcases hl : lookup h s (id &&& V4L2_CTRL_ID_MASK) with _ | r
      · rfl
      · exfalso
        obtain ⟨h1, h2⟩ := lookup_some hl
        rw [List.find?_eq_none] at hfind
        have hmem := hall r h1
        rw [h2, ← hchain] at hmem
        have := hfind r hmem
        rw [refId_of_mem inv h1, h2] at this
        simp at this
    · have hf := find_ref_miss_some h s id r (by omega) (by simpa using hhit) hfind
      rw [hf]
      refine ⟨?_, some r, rfl⟩
      have h1 := List.find?_some hfind
      simp only [beq_iff_eq] at h1
      obtain ⟨h2, h3⟩ := mem_of_refId inv h1
      rw [← h3, lookup_of_mem inv h2]

/-! ## Insertion of a reference -/

theorem ref_append_old (h : Handler) (x : Ref) (l : List Nat) (b : Option (List (List Nat)))
    (r : Nat) (hr : r < h.refs.length) :
    ({ h with refs := h.refs ++ [x], ctrl_refs := l, buckets := b } : Handler).ref (some r) =
      h.ref (some r) := by
  simp only [Handler.ref, List.getD_eq_getElem?_getD]
  rw [List.getElem?_append_left hr]

theorem ref_append_new (h : Handler) (x : Ref) (l : List Nat) (b : Option (List (List Nat))) :
    ({ h with refs := h.refs ++ [x], ctrl_refs := l, buckets := b } : Handler).ref
      (some h.refs.length) = x := by
  simp only [Handler.ref, List.getD_eq_getElem?_getD]
  rw [List.getElem?_append_right (Nat.le_refl _)]
  simp

theorem insert_sorted_none (h : Handler) (s : Store) (new_ref id : Nat) :
    ∀ l, insert_sorted h s new_ref id l = none → ∃ r ∈ l, node2id h s r = id := by
  intro l
  induction l with
  | nil => intro hn; simp [insert_sorted] at hn
  | cons x rest ih =>
    intro hn
    unfold insert_sorted at hn
    split_ifs at hn with h1 h2
    · simp only [Option.map_eq_none'] at hn
      obtain ⟨r, hr, he⟩ := ih hn
      exact ⟨r, List.mem_cons_of_mem _ hr, he⟩
    · exact ⟨x, List.mem_cons_self _ _, h2⟩

theorem insert_sorted_some (h : Handler) (s : Store) (new_ref id : Nat) :
    ∀ l l', l.Pairwise (fun a b => node2id h s a < node2id h s b) →
    (∃ r ∈ l, id ≤ node2id h s r) → insert_sorted h s new_ref id l = some l' →
    ∃ l1 l2, l = l1 ++ l2 ∧ l' = l1 ++ new_ref :: l2 ∧
      (∀ r ∈ l1, node2id h s r < id) ∧ (∀ r ∈ l2, id < node2id h s r) := by
  intro l
  induction l with
  | nil => intro l' _ hex; obtain ⟨r, hr, _⟩ := hex; simp at hr
  | cons x rest ih =>
    intro l' hp hex hs
    rw [List.pairwise_cons] at hp
    unfold insert_sorted at hs
    split_ifs at hs with h1 h2
    · rcases hi : insert_sorted h s new_ref id rest with _ | l''
      · rw [hi] at hs; cases hs
      · rw [hi] at hs
        simp only [Option.map_some', Option.some.injEq] at hs
        have hex' : ∃ r ∈ rest, id ≤ node2id h s r := by
          obtain ⟨r, hr, hle⟩ := hex
          rcases List.mem_cons.1 hr with e | m
          · subst e; omega
          · exact ⟨r, m, hle⟩
        obtain ⟨l1, l2, e1, e2, hlt, hgt⟩ := ih l'' hp.2 hex' hi
        refine ⟨x :: l1, l2, by rw [e1]; rfl, by rw [← hs, e2]; rfl, ?_, hgt⟩
        intro r hr
        rcases List.mem_cons.1 hr with e | m
        · subst e; exact h1
        · exact hlt r m
    · simp only [Option.some.injEq] at hs
      refine ⟨[], x :: rest, rfl, hs.symm, by simp, ?_⟩
      intro r hr
      rcases List.mem_cons.1 hr with e | m
      · subst e; omega
      · have := hp.1 r m; omega

theorem insert_sorted_dup (h : Handler) (s : Store) (new_ref id : Nat) :
    ∀ l, l.Pairwise (fun a b => node2id h s a < node2id h s b) →
    (∃ r ∈ l, node2id h s r = id) → insert_sorted h s new_ref id l = none := by
  intro l
  induction l with
  | nil => intro _ hex; obtain ⟨r, hr, _⟩ := hex; simp at hr
  | cons x rest ih =>
    intro hp hex
    rw [List.pairwise_cons] at hp
    unfold insert_sorted
    split_ifs with h1 h2
    · obtain ⟨r, hr, he⟩ := hex
      rcases List.mem_cons.1 hr with e | m
      · subst e; omega
      · rw [ih hp.2 ⟨r, m, he⟩]; rfl
    · rfl
    · exfalso
      obtain ⟨r, hr, he⟩ := hex
      rcases List.mem_cons.1 hr with e | m
      · subst e; exact h2 he
      · have := hp.1 r m; omega

/-- Every ID of a sorted list is at most the ID of its last element. -/
theorem le_last_of_sorted (f : Nat → Nat) :
    ∀ l : List Nat, l.Pairwise (fun a b => f a < f b) → ∀ r ∈ l, f r ≤ f (l.getLastD 0) := by
  intro l
  induction l with
  | nil => intro _ r hr; simp at hr
  | cons x rest ih =>
    intro hp r hr
    rw [List.pairwise_cons] at hp
    cases rest with
    | nil =>
      simp only [List.mem_singleton] at hr
      subst hr; simp
    | cons y ys =>
      have hl : (x :: y :: ys).getLastD 0 = (y :: ys).getLastD 0 := by
        simp [List.getLastD]
      rw [hl]
      rcases List.mem_cons.1 hr with e | m
      · subst e
        have h1 := hp.1 y (List.mem_cons_self _ _)
        have h2 := ih hp.2 y (List.mem_cons_self _ _)
        omega
      · exact ih hp.2 r m

theorem getLastD_mem_cons : ∀ (xs : List Nat) (x : Nat), xs.getLastD x ∈ x :: xs := by
  intro xs
  induction xs with
  | nil => intro x; simp
  | cons y ys ih =>
    intro x
    rw [List.getLastD_cons]
    exact List.mem_cons_of_mem _ (ih y)

theorem getLastD_mem (l : List Nat) (hl : l ≠ []) : l.getLastD 0 ∈ l := by
  cases l with
  | nil => exact absurd rfl hl
  | cons x xs =>
    rw [List.getLastD_cons]
    exact getLastD_mem_cons xs x

theorem getD_bucket_push (b : List (List Nat)) (bucket new_ref k : Nat) :
    (updAt b bucket (fun chain => new_ref :: chain)).getD k [] =
      if bucket = k ∧ k < b.length then new_ref :: b.getD k [] else b.getD k [] :=
  getD_updAt _ _ _ _ _

/-- The invariant after a reference to the control `cp`, whose ID the list does not have,
is put at its place in the sorted list and at the head of the chain of its bucket. -/
theorem RegInv_insert {h : Handler} {s : Store} (inv : RegInv h s) (s1 : Store)
    (hv : ∀ p, s.valid p → s1.valid p)
    (hi : ∀ p, s.valid p → (s1.get p).id = (s.get p).id)
    (cp : Option Nat) (hcp : s.valid cp) (l1 l2 : List Nat) (hl : h.ctrl_refs = l1 ++ l2)
    (h1 : ∀ r ∈ l1, node2id h s r < (s.get cp).id)
    (h2 : ∀ r ∈ l2, (s.get cp).id < node2id h s r)
    (hm : (∃ r' ∈ h.ctrl_refs, node2id h s r' = V4L2_CTRL_ID2CLASS (s.get cp).id ||| 1) ∨
      (s.get cp).id = V4L2_CTRL_ID2CLASS (s.get cp).id ||| 1) :
    RegInv
      { h with
        refs := h.refs ++ [Ref.mk cp none],
        ctrl_refs := l1 ++ h.refs.length :: l2,
        buckets := bucket_push h.buckets ((s.get cp).id % h.nr_of_buckets) h.refs.length }
      s1 := by
  have F1 : ∀ r, r < h.refs.length →
      ({ h with
        refs := h.refs ++ [Ref.mk cp none],
        ctrl_refs := l1 ++ h.refs.length :: l2,
        buckets := bucket_push h.buckets ((s.get cp).id % h.nr_of_buckets) h.refs.length } :
        Handler).ref (some r) = h.ref (some r) := fun r hr => ref_append_old h _ _ _ r hr
  have F2 := ref_append_new h (Ref.mk cp none) (l1 ++ h.refs.length :: l2)
    (bucket_push h.buckets ((s.get cp).id % h.nr_of_buckets) h.refs.length)
  have F3 : ∀ r ∈ h.ctrl_refs, node2id
      { h with
        refs := h.refs ++ [Ref.mk cp none],
        ctrl_refs := l1 ++ h.refs.length :: l2,
        buckets := bucket_push h.buckets ((s.get cp).id % h.nr_of_buckets) h.refs.length }
      s1 r = node2id h s r := by
    intro r hr
    unfold node2id
    rw [F1 r ((inv.arena r).1 hr)]
    exact hi _ (inv.valid r hr)
  have F4 : node2id
      { h with
        refs := h.refs ++ [Ref.mk cp none],
        ctrl_refs := l1 ++ h.refs.length :: l2,
        buckets := bucket_push h.buckets ((s.get cp).id % h.nr_of_buckets) h.refs.length }
      s1 h.refs.length = (s.get cp).id := by
    unfold node2id
    rw [F2]
    exact hi _ hcp
  have hm1 : ∀ r ∈ l1, r ∈ h.ctrl_refs := fun r hr => by rw [hl]; exact List.mem_append_left _ hr
  have hm2 : ∀ r ∈ l2, r ∈ h.ctrl_refs := fun r hr => by rw [hl]; exact List.mem_append_right _ hr
  have hsorted := inv.sorted
  rw [hl, List.pairwise_append] at hsorted
  obtain ⟨hp1, hp2, hp12⟩ := hsorted
  have hmem : ∀ r, r ∈ l1 ++ h.refs.length :: l2 ↔ r ∈ h.ctrl_refs ∨ r = h.refs.length := by
    intro r
    rw [hl]
    simp only [List.mem_append, List.mem_cons]
    tauto
  refine ⟨?_, ?_, ?_, inv.nr_pos, ?_, ?_⟩
  · show (l1 ++ h.refs.length :: l2).Pairwise _
    rw [List.pairwise_append, List.pairwise_cons]
    refine ⟨?_, ⟨?_, ?_⟩, ?_⟩
    · refine List.Pairwise.imp_of_mem ?_ hp1
      intro a b ha hb hab
      rw [F3 a (hm1 a ha), F3 b (hm1 b hb)]; exact hab
    · intro b hb
      rw [F4, F3 b (hm2 b hb)]; exact h2 b hb
    · refine List.Pairwise.imp_of_mem ?_ hp2
      intro a b ha hb hab
      rw [F3 a (hm2 a ha), F3 b (hm2 b hb)]; exact hab
    · intro a ha b hb
      rcases List.mem_cons.1 hb with e | m
      · rw [e, F4, F3 a (hm1 a ha)]; exact h1 a ha
      · rw [F3 a (hm1 a ha), F3 b (hm2 b m)]; exact hp12 a ha b m
  · intro r
    show r ∈ l1 ++ h.refs.length :: l2 ↔ r < (h.refs ++ [Ref.mk cp none]).length
    rw [hmem, inv.arena r]
    simp only [List.length_append, List.length_singleton]
    omega
  · intro r hr
    rcases (hmem r).1 hr with ho | hn
    · rw [F1 r ((inv.arena r).1 ho)]
      exact hv _ (inv.valid r ho)
    · rw [hn, F2]; exact hv _ hcp
  · obtain ⟨b, hb, hlen, hin, hall⟩ := inv.chains
    refine ⟨updAt b ((s.get cp).id % h.nr_of_buckets) (fun chain => h.refs.length :: chain),
      by simp [bucket_push, hb], by rw [length_updAt]; exact hlen, ?_, ?_⟩
    · intro k r hr
      rw [getD_bucket_push] at hr
      have hold : r ∈ b.getD k [] →
          r ∈ l1 ++ h.refs.length :: l2 ∧
          node2id
            { h with
              refs := h.refs ++ [Ref.mk cp none],
              ctrl_refs := l1 ++ h.refs.length :: l2,
              buckets := bucket_push h.buckets ((s.get cp).id % h.nr_of_buckets)
                h.refs.length }
            s1 r % h.nr_of_buckets = k := by
        intro hr'
        obtain ⟨hr1, hr2⟩ := hin k r hr'
        exact ⟨(hmem r).2 (Or.inl hr1), by rw [F3 r hr1]; exact hr2⟩
      split_ifs at hr with hc
      · rcases List.mem_cons.1 hr with e | m
        · rw [e]
          exact ⟨(hmem _).2 (Or.inr rfl), by rw [F4]; exact hc.1⟩
        · exact hold m
      · exact hold hr
    · intro r hr
      show r ∈ (updAt b ((s.get cp).id % h.nr_of_buckets)
        (fun chain => h.refs.length :: chain)).getD _ []
      rw [getD_bucket_push]
      rcases (hmem r).1 hr with ho | hn
      · rw [F3 r ho]
        split_ifs
        · exact List.mem_cons_of_mem _ (hall r ho)
        · exact hall r ho
      · rw [hn, F4]
        rw [if_pos ⟨rfl, by rw [hlen]; exact Nat.mod_lt _ inv.nr_pos⟩]
        exact List.mem_cons_self _ _
  · intro r hr
    rcases (hmem r).1 hr with ho | hn
    · obtain ⟨r', hr', he⟩ := inv.marker r ho
      exact ⟨r', (hmem r').2 (Or.inl hr'), by rw [F3 r' hr', F3 r ho]; exact he⟩
    · rw [hn, F4]
      rcases hm with ⟨r', hr', he⟩ | he
      · exact ⟨r', (hmem r').2 (Or.inl hr'), by rw [F3 r' hr']; exact he⟩
      · exact ⟨h.refs.length, (hmem _).2 (Or.inr rfl), by rw [F4]; exact he⟩

theorem eraseCluster_id {a b : Ctrl} (h : eraseCluster a = eraseCluster b) : a.id = b.id :=
  congrArg (fun c => c.id) h

theorem wf_of_ids {s s1 : Store} (h : s1.ctrls.map (fun c => c.id) = s.ctrls.map (fun c => c.id))
    (hw : s.wf) : s1.wf := by
  intro c hc
  have : c.id ∈ s1.ctrls.map (fun c => c.id) := List.mem_map.2 ⟨c, hc, rfl⟩
  rw [h] at this
  obtain ⟨c', hc', he⟩ := List.mem_map.1 this
  have := hw c' hc'
  rw [← he]; exact this

/-- The store after `handler_new_ref` gave an owned control its cluster of one. -/
theorem cluster_upd_facts (s : Store) (hid : Nat) (cp : Option Nat) (l : List (Option Nat)) :
    let s1 := if (s.get cp).handler = hid then s.upd cp (fun c => { c with cluster := l })
      else s
    (∀ p, s1.valid p ↔ s.valid p) ∧
    (∀ p, eraseCluster (s1.get p) = eraseCluster (s.get p)) ∧
    s1.ctrls.length = s.ctrls.length ∧ s1.log = s.log ∧ (s.wf → s1.wf) := by
  intro s1
  by_cases hc : (s.get cp).handler = hid
  · have e : s1 = s.upd cp (fun c => { c with cluster := l }) := if_pos hc
    rw [e]
    refine ⟨fun p => valid_upd s cp p _, ?_, ?_, ?_, ?_⟩
    · intro p
      rw [get_upd]
      split_ifs <;> rfl
    · cases cp with
      | none => rfl
      | some i => simp [Store.upd, length_updAt]
    · cases cp <;> rfl
    · intro hw
      refine wf_of_ids ?_ hw
      cases cp with
      | none => rfl
      | some i =>
        exact updAt_map (fun c : Ctrl => c.id) (fun c => { c with cluster := l })
          (fun c => rfl) s.ctrls i
  · have e : s1 = s := if_neg hc
    rw [e]
    exact ⟨fun p => Iff.rfl, fun p => rfl, rfl, rfl, fun hw => hw⟩

theorem grows_insert {h : Handler} {s : Store} (inv : RegInv h s) (s1 : Store)
    (hlen : s1.ctrls.length = s.ctrls.length)
    (hk : ∀ p, eraseCluster (s1.get p) = eraseCluster (s.get p)) (hlog : s1.log = s.log)
    (cp : Option Nat) (l : List Nat) (b : Option (List (List Nat)))
    (hl : ∀ r, r ∈ l ↔ r ∈ h.ctrl_refs ∨ r = h.refs.length) :
    Grows [cp] h s { h with refs := h.refs ++ [Ref.mk cp none], ctrl_refs := l, buckets := b }
      s1 := by
  refine ⟨rfl, rfl, by rw [hlen], fun p _ => hk p, hlog, ?_, ?_, ⟨[], by simp, by simp⟩⟩
  · intro r hr
    refine ⟨(hl r).2 (Or.inl hr), ?_⟩
    rw [ref_append_old h _ _ _ r ((inv.arena r).1 hr)]
  · intro r hr
    rcases (hl r).1 hr with ho | hn
    · exact Or.inl ho
    · refine Or.inr (Or.inl ?_)
      rw [hn, ref_append_new]
      simp

/-- The part of `handler_new_ref` after the control class is there keeps the invariant:
it returns 0, and the control has a reference, the one it had or a new one. -/
theorem handler_new_ref_tail_spec {h : Handler} {s : Store} (inv : RegInv h s) (hw : s.wf)
    (cp : Option Nat) (hcp : s.valid cp) (herr : h.error = 0)
    (hm : (∃ r' ∈ h.ctrl_refs, node2id h s r' = V4L2_CTRL_ID2CLASS (s.get cp).id ||| 1) ∨
      (s.get cp).id = V4L2_CTRL_ID2CLASS (s.get cp).id ||| 1) :
    let t := handler_new_ref_tail h s cp (s.get cp).id ((s.get cp).id % h.nr_of_buckets)
    t.1 = 0 ∧ RegInv t.2.1 t.2.2 ∧ t.2.2.wf ∧ Grows [cp] h s t.2.1 t.2.2 ∧
    t.2.1.error = 0 ∧ t.2.1.ctrls = h.ctrls ∧ t.2.1.cached = h.cached ∧
    t.2.2.ctrls.length = s.ctrls.length ∧
    (∃ r ∈ t.2.1.ctrl_refs, node2id t.2.1 t.2.2 r = (s.get cp).id ∧
      ((∀ r0 ∈ h.ctrl_refs, node2id h s r0 ≠ (s.get cp).id) →
        (t.2.1.ref (some r)).ctrl = cp)) ∧
    ((∃ r0 ∈ h.ctrl_refs, node2id h s r0 = (s.get cp).id) → t.2.1 = h) := by
  obtain ⟨hv1, hk1, hlen1, hlog1, hwf1⟩ := cluster_upd_facts s h.hid cp [cp]
  generalize hs1 : (if (s.get cp).handler = h.hid then
    s.upd cp (fun c => { c with cluster := [cp] }) else s) = s1 at hv1 hk1 hlen1 hlog1 hwf1
  have hid1 : ∀ p, (s1.get p).id = (s.get p).id := fun p => eraseCluster_id (hk1 p)
  have hN : ∀ r, node2id h s1 r = node2id h s r := fun r => hid1 _
  have hsort1 : h.ctrl_refs.Pairwise (fun a b => node2id h s1 a < node2id h s1 b) := by
    refine List.Pairwise.imp ?_ inv.sorted
    intro a b hab; rw [hN a, hN b]; exact hab
  have hgen : ∀ l1 l2, h.ctrl_refs = l1 ++ l2 →
      (∀ r ∈ l1, node2id h s r < (s.get cp).id) → (∀ r ∈ l2, (s.get cp).id < node2id h s r) →
      let h1 : Handler := { h with
        refs := h.refs ++ [Ref.mk cp none],
        ctrl_refs := l1 ++ h.refs.length :: l2,
        buckets := bucket_push h.buckets ((s.get cp).id % h.nr_of_buckets) h.refs.length }
      RegInv h1 s1 ∧ s1.wf ∧ Grows [cp] h s h1 s1 ∧
      h1.error = 0 ∧ h1.ctrls = h.ctrls ∧ h1.cached = h.cached ∧
      s1.ctrls.length = s.ctrls.length ∧
      (∃ r ∈ h1.ctrl_refs, node2id h1 s1 r = (s.get cp).id ∧
        ((∀ r0 ∈ h.ctrl_refs, node2id h s r0 ≠ (s.get cp).id) →
          (h1.ref (some r)).ctrl = cp)) ∧
      ((∃ r0 ∈ h.ctrl_refs, node2id h s r0 = (s.get cp).id) → h1 = h) := by
    intro l1 l2 hl h1' h2' hh
    have hmem : ∀ r, r ∈ l1 ++ h.refs.length :: l2 ↔ r ∈ h.ctrl_refs ∨ r = h.refs.length := by
      intro r
      rw [hl]
      simp only [List.mem_append, List.mem_cons]
      tauto
    have hinv := RegInv_insert inv s1 (fun p hp => (hv1 p).2 hp) (fun p _ => hid1 p) cp hcp
      l1 l2 hl h1' h2' hm
    refine ⟨hinv, hwf1 hw, grows_insert inv s1 hlen1 hk1 hlog1 cp _ _ hmem, herr, rfl, rfl,
      hlen1, ⟨h.refs.length, (hmem _).2 (Or.inr rfl), ?_, ?_⟩, ?_⟩
    · unfold node2id
      rw [ref_append_new]
      exact hid1 _
    · intro _
      rw [ref_append_new]
    · rintro ⟨r0, hr0, he⟩
      exfalso
      rw [hl] at hr0
      rcases List.mem_append.1 hr0 with m | m
      · have := h1' r0 m; omega
      · have := h2' r0 m; omega
  intro t
  by_cases hA : h.ctrl_refs = [] ∨ node2id h s1 (h.ctrl_refs.getLastD 0) < (s.get cp).id
  · have ht : t = (0, { h with
        refs := h.refs ++ [Ref.mk cp none],
        ctrl_refs := h.ctrl_refs ++ [h.refs.length],
        buckets := bucket_push h.buckets ((s.get cp).id % h.nr_of_buckets) h.refs.length },
        s1) := by
      show handler_new_ref_tail h s cp _ _ = _
      unfold handler_new_ref_tail
      simp only [herr, ne_eq, not_true_eq_false, if_false]
      rw [hs1, if_pos hA]
    have hlt : ∀ r ∈ h.ctrl_refs, node2id h s r < (s.get cp).id := by
      intro r hr
      rcases hA with he | hlast
      · rw [he] at hr; simp at hr
      · have := le_last_of_sorted (node2id h s1) _ hsort1 r hr
        rw [hN] at this; omega
    have := hgen h.ctrl_refs [] (by simp) hlt (by simp)
    rw [ht]
    exact ⟨rfl, this⟩
  · rcases hins : insert_sorted h s1 h.refs.length (s.get cp).id h.ctrl_refs with _ | l
    · have ht : t = (0, h, s1) := by
        show handler_new_ref_tail h s cp _ _ = _
        unfold handler_new_ref_tail
        simp only [herr, ne_eq, not_true_eq_false, if_false]
        rw [hs1, if_neg hA, hins]
      obtain ⟨r, hr, he⟩ := insert_sorted_none h s1 _ _ _ hins
      rw [hN] at he
      rw [ht]
      refine ⟨rfl, ?_, hwf1 hw, ?_, herr, rfl, rfl, hlen1, ⟨r, hr, ?_, ?_⟩, fun _ => rfl⟩
      · exact ⟨hsort1, inv.arena, fun r hr => (hv1 _).2 (inv.valid r hr), inv.nr_pos,
          by
            obtain ⟨b, hb, hlen, hin, hall⟩ := inv.chains
            refine ⟨b, hb, hlen, ?_, ?_⟩
            · intro k r hr; rw [hN]; exact hin k r hr
            · intro r hr; rw [hN]; exact hall r hr,
          by
            intro r hr
            obtain ⟨r', hr', he'⟩ := inv.marker r hr
            exact ⟨r', hr', by rw [hN, hN]; exact he'⟩⟩
      · exact ⟨rfl, rfl, by rw [hlen1], fun p _ => hk1 p, hlog1, fun r hr => ⟨hr, rfl⟩,
          fun r hr => Or.inl hr, ⟨[], by simp, by simp⟩⟩
      · show node2id h s1 r = _
        rw [hN]; exact he
      · intro hno
        exact absurd he (hno r hr)
    · have ht : t = (0, { h with
          refs := h.refs ++ [Ref.mk cp none],
          ctrl_refs := l,
          buckets := bucket_push h.buckets ((s.get cp).id % h.nr_of_buckets) h.refs.length },
          s1) := by
        show handler_new_ref_tail h s cp _ _ = _
        unfold handler_new_ref_tail
        simp only [herr, ne_eq, not_true_eq_false, if_false]
        rw [hs1, if_neg hA, hins]
      have hne : h.ctrl_refs ≠ [] := fun e => hA (Or.inl e)
      have hex : ∃ r ∈ h.ctrl_refs, (s.get cp).id ≤ node2id h s1 r :=
        ⟨_, getLastD_mem _ hne, by
          have : ¬ node2id h s1 (h.ctrl_refs.getLastD 0) < (s.get cp).id := fun e => hA (Or.inr e)
          omega⟩
      obtain ⟨l1, l2, e1, e2, hlt, hgt⟩ := insert_sorted_some h s1 _ _ _ l hsort1 hex hins
      have := hgen l1 l2 e1 (fun r hr => by rw [← hN]; exact hlt r hr)
        (fun r hr => by rw [← hN]; exact hgt r hr)
      rw [ht, e2]
      exact ⟨rfl, this⟩

/-! ## Control classes -/

/-- The class control of a class control is the class control itself. -/
theorem class_of_class (id : Nat) :
    V4L2_CTRL_ID2CLASS (V4L2_CTRL_ID2CLASS id ||| 1) ||| 1 = V4L2_CTRL_ID2CLASS id ||| 1 := by
  unfold V4L2_CTRL_ID2CLASS
  apply Nat.eq_of_testBit_eq
  intro i
  simp only [Nat.testBit_or, Nat.testBit_and]
  cases id.testBit i <;> cases Nat.testBit 268369920 i <;> cases Nat.testBit 1 i <;> rfl

theorem class_lt_private {id : Nat} (h : id < V4L2_CID_PRIVATE_BASE) :
    V4L2_CTRL_ID2CLASS id ||| 1 < V4L2_CID_PRIVATE_BASE := by
  unfold V4L2_CTRL_ID2CLASS V4L2_CID_PRIVATE_BASE at *
  have h1 : id &&& 268369920 < 2 ^ 27 := lt_of_le_of_lt Nat.and_le_left (by simpa using h)
  have h2 : (1 : Nat) < 2 ^ 27 := by norm_num
  have := Nat.or_lt_two_pow h1 h2
  simpa using this

theorem mask_of_lt_private {id : Nat} (h : id < V4L2_CID_PRIVATE_BASE) :
    id &&& V4L2_CTRL_ID_MASK = id := by
  unfold V4L2_CTRL_ID_MASK V4L2_CID_PRIVATE_BASE at *
  have : (268435455 : Nat) = 2 ^ 28 - 1 := by norm_num
  rw [this, Nat.and_pow_two_sub_one_eq_mod]
  exact Nat.mod_eq_of_lt (by omega)

/-! ## The store when a control is allocated -/

theorem valid_append (s : Store) (c : Ctrl) (p : Option Nat) (hp : s.valid p) :
    ({ s with ctrls := s.ctrls ++ [c] } : Store).valid p := by
  cases p with
  | none => exact hp
  | some i =>
    simp only [Store.valid, List.length_append, List.length_singleton] at hp ⊢
    omega

theorem get_append_old (s : Store) (c : Ctrl) (p : Option Nat) (hp : s.valid p) :
    ({ s with ctrls := s.ctrls ++ [c] } : Store).get p = s.get p := by
  cases p with
  | none => rfl
  | some i =>
    simp only [Store.valid] at hp
    simp only [Store.get, List.getD_eq_getElem?_getD]
    rw [List.getElem?_append_left hp]

theorem get_append_new (s : Store) (c : Ctrl) :
    ({ s with ctrls := s.ctrls ++ [c] } : Store).get (some s.ctrls.length) = c := by
  simp only [Store.get, List.getD_eq_getElem?_getD]
  rw [List.getElem?_append_right (Nat.le_refl _)]
  simp

theorem wf_append {s : Store} (hw : s.wf) (c : Ctrl) (h0 : c.id ≠ 0)
    (h1 : c.id < V4L2_CID_PRIVATE_BASE) : ({ s with ctrls := s.ctrls ++ [c] } : Store).wf := by
  intro x hx
  rcases List.mem_append.1 hx with m | m
  · exact hw x m
  · simp only [List.mem_singleton] at m
    rw [m]; exact ⟨h0, h1⟩

theorem free_append (s : Store) (c : Ctrl) :
    ({ s with ctrls := s.ctrls ++ [c] } : Store).free (some s.ctrls.length) = s := by
  unfold Store.free
  simp

/-- The invariant reads the store through the IDs of the controls only. -/
theorem RegInv_store {h : Handler} {s : Store} (inv : RegInv h s) (s1 : Store)
    (hv : ∀ p, s.valid p → s1.valid p)
    (hi : ∀ p, s.valid p → (s1.get p).id = (s.get p).id) : RegInv h s1 := by
  have hN : ∀ r ∈ h.ctrl_refs, node2id h s1 r = node2id h s r :=
    fun r hr => hi _ (inv.valid r hr)
  refine ⟨?_, inv.arena, fun r hr => hv _ (inv.valid r hr), inv.nr_pos, ?_, ?_⟩
  · refine List.Pairwise.imp_of_mem ?_ inv.sorted
    intro a b ha hb hab
    rw [hN a ha, hN b hb]; exact hab
  · obtain ⟨b, hb, hlen, hin, hall⟩ := inv.chains
    refine ⟨b, hb, hlen, ?_, ?_⟩
    · intro k r hr
      obtain ⟨h1, h2⟩ := hin k r hr
      exact ⟨h1, by rw [hN r h1]; exact h2⟩
    · intro r hr
      rw [hN r hr]; exact hall r hr
  · intro r hr
    obtain ⟨r', hr', he⟩ := inv.marker r hr
    exact ⟨r', hr', by rw [hN r hr, hN r' hr']; exact he⟩

theorem valid_of_len {s s1 : Store} (hl : s.ctrls.length ≤ s1.ctrls.length) (p : Option Nat)
    (hp : s.valid p) : s1.valid p := by
  cases p with
  | none => exact hp
  | some i => simp only [Store.valid] at hp ⊢; omega

theorem grows_refl (ps : List (Option Nat)) (h : Handler) (s : Store) : Grows ps h s h s :=
  ⟨rfl, rfl, Nat.le_refl _, fun _ _ => rfl, rfl, fun _ hr => ⟨hr, rfl⟩, fun _ hr => Or.inl hr,
    ⟨[], by simp, by simp⟩⟩

theorem grows_trans (qs : List (Option Nat)) {ps ps' : List (Option Nat)}
    {h h1 h2 : Handler} {s s1 s2 : Store}
    (g1 : Grows ps h s h1 s1) (g2 : Grows ps' h1 s1 h2 s2)
    (hps : ∀ p ∈ ps, p ∈ qs) (hps' : ∀ p ∈ ps', p ∈ qs ∨ ∃ q, p = some q ∧ s.ctrls.length ≤ q) :
    Grows qs h s h2 s2 := by
  refine ⟨g2.hid.trans g1.hid, g2.nr.trans g1.nr, le_trans g1.len g2.len, ?_,
    g2.log.trans g1.log, ?_, ?_, ?_⟩
  · intro p hp
    rw [g2.kept p (valid_of_len g1.len p hp), g1.kept p hp]
  · intro r hr
    obtain ⟨a1, a2⟩ := g1.old r hr
    obtain ⟨b1, b2⟩ := g2.old r a1
    exact ⟨b1, b2.trans a2⟩
  · intro r hr
    rcases g2.fresh r hr with a | a | ⟨q, hq, hle⟩
    · rcases g1.fresh r a with b | b | ⟨q, hq, hle⟩
      · exact Or.inl b
      · exact Or.inr (Or.inl (by rw [(g2.old r a).2]; exact hps _ b))
      · exact Or.inr (Or.inr ⟨q, by rw [(g2.old r a).2]; exact hq, hle⟩)
    · rcases hps' _ a with b | ⟨q, hq, hle⟩
      · exact Or.inr (Or.inl b)
      · exact Or.inr (Or.inr ⟨q, hq, hle⟩)
    · exact Or.inr (Or.inr ⟨q, hq, le_trans g1.len hle⟩)
  · obtain ⟨l1, e1, hl1⟩ := g1.owned
    obtain ⟨l2, e2, hl2⟩ := g2.owned
    refine ⟨l1 ++ l2, by rw [e2, e1, List.append_assoc], ?_⟩
    intro q hq
    rcases List.mem_append.1 hq with m | m
    · exact hl1 q m
    · exact le_trans g1.len (hl2 q m)

/-! ## The calls that hook a control into a registry -/

/-- For a control whose ID is the ID of its own class control, `handler_new_ref` adds no
class control: it is the part after that step, at every depth. -/
theorem handler_new_ref_depth_class (cat : Catalog) (n : Nat) (h : Handler) (s : Store)
    (cp : Option Nat) (hk : (s.get cp).id = V4L2_CTRL_ID2CLASS (s.get cp).id ||| 1) :
    handler_new_ref_depth cat (n + 1) h s cp =
      handler_new_ref_tail h s cp (s.get cp).id ((s.get cp).id % h.nr_of_buckets) := by
  rw [handler_new_ref_depth]
  simp only
  rw [if_neg (not_not.2 hk)]

/-- With the class control found, `handler_new_ref` is the part after that step on the
handler that `find_ref` returns. -/
theorem handler_new_ref_depth_found (cat : Catalog) (n : Nat) (h : Handler) (s : Store)
    (cp : Option Nat) (r : Nat)
    (hk : (s.get cp).id ≠ V4L2_CTRL_ID2CLASS (s.get cp).id ||| 1)
    (hf : (find_ref h s (V4L2_CTRL_ID2CLASS (s.get cp).id ||| 1)).1 = some r) :
    handler_new_ref_depth cat (n + 1) h s cp =
      handler_new_ref_tail (find_ref h s (V4L2_CTRL_ID2CLASS (s.get cp).id ||| 1)).2 s cp
        (s.get cp).id ((s.get cp).id % h.nr_of_buckets) := by
  rw [handler_new_ref_depth]
  simp only
  rw [if_pos hk, hf]

/-- With the class control missing, `handler_new_ref` first creates it with
`v4l2_ctrl_new_std`, and returns the error of the handler when that fails. -/
theorem handler_new_ref_depth_missing_fail (cat : Catalog) (n : Nat) (h : Handler) (s : Store)
    (cp : Option Nat) (m : Made)
    (hk : (s.get cp).id ≠ V4L2_CTRL_ID2CLASS (s.get cp).id ||| 1)
    (hf : (find_ref h s (V4L2_CTRL_ID2CLASS (s.get cp).id ||| 1)).1 = none)
    (hm : v4l2_ctrl_new_std_with (handler_new_ref_depth cat n) cat
        (find_ref h s (V4L2_CTRL_ID2CLASS (s.get cp).id ||| 1)).2 s none
        (V4L2_CTRL_ID2CLASS (s.get cp).id ||| 1) 0 0 0 0 = m)
    (hc : m.ctrl = none) :
    handler_new_ref_depth cat (n + 1) h s cp = (m.hdl.error, m.hdl, m.store) := by
  rw [handler_new_ref_depth]
  simp only
  rw [if_pos hk, hf]
  simp only [hm, hc]

/-- With the class control missing and created, `handler_new_ref` goes on with the
handler and the store that `v4l2_ctrl_new_std` left. -/
theorem handler_new_ref_depth_missing_ok (cat : Catalog) (n : Nat) (h : Handler) (s : Store)
    (cp : Option Nat) (m : Made) (q : Nat)
    (hk : (s.get cp).id ≠ V4L2_CTRL_ID2CLASS (s.get cp).id ||| 1)
    (hf : (find_ref h s (V4L2_CTRL_ID2CLASS (s.get cp).id ||| 1)).1 = none)
    (hm : v4l2_ctrl_new_std_with (handler_new_ref_depth cat n) cat
        (find_ref h s (V4L2_CTRL_ID2CLASS (s.get cp).id ||| 1)).2 s none
        (V4L2_CTRL_ID2CLASS (s.get cp).id ||| 1) 0 0 0 0 = m)
    (hc : m.ctrl = some q) :
    handler_new_ref_depth cat (n + 1) h s cp =
      handler_new_ref_tail m.hdl m.store cp (s.get cp).id ((s.get cp).id % h.nr_of_buckets) := by
  rw [handler_new_ref_depth]
  simp only
  rw [if_pos hk, hf]
  simp only [hm, hc]

/-- The two ways `v4l2_ctrl_new` ends: it rejects the call and leaves the store, or it
allocates a control with the ID for the handler and hooks it in. -/
theorem v4l2_ctrl_new_with_shape
    (new_ref : Handler → Store → Option Nat → Int × Handler × Store)
    (h : Handler) (s : Store) (ops : Option Ops) (id : Nat) (name : Option String)
    (type : CtrlType) (min max : Int) (step : Nat) (dflt : Int) (flags : Nat)
    (qmenu : Option (List String)) :
    ((v4l2_ctrl_new_with new_ref h s ops id name type min max step dflt flags qmenu).ctrl = none ∧
      (v4l2_ctrl_new_with new_ref h s ops id name type min max step dflt flags qmenu).store = s ∧
      (v4l2_ctrl_new_with new_ref h s ops id name type min max step dflt flags qmenu).hdl =
        handler_set_err h (-ERANGE)) ∨
    (h.error = 0 ∧ id ≠ 0 ∧ id < V4L2_CID_PRIVATE_BASE ∧ ∃ c : Ctrl, c.id = id ∧
      c.handler = h.hid ∧
      v4l2_ctrl_new_with new_ref h s ops id name type min max step dflt flags qmenu =
        if (new_ref h { s with ctrls := s.ctrls ++ [c] } (some s.ctrls.length)).1 ≠ 0 then
          ⟨none, (new_ref h { s with ctrls := s.ctrls ++ [c] } (some s.ctrls.length)).2.1,
            (new_ref h { s with ctrls := s.ctrls ++ [c] } (some s.ctrls.length)).2.2.free
              (some s.ctrls.length)⟩
        else
          ⟨some s.ctrls.length,
            { (new_ref h { s with ctrls := s.ctrls ++ [c] } (some s.ctrls.length)).2.1 with
              ctrls := (new_ref h { s with ctrls := s.ctrls ++ [c] }
                (some s.ctrls.length)).2.1.ctrls ++ [s.ctrls.length] },
            (new_ref h { s with ctrls := s.ctrls ++ [c] } (some s.ctrls.length)).2.2⟩) := by
  unfold v4l2_ctrl_new_with
  by_cases he : h.error ≠ 0
  · left
    rw [if_pos he]
    refine ⟨rfl, rfl, ?_⟩
    unfold handler_set_err
    rw [if_neg he]
  · rw [if_neg he]
    by_cases h1 : id = 0 ∨ name = none ∨ V4L2_CID_PRIVATE_BASE ≤ id ∨
      (type = .INTEGER ∧ step = 0) ∨ (type = .BITMASK ∧ max = 0) ∨
      (type = .MENU ∧ qmenu = none) ∨ (type = .STRING ∧ max = 0)
    · rw [if_pos h1]; exact Or.inl ⟨rfl, rfl, rfl⟩
    rw [if_neg h1]
    by_cases h2 : type ≠ .BITMASK ∧ max < min
    · rw [if_pos h2]; exact Or.inl ⟨rfl, rfl, rfl⟩
    rw [if_neg h2]
    by_cases h3 : (type = .INTEGER ∨ type = .MENU ∨ type = .BOOLEAN) ∧ (dflt < min ∨ dflt > max)
    · rw [if_pos h3]; exact Or.inl ⟨rfl, rfl, rfl⟩
    rw [if_neg h3]
    by_cases h4 : type = .BITMASK ∧ (and32 dflt (-max - 1) ≠ 0 ∨ min ≠ 0 ∨ step ≠ 0)
    · rw [if_pos h4]; exact Or.inl ⟨rfl, rfl, rfl⟩
    rw [if_neg h4]
    right
    exact ⟨not_not.1 he, fun e => h1 (Or.inl e),
      Nat.lt_of_not_le (fun e => h1 (Or.inr (Or.inr (Or.inl e)))),
      ctrl_alloc h ops id name type min max step dflt
        (if type = .BUTTON then flags ||| V4L2_CTRL_FLAG_WRITE_ONLY
         else if type = .CTRL_CLASS then flags ||| V4L2_CTRL_FLAG_READ_ONLY
         else flags) qmenu, rfl, rfl, rfl⟩

theorem wf_get {s : Store} (hw : s.wf) (p : Option Nat) (hp : s.valid p) :
    (s.get p).id ≠ 0 ∧ (s.get p).id < V4L2_CID_PRIVATE_BASE := by
  cases p with
  | none => exact absurd hp id
  | some i =>
    simp only [Store.valid] at hp
    apply hw
    simp only [Store.get, List.getD_eq_getElem?_getD, List.getElem?_eq_getElem hp,
      Option.getD_some]
    exact List.getElem_mem _

theorem handler_set_err_of_ok {h : Handler} (he : h.error = 0) (e : Int) :
    handler_set_err h e = { h with error := e } := by
  unfold handler_set_err; rw [if_pos he]

/-- An allocated control that is hooked in by a step that grows the registry from the
store with the control: the registry grows from the store without it. -/
theorem grows_alloc {h h1 : Handler} {s s1 : Store} (c : Ctrl)
    (g : Grows [some s.ctrls.length] h { s with ctrls := s.ctrls ++ [c] } h1 s1) :
    Grows [] h s { h1 with ctrls := h1.ctrls ++ [s.ctrls.length] } s1 := by
  have hlen : s.ctrls.length ≤ ({ s with ctrls := s.ctrls ++ [c] } : Store).ctrls.length := by
    simp
  refine ⟨g.hid, g.nr, le_trans hlen g.len, ?_, g.log, g.old, ?_, ?_⟩
  · intro p hp
    rw [g.kept p (valid_append s c p hp), get_append_old s c p hp]
  · intro r hr
    rcases g.fresh r hr with a | a | ⟨q, hq, hle⟩
    · exact Or.inl a
    · refine Or.inr (Or.inr ⟨s.ctrls.length, ?_, Nat.le_refl _⟩)
      simpa using a
    · exact Or.inr (Or.inr ⟨q, hq, le_trans hlen hle⟩)
  · obtain ⟨l, e, hl⟩ := g.owned
    refine ⟨l ++ [s.ctrls.length], ?_, ?_⟩
    · show h1.ctrls ++ [s.ctrls.length] = _
      rw [e, List.append_assoc]
    · intro q hq
      rcases List.mem_append.1 hq with m | m
      · exact le_trans hlen (hl q m)
      · simp only [List.mem_singleton] at m
        omega

/-- The class control that `handler_new_ref` creates when the registry lacks it: the call
of `v4l2_ctrl_new_std` fails with an error on the handler and leaves the store, or it
allocates the control, hooks it in and owns it. -/
theorem class_create_spec (cat : Catalog) (n : Nat) {h : Handler} {s : Store}
    (inv : RegInv h s) (hw : s.wf) (herr : h.error = 0) (k : Nat)
    (hk : k = V4L2_CTRL_ID2CLASS k ||| 1)
    (habs : ∀ r ∈ h.ctrl_refs, node2id h s r ≠ k) (m : Made)
    (hm : v4l2_ctrl_new_std_with (handler_new_ref_depth cat (n + 1)) cat h s none k 0 0 0 0 = m) :
    (m.ctrl = none ∧ m.store = s ∧ ∃ e, e ≠ 0 ∧ m.hdl = { h with error := e }) ∨
    (m.ctrl = some s.ctrls.length ∧ RegInv m.hdl m.store ∧ m.store.wf ∧
      Grows [] h s m.hdl m.store ∧ m.hdl.error = 0 ∧
      m.hdl.ctrls = h.ctrls ++ [s.ctrls.length] ∧ m.hdl.cached = h.cached ∧
      m.store.ctrls.length = s.ctrls.length + 1 ∧
      (m.store.get (some s.ctrls.length)).id = k ∧
      ∃ r ∈ m.hdl.ctrl_refs, node2id m.hdl m.store r = k ∧
        (m.hdl.ref (some r)).ctrl = some s.ctrls.length) := by
  unfold v4l2_ctrl_new_std_with at hm
  simp only at hm
  by_cases hmenu : (v4l2_ctrl_fill cat k 0 0 0 0).type = .MENU
  · rw [if_pos hmenu] at hm
    left
    rw [← hm]
    exact ⟨rfl, rfl, -EINVAL, by decide, handler_set_err_of_ok herr _⟩
  · rw [if_neg hmenu] at hm
    rcases v4l2_ctrl_new_with_shape (handler_new_ref_depth cat (n + 1)) h s none k
      (v4l2_ctrl_fill cat k 0 0 0 0).name (v4l2_ctrl_fill cat k 0 0 0 0).type
      (v4l2_ctrl_fill cat k 0 0 0 0).min (v4l2_ctrl_fill cat k 0 0 0 0).max
      (v4l2_ctrl_fill cat k 0 0 0 0).step (v4l2_ctrl_fill cat k 0 0 0 0).dflt
      (v4l2_ctrl_fill cat k 0 0 0 0).flags none with ⟨a1, a2, a3⟩ | ⟨_, k0, klt, c, cid, _, hshape⟩
    · left
      rw [hm] at a1 a2 a3
      exact ⟨a1, a2, -ERANGE, by decide, by rw [a3]; exact handler_set_err_of_ok herr _⟩
    · right
      rw [hm] at hshape
      have hget : ({ s with ctrls := s.ctrls ++ [c] } : Store).get (some s.ctrls.length) = c :=
        get_append_new s c
      have hv2 : ({ s with ctrls := s.ctrls ++ [c] } : Store).valid (some s.ctrls.length) := by
        simp [Store.valid]
      have inv2 : RegInv h { s with ctrls := s.ctrls ++ [c] } :=
        RegInv_store inv _ (fun p hp => valid_append s c p hp)
          (fun p hp => by rw [get_append_old s c p hp])
      have hw2 : ({ s with ctrls := s.ctrls ++ [c] } : Store).wf :=
        wf_append hw c (by rw [cid]; exact k0) (by rw [cid]; exact klt)
      have hN2 : ∀ r ∈ h.ctrl_refs,
          node2id h { s with ctrls := s.ctrls ++ [c] } r = node2id h s r := by
        intro r hr
        unfold node2id
        rw [get_append_old s c _ (inv.valid r hr)]
      have hdepth := handler_new_ref_depth_class cat n h { s with ctrls := s.ctrls ++ [c] }
        (some s.ctrls.length) (by rw [hget, cid]; exact hk)
      have hspec := handler_new_ref_tail_spec inv2 hw2 (some s.ctrls.length) hv2 herr
        (Or.inr (by rw [hget, cid]; exact hk))
      simp only at hspec
      rw [← hdepth] at hspec
      obtain ⟨t0, tinv, twf, tg, terr, tctrls, tcached, tlen, ⟨r, hr, hrid, hrc⟩, _⟩ := hspec
      rw [if_neg (not_not.2 t0)] at hshape
      rw [hshape]
      have hkept := tg.kept (some s.ctrls.length) hv2
      refine ⟨rfl, RegInv_ctrls tinv _, twf, grows_alloc c tg, terr, ?_, tcached, ?_, ?_,
        r, hr, ?_, ?_⟩
      · show _ ++ [s.ctrls.length] = _
        rw [tctrls]
      · show _ = s.ctrls.length + 1
        rw [tlen]; simp
      · show (_ : Ctrl).id = k
        rw [eraseCluster_id hkept, hget, cid]
      · exact hrid.trans (by rw [hget, cid])
      · apply hrc
        intro r0 hr0
        rw [hN2 r0 hr0, hget, cid]
        exact habs r0 hr0

/-- The function `handler_new_ref` on a registry that satisfies the invariant and has no
error stored. It fails only when the class control is missing and cannot be created, and
then it leaves the store and the index. Else it returns 0, keeps the invariant, and the
control has a reference: the one its ID had, or a new one; the class control is created
and owned when it was missing. -/
theorem handler_new_ref_depth_spec (cat : Catalog) (n : Nat) {h : Handler} {s : Store}
    (inv : RegInv h s) (hw : s.wf) (cp : Option Nat) (hcp : s.valid cp) (herr : h.error = 0)
    (t : Int × Handler × Store) (ht : handler_new_ref_depth cat (n + 2) h s cp = t) :
    (t.1 ≠ 0 ∧ t.2.2 = s ∧ (∃ c e, e ≠ 0 ∧ t.1 = e ∧ t.2.1 = { h with cached := c, error := e }) ∧
      (s.get cp).id ≠ V4L2_CTRL_ID2CLASS (s.get cp).id ||| 1 ∧
      ∀ r ∈ h.ctrl_refs, node2id h s r ≠ V4L2_CTRL_ID2CLASS (s.get cp).id ||| 1) ∨
    (t.1 = 0 ∧ RegInv t.2.1 t.2.2 ∧ t.2.2.wf ∧ Grows [cp] h s t.2.1 t.2.2 ∧ t.2.1.error = 0 ∧
      (∃ r ∈ t.2.1.ctrl_refs, node2id t.2.1 t.2.2 r = (s.get cp).id ∧
        ((∀ r0 ∈ h.ctrl_refs, node2id h s r0 ≠ (s.get cp).id) →
          (t.2.1.ref (some r)).ctrl = cp)) ∧
      ((t.2.1.ctrls = h.ctrls ∧ t.2.2.ctrls.length = s.ctrls.length ∧
          ((∃ r0 ∈ h.ctrl_refs, node2id h s r0 = (s.get cp).id) →
            ∃ c, t.2.1 = { h with cached := c })) ∨
        ((s.get cp).id ≠ V4L2_CTRL_ID2CLASS (s.get cp).id ||| 1 ∧
          (∀ r ∈ h.ctrl_refs, node2id h s r ≠ V4L2_CTRL_ID2CLASS (s.get cp).id ||| 1) ∧
          t.2.1.ctrls = h.ctrls ++ [s.ctrls.length] ∧
          t.2.2.ctrls.length = s.ctrls.length + 1 ∧
          (t.2.2.get (some s.ctrls.length)).id = V4L2_CTRL_ID2CLASS (s.get cp).id ||| 1 ∧
          ∃ r ∈ t.2.1.ctrl_refs,
            node2id t.2.1 t.2.2 r = V4L2_CTRL_ID2CLASS (s.get cp).id ||| 1 ∧
            (t.2.1.ref (some r)).ctrl = some s.ctrls.length))) := by
  obtain ⟨hid0, hidlt⟩ := wf_get hw cp hcp
  by_cases hk : (s.get cp).id = V4L2_CTRL_ID2CLASS (s.get cp).id ||| 1
  · -- the control is its own class control
    right
    have hspec := handler_new_ref_tail_spec inv hw cp hcp herr (Or.inr hk)
    simp only at hspec
    rw [← handler_new_ref_depth_class cat (n + 1) h s cp hk, ht] at hspec
    obtain ⟨t0, tinv, twf, tg, terr, tctrls, tcached, tlen, tfound, tdup⟩ := hspec
    exact ⟨t0, tinv, twf, tg, terr, tfound, Or.inl ⟨tctrls, tlen, fun hex =>
      ⟨h.cached, by rw [tdup hex]⟩⟩⟩
  · have hklt := class_lt_private hidlt
    obtain ⟨hf1, c, hf2⟩ := find_ref_lookup inv (V4L2_CTRL_ID2CLASS (s.get cp).id ||| 1)
      (by rw [mask_of_lt_private hklt]; exact hklt)
    rw [mask_of_lt_private hklt] at hf1
    have invc : RegInv { h with cached := c } s := RegInv_cached inv c
    rcases hl : lookup h s (V4L2_CTRL_ID2CLASS (s.get cp).id ||| 1) with _ | r0
    · -- the class control is missing
      rw [hl] at hf1
      have habs := lookup_none hl
      rcases hmc : (v4l2_ctrl_new_std_with (handler_new_ref_depth cat (n + 1)) cat
          (find_ref h s (V4L2_CTRL_ID2CLASS (s.get cp).id ||| 1)).2 s none
          (V4L2_CTRL_ID2CLASS (s.get cp).id ||| 1) 0 0 0 0).ctrl with _ | q
      · left
        have hd := handler_new_ref_depth_missing_fail cat (n + 1) h s cp _ hk hf1 rfl hmc
        rw [ht] at hd
        rcases class_create_spec cat n invc hw herr _ (class_of_class _).symm habs _
          (by rw [← hf2]) with ⟨_, a2, e, he, a3⟩ | ⟨a1, _⟩
        · rw [hd]
          refine ⟨?_, a2, ⟨c, e, he, ?_, a3⟩, hk, habs⟩
          · show (_ : Handler).error ≠ 0
            rw [a3]; exact he
          · show (_ : Handler).error = e
            rw [a3]
        · rw [hmc] at a1; cases a1
      · right
        have hd := handler_new_ref_depth_missing_ok cat (n + 1) h s cp _ q hk hf1 rfl hmc
        rw [ht] at hd
        rcases class_create_spec cat n invc hw herr _ (class_of_class _).symm habs _
          (by rw [← hf2]) with ⟨a1, _⟩ | ⟨_, minv, mwf, mg, merr, mctrls, _, mlen, mid, r, hr, hrid, hrc⟩
        · rw [hmc] at a1; cases a1
        · generalize (v4l2_ctrl_new_std_with (handler_new_ref_depth cat (n + 1)) cat
            (find_ref h s (V4L2_CTRL_ID2CLASS (s.get cp).id ||| 1)).2 s none
            (V4L2_CTRL_ID2CLASS (s.get cp).id ||| 1) 0 0 0 0) = m at *
          have hcpm : m.store.valid cp := valid_of_len mg.len cp hcp
          have hidm : (m.store.get cp).id = (s.get cp).id := eraseCluster_id (mg.kept cp hcp)
          have hnr : m.hdl.nr_of_buckets = h.nr_of_buckets := mg.nr
          have hspec := handler_new_ref_tail_spec minv mwf cp hcpm merr
            (Or.inl ⟨r, hr, by rw [hidm]; exact hrid⟩)
          simp only at hspec
          rw [hidm, hnr, ← hd] at hspec
          obtain ⟨t0, tinv, twf, tg, terr, tctrls, _, tlen, ⟨r', hr', hrid', hrc'⟩, _⟩ := hspec
          have hg : Grows [cp] h s t.2.1 t.2.2 :=
            grows_trans [cp] (show Grows [] h s m.hdl m.store from
              ⟨mg.hid, mg.nr, mg.len, mg.kept, mg.log, mg.old, mg.fresh, mg.owned⟩) tg
              (by simp) (fun p hp => Or.inl hp)
          have hvlen : m.store.valid (some s.ctrls.length) := by
            simp only [Store.valid]; omega
          refine ⟨t0, tinv, twf, hg, terr, ⟨r', hr', hrid', ?_⟩, Or.inr ⟨hk, habs, ?_, ?_, ?_,
            r, (tg.old r hr).1, ?_, ?_⟩⟩
          · intro hfresh
            apply hrc'
            intro r1 hr1
            rcases mg.fresh r1 hr1 with a | a | ⟨q1, hq1, hle⟩
            · have h1 : (m.hdl.ref (some r1)).ctrl = (h.ref (some r1)).ctrl := (mg.old r1 a).2
              have h2 : node2id m.hdl m.store r1 = node2id h s r1 := by
                unfold node2id
                rw [h1]
                exact eraseCluster_id (mg.kept _ (inv.valid r1 a))
              rw [h2]; exact hfresh r1 a
            · simp at a
            · have hv := minv.valid r1 hr1
              rw [hq1] at hv
              simp only [Store.valid] at hv
              have hq : q1 = s.ctrls.length := by omega
              have h2 : node2id m.hdl m.store r1 =
                  V4L2_CTRL_ID2CLASS (s.get cp).id ||| 1 := by
                unfold node2id
                rw [hq1, hq]; exact mid
              rw [h2]; exact fun e => hk e.symm
          · rw [tctrls, mctrls]
          · rw [tlen, mlen]
          · rw [eraseCluster_id (tg.kept _ hvlen)]; exact mid
          · unfold node2id
            rw [(tg.old r hr).2, hrc, eraseCluster_id (tg.kept _ hvlen)]; exact mid
          · rw [(tg.old r hr).2]; exact hrc
    · -- the class control is there
      right
      rw [hl] at hf1
      obtain ⟨hr0, hr0id⟩ := lookup_some hl
      have hd := handler_new_ref_depth_found cat (n + 1) h s cp r0 hk hf1
      rw [ht, hf2] at hd
      have hspec := handler_new_ref_tail_spec invc hw cp hcp herr (Or.inl ⟨r0, hr0, hr0id⟩)
      simp only at hspec
      have hd' : t = handler_new_ref_tail { h with cached := c } s cp (s.get cp).id
          ((s.get cp).id % ({ h with cached := c } : Handler).nr_of_buckets) := hd
      rw [← hd'] at hspec
      obtain ⟨t0, tinv, twf, tg, terr, tctrls, tcached, tlen, tfound, tdup⟩ := hspec
      exact ⟨t0, tinv, twf, ⟨tg.hid, tg.nr, tg.len, tg.kept, tg.log, tg.old, tg.fresh, tg.owned⟩,
        terr, tfound, Or.inl ⟨tctrls, tlen, fun hex => ⟨c, tdup hex⟩⟩⟩

theorem node2id_append_store {h : Handler} {s : Store} (inv : RegInv h s) (c : Ctrl) (r : Nat)
    (hr : r ∈ h.ctrl_refs) :
    node2id h { s with ctrls := s.ctrls ++ [c] } r = node2id h s r := by
  unfold node2id
  rw [get_append_old s c _ (inv.valid r hr)]

/-- The function `v4l2_ctrl_new` on a registry that satisfies the invariant. It fails and
leaves the store and the index, or it allocates the control at the end of the store, hooks
it in and owns it; the class control, when the registry lacks it, is allocated after the
control and owned before it. -/
theorem v4l2_ctrl_new_with_spec (cat : Catalog) (n : Nat) {h : Handler} {s : Store}
    (inv : RegInv h s) (hw : s.wf) (ops : Option Ops) (id : Nat) (name : Option String)
    (type : CtrlType) (min max : Int) (step : Nat) (dflt : Int) (flags : Nat)
    (qmenu : Option (List String)) (m : Made)
    (hm : v4l2_ctrl_new_with (handler_new_ref_depth cat (n + 2)) h s ops id name type min max
      step dflt flags qmenu = m) :
    (m.ctrl = none ∧ m.store = s ∧ ∃ c e, m.hdl = { h with cached := c, error := e }) ∨
    (h.error = 0 ∧ m.ctrl = some s.ctrls.length ∧ RegInv m.hdl m.store ∧ m.store.wf ∧
      Grows [] h s m.hdl m.store ∧ m.hdl.error = 0 ∧
      (m.store.get (some s.ctrls.length)).id = id ∧
      (∃ r ∈ m.hdl.ctrl_refs, node2id m.hdl m.store r = id ∧
        ((∀ r0 ∈ h.ctrl_refs, node2id h s r0 ≠ id) →
          (m.hdl.ref (some r)).ctrl = some s.ctrls.length)) ∧
      ((m.hdl.ctrls = h.ctrls ++ [s.ctrls.length] ∧
          m.store.ctrls.length = s.ctrls.length + 1) ∨
        (id ≠ V4L2_CTRL_ID2CLASS id ||| 1 ∧
          (∀ r ∈ h.ctrl_refs, node2id h s r ≠ V4L2_CTRL_ID2CLASS id ||| 1) ∧
          m.hdl.ctrls = h.ctrls ++ [s.ctrls.length + 1, s.ctrls.length] ∧
          m.store.ctrls.length = s.ctrls.length + 2 ∧
          (m.store.get (some (s.ctrls.length + 1))).id = V4L2_CTRL_ID2CLASS id ||| 1 ∧
          ∃ r ∈ m.hdl.ctrl_refs, node2id m.hdl m.store r = V4L2_CTRL_ID2CLASS id ||| 1 ∧
            (m.hdl.ref (some r)).ctrl = some (s.ctrls.length + 1)))) := by
  rcases v4l2_ctrl_new_with_shape (handler_new_ref_depth cat (n + 2)) h s ops id name type
    min max step dflt flags qmenu with ⟨a1, a2, a3⟩ | ⟨herr, k0, klt, c, cid, _, hshape⟩
  · left
    rw [hm] at a1 a2 a3
    refine ⟨a1, a2, h.cached, (handler_set_err h (-ERANGE)).error, ?_⟩
    rw [a3]
    unfold handler_set_err
    split_ifs <;> rfl
  · rw [hm] at hshape
    have hget : ({ s with ctrls := s.ctrls ++ [c] } : Store).get (some s.ctrls.length) = c :=
      get_append_new s c
    have hv2 : ({ s with ctrls := s.ctrls ++ [c] } : Store).valid (some s.ctrls.length) := by
      simp [Store.valid]
    have inv2 : RegInv h { s with ctrls := s.ctrls ++ [c] } :=
      RegInv_store inv _ (fun p hp => valid_append s c p hp)
        (fun p hp => by rw [get_append_old s c p hp])
    have hw2 : ({ s with ctrls := s.ctrls ++ [c] } : Store).wf :=
      wf_append hw c (by rw [cid]; exact k0) (by rw [cid]; exact klt)
    have hlen2 : ({ s with ctrls := s.ctrls ++ [c] } : Store).ctrls.length =
        s.ctrls.length + 1 := by simp
    rcases handler_new_ref_depth_spec cat n inv2 hw2 (some s.ctrls.length) hv2 herr _ rfl with
      ⟨t0, t1, ⟨c', e, _, _, t2⟩, _⟩ | ⟨t0, tinv, twf, tg, terr, ⟨r, hr, hrid, hrc⟩, talt⟩
    · left
      rw [if_pos t0] at hshape
      rw [hshape]
      refine ⟨rfl, ?_, c', e, t2⟩
      show Store.free _ _ = s
      rw [t1]; exact free_append s c
    · right
      rw [if_neg (not_not.2 t0)] at hshape
      rw [hshape]
      generalize handler_new_ref_depth cat (n + 2) h { s with ctrls := s.ctrls ++ [c] }
        (some s.ctrls.length) = t at *
      rw [hget, cid] at hrid talt
      have hkept := tg.kept (some s.ctrls.length) hv2
      refine ⟨herr, rfl, RegInv_ctrls tinv _, twf, grows_alloc c tg, terr, ?_,
        ⟨r, hr, hrid, ?_⟩, ?_⟩
      · show (t.2.2.get (some s.ctrls.length)).id = id
        rw [eraseCluster_id hkept, hget, cid]
      · intro hfresh
        apply hrc
        intro r0 hr0
        rw [node2id_append_store inv c r0 hr0, hget, cid]
        exact hfresh r0 hr0
      · rcases talt with ⟨b1, b2, _⟩ | ⟨b1, b2, b3, b4, b5, b6⟩
        · left
          refine ⟨?_, ?_⟩
          · show t.2.1.ctrls ++ [s.ctrls.length] = _
            rw [b1]
          · show t.2.2.ctrls.length = _
            rw [b2, hlen2]
        · right
          rw [hlen2] at b3 b4 b5 b6
          refine ⟨b1, ?_, ?_, b4, b5, b6⟩
          · intro r0 hr0
            rw [← node2id_append_store inv c r0 hr0]
            exact b2 r0 hr0
          · show t.2.1.ctrls ++ [s.ctrls.length] = _
            rw [b3]; simp

/-! ## The invariant in the reachable states -/

theorem RegInv_init (hid hint : Nat) (s : Store) :
    RegInv (v4l2_ctrl_handler_init hid hint).2 s := by
  unfold v4l2_ctrl_handler_init
  refine ⟨List.Pairwise.nil, ?_, ?_, ?_, ?_, ?_⟩
  · intro r; simp
  · intro r hr; simp at hr
  · show 0 < 1 + _; omega
  · refine ⟨_, rfl, by simp, ?_, ?_⟩
    · intro k r hr
      exfalso
      simp only [List.getD_eq_getElem?_getD] at hr
      by_cases hk : k < (List.replicate (1 + hint % 4294967296 / 8) ([] : List Nat)).length
      · rw [List.getElem?_eq_getElem hk] at hr
        simp at hr
      · rw [List.getElem?_eq_none (by omega)] at hr
        simp at hr
    · intro r hr; simp at hr
  · intro r hr; simp at hr

theorem RegInv_set_err {h : Handler} {s : Store} (inv : RegInv h s) (e : Int) :
    RegInv (handler_set_err h e) s := by
  unfold handler_set_err
  split_ifs
  · exact RegInv_error inv e
  · exact inv

theorem RegInv_cached_error {h : Handler} {s : Store} (inv : RegInv h s) (c : Option Nat)
    (e : Int) : RegInv { h with cached := c, error := e } s :=
  ⟨inv.sorted, inv.arena, inv.valid, inv.nr_pos, inv.chains, inv.marker⟩

/-- A write to a control that keeps its ID keeps the invariant. -/
theorem RegInv_upd {h : Handler} {s : Store} (inv : RegInv h s) (p : Option Nat)
    (f : Ctrl → Ctrl) (hf : ∀ c, (f c).id = c.id) : RegInv h (s.upd p f) :=
  RegInv_store inv _ (fun q hq => (valid_upd s p q f).2 hq)
    (fun q _ => by rw [get_upd]; split_ifs <;> simp [hf])

theorem wf_upd {s : Store} (hw : s.wf) (p : Option Nat) (f : Ctrl → Ctrl)
    (hf : ∀ c, (f c).id = c.id) : (s.upd p f).wf := by
  refine wf_of_ids ?_ hw
  cases p with
  | none => rfl
  | some i => exact updAt_map (fun c : Ctrl => c.id) f hf s.ctrls i

theorem v4l2_ctrl_new_inv (cat : Catalog) {h : Handler} {s : Store} (inv : RegInv h s)
    (hw : s.wf) (ops : Option Ops) (id : Nat) (name : Option String) (type : CtrlType)
    (min max : Int) (step : Nat) (dflt : Int) (flags : Nat) (qmenu : Option (List String)) :
    RegInv (v4l2_ctrl_new cat h s ops id name type min max step dflt flags qmenu).hdl
      (v4l2_ctrl_new cat h s ops id name type min max step dflt flags qmenu).store ∧
    (v4l2_ctrl_new cat h s ops id name type min max step dflt flags qmenu).store.wf := by
  rcases v4l2_ctrl_new_with_spec cat 0 inv hw ops id name type min max step dflt flags qmenu
    _ rfl with ⟨_, a2, c, e, a3⟩ | ⟨_, _, b1, b2, _⟩
  · unfold v4l2_ctrl_new handler_new_ref
    rw [a2, a3]
    exact ⟨RegInv_cached_error inv c e, hw⟩
  · exact ⟨b1, b2⟩

theorem v4l2_ctrl_new_std_inv (cat : Catalog) {h : Handler} {s : Store} (inv : RegInv h s)
    (hw : s.wf) (ops : Option Ops) (id : Nat) (min max : Int) (step : Nat) (dflt : Int) :
    RegInv (v4l2_ctrl_new_std cat h s ops id min max step dflt).hdl
      (v4l2_ctrl_new_std cat h s ops id min max step dflt).store ∧
    (v4l2_ctrl_new_std cat h s ops id min max step dflt).store.wf := by
  unfold v4l2_ctrl_new_std v4l2_ctrl_new_std_with
  simp only
  split_ifs
  · exact ⟨RegInv_set_err inv _, hw⟩
  · exact v4l2_ctrl_new_inv cat inv hw _ _ _ _ _ _ _ _ _ _

theorem v4l2_ctrl_new_std_menu_inv (cat : Catalog) {h : Handler} {s : Store}
    (inv : RegInv h s) (hw : s.wf) (ops : Option Ops) (id : Nat) (max mask dflt : Int) :
    RegInv (v4l2_ctrl_new_std_menu cat h s ops id max mask dflt).hdl
      (v4l2_ctrl_new_std_menu cat h s ops id max mask dflt).store ∧
    (v4l2_ctrl_new_std_menu cat h s ops id max mask dflt).store.wf := by
  unfold v4l2_ctrl_new_std_menu
  simp only
  split_ifs
  · exact ⟨RegInv_set_err inv _, hw⟩
  · exact v4l2_ctrl_new_inv cat inv hw _ _ _ _ _ _ _ _ _ _

theorem v4l2_ctrl_new_custom_inv (cat : Catalog) {h : Handler} {s : Store} (inv : RegInv h s)
    (hw : s.wf) (cfg : Config) :
    RegInv (v4l2_ctrl_new_custom cat h s cfg).hdl (v4l2_ctrl_new_custom cat h s cfg).store ∧
    (v4l2_ctrl_new_custom cat h s cfg).store.wf := by
  unfold v4l2_ctrl_new_custom
  simp only
  generalize hm : v4l2_ctrl_new cat h s cfg.ops cfg.id _ _ _ _ _ _ _ _ = m
  have hi := v4l2_ctrl_new_inv cat inv hw cfg.ops cfg.id
    (if cfg.name = none then v4l2_ctrl_fill cat cfg.id cfg.min cfg.max cfg.step cfg.dflt
      else ⟨cfg.name, cfg.type, cfg.min, cfg.max, cfg.step, cfg.dflt, cfg.flags⟩).name
    (if cfg.name = none then v4l2_ctrl_fill cat cfg.id cfg.min cfg.max cfg.step cfg.dflt
      else ⟨cfg.name, cfg.type, cfg.min, cfg.max, cfg.step, cfg.dflt, cfg.flags⟩).type
    (if cfg.name = none then v4l2_ctrl_fill cat cfg.id cfg.min cfg.max cfg.step cfg.dflt
      else ⟨cfg.name, cfg.type, cfg.min, cfg.max, cfg.step, cfg.dflt, cfg.flags⟩).min
    (if cfg.name = none then v4l2_ctrl_fill cat cfg.id cfg.min cfg.max cfg.step cfg.dflt
      else ⟨cfg.name, cfg.type, cfg.min, cfg.max, cfg.step, cfg.dflt, cfg.flags⟩).max
    (if decide (cfg.type = .MENU) = true then cfg.menu_skip_mask else
      (if cfg.name = none then v4l2_ctrl_fill cat cfg.id cfg.min cfg.max cfg.step cfg.dflt
        else ⟨cfg.name, cfg.type, cfg.min, cfg.max, cfg.step, cfg.dflt, cfg.flags⟩).step)
    (if cfg.name = none then v4l2_ctrl_fill cat cfg.id cfg.min cfg.max cfg.step cfg.dflt
      else ⟨cfg.name, cfg.type, cfg.min, cfg.max, cfg.step, cfg.dflt, cfg.flags⟩).dflt
    (if cfg.name = none then v4l2_ctrl_fill cat cfg.id cfg.min cfg.max cfg.step cfg.dflt
      else ⟨cfg.name, cfg.type, cfg.min, cfg.max, cfg.step, cfg.dflt, cfg.flags⟩).flags
    (if decide (cfg.type = .MENU) = true ∧ cfg.qmenu = none then cat.get_menu cfg.id
      else cfg.qmenu)
  rw [hm] at hi
  rcases hc : m.ctrl with _ | p
  · exact hi
  · simp only
    exact ⟨RegInv_upd hi.1 (some p) _ (fun c => rfl), wf_upd hi.2 (some p) _ (fun c => rfl)⟩

theorem handler_new_ref_inv (cat : Catalog) {h : Handler} {s : Store} (inv : RegInv h s)
    (hw : s.wf) (cp : Option Nat) (hcp : s.valid cp) (herr : h.error = 0) :
    RegInv (handler_new_ref cat h s cp).2.1 (handler_new_ref cat h s cp).2.2 ∧
    (handler_new_ref cat h s cp).2.2.wf ∧
    s.ctrls.length ≤ (handler_new_ref cat h s cp).2.2.ctrls.length ∧
    ((handler_new_ref cat h s cp).1 = 0 → (handler_new_ref cat h s cp).2.1.error = 0) := by
  rcases handler_new_ref_depth_spec cat 0 inv hw cp hcp herr _ rfl with
    ⟨t0, t1, ⟨c, e, _, _, t2⟩, _⟩ | ⟨_, tinv, twf, tg, terr, _⟩
  · unfold handler_new_ref
    rw [t1, t2]
    exact ⟨RegInv_cached_error inv c e, hw, Nat.le_refl _, fun h0 => absurd h0 t0⟩
  · exact ⟨tinv, twf, tg.len, fun _ => terr⟩

theorem v4l2_ctrl_add_ctrl_inv (cat : Catalog) {h : Handler} {s : Store} (inv : RegInv h s)
    (hw : s.wf) (p : Option Nat) (hp : p = none ∨ s.valid p) :
    RegInv ((v4l2_ctrl_add_ctrl cat (some h) s p).2.1.getD h)
      (v4l2_ctrl_add_ctrl cat (some h) s p).2.2 ∧
    (v4l2_ctrl_add_ctrl cat (some h) s p).2.2.wf := by
  unfold v4l2_ctrl_add_ctrl
  simp only
  by_cases h1 : h.error ≠ 0
  · rw [if_pos h1]; exact ⟨inv, hw⟩
  rw [if_neg h1]
  by_cases h2 : p = none
  · rw [if_pos h2]; exact ⟨RegInv_set_err inv _, hw⟩
  rw [if_neg h2]
  by_cases h3 : (s.get p).handler = h.hid
  · rw [if_pos h3]; exact ⟨inv, hw⟩
  rw [if_neg h3]
  rcases hp with hp | hp
  · exact absurd hp h2
  · have := handler_new_ref_inv cat inv hw p hp (not_not.1 h1)
    exact ⟨this.1, this.2.1⟩

theorem add_handler_loop_inv (cat : Catalog) (l : List Nat) :
    ∀ (h : Handler) (s : Store), RegInv h s → s.wf → h.error = 0 →
    (∀ p ∈ l, s.valid (some p)) →
    RegInv (add_handler_loop cat h s l).2.1 (add_handler_loop cat h s l).2.2 ∧
    (add_handler_loop cat h s l).2.2.wf := by
  induction l with
  | nil => intro h s inv hw _ _; exact ⟨inv, hw⟩
  | cons p rest ih =>
    intro h s inv hw herr hv
    have hv' : ∀ q ∈ rest, s.valid (some q) := fun q hq => hv q (List.mem_cons_of_mem _ hq)
    rw [add_handler_loop]
    by_cases h1 : (s.get (some p)).is_private = true
    · rw [if_pos h1]; exact ih h s inv hw herr hv'
    rw [if_neg h1]
    by_cases h2 : (s.get (some p)).type = .CTRL_CLASS
    · rw [if_pos h2]; exact ih h s inv hw herr hv'
    rw [if_neg h2]
    simp only
    have := handler_new_ref_inv cat inv hw (some p) (hv p (List.mem_cons_self _ _)) herr
    by_cases h3 : (handler_new_ref cat h s (some p)).1 ≠ 0
    · rw [if_pos h3]; exact ⟨this.1, this.2.1⟩
    · rw [if_neg h3]
      exact ih _ _ this.1 this.2.1 (this.2.2.2 (not_not.1 h3))
        (fun q hq => valid_of_len this.2.2.1 _ (hv' q hq))

theorem v4l2_ctrl_add_handler_inv (cat : Catalog) {h : Handler} {s : Store} (inv : RegInv h s)
    (hw : s.wf) (a : Option Handler)
    (ha : ∀ x, a = some x → ∀ p ∈ x.ctrls, s.valid (some p)) :
    RegInv ((v4l2_ctrl_add_handler cat (some h) a s).2.1.getD h)
      (v4l2_ctrl_add_handler cat (some h) a s).2.2 ∧
    (v4l2_ctrl_add_handler cat (some h) a s).2.2.wf := by
  cases a with
  | none => exact ⟨inv, hw⟩
  | some x =>
    unfold v4l2_ctrl_add_handler
    simp only
    by_cases h1 : h.hid = x.hid
    · rw [if_pos h1]; exact ⟨inv, hw⟩
    rw [if_neg h1]
    by_cases h2 : h.error ≠ 0
    · rw [if_pos h2]; exact ⟨inv, hw⟩
    rw [if_neg h2]
    exact add_handler_loop_inv cat x.ctrls h s inv hw (not_not.1 h2) (ha x rfl)

/-- Every reachable state of a registry satisfies the invariant, and every control of the
store has an ID that `v4l2_ctrl_new` accepts. -/
theorem reachable_inv (cat : Catalog) (h : Handler) (s : Store) (hr : Reachable cat h s) :
    RegInv h s ∧ s.wf := by
  induction hr with
  | init hid hint s hw => exact ⟨RegInv_init hid hint s, hw⟩
  | outside h s s' _ hext hw ih =>
    exact ⟨RegInv_store ih.1 s' (fun p hp => valid_of_len hext.1 p hp)
      (fun p hp => by
        cases p with
        | none => rfl
        | some i => exact hext.2 i hp), hw⟩
  | new_custom h s cfg _ ih => exact v4l2_ctrl_new_custom_inv cat ih.1 ih.2 cfg
  | new_std h s ops id min max step dflt _ ih =>
    exact v4l2_ctrl_new_std_inv cat ih.1 ih.2 ops id min max step dflt
  | new_std_menu h s ops id max mask dflt _ ih =>
    exact v4l2_ctrl_new_std_menu_inv cat ih.1 ih.2 ops id max mask dflt
  | add_ctrl h s p _ hp ih => exact v4l2_ctrl_add_ctrl_inv cat ih.1 ih.2 p hp
  | add_handler h s a _ ha ih => exact v4l2_ctrl_add_handler_inv cat ih.1 ih.2 a ha

/-! ## The index of a registry -/

theorem builtReg_reachable : Reachable exCatalog builtReg.hdl builtReg.store :=
  Reachable.new_std _ _ none 0x00980900 0 10 1 5
    (Reachable.init 1 0 ⟨[], []⟩ (fun c hc => by simp at hc))

/-- Claim C13. Registry index invariant: in every registry state reachable from init by
any sequence of newControl, addControlFrom and merge calls, the reference list is strictly
ascending by control ID (hence no two references of it have the same ID), every reference
in bucket `k` has ID mod bucket-count equal to `k`, and the set of references in the sorted
list equals the set of references reachable through the bucket chains. -/
theorem C13_registry_index_invariant (cat : Catalog) (h : Handler) (s : Store)
    (hr : Reachable cat h s) :
    h.ctrl_refs.Pairwise (fun a b => node2id h s a < node2id h s b) ∧
    (∀ a ∈ h.ctrl_refs, ∀ b ∈ h.ctrl_refs, node2id h s a = node2id h s b → a = b) ∧
    (∃ b, h.buckets = some b ∧ b.length = h.nr_of_buckets ∧
      (∀ k r, r ∈ b.getD k [] → node2id h s r % h.nr_of_buckets = k) ∧
      (∀ r, r ∈ h.ctrl_refs ↔ ∃ k, r ∈ b.getD k [])) := by
  have inv := (reachable_inv cat h s hr).1
  obtain ⟨b, hb, hlen, hin, hall⟩ := inv.chains
  refine ⟨inv.sorted, fun a ha b hb' hab => ref_unique inv ha hb' hab, b, hb, hlen,
    fun k r hr' => (hin k r hr').2, fun r => ⟨fun hr' => ⟨_, hall r hr'⟩, ?_⟩⟩
  rintro ⟨k, hk⟩
  exact (hin k r hk).1

/-- The witness of C13: the registry built by init and one `v4l2_ctrl_new_std`. -/
theorem C13_witness :
    Reachable exCatalog builtReg.hdl builtReg.store ∧
    (builtReg.hdl.ctrl_refs.Pairwise
        (fun a b => node2id builtReg.hdl builtReg.store a < node2id builtReg.hdl builtReg.store b) ∧
      (∀ a ∈ builtReg.hdl.ctrl_refs, ∀ b ∈ builtReg.hdl.ctrl_refs,
        node2id builtReg.hdl builtReg.store a = node2id builtReg.hdl builtReg.store b → a = b) ∧
      (∃ b, builtReg.hdl.buckets = some b ∧ b.length = builtReg.hdl.nr_of_buckets ∧
        (∀ k r, r ∈ b.getD k [] →
          node2id builtReg.hdl builtReg.store r % builtReg.hdl.nr_of_buckets = k) ∧
        (∀ r, r ∈ builtReg.hdl.ctrl_refs ↔ ∃ k, r ∈ b.getD k []))) :=
  ⟨builtReg_reachable,
    C13_registry_index_invariant exCatalog builtReg.hdl builtReg.store builtReg_reachable⟩

/-- Claim C14. Lookup correctness: for every reachable registry state and every ID that is
below the private base after masking, `find_ref` returns the reference of the sorted list
whose control has exactly that masked ID when there is one, and `NULL` when there is none,
whatever the single-entry cache holds; the handler it leaves differs in the cache only. -/
theorem C14_lookup_correct (cat : Catalog) (h : Handler) (s : Store)
    (hr : Reachable cat h s) (id : Nat)
    (hid : (id &&& V4L2_CTRL_ID_MASK) < V4L2_CID_PRIVATE_BASE) (c : Option Nat) :
    (∀ r ∈ h.ctrl_refs, node2id h s r = (id &&& V4L2_CTRL_ID_MASK) →
      (find_ref { h with cached := c } s id).1 = some r) ∧
    ((∀ r ∈ h.ctrl_refs, node2id h s r ≠ (id &&& V4L2_CTRL_ID_MASK)) →
      (find_ref { h with cached := c } s id).1 = none) ∧
    (∃ c', (find_ref { h with cached := c } s id).2 = { h with cached := c' }) := by
  have inv := (reachable_inv cat h s hr).1
  obtain ⟨h1, c', h2⟩ := find_ref_lookup (RegInv_cached inv c) id hid
  refine ⟨?_, ?_, c', h2⟩
  · intro r hr' he
    rw [h1, ← he]
    exact lookup_of_mem (RegInv_cached inv c) hr'
  · intro hno
    rw [h1]
    rcases hl : lookup { h with cached := c } s (id &&& V4L2_CTRL_ID_MASK) with _ | r
    · rfl
    · obtain ⟨a1, a2⟩ := lookup_some hl
      exact absurd a2 (hno r a1)

/-- The witness of C14: the built registry, the ID of brightness and a cache that holds
the reference of the class control. -/
theorem C14_witness :
    (∀ r ∈ builtReg.hdl.ctrl_refs,
      node2id builtReg.hdl builtReg.store r = (0x00980900 &&& V4L2_CTRL_ID_MASK) →
      (find_ref { builtReg.hdl with cached := some 0 } builtReg.store 0x00980900).1 = some r) ∧
    ((∀ r ∈ builtReg.hdl.ctrl_refs,
      node2id builtReg.hdl builtReg.store r ≠ (0x00980900 &&& V4L2_CTRL_ID_MASK)) →
      (find_ref { builtReg.hdl with cached := some 0 } builtReg.store 0x00980900).1 = none) ∧
    (∃ c', (find_ref { builtReg.hdl with cached := some 0 } builtReg.store 0x00980900).2 =
      { builtReg.hdl with cached := c' }) :=
  C14_lookup_correct exCatalog builtReg.hdl builtReg.store builtReg_reachable 0x00980900
    (by decide) (some 0)

/-- The ID of a reference that a growing step keeps. -/
theorem node2id_grows {ps : List (Option Nat)} {h h1 : Handler} {s s1 : Store}
    (inv : RegInv h s) (g : Grows ps h s h1 s1) (r : Nat) (hr : r ∈ h.ctrl_refs) :
    node2id h1 s1 r = node2id h s r := by
  unfold node2id
  rw [(g.old r hr).2]
  exact eraseCluster_id (g.kept _ (inv.valid r hr))

/-- The function `handler_new_ref` at the depth the calls use it. -/
theorem handler_new_ref_spec (cat : Catalog) {h : Handler} {s : Store}
    (inv : RegInv h s) (hw : s.wf) (cp : Option Nat) (hcp : s.valid cp) (herr : h.error = 0)
    (t : Int × Handler × Store) (ht : handler_new_ref cat h s cp = t) :
    (t.1 ≠ 0 ∧ t.2.2 = s ∧ (∃ c e, e ≠ 0 ∧ t.1 = e ∧ t.2.1 = { h with cached := c, error := e }) ∧
      (s.get cp).id ≠ V4L2_CTRL_ID2CLASS (s.get cp).id ||| 1 ∧
      ∀ r ∈ h.ctrl_refs, node2id h s r ≠ V4L2_CTRL_ID2CLASS (s.get cp).id ||| 1) ∨
    (t.1 = 0 ∧ RegInv t.2.1 t.2.2 ∧ t.2.2.wf ∧ Grows [cp] h s t.2.1 t.2.2 ∧ t.2.1.error = 0 ∧
      (∃ r ∈ t.2.1.ctrl_refs, node2id t.2.1 t.2.2 r = (s.get cp).id ∧
        ((∀ r0 ∈ h.ctrl_refs, node2id h s r0 ≠ (s.get cp).id) →
          (t.2.1.ref (some r)).ctrl = cp)) ∧
      ((t.2.1.ctrls = h.ctrls ∧ t.2.2.ctrls.length = s.ctrls.length ∧
          ((∃ r0 ∈ h.ctrl_refs, node2id h s r0 = (s.get cp).id) →
            ∃ c, t.2.1 = { h with cached := c })) ∨
        ((s.get cp).id ≠ V4L2_CTRL_ID2CLASS (s.get cp).id ||| 1 ∧
          (∀ r ∈ h.ctrl_refs, node2id h s r ≠ V4L2_CTRL_ID2CLASS (s.get cp).id ||| 1) ∧
          t.2.1.ctrls = h.ctrls ++ [s.ctrls.length] ∧
          t.2.2.ctrls.length = s.ctrls.length + 1 ∧
          (t.2.2.get (some s.ctrls.length)).id = V4L2_CTRL_ID2CLASS (s.get cp).id ||| 1 ∧
          ∃ r ∈ t.2.1.ctrl_refs,
            node2id t.2.1 t.2.2 r = V4L2_CTRL_ID2CLASS (s.get cp).id ||| 1 ∧
            (t.2.1.ref (some r)).ctrl = some s.ctrls.length))) :=
  handler_new_ref_depth_spec cat 0 inv hw cp hcp herr t ht

/-- Claim C15. Duplicate-ID insertion is silently ignored: on a reachable registry with no
error stored, `handler_new_ref` for a control whose ID a reference `r0` of the registry
already has returns 0, leaves the sorted reference list, the references and every bucket
chain unchanged, and `find_ref` for the ID still returns `r0`, the reference of the
control registered before. -/
theorem C15_duplicate_insert_ignored (cat : Catalog) (h : Handler) (s : Store)
    (hr : Reachable cat h s) (herr : h.error = 0) (cp : Option Nat) (hcp : s.valid cp)
    (r0 : Nat) (hr0 : r0 ∈ h.ctrl_refs) (hdup : node2id h s r0 = (s.get cp).id) :
    (handler_new_ref cat h s cp).1 = 0 ∧
    (handler_new_ref cat h s cp).2.1.ctrl_refs = h.ctrl_refs ∧
    (handler_new_ref cat h s cp).2.1.refs = h.refs ∧
    (handler_new_ref cat h s cp).2.1.buckets = h.buckets ∧
    (find_ref h s (s.get cp).id).1 = some r0 ∧
    (find_ref (handler_new_ref cat h s cp).2.1 (handler_new_ref cat h s cp).2.2
      (s.get cp).id).1 = some r0 := by
  obtain ⟨inv, hw⟩ := reachable_inv cat h s hr
  obtain ⟨_, hlt⟩ := wf_get hw cp hcp
  have hmask := mask_of_lt_private hlt
  have hfind0 : (find_ref h s (s.get cp).id).1 = some r0 := by
    rw [(find_ref_lookup inv _ (by rw [hmask]; exact hlt)).1, hmask, ← hdup]
    exact lookup_of_mem inv hr0
  obtain ⟨rk, hrk, hrkid⟩ := inv.marker r0 hr0
  rw [hdup] at hrkid
  generalize ht : handler_new_ref cat h s cp = t
  rcases handler_new_ref_spec cat inv hw cp hcp herr t ht with
    ⟨_, _, _, _, habs⟩ | ⟨t0, tinv, _, tg, _, _, talt⟩
  · exact absurd hrkid (habs rk hrk)
  · rcases talt with ⟨_, _, tdup⟩ | ⟨_, habs, _⟩
    · obtain ⟨c, hc⟩ := tdup ⟨r0, hr0, hdup⟩
      have hfind1 : (find_ref t.2.1 t.2.2 (s.get cp).id).1 = some r0 := by
        rw [(find_ref_lookup tinv _ (by rw [hmask]; exact hlt)).1, hmask, ← hdup,
          ← node2id_grows inv tg r0 hr0]
        exact lookup_of_mem tinv (tg.old r0 hr0).1
      refine ⟨t0, ?_, ?_, ?_, hfind0, hfind1⟩
      · rw [hc]
      · rw [hc]
      · rw [hc]
    · exact absurd hrkid (habs rk hrk)

/-- The witness of C15: a second reference for brightness in the built registry. -/
theorem C15_witness :
    (handler_new_ref exCatalog builtReg.hdl builtReg.store (some 0)).1 = 0 ∧
    (handler_new_ref exCatalog builtReg.hdl builtReg.store (some 0)).2.1.ctrl_refs =
      builtReg.hdl.ctrl_refs ∧
    (handler_new_ref exCatalog builtReg.hdl builtReg.store (some 0)).2.1.refs =
      builtReg.hdl.refs ∧
    (handler_new_ref exCatalog builtReg.hdl builtReg.store (some 0)).2.1.buckets =
      builtReg.hdl.buckets ∧
    (find_ref builtReg.hdl builtReg.store (builtReg.store.get (some 0)).id).1 = some 1 ∧
    (find_ref (handler_new_ref exCatalog builtReg.hdl builtReg.store (some 0)).2.1
      (handler_new_ref exCatalog builtReg.hdl builtReg.store (some 0)).2.2
      (builtReg.store.get (some 0)).id).1 = some 1 :=
  C15_duplicate_insert_ignored exCatalog builtReg.hdl builtReg.store builtReg_reachable
    (by decide) (some 0) (by decide) 1 (by decide) (by decide)

/-! ## Errors of the calls that build a registry -/

/-- The counterexample to C16 as stated: for an integer control with step 0 the call
records `-ERANGE` (out of range) on a registry without an earlier error, not `-EINVAL`
(invalid argument). -/
theorem C16_counterexample :
    badStepCall.ctrl = none ∧ badStepCall.hdl.error = -ERANGE ∧
    badStepCall.hdl.error ≠ -EINVAL := by
  decide

/-- Claim C16, amended. Construction validation: `v4l2_ctrl_new` creates nothing, returns
no control and leaves the store and the index of the registry whenever the parameters are
inconsistent: an integer control with step 0, a bitmask control with max 0, a menu control
without an option list, a string control with max 0, max < min for any non-bitmask type,
or a default outside `[min,max]` for an integer, menu or boolean control. The error it
records is `-ERANGE` (out of range), and only when the registry has no error stored; an
earlier error stays. -/
theorem C16_construction_validation (cat : Catalog) (h : Handler) (s : Store)
    (ops : Option Ops) (id : Nat) (name : Option String) (type : CtrlType) (min max : Int)
    (step : Nat) (dflt : Int) (flags : Nat) (qmenu : Option (List String))
    (hbad : (type = .INTEGER ∧ step = 0) ∨ (type = .BITMASK ∧ max = 0) ∨
      (type = .MENU ∧ qmenu = none) ∨ (type = .STRING ∧ max = 0) ∨
      (type ≠ .BITMASK ∧ max < min) ∨
      ((type = .INTEGER ∨ type = .MENU ∨ type = .BOOLEAN) ∧ (dflt < min ∨ dflt > max))) :
    (v4l2_ctrl_new cat h s ops id name type min max step dflt flags qmenu).ctrl = none ∧
    (v4l2_ctrl_new cat h s ops id name type min max step dflt flags qmenu).store = s ∧
    (v4l2_ctrl_new cat h s ops id name type min max step dflt flags qmenu).hdl =
      { h with error := if h.error = 0 then -ERANGE else h.error } := by
  have hset : handler_set_err h (-ERANGE) =
      { h with error := if h.error = 0 then -ERANGE else h.error } := by
    unfold handler_set_err
    split_ifs <;> rfl
  unfold v4l2_ctrl_new v4l2_ctrl_new_with
  by_cases he : h.error ≠ 0
  · rw [if_pos he]
    refine ⟨rfl, rfl, ?_⟩
    rw [if_neg he]
  rw [if_neg he]
  by_cases h1 : id = 0 ∨ name = none ∨ V4L2_CID_PRIVATE_BASE ≤ id ∨
    (type = .INTEGER ∧ step = 0) ∨ (type = .BITMASK ∧ max = 0) ∨
    (type = .MENU ∧ qmenu = none) ∨ (type = .STRING ∧ max = 0)
  · rw [if_pos h1]; exact ⟨rfl, rfl, hset⟩
  rw [if_neg h1]
  by_cases h2 : type ≠ .BITMASK ∧ max < min
  · rw [if_pos h2]; exact ⟨rfl, rfl, hset⟩
  rw [if_neg h2]
  by_cases h3 : (type = .INTEGER ∨ type = .MENU ∨ type = .BOOLEAN) ∧ (dflt < min ∨ dflt > max)
  · rw [if_pos h3]; exact ⟨rfl, rfl, hset⟩
  exfalso
  rcases hbad with b | b | b | b | b | b
  · exact h1 (Or.inr (Or.inr (Or.inr (Or.inl b))))
  · exact h1 (Or.inr (Or.inr (Or.inr (Or.inr (Or.inl b)))))
  · exact h1 (Or.inr (Or.inr (Or.inr (Or.inr (Or.inr (Or.inl b))))))
  · exact h1 (Or.inr (Or.inr (Or.inr (Or.inr (Or.inr (Or.inr b))))))
  · exact h2 b
  · exact h3 b

/-- The witness of C16: a boolean control with the default 2 on the built registry. -/
theorem C16_witness :
    (v4l2_ctrl_new exCatalog builtReg.hdl builtReg.store none 0x00980909 (some "Mute") .BOOLEAN
      0 1 1 2 0 none).ctrl = none ∧
    (v4l2_ctrl_new exCatalog builtReg.hdl builtReg.store none 0x00980909 (some "Mute") .BOOLEAN
      0 1 1 2 0 none).store = builtReg.store ∧
    (v4l2_ctrl_new exCatalog builtReg.hdl builtReg.store none 0x00980909 (some "Mute") .BOOLEAN
      0 1 1 2 0 none).hdl =
      { builtReg.hdl with error := if builtReg.hdl.error = 0 then -ERANGE else builtReg.hdl.error } :=
  C16_construction_validation exCatalog builtReg.hdl builtReg.store none 0x00980909
    (some "Mute") .BOOLEAN 0 1 1 2 0 none
    (Or.inr (Or.inr (Or.inr (Or.inr (Or.inr ⟨Or.inr (Or.inr rfl), Or.inr (by decide)⟩)))))

/-- The counterexample to C17 as stated: with an error stored, a merge of the registry
with itself, and a merge with no source, return 0 (success), not a failure. -/
theorem C17_counterexample :
    errReg.error ≠ 0 ∧
    (v4l2_ctrl_add_handler exCatalog (some errReg) (some errReg) ⟨[], []⟩).1 = 0 ∧
    (v4l2_ctrl_add_handler exCatalog (some errReg) none ⟨[], []⟩).1 = 0 := by
  decide

/-- Claim C17, amended. Sticky first error: once the error code of a registry is non-zero,
every later `v4l2_ctrl_new_custom`, `v4l2_ctrl_new_std`, `v4l2_ctrl_new_std_menu` and
`v4l2_ctrl_add_ctrl` on it returns no control, and every `v4l2_ctrl_add_handler` from
another registry returns the stored error; each of these calls, and a merge with no source
or with the registry itself (which returns 0), leaves the registry and the store as they
were: no control, no reference, and the stored error is still the first one. -/
theorem C17_sticky_first_error (cat : Catalog) (h : Handler) (s : Store) (he : h.error ≠ 0)
    (cfg : Config) (ops : Option Ops) (id : Nat) (min max : Int) (step : Nat)
    (dflt mask : Int) (p : Option Nat) (a : Option Handler) :
    ((v4l2_ctrl_new_custom cat h s cfg).ctrl = none ∧
      (v4l2_ctrl_new_custom cat h s cfg).hdl = h ∧
      (v4l2_ctrl_new_custom cat h s cfg).store = s) ∧
    ((v4l2_ctrl_new_std cat h s ops id min max step dflt).ctrl = none ∧
      (v4l2_ctrl_new_std cat h s ops id min max step dflt).hdl = h ∧
      (v4l2_ctrl_new_std cat h s ops id min max step dflt).store = s) ∧
    ((v4l2_ctrl_new_std_menu cat h s ops id max mask dflt).ctrl = none ∧
      (v4l2_ctrl_new_std_menu cat h s ops id max mask dflt).hdl = h ∧
      (v4l2_ctrl_new_std_menu cat h s ops id max mask dflt).store = s) ∧
    v4l2_ctrl_add_ctrl cat (some h) s p = (none, some h, s) ∧
    (v4l2_ctrl_add_handler cat (some h) a s).2 = (some h, s) ∧
    (∀ x, a = some x → x.hid ≠ h.hid →
      (v4l2_ctrl_add_handler cat (some h) a s).1 = h.error) := by
  have hset : ∀ e, handler_set_err h e = h := by
    intro e; unfold handler_set_err; rw [if_neg he]
  have hwith : ∀ new_ref ops id name type min max step dflt flags qmenu,
      v4l2_ctrl_new_with new_ref h s ops id name type min max step dflt flags qmenu =
        ⟨none, h, s⟩ := by
    intro new_ref ops id name type min max step dflt flags qmenu
    unfold v4l2_ctrl_new_with
    rw [if_pos he]
  have hnew : ∀ ops id name type min max step dflt flags qmenu,
      v4l2_ctrl_new cat h s ops id name type min max step dflt flags qmenu = ⟨none, h, s⟩ :=
    fun ops id name type min max step dflt flags qmenu => hwith _ _ _ _ _ _ _ _ _ _ _
  refine ⟨?_, ?_, ?_, ?_, ?_, ?_⟩
  · unfold v4l2_ctrl_new_custom
    simp only [hnew, and_self]
  · unfold v4l2_ctrl_new_std v4l2_ctrl_new_std_with
    simp only
    split_ifs
    · exact ⟨rfl, hset _, rfl⟩
    · rw [hwith]
      exact ⟨rfl, rfl, rfl⟩
  · unfold v4l2_ctrl_new_std_menu
    simp only
    split_ifs
    · exact ⟨rfl, hset _, rfl⟩
    · rw [hnew]
      exact ⟨rfl, rfl, rfl⟩
  · unfold v4l2_ctrl_add_ctrl
    simp only
    rw [if_pos he]
  · cases a with
    | none => rfl
    | some x =>
      unfold v4l2_ctrl_add_handler
      simp only
      split_ifs <;> rfl
  · intro x hx hne
    subst hx
    unfold v4l2_ctrl_add_handler
    simp only
    rw [if_neg (fun e => hne e.symm), if_pos he]

/-- The witness of C17: the registry with the error of `badStepCall`, and the built
registry as the other one. -/
theorem C17_witness :
    ((v4l2_ctrl_new_custom exCatalog errReg ⟨[], []⟩
        ⟨none, 0x00980901, none, .INTEGER, 0, 10, 1, 5, 0, 0, none, false, false⟩).ctrl = none ∧
      (v4l2_ctrl_new_custom exCatalog errReg ⟨[], []⟩
        ⟨none, 0x00980901, none, .INTEGER, 0, 10, 1, 5, 0, 0, none, false, false⟩).hdl = errReg ∧
      (v4l2_ctrl_new_custom exCatalog errReg ⟨[], []⟩
        ⟨none, 0x00980901, none, .INTEGER, 0, 10, 1, 5, 0, 0, none, false, false⟩).store =
        ⟨[], []⟩) ∧
    ((v4l2_ctrl_new_std exCatalog errReg ⟨[], []⟩ none 0x00980901 0 10 1 5).ctrl = none ∧
      (v4l2_ctrl_new_std exCatalog errReg ⟨[], []⟩ none 0x00980901 0 10 1 5).hdl = errReg ∧
      (v4l2_ctrl_new_std exCatalog errReg ⟨[], []⟩ none 0x00980901 0 10 1 5).store = ⟨[], []⟩) ∧
    ((v4l2_ctrl_new_std_menu exCatalog errReg ⟨[], []⟩ none 0x00980918 2 0 0).ctrl = none ∧
      (v4l2_ctrl_new_std_menu exCatalog errReg ⟨[], []⟩ none 0x00980918 2 0 0).hdl = errReg ∧
      (v4l2_ctrl_new_std_menu exCatalog errReg ⟨[], []⟩ none 0x00980918 2 0 0).store =
        ⟨[], []⟩) ∧
    v4l2_ctrl_add_ctrl exCatalog (some errReg) ⟨[], []⟩ none = (none, some errReg, ⟨[], []⟩) ∧
    (v4l2_ctrl_add_handler exCatalog (some errReg) (some { builtReg.hdl with hid := 2 })
      ⟨[], []⟩).2 = (some errReg, ⟨[], []⟩) ∧
    (∀ x, some { builtReg.hdl with hid := 2 } = some x → x.hid ≠ errReg.hid →
      (v4l2_ctrl_add_handler exCatalog (some errReg) (some { builtReg.hdl with hid := 2 })
        ⟨[], []⟩).1 = errReg.error) :=
  C17_sticky_first_error exCatalog errReg ⟨[], []⟩ (by decide)
    ⟨none, 0x00980901, none, .INTEGER, 0, 10, 1, 5, 0, 0, none, false, false⟩
    none 0x00980901 0 10 1 5 0 none (some { builtReg.hdl with hid := 2 })

/-! ## The class control -/

/-- Under the invariant `v4l2_ctrl_find` returns the control of the reference that the
scan of the sorted list finds. -/
theorem v4l2_ctrl_find_lookup {h : Handler} {s : Store} (inv : RegInv h s) (id : Nat)
    (hid : (id &&& V4L2_CTRL_ID_MASK) < V4L2_CID_PRIVATE_BASE) :
    (v4l2_ctrl_find (some h) s id).1 =
      match lookup h s (id &&& V4L2_CTRL_ID_MASK) with
      | some r => (h.ref (some r)).ctrl
      | none => none := by
  obtain ⟨h1, c, h2⟩ := find_ref_lookup inv id hid
  unfold v4l2_ctrl_find find_ref_lock
  simp only
  rw [h1]
  rcases lookup h s (id &&& V4L2_CTRL_ID_MASK) with _ | r
  · rfl
  · simp only
    rw [h2]
    rfl


/-- The counterexample to C18 as stated: the registry `foreignReg` holds a reference to the
class control of another registry, so the call for contrast creates no class control; the
class control that `v4l2_ctrl_find` returns, the control 1, is not in the creation order
of the registry, which holds the new control 2 only. -/
theorem C18_counterexample :
    foreignCall.ctrl = some 2 ∧
    (v4l2_ctrl_find (some foreignCall.hdl) foreignCall.store 0x00980001).1 = some 1 ∧
    foreignCall.hdl.ctrls = [2] := by
  decide

/-- Claim C18, amended. Class marker auto-creation: after any successful `v4l2_ctrl_new`
on a reachable registry for a control with an ID that is not itself a class-marker ID,
`v4l2_ctrl_find` finds in the registry a control `q` with the ID `class(id) | 1`. When `q`
is in the creation order of the registry, it precedes the new control there; and it is in
the creation order whenever the registry had no reference with the class-marker ID before
the call, the case in which the call creates the class control. -/
theorem C18_class_marker (cat : Catalog) (h : Handler) (s : Store) (hr : Reachable cat h s)
    (ops : Option Ops) (id : Nat) (name : Option String) (type : CtrlType) (min max : Int)
    (step : Nat) (dflt : Int) (flags : Nat) (qmenu : Option (List String)) (p : Nat)
    (hok : (v4l2_ctrl_new cat h s ops id name type min max step dflt flags qmenu).ctrl = some p)
    (hid : id ≠ V4L2_CTRL_ID2CLASS id ||| 1) :
    ∃ q,
      (v4l2_ctrl_find
        (some (v4l2_ctrl_new cat h s ops id name type min max step dflt flags qmenu).hdl)
        (v4l2_ctrl_new cat h s ops id name type min max step dflt flags qmenu).store
        (V4L2_CTRL_ID2CLASS id ||| 1)).1 = some q ∧
      ((v4l2_ctrl_new cat h s ops id name type min max step dflt flags qmenu).store.get
        (some q)).id = V4L2_CTRL_ID2CLASS id ||| 1 ∧
      (q ∈ (v4l2_ctrl_new cat h s ops id name type min max step dflt flags qmenu).hdl.ctrls →
        ∃ l1 l2,
          (v4l2_ctrl_new cat h s ops id name type min max step dflt flags qmenu).hdl.ctrls =
            l1 ++ q :: l2 ∧ p ∈ l2) ∧
      ((∀ r ∈ h.ctrl_refs, node2id h s r ≠ V4L2_CTRL_ID2CLASS id ||| 1) →
        q ∈ (v4l2_ctrl_new cat h s ops id name type min max step dflt flags qmenu).hdl.ctrls) := by
  obtain ⟨inv, hw⟩ := reachable_inv cat h s hr
  generalize hm : v4l2_ctrl_new cat h s ops id name type min max step dflt flags qmenu = m
    at hok ⊢
  rcases v4l2_ctrl_new_with_spec cat 0 inv hw ops id name type min max step dflt flags qmenu
    m hm with ⟨a1, _⟩ | ⟨_, hp, minv, mwf, mg, _, mid, ⟨r, hr', hrid, _⟩, malt⟩
  · rw [a1] at hok; cases hok
  · rw [hok] at hp
    have hpe : p = s.ctrls.length := Option.some.inj hp
    obtain ⟨rk, hrk, hrkid⟩ := minv.marker r hr'
    rw [hrid] at hrkid
    obtain ⟨_, hidlt⟩ := wf_get mwf (m.hdl.ref (some r)).ctrl (minv.valid r hr')
    have hidlt' : id < V4L2_CID_PRIVATE_BASE := by
      have : node2id m.hdl m.store r < V4L2_CID_PRIVATE_BASE := hidlt
      rw [hrid] at this; exact this
    have hklt := class_lt_private hidlt'
    have hmask := mask_of_lt_private hklt
    have hlook : lookup m.hdl m.store (V4L2_CTRL_ID2CLASS id ||| 1) = some rk := by
      rw [← hrkid]; exact lookup_of_mem minv hrk
    have hfind := v4l2_ctrl_find_lookup minv (V4L2_CTRL_ID2CLASS id ||| 1)
      (by rw [hmask]; exact hklt)
    rw [hmask, hlook] at hfind
    simp only at hfind
    have hvalid := minv.valid rk hrk
    rcases hq : (m.hdl.ref (some rk)).ctrl with _ | q
    · rw [hq] at hvalid; exact hvalid.elim
    · rw [hq] at hfind hvalid
      have hqid : (m.store.get (some q)).id = V4L2_CTRL_ID2CLASS id ||| 1 := by
        rw [← hrkid]; unfold node2id; rw [hq]
      have hqp : q ≠ p := by
        intro e
        rw [e, hpe, mid] at hqid
        exact hid hqid
      refine ⟨q, hfind, hqid, ?_, ?_⟩
      · intro hmem
        have hsplit : ∀ l : List Nat, m.hdl.ctrls = l ++ [p] →
            ∃ l1 l2, m.hdl.ctrls = l1 ++ q :: l2 ∧ p ∈ l2 := by
          intro l hl
          rw [hl] at hmem
          rcases List.mem_append.1 hmem with a | a
          · obtain ⟨l1, l2, e⟩ := List.append_of_mem a
            exact ⟨l1, l2 ++ [p], by rw [hl, e]; simp, by simp⟩
          · simp only [List.mem_singleton] at a
            exact absurd a hqp
        rcases malt with ⟨b1, _⟩ | ⟨_, _, b3, _⟩
        · exact hsplit h.ctrls (by rw [b1, hpe])
        · exact hsplit (h.ctrls ++ [s.ctrls.length + 1]) (by rw [b3, hpe]; simp)
      · intro habs
        rcases malt with ⟨_, b2⟩ | ⟨_, _, b3, _, _, r2, hr2, hr2id, hr2c⟩
        · exfalso
          rcases mg.fresh rk hrk with a | a | ⟨q', hq', hle⟩
          · have := node2id_grows inv mg rk a
            rw [hrkid] at this
            exact habs rk a this.symm
          · simp at a
          · rw [hq] at hq'
            have hqq : q = q' := Option.some.inj hq'
            simp only [Store.valid] at hvalid
            have : q = p := by omega
            exact hqp this
        · have : rk = r2 := ref_unique minv hrk hr2 (by rw [hrkid, hr2id])
          rw [this, hr2c] at hq
          have hqe : s.ctrls.length + 1 = q := Option.some.inj hq
          rw [b3, ← hqe]
          simp

/-- The witness of C18: brightness on a fresh registry. -/
theorem C18_witness :
    ∃ q,
      (v4l2_ctrl_find
        (some (v4l2_ctrl_new exCatalog (v4l2_ctrl_handler_init 1 0).2 ⟨[], []⟩ none 0x00980900
          (some "Brightness") .INTEGER 0 10 1 5 0x20 none).hdl)
        (v4l2_ctrl_new exCatalog (v4l2_ctrl_handler_init 1 0).2 ⟨[], []⟩ none 0x00980900
          (some "Brightness") .INTEGER 0 10 1 5 0x20 none).store
        (V4L2_CTRL_ID2CLASS 0x00980900 ||| 1)).1 = some q ∧
      ((v4l2_ctrl_new exCatalog (v4l2_ctrl_handler_init 1 0).2 ⟨[], []⟩ none 0x00980900
          (some "Brightness") .INTEGER 0 10 1 5 0x20 none).store.get
        (some q)).id = V4L2_CTRL_ID2CLASS 0x00980900 ||| 1 ∧
      (q ∈ (v4l2_ctrl_new exCatalog (v4l2_ctrl_handler_init 1 0).2 ⟨[], []⟩ none 0x00980900
          (some "Brightness") .INTEGER 0 10 1 5 0x20 none).hdl.ctrls →
        ∃ l1 l2,
          (v4l2_ctrl_new exCatalog (v4l2_ctrl_handler_init 1 0).2 ⟨[], []⟩ none 0x00980900
            (some "Brightness") .INTEGER 0 10 1 5 0x20 none).hdl.ctrls =
            l1 ++ q :: l2 ∧ 0 ∈ l2) ∧
      ((∀ r ∈ (v4l2_ctrl_handler_init 1 0).2.ctrl_refs,
          node2id (v4l2_ctrl_handler_init 1 0).2 ⟨[], []⟩ r ≠
            V4L2_CTRL_ID2CLASS 0x00980900 ||| 1) →
        q ∈ (v4l2_ctrl_new exCatalog (v4l2_ctrl_handler_init 1 0).2 ⟨[], []⟩ none 0x00980900
          (some "Brightness") .INTEGER 0 10 1 5 0x20 none).hdl.ctrls) :=
  C18_class_marker exCatalog (v4l2_ctrl_handler_init 1 0).2 ⟨[], []⟩
    (Reachable.init 1 0 ⟨[], []⟩ (fun c hc => by simp at hc))
    none 0x00980900 (some "Brightness") .INTEGER 0 10 1 5 0x20 none 0 (by decide) (by decide)

/-! ## Merging a registry into another -/

theorem eraseCluster_fields {a b : Ctrl} (h : eraseCluster a = eraseCluster b) :
    a.is_private = b.is_private ∧ a.type = b.type ∧ a.id = b.id :=
  ⟨congrArg (fun c => c.is_private) h, congrArg (fun c => c.type) h, congrArg (fun c => c.id) h⟩

theorem grows_mono {ps qs : List (Option Nat)} {h h1 : Handler} {s s1 : Store}
    (g : Grows ps h s h1 s1) (hsub : ∀ p ∈ ps, p ∈ qs) : Grows qs h s h1 s1 :=
  ⟨g.hid, g.nr, g.len, g.kept, g.log, g.old, fun r hr => by
    rcases g.fresh r hr with a | a | a
    · exact Or.inl a
    · exact Or.inr (Or.inl (hsub _ a))
    · exact Or.inr (Or.inr a), g.owned⟩

theorem grows_cached_error (ps : List (Option Nat)) (h : Handler) (s : Store) (c : Option Nat)
    (e : Int) : Grows ps h s { h with cached := c, error := e } s :=
  ⟨rfl, rfl, Nat.le_refl _, fun _ _ => rfl, rfl, fun _ hr => ⟨hr, rfl⟩, fun _ hr => Or.inl hr,
    ⟨[], by simp, by simp⟩⟩

/-- An ID that the registry lacks, and that is neither the ID of the control hooked in nor
the ID of its class control, is still lacking after `handler_new_ref`. -/
theorem handler_new_ref_absent (cat : Catalog) {h : Handler} {s : Store}
    (inv : RegInv h s) (hw : s.wf) (cp : Option Nat) (hcp : s.valid cp) (herr : h.error = 0)
    (t : Int × Handler × Store) (ht : handler_new_ref cat h s cp = t) (x : Nat)
    (hx1 : x ≠ (s.get cp).id) (hx2 : x ≠ V4L2_CTRL_ID2CLASS (s.get cp).id ||| 1)
    (habs : ∀ r ∈ h.ctrl_refs, node2id h s r ≠ x) :
    ∀ r ∈ t.2.1.ctrl_refs, node2id t.2.1 t.2.2 r ≠ x := by
  rcases handler_new_ref_spec cat inv hw cp hcp herr t ht with
    ⟨_, t1, ⟨c, e, _, _, t2⟩, _⟩ | ⟨_, tinv, _, tg, _, _, talt⟩
  · intro r hr
    rw [t1]
    have hr' : r ∈ h.ctrl_refs := by rw [t2] at hr; exact hr
    have : node2id t.2.1 s r = node2id h s r := by rw [t2]; rfl
    rw [this]; exact habs r hr'
  · intro r hr
    rcases tg.fresh r hr with a | a | ⟨q, hq, hle⟩
    · rw [node2id_grows inv tg r a]; exact habs r a
    · simp only [List.mem_singleton] at a
      unfold node2id
      rw [a, eraseCluster_id (tg.kept cp hcp)]
      exact fun e => hx1 e.symm
    · have hv := tinv.valid r hr
      rw [hq] at hv
      simp only [Store.valid] at hv
      rcases talt with ⟨_, b2, _⟩ | ⟨_, _, _, b4, b5, _⟩
      · omega
      · have hqe : q = s.ctrls.length := by omega
        unfold node2id
        rw [hq, hqe, b5]
        exact fun e => hx2 e.symm

/-- The loop of `v4l2_ctrl_add_handler` on a registry that satisfies the invariant: the
registry grows, a reference that is new addresses a control of the list that is neither
private nor a class control, or a control that the store did not hold, and when the loop
returns 0 the first such control of the list with an ID that the registry lacked, and that
is not the ID of a class control, has the reference for its ID. -/
theorem add_handler_loop_spec (cat : Catalog) (l : List Nat) :
    ∀ (h : Handler) (s : Store), RegInv h s → s.wf → h.error = 0 →
    (∀ p ∈ l, s.valid (some p)) →
    RegInv (add_handler_loop cat h s l).2.1 (add_handler_loop cat h s l).2.2 ∧
    (add_handler_loop cat h s l).2.2.wf ∧
    Grows (l.map some) h s (add_handler_loop cat h s l).2.1 (add_handler_loop cat h s l).2.2 ∧
    (∀ r ∈ (add_handler_loop cat h s l).2.1.ctrl_refs, r ∈ h.ctrl_refs ∨
      (∃ p ∈ l, ((add_handler_loop cat h s l).2.1.ref (some r)).ctrl = some p ∧
        (s.get (some p)).is_private = false ∧ (s.get (some p)).type ≠ .CTRL_CLASS) ∨
      ∃ q, ((add_handler_loop cat h s l).2.1.ref (some r)).ctrl = some q ∧
        s.ctrls.length ≤ q) ∧
    ((add_handler_loop cat h s l).1 = 0 →
      ∀ x, x ≠ V4L2_CTRL_ID2CLASS x ||| 1 → (∀ r ∈ h.ctrl_refs, node2id h s r ≠ x) →
      ∀ l1 c l2, l = l1 ++ c :: l2 → (s.get (some c)).is_private = false →
      (s.get (some c)).type ≠ .CTRL_CLASS → (s.get (some c)).id = x →
      (∀ c' ∈ l1, (s.get (some c')).is_private = false →
        (s.get (some c')).type ≠ .CTRL_CLASS → (s.get (some c')).id ≠ x) →
      ∃ r ∈ (add_handler_loop cat h s l).2.1.ctrl_refs,
        node2id (add_handler_loop cat h s l).2.1 (add_handler_loop cat h s l).2.2 r = x ∧
        ((add_handler_loop cat h s l).2.1.ref (some r)).ctrl = some c) := by
  induction l with
  | nil =>
    intro h s inv hw _ _
    refine ⟨inv, hw, grows_refl _ h s, fun r hr => Or.inl hr, ?_⟩
    intro _ x _ _ l1 c l2 hl
    simp at hl
  | cons p rest ih =>
    intro h s inv hw herr hv
    have hvp : s.valid (some p) := hv p (List.mem_cons_self _ _)
    have hv' : ∀ q ∈ rest, s.valid (some q) := fun q hq => hv q (List.mem_cons_of_mem _ hq)
    have hskip : (s.get (some p)).is_private = true ∨ (s.get (some p)).type = .CTRL_CLASS →
        add_handler_loop cat h s (p :: rest) = add_handler_loop cat h s rest := by
      intro hc
      rw [add_handler_loop]
      by_cases h1 : (s.get (some p)).is_private = true
      · rw [if_pos h1]
      · rw [if_neg h1]
        rcases hc with hc | hc
        · exact absurd hc h1
        · rw [if_pos hc]
    by_cases hsk : (s.get (some p)).is_private = true ∨ (s.get (some p)).type = .CTRL_CLASS
    · rw [hskip hsk]
      obtain ⟨i1, i2, i3, i4, i5⟩ := ih h s inv hw herr hv'
      refine ⟨i1, i2, grows_mono i3 (fun q hq => by
        simp only [List.map_cons, List.mem_cons]; exact Or.inr hq), ?_, ?_⟩
      · intro r hr
        rcases i4 r hr with a | ⟨p', hp', a⟩ | a
        · exact Or.inl a
        · exact Or.inr (Or.inl ⟨p', List.mem_cons_of_mem _ hp', a⟩)
        · exact Or.inr (Or.inr a)
      · intro h0 x hx habs l1 c l2 hl hc1 hc2 hc3 hfirst
        cases l1 with
        | nil =>
          simp only [List.nil_append, List.cons.injEq] at hl
          exfalso
          rw [← hl.1] at hc1 hc2
          rcases hsk with hsk | hsk
          · rw [hc1] at hsk; cases hsk
          · exact hc2 hsk
        | cons c0 l1' =>
          simp only [List.cons_append, List.cons.injEq] at hl
          exact i5 h0 x hx habs l1' c l2 hl.2 hc1 hc2 hc3
            (fun c' hc' => hfirst c' (List.mem_cons_of_mem _ hc'))
    · have hp1 : (s.get (some p)).is_private = false := by
        cases hb : (s.get (some p)).is_private
        · rfl
        · exact absurd (Or.inl hb) hsk
      have hp2 : (s.get (some p)).type ≠ .CTRL_CLASS := fun e => hsk (Or.inr e)
      generalize hu : handler_new_ref cat h s (some p) = u
      have hstep : add_handler_loop cat h s (p :: rest) =
          if u.1 ≠ 0 then u else add_handler_loop cat u.2.1 u.2.2 rest := by
        rw [add_handler_loop]
        rw [if_neg (by rw [hp1]; decide), if_neg hp2]
        simp only [hu]
      rw [hstep]
      rcases handler_new_ref_spec cat inv hw (some p) hvp herr u hu with
        ⟨u0, u1, ⟨c, e, _, _, u2⟩, _⟩ | ⟨u0, uinv, uwf, ug, uerr, ⟨r, hr, hrid, hrc⟩, _⟩
      · rw [if_pos u0]
        refine ⟨?_, ?_, ?_, ?_, fun h0 => absurd h0 u0⟩
        · rw [u1, u2]; exact RegInv_cached_error inv c e
        · rw [u1]; exact hw
        · rw [u1, u2]; exact grows_cached_error _ h s c e
        · intro r hr
          rw [u2] at hr
          exact Or.inl hr
      · rw [if_neg (not_not.2 u0)]
        have hvu : ∀ q ∈ rest, u.2.2.valid (some q) :=
          fun q hq => valid_of_len ug.len _ (hv' q hq)
        obtain ⟨i1, i2, i3, i4, i5⟩ := ih u.2.1 u.2.2 uinv uwf uerr hvu
        have hkept : ∀ q, s.valid (some q) →
            (u.2.2.get (some q)).is_private = (s.get (some q)).is_private ∧
            (u.2.2.get (some q)).type = (s.get (some q)).type ∧
            (u.2.2.get (some q)).id = (s.get (some q)).id :=
          fun q hq => eraseCluster_fields (ug.kept _ hq)
        refine ⟨i1, i2, ?_, ?_, ?_⟩
        · refine grows_trans _ ug i3 ?_ ?_
          · intro q hq
            simp only [List.mem_singleton] at hq
            simp [hq]
          · intro q hq
            exact Or.inl (by simp only [List.map_cons, List.mem_cons]; exact Or.inr hq)
        · intro r' hr'
          rcases i4 r' hr' with a | ⟨p', hp', a1, a2, a3⟩ | ⟨q, a1, a2⟩
          · rcases ug.fresh r' a with b | b | ⟨q, b1, b2⟩
            · exact Or.inl b
            · simp only [List.mem_singleton] at b
              exact Or.inr (Or.inl ⟨p, List.mem_cons_self _ _, by rw [(i3.old r' a).2]; exact b,
                hp1, hp2⟩)
            · exact Or.inr (Or.inr ⟨q, by rw [(i3.old r' a).2]; exact b1, b2⟩)
          · obtain ⟨k1, k2, _⟩ := hkept p' (hv' p' hp')
            exact Or.inr (Or.inl ⟨p', List.mem_cons_of_mem _ hp', a1, by rw [← k1]; exact a2,
              by rw [← k2]; exact a3⟩)
          · exact Or.inr (Or.inr ⟨q, a1, le_trans ug.len a2⟩)
        · intro h0 x hx habs l1 c l2 hl hc1 hc2 hc3 hfirst
          cases l1 with
          | nil =>
            simp only [List.nil_append, List.cons.injEq] at hl
            have hpc : p = c := hl.1
            subst hpc
            have hctrl := hrc (by rw [hc3]; exact habs)
            refine ⟨r, (i3.old r hr).1, ?_, ?_⟩
            · rw [node2id_grows uinv i3 r hr, hrid, hc3]
            · rw [(i3.old r hr).2]; exact hctrl
          | cons c0 l1' =>
            simp only [List.cons_append, List.cons.injEq] at hl
            have hpc : p = c0 := hl.1
            subst hpc
            have hpx : (s.get (some p)).id ≠ x :=
              hfirst p (List.mem_cons_self _ _) hp1 hp2
            have habs' : ∀ r ∈ u.2.1.ctrl_refs, node2id u.2.1 u.2.2 r ≠ x :=
              handler_new_ref_absent cat inv hw (some p) hvp herr u hu x
                (fun e => hpx e.symm)
                (fun e => hx (by rw [e]; exact (class_of_class _).symm)) habs
            have hcv : s.valid (some c) := hv' c (by rw [hl.2]; simp)
            obtain ⟨k1, k2, k3⟩ := hkept c hcv
            refine i5 h0 x hx habs' l1' c l2 hl.2 (by rw [k1]; exact hc1)
              (by rw [k2]; exact hc2) (by rw [k3]; exact hc3) ?_
            intro c' hc' d1 d2
            have hcv' : s.valid (some c') := hv' c' (by rw [hl.2]; simp [hc'])
            obtain ⟨m1, m2, m3⟩ := hkept c' hcv'
            rw [m3]
            exact hfirst c' (List.mem_cons_of_mem _ hc') (by rw [← m1]; exact d1)
              (by rw [← m2]; exact d2)

/-- The counterexample to C19 as stated: the registry `dupReg` owns the control 2, which is
neither private nor a class control and has the ID of brightness, an ID that the fresh
registry does not have; after the successful merge `v4l2_ctrl_find` yields for this ID the
control 0, the first control that `dupReg` created with it, not the control 2. -/
theorem C19_counterexample :
    dupReg.ctrl = some 2 ∧ 2 ∈ dupReg.hdl.ctrls ∧
    (dupReg.store.get (some 2)).is_private = false ∧
    (dupReg.store.get (some 2)).type = .INTEGER ∧
    (dupReg.store.get (some 2)).id = 0x00980900 ∧
    (v4l2_ctrl_handler_init 2 0).2.ctrl_refs = [] ∧
    dupMerge.1 = 0 ∧
    (v4l2_ctrl_find dupMerge.2.1 dupMerge.2.2 0x00980900).1 = some 0 := by
  decide

/-- Claim C19, amended. Merge shares storage: after a successful `v4l2_ctrl_add_handler`
of a registry `a` into a reachable registry `b` at another address, for every control `c`
that `a` owns, that is neither private nor a class control, whose ID was not present in
`b`, is not a class-marker ID, and is not the ID of an earlier such control in the creation
order of `a`: `v4l2_ctrl_find` on the merged registry yields `c` itself, in every later
state of the store that keeps the controls and their IDs, so `v4l2_g_ctrl` through the
merged registry reads the control `c` of that store, whoever wrote to it. A reference that
the merge added addresses no private control and no class control of the store before the
merge. -/
theorem C19_merge_shares_storage (cat : Catalog) (b a : Handler) (s : Store)
    (hb : Reachable cat b s) (ha : ∀ p ∈ a.ctrls, s.valid (some p)) (hne : b.hid ≠ a.hid)
    (hok : (v4l2_ctrl_add_handler cat (some b) (some a) s).1 = 0)
    (l1 : List Nat) (c : Nat) (l2 : List Nat) (hsplit : a.ctrls = l1 ++ c :: l2)
    (hpriv : (s.get (some c)).is_private = false)
    (hclass : (s.get (some c)).type ≠ .CTRL_CLASS)
    (hmark : (s.get (some c)).id ≠ V4L2_CTRL_ID2CLASS (s.get (some c)).id ||| 1)
    (hfresh : ∀ r ∈ b.ctrl_refs, node2id b s r ≠ (s.get (some c)).id)
    (hfirst : ∀ c' ∈ l1, (s.get (some c')).is_private = false →
      (s.get (some c')).type ≠ .CTRL_CLASS → (s.get (some c')).id ≠ (s.get (some c)).id) :
    ∃ b' s', v4l2_ctrl_add_handler cat (some b) (some a) s = (0, some b', s') ∧
      (∀ s2, (∀ p, s'.valid p → s2.valid p ∧ (s2.get p).id = (s'.get p).id) →
        (v4l2_ctrl_find (some b') s2 (s.get (some c)).id).1 = some c ∧
        ∀ w,
          ((v4l2_g_ctrl (some b') s2 (s.get (some c)).id w).1,
            (v4l2_g_ctrl (some b') s2 (s.get (some c)).id w).2.1,
            (v4l2_g_ctrl (some b') s2 (s.get (some c)).id w).2.2.2) =
          if type_is_int (s2.get (some c)) = false then (-EINVAL, w, s2)
          else get_ctrl s2 (some c) w) ∧
      (∀ r ∈ b'.ctrl_refs, r ∉ b.ctrl_refs → ∀ p, (b'.ref (some r)).ctrl = some p →
        s.valid (some p) →
        (s.get (some p)).is_private = false ∧ (s.get (some p)).type ≠ .CTRL_CLASS) := by
  obtain ⟨inv, hw⟩ := reachable_inv cat b s hb
  have herr : b.error = 0 := by
    by_contra he
    unfold v4l2_ctrl_add_handler at hok
    simp only at hok
    rw [if_neg hne, if_pos he] at hok
    exact he hok
  have hmerge : v4l2_ctrl_add_handler cat (some b) (some a) s =
      ((add_handler_loop cat b s a.ctrls).1, some (add_handler_loop cat b s a.ctrls).2.1,
        (add_handler_loop cat b s a.ctrls).2.2) := by
    unfold v4l2_ctrl_add_handler
    simp only
    rw [if_neg hne, if_neg (not_not.2 herr)]
  rw [hmerge] at hok ⊢
  simp only at hok
  obtain ⟨tinv, twf, tg, tfresh, tfound⟩ := add_handler_loop_spec cat a.ctrls b s inv hw herr ha
  generalize add_handler_loop cat b s a.ctrls = t at *
  have hcv : s.valid (some c) := ha c (by rw [hsplit]; simp)
  obtain ⟨r, hr, hrid, hrc⟩ := tfound hok _ hmark hfresh l1 c l2 hsplit hpriv hclass rfl hfirst
  obtain ⟨_, hxlt⟩ := wf_get hw (some c) hcv
  have hmask := mask_of_lt_private hxlt
  refine ⟨t.2.1, t.2.2, by rw [hok], ?_, ?_⟩
  · intro s2 hs2
    have inv2 : RegInv t.2.1 s2 :=
      RegInv_store tinv s2 (fun p hp => (hs2 p hp).1) (fun p hp => (hs2 p hp).2)
    have hid2 : node2id t.2.1 s2 r = (s.get (some c)).id := by
      rw [← hrid]
      exact (hs2 _ (tinv.valid r hr)).2
    have hlook : lookup t.2.1 s2 (s.get (some c)).id = some r := by
      rw [← hid2]; exact lookup_of_mem inv2 hr
    have hfind := v4l2_ctrl_find_lookup inv2 (s.get (some c)).id (by rw [hmask]; exact hxlt)
    rw [hmask, hlook] at hfind
    simp only at hfind
    rw [hrc] at hfind
    refine ⟨hfind, fun w => ?_⟩
    rw [v4l2_g_ctrl_found (some t.2.1) s2 _ w c hfind]
    split_ifs <;> rfl
  · intro r' hr' hnew p hp hpv
    rcases tfresh r' hr' with a1 | ⟨p', _, a1, a2, a3⟩ | ⟨q, a1, a2⟩
    · exact absurd a1 hnew
    · rw [hp] at a1
      rw [Option.some.inj a1]
      exact ⟨a2, a3⟩
    · rw [hp] at a1
      rw [Option.some.inj a1] at hpv
      simp only [Store.valid] at hpv
      omega

/-- The witness of C19: brightness, the control 0 of `builtReg`, after the merge of
`builtReg` into a fresh registry at the address 2. -/
theorem C19_witness :
    ∃ b' s', builtMerge = (0, some b', s') ∧
      (∀ s2, (∀ p, s'.valid p → s2.valid p ∧ (s2.get p).id = (s'.get p).id) →
        (v4l2_ctrl_find (some b') s2 (builtReg.store.get (some 0)).id).1 = some 0 ∧
        ∀ w,
          ((v4l2_g_ctrl (some b') s2 (builtReg.store.get (some 0)).id w).1,
            (v4l2_g_ctrl (some b') s2 (builtReg.store.get (some 0)).id w).2.1,
            (v4l2_g_ctrl (some b') s2 (builtReg.store.get (some 0)).id w).2.2.2) =
          if type_is_int (s2.get (some 0)) = false then (-EINVAL, w, s2)
          else get_ctrl s2 (some 0) w) ∧
      (∀ r ∈ b'.ctrl_refs, r ∉ (v4l2_ctrl_handler_init 2 0).2.ctrl_refs →
        ∀ p, (b'.ref (some r)).ctrl = some p → builtReg.store.valid (some p) →
        (builtReg.store.get (some p)).is_private = false ∧
        (builtReg.store.get (some p)).type ≠ .CTRL_CLASS) :=
  C19_merge_shares_storage exCatalog (v4l2_ctrl_handler_init 2 0).2 builtReg.hdl builtReg.store
    (Reachable.init 2 0 builtReg.store (by unfold Store.wf; decide)) (by decide) (by decide)
    (by decide) [1] 0 [] (by decide) (by decide) (by decide) (by decide) (by decide)
    (by decide)

/-! ## Enumeration -/

/-- In a list sorted by `f` the first element above `c` is the least element above `c`. -/
theorem find_above_sorted (f : Nat → Nat) (c : Nat) :
    ∀ l : List Nat, l.Pairwise (fun a b => f a < f b) → ∀ x ∈ l, c < f x →
    (∀ y ∈ l, c < f y → f x ≤ f y) → l.find? (fun r => decide (c < f r)) = some x := by
  intro l
  induction l with
  | nil => intro _ x hx; simp at hx
  | cons a rest ih =>
    intro hp x hx hcx hmin
    rw [List.pairwise_cons] at hp
    by_cases ha : c < f a
    · rw [List.find?_cons_of_pos _ (by simpa using ha)]
      rcases List.mem_cons.1 hx with e | m
      · rw [e]
      · have h1 := hp.1 x m
        have h2 := hmin a (List.mem_cons_self _ _) ha
        omega
    · rw [List.find?_cons_of_neg _ (by simpa using ha)]
      rcases List.mem_cons.1 hx with e | m
      · rw [e] at hcx; exact absurd hcx ha
      · exact ih hp.2 x m hcx (fun y hy => hmin y (List.mem_cons_of_mem _ hy))

/-- In a list sorted by `f` the element after the one with the value `c` is the least
element above `c`. -/
theorem list_next_sorted (f : Nat → Nat) (c : Nat) :
    ∀ l : List Nat, l.Pairwise (fun a b => f a < f b) → ∀ r0 ∈ l, f r0 = c →
    ∀ x ∈ l, c < f x → (∀ y ∈ l, c < f y → f x ≤ f y) → list_next r0 l = some x := by
  intro l
  induction l with
  | nil => intro _ r0 hr0; simp at hr0
  | cons a rest ih =>
    intro hp r0 hr0 hc x hx hcx hmin
    rw [List.pairwise_cons] at hp
    have hxa : x ≠ a ∨ a ≠ r0 := by
      by_cases e : a = r0
      · left; intro e'; rw [e', e, hc] at hcx; omega
      · right; exact e
    unfold list_next
    by_cases e : a = r0
    · rw [if_pos e]
      have hxr : x ∈ rest := by
        rcases List.mem_cons.1 hx with e' | m
        · rw [e', e, hc] at hcx; omega
        · exact m
      cases rest with
      | nil => simp at hxr
      | cons y ys =>
        simp only [List.head?_cons, Option.some.injEq]
        have hy : c < f y := by
          have := hp.1 y (List.mem_cons_self _ _)
          rw [e, hc] at this; exact this
        have hle := hmin y (List.mem_cons_of_mem _ (List.mem_cons_self _ _)) hy
        rcases List.mem_cons.1 hxr with e' | m
        · exact e'.symm
        · have hp2 := hp.2
          rw [List.pairwise_cons] at hp2
          have := hp2.1 x m
          omega
    · rw [if_neg e]
      have hr0' : r0 ∈ rest := by
        rcases List.mem_cons.1 hr0 with e' | m
        · exact absurd e'.symm e
        · exact m
      have hlt := hp.1 r0 hr0'
      have hxr : x ∈ rest := by
        rcases List.mem_cons.1 hx with e' | m
        · rw [e'] at hcx; omega
        · exact m
      exact ih hp.2 r0 hr0' hc x hxr hcx (fun y hy => hmin y (List.mem_cons_of_mem _ hy))

theorem find_private_loop_nil (h : Handler) (s : Store) (n : Nat) :
    find_private_loop h s [] n = none := by
  unfold find_private_loop; rfl

/-- The reference that `find_ref` returns is a reference of the list or `NULL`, so on a
registry without references it is `NULL`. -/
theorem find_ref_nil {h : Handler} {s : Store} (inv : RegInv h s) (hnil : h.ctrl_refs = [])
    (id : Nat) : (find_ref h s id).1 = none := by
  by_cases hp : V4L2_CID_PRIVATE_BASE ≤ id &&& V4L2_CTRL_ID_MASK
  · rw [find_ref_private h s id hp]
    unfold find_private_ref
    rw [hnil, find_private_loop_nil]
  · rw [(find_ref_lookup inv id (by omega)).1]
    unfold lookup
    rw [hnil]; rfl

theorem find_ref_cached_only (h : Handler) (s : Store) (id : Nat) :
    ∃ c, (find_ref h s id).2 = { h with cached := c } := by
  unfold find_ref
  simp only
  split_ifs
  · exact ⟨h.cached, rfl⟩
  · exact ⟨h.cached, rfl⟩
  · split
    · exact ⟨_, rfl⟩
    · exact ⟨h.cached, rfl⟩

theorem query_ref_cached (h : Handler) (s : Store) (c : Option Nat) (qid id : Nat)
    (f : Option Nat) : query_ref { h with cached := c } s qid id f = query_ref h s qid id f :=
  rfl

/-- With the flag `V4L2_CTRL_FLAG_NEXT_CTRL`, `v4l2_queryctrl` settles on the reference
with the least ID above the cursor, or on none. -/
theorem query_ref_next {h : Handler} {s : Store} (inv : RegInv h s) (hw : s.wf) (qid : Nat)
    (hflag : (qid &&& V4L2_CTRL_FLAG_NEXT_CTRL) ≠ 0) :
    ((∀ x ∈ h.ctrl_refs, node2id h s x ≤ (qid &&& V4L2_CTRL_ID_MASK)) →
      query_ref (find_ref h s (qid &&& V4L2_CTRL_ID_MASK)).2 s qid (qid &&& V4L2_CTRL_ID_MASK)
        (find_ref h s (qid &&& V4L2_CTRL_ID_MASK)).1 = none) ∧
    (∀ x ∈ h.ctrl_refs, (qid &&& V4L2_CTRL_ID_MASK) < node2id h s x →
      (∀ y ∈ h.ctrl_refs, (qid &&& V4L2_CTRL_ID_MASK) < node2id h s y →
        node2id h s x ≤ node2id h s y) →
      (qid &&& V4L2_CTRL_ID_MASK) < V4L2_CID_PRIVATE_BASE ∧
      query_ref (find_ref h s (qid &&& V4L2_CTRL_ID_MASK)).2 s qid (qid &&& V4L2_CTRL_ID_MASK)
        (find_ref h s (qid &&& V4L2_CTRL_ID_MASK)).1 = some x) := by
  obtain ⟨c, hc⟩ := find_ref_cached_only h s (qid &&& V4L2_CTRL_ID_MASK)
  have hidlt : ∀ x ∈ h.ctrl_refs, node2id h s x < V4L2_CID_PRIVATE_BASE :=
    fun x hx => (wf_get hw _ (inv.valid x hx)).2
  refine ⟨?_, ?_⟩
  · intro hall
    rw [hc, query_ref_cached]
    unfold query_ref
    by_cases hnil : h.ctrl_refs = []
    · rw [if_neg (fun e => e.2 hnil)]
      exact find_ref_nil inv hnil _
    · rw [if_pos ⟨hflag, hnil⟩]
      have := hall _ (getLastD_mem _ hnil)
      rw [if_pos this]
  · intro x hx hcx hmin
    have hclt : (qid &&& V4L2_CTRL_ID_MASK) < V4L2_CID_PRIVATE_BASE :=
      lt_trans hcx (hidlt x hx)
    refine ⟨hclt, ?_⟩
    have hnil : h.ctrl_refs ≠ [] := fun e => by rw [e] at hx; simp at hx
    have hlast : ¬ node2id h s (h.ctrl_refs.getLastD 0) ≤ (qid &&& V4L2_CTRL_ID_MASK) := by
      have := le_last_of_sorted (node2id h s) _ inv.sorted x hx
      omega
    have hf1 := (find_ref_lookup inv (qid &&& V4L2_CTRL_ID_MASK)
      (by rw [and_mask_idem]; exact hclt)).1
    rw [and_mask_idem] at hf1
    rw [hc, query_ref_cached]
    unfold query_ref
    rw [if_pos ⟨hflag, hnil⟩, if_neg hlast, hf1]
    rcases hl : lookup h s (qid &&& V4L2_CTRL_ID_MASK) with _ | r0
    · exact find_above_sorted (node2id h s) _ _ inv.sorted x hx hcx hmin
    · obtain ⟨a1, a2⟩ := lookup_some hl
      exact list_next_sorted (node2id h s) _ _ inv.sorted r0 a1 a2 x hx hcx hmin

theorem next_flag_set (c : Nat) : ((c ||| V4L2_CTRL_FLAG_NEXT_CTRL) &&& V4L2_CTRL_FLAG_NEXT_CTRL) ≠ 0 := by
  unfold V4L2_CTRL_FLAG_NEXT_CTRL
  intro h
  have := congrArg (fun n => n.testBit 31) h
  have e : (2147483648 : Nat) = 2 ^ 31 := by norm_num
  simp only [Nat.testBit_and, Nat.testBit_or, e, Nat.testBit_two_pow_self, Bool.or_true,
    Bool.and_self, Nat.zero_testBit] at this
  exact Bool.noConfusion this

theorem next_flag_mask {c : Nat} (hc : c < V4L2_CID_PRIVATE_BASE) :
    (c ||| V4L2_CTRL_FLAG_NEXT_CTRL) &&& V4L2_CTRL_ID_MASK = c := by
  unfold V4L2_CTRL_FLAG_NEXT_CTRL V4L2_CTRL_ID_MASK V4L2_CID_PRIVATE_BASE at *
  have e1 : (2147483648 : Nat) = 2 ^ 31 := by norm_num
  have e2 : (268435455 : Nat) = 2 ^ 28 - 1 := by norm_num
  rw [e2, Nat.and_pow_two_sub_one_eq_mod, e1]
  have h28 : c < 2 ^ 28 := by omega
  apply Nat.eq_of_testBit_eq
  intro i
  rw [Nat.testBit_mod_two_pow]
  by_cases hi : i < 28
  · simp only [hi, decide_True, Bool.true_and, Nat.testBit_or, Nat.testBit_two_pow]
    have : (31 = i) = False := by simp; omega
    simp [this]
  · simp only [hi, decide_False, Bool.false_and]
    symm
    apply Nat.testBit_eq_false_of_lt
    exact lt_of_lt_of_le h28 (Nat.pow_le_pow_right (by norm_num) (by omega))

theorem v4l2_queryctrl_none (h : Handler) (s : Store) (qc : QueryCtrl)
    (hq : query_ref (find_ref h s (qc.id &&& V4L2_CTRL_ID_MASK)).2 s qc.id
      (qc.id &&& V4L2_CTRL_ID_MASK) (find_ref h s (qc.id &&& V4L2_CTRL_ID_MASK)).1 = none) :
    v4l2_queryctrl (some h) s qc =
      (-EINVAL, qc, some (find_ref h s (qc.id &&& V4L2_CTRL_ID_MASK)).2) := by
  unfold v4l2_queryctrl
  simp only [hq]

theorem v4l2_queryctrl_some (h : Handler) (s : Store) (qc : QueryCtrl) (r : Nat)
    (hq : query_ref (find_ref h s (qc.id &&& V4L2_CTRL_ID_MASK)).2 s qc.id
      (qc.id &&& V4L2_CTRL_ID_MASK) (find_ref h s (qc.id &&& V4L2_CTRL_ID_MASK)).1 = some r) :
    v4l2_queryctrl (some h) s qc =
      (0, fill_query (qc.id &&& V4L2_CTRL_ID_MASK) (s.get (h.ref (some r)).ctrl),
        some (find_ref h s (qc.id &&& V4L2_CTRL_ID_MASK)).2) := by
  obtain ⟨c, hc⟩ := find_ref_cached_only h s (qc.id &&& V4L2_CTRL_ID_MASK)
  unfold v4l2_queryctrl
  simp only [hq]
  rw [hc]
  rfl

theorem fill_query_id {id : Nat} (hid : id < V4L2_CID_PRIVATE_BASE) (c : Ctrl) :
    (fill_query id c).id = c.id := by
  unfold fill_query
  simp only
  rw [if_neg (by omega)]

/-- The loop of a caller that enumerates from a cursor returns the IDs of the references
above the cursor, in the order of the sorted list. -/
theorem enumerate_spec (s : Store) (hw : s.wf) (l2 : List Nat) :
    ∀ (l1 : List Nat) (h : Handler) (c n : Nat), RegInv h s → h.ctrl_refs = l1 ++ l2 →
    (∀ x ∈ l1, node2id h s x ≤ c) → (∀ y ∈ l2, c < node2id h s y) →
    c < V4L2_CID_PRIVATE_BASE → l2.length < n →
    enumerate s n h c = l2.map (node2id h s) := by
  induction l2 with
  | nil =>
    intro l1 h c n inv hl h1 _ hc hn
    cases n with
    | zero => simp at hn
    | succ n' =>
      have hq := (query_ref_next inv hw (c ||| V4L2_CTRL_FLAG_NEXT_CTRL) (next_flag_set c)).1
        (by
          rw [next_flag_mask hc]
          intro x hx
          rw [hl] at hx
          simp only [List.append_nil] at hx
          exact h1 x hx)
      have := v4l2_queryctrl_none h s
        ⟨c ||| V4L2_CTRL_FLAG_NEXT_CTRL, none, [], 0, 0, 0, 0, 0⟩ hq
      rw [enumerate]
      simp only [this]
      rfl
  | cons y l2' ih =>
    intro l1 h c n inv hl h1 h2 hc hn
    cases n with
    | zero => simp at hn
    | succ n' =>
      have hy : y ∈ h.ctrl_refs := by rw [hl]; simp
      have hsorted := inv.sorted
      rw [hl, List.pairwise_append] at hsorted
      obtain ⟨_, hp2, _⟩ := hsorted
      rw [List.pairwise_cons] at hp2
      have hmin : ∀ z ∈ h.ctrl_refs, c < node2id h s z → node2id h s y ≤ node2id h s z := by
        intro z hz hcz
        rw [hl] at hz
        rcases List.mem_append.1 hz with m | m
        · have := h1 z m; omega
        · rcases List.mem_cons.1 m with e | m'
          · rw [e]
          · exact Nat.le_of_lt (hp2.1 z m')
      have hcy := h2 y (List.mem_cons_self _ _)
      obtain ⟨_, hq⟩ := (query_ref_next inv hw (c ||| V4L2_CTRL_FLAG_NEXT_CTRL)
        (next_flag_set c)).2 y hy (by rw [next_flag_mask hc]; exact hcy)
        (by rw [next_flag_mask hc]; exact hmin)
      have hres := v4l2_queryctrl_some h s
        ⟨c ||| V4L2_CTRL_FLAG_NEXT_CTRL, none, [], 0, 0, 0, 0, 0⟩ y hq
      obtain ⟨c', hc'⟩ := find_ref_cached_only h s
        ((c ||| V4L2_CTRL_FLAG_NEXT_CTRL) &&& V4L2_CTRL_ID_MASK)
      have hidy : (fill_query ((c ||| V4L2_CTRL_FLAG_NEXT_CTRL) &&& V4L2_CTRL_ID_MASK)
          (s.get (h.ref (some y)).ctrl)).id = node2id h s y := by
        rw [next_flag_mask hc, fill_query_id hc]; rfl
      have hylt : node2id h s y < V4L2_CID_PRIVATE_BASE := (wf_get hw _ (inv.valid y hy)).2
      rw [enumerate]
      simp only [hres, hidy, hc']
      rw [if_neg (by decide)]
      simp only [Option.getD_some, List.map_cons, List.cons.injEq, true_and]
      have := ih (l1 ++ [y]) { h with cached := c' } (node2id h s y) n' (RegInv_cached inv c')
        (by show h.ctrl_refs = _; rw [hl]; simp)
        (by
          intro x hx
          show node2id h s x ≤ _
          rcases List.mem_append.1 hx with m | m
          · have := h1 x m; omega
          · simp only [List.mem_singleton] at m
            rw [m])
        (fun z hz => hp2.1 z hz) hylt (by simp only [List.length_cons] at hn; omega)
      exact this

theorem privReg_reachable : Reachable exCatalog privReg.hdl privReg.store :=
  Reachable.new_custom _ _ _ (Reachable.init 1 0 ⟨[], []⟩ (fun c hc => by simp at hc))

/-- The counterexample to C20 as stated: on the reachable registry `privReg`, without the
next-flag and with the cursor `V4L2_CID_PRIVATE_BASE`, `v4l2_queryctrl` succeeds and
describes the control named `Private`, although no control of the registry has the ID of
the cursor: it takes the cursor as the number of a driver-private control. -/
theorem C20_counterexample :
    (0x08000000 &&& V4L2_CTRL_FLAG_NEXT_CTRL) = 0 ∧
    (∀ r ∈ privReg.hdl.ctrl_refs, node2id privReg.hdl privReg.store r ≠ 0x08000000) ∧
    (v4l2_queryctrl (some privReg.hdl) privReg.store ⟨0x08000000, none, [], 0, 0, 0, 0, 0⟩).1 = 0 ∧
    (v4l2_queryctrl (some privReg.hdl) privReg.store
      ⟨0x08000000, none, [], 0, 0, 0, 0, 0⟩).2.1.name = "Private".toList := by
  decide

/-- Claim C20, amended. Enumeration order: for every reachable registry and request with
the cursor `c` (the masked ID), `v4l2_queryctrl` with the next-flag returns the descriptor
of the control with the least ID strictly greater than `c`, or fails with `-EINVAL` and
leaves the request when no such control exists (an empty registry included); consequently
the loop of a caller that starts from the cursor 0 and feeds each returned ID back as the
cursor returns the IDs of all references, each once, in the strictly ascending order of
the list. Without the next-flag, and for a cursor below the private base, it returns the
descriptor of the control whose ID equals `c`, or fails with `-EINVAL`. -/
theorem C20_enumeration_order (cat : Catalog) (h : Handler) (s : Store)
    (hr : Reachable cat h s) (qc : QueryCtrl) :
    ((qc.id &&& V4L2_CTRL_FLAG_NEXT_CTRL) ≠ 0 →
      (∀ x ∈ h.ctrl_refs, (qc.id &&& V4L2_CTRL_ID_MASK) < node2id h s x →
        (∀ y ∈ h.ctrl_refs, (qc.id &&& V4L2_CTRL_ID_MASK) < node2id h s y →
          node2id h s x ≤ node2id h s y) →
        (v4l2_queryctrl (some h) s qc).1 = 0 ∧
        (v4l2_queryctrl (some h) s qc).2.1 =
          fill_query (qc.id &&& V4L2_CTRL_ID_MASK) (s.get (h.ref (some x)).ctrl) ∧
        (v4l2_queryctrl (some h) s qc).2.1.id = node2id h s x) ∧
      ((∀ x ∈ h.ctrl_refs, node2id h s x ≤ (qc.id &&& V4L2_CTRL_ID_MASK)) →
        (v4l2_queryctrl (some h) s qc).1 = -EINVAL ∧
        (v4l2_queryctrl (some h) s qc).2.1 = qc)) ∧
    ((qc.id &&& V4L2_CTRL_FLAG_NEXT_CTRL) = 0 →
      (qc.id &&& V4L2_CTRL_ID_MASK) < V4L2_CID_PRIVATE_BASE →
      (∀ x ∈ h.ctrl_refs, node2id h s x = (qc.id &&& V4L2_CTRL_ID_MASK) →
        (v4l2_queryctrl (some h) s qc).1 = 0 ∧
        (v4l2_queryctrl (some h) s qc).2.1 =
          fill_query (qc.id &&& V4L2_CTRL_ID_MASK) (s.get (h.ref (some x)).ctrl) ∧
        (v4l2_queryctrl (some h) s qc).2.1.id = (qc.id &&& V4L2_CTRL_ID_MASK)) ∧
      ((∀ x ∈ h.ctrl_refs, node2id h s x ≠ (qc.id &&& V4L2_CTRL_ID_MASK)) →
        (v4l2_queryctrl (some h) s qc).1 = -EINVAL ∧
        (v4l2_queryctrl (some h) s qc).2.1 = qc)) ∧
    enumerate s (h.ctrl_refs.length + 1) h 0 = h.ctrl_refs.map (node2id h s) := by
  obtain ⟨inv, hw⟩ := reachable_inv cat h s hr
  refine ⟨?_, ?_, ?_⟩
  · intro hflag
    refine ⟨?_, ?_⟩
    · intro x hx hcx hmin
      obtain ⟨hclt, hq⟩ := (query_ref_next inv hw qc.id hflag).2 x hx hcx hmin
      rw [v4l2_queryctrl_some h s qc x hq]
      exact ⟨rfl, rfl, by rw [fill_query_id hclt]; rfl⟩
    · intro hall
      rw [v4l2_queryctrl_none h s qc ((query_ref_next inv hw qc.id hflag).1 hall)]
      exact ⟨rfl, rfl⟩
  · intro hflag hclt
    obtain ⟨c, hc⟩ := find_ref_cached_only h s (qc.id &&& V4L2_CTRL_ID_MASK)
    have hf1 := (find_ref_lookup inv (qc.id &&& V4L2_CTRL_ID_MASK)
      (by rw [and_mask_idem]; exact hclt)).1
    rw [and_mask_idem] at hf1
    have hq : query_ref (find_ref h s (qc.id &&& V4L2_CTRL_ID_MASK)).2 s qc.id
        (qc.id &&& V4L2_CTRL_ID_MASK) (find_ref h s (qc.id &&& V4L2_CTRL_ID_MASK)).1 =
        lookup h s (qc.id &&& V4L2_CTRL_ID_MASK) := by
      unfold query_ref
      rw [if_neg (fun e => e.1 hflag), hf1]
    refine ⟨?_, ?_⟩
    · intro x hx hxc
      have hl : lookup h s (qc.id &&& V4L2_CTRL_ID_MASK) = some x := by
        rw [← hxc]; exact lookup_of_mem inv hx
      rw [v4l2_queryctrl_some h s qc x (by rw [hq, hl])]
      exact ⟨rfl, rfl, by rw [fill_query_id hclt]; exact hxc⟩
    · intro hno
      have hl : lookup h s (qc.id &&& V4L2_CTRL_ID_MASK) = none := by
        rcases hl : lookup h s (qc.id &&& V4L2_CTRL_ID_MASK) with _ | r
        · rfl
        · obtain ⟨a1, a2⟩ := lookup_some hl
          exact absurd a2 (hno r a1)
      rw [v4l2_queryctrl_none h s qc (by rw [hq, hl])]
      exact ⟨rfl, rfl⟩
  · exact enumerate_spec s hw h.ctrl_refs [] h 0 _ inv (by simp) (by simp)
      (fun y hy => Nat.pos_of_ne_zero (wf_get hw _ (inv.valid y hy)).1) (by decide)
      (Nat.lt_succ_self _)

/-- The witness of C20: the built registry and the request for the control after the
class control of the user class. -/
theorem C20_witness :
    ((0x80980001 &&& V4L2_CTRL_FLAG_NEXT_CTRL) ≠ 0 →
      (∀ x ∈ builtReg.hdl.ctrl_refs,
        (0x80980001 &&& V4L2_CTRL_ID_MASK) < node2id builtReg.hdl builtReg.store x →
        (∀ y ∈ builtReg.hdl.ctrl_refs,
          (0x80980001 &&& V4L2_CTRL_ID_MASK) < node2id builtReg.hdl builtReg.store y →
          node2id builtReg.hdl builtReg.store x ≤ node2id builtReg.hdl builtReg.store y) →
        (v4l2_queryctrl (some builtReg.hdl) builtReg.store
          ⟨0x80980001, none, [], 0, 0, 0, 0, 0⟩).1 = 0 ∧
        (v4l2_queryctrl (some builtReg.hdl) builtReg.store
          ⟨0x80980001, none, [], 0, 0, 0, 0, 0⟩).2.1 =
          fill_query (0x80980001 &&& V4L2_CTRL_ID_MASK)
            (builtReg.store.get (builtReg.hdl.ref (some x)).ctrl) ∧
        (v4l2_queryctrl (some builtReg.hdl) builtReg.store
          ⟨0x80980001, none, [], 0, 0, 0, 0, 0⟩).2.1.id = node2id builtReg.hdl builtReg.store x) ∧
      ((∀ x ∈ builtReg.hdl.ctrl_refs,
        node2id builtReg.hdl builtReg.store x ≤ (0x80980001 &&& V4L2_CTRL_ID_MASK)) →
        (v4l2_queryctrl (some builtReg.hdl) builtReg.store
          ⟨0x80980001, none, [], 0, 0, 0, 0, 0⟩).1 = -EINVAL ∧
        (v4l2_queryctrl (some builtReg.hdl) builtReg.store
          ⟨0x80980001, none, [], 0, 0, 0, 0, 0⟩).2.1 = ⟨0x80980001, none, [], 0, 0, 0, 0, 0⟩)) ∧
    ((0x80980001 &&& V4L2_CTRL_FLAG_NEXT_CTRL) = 0 →
      (0x80980001 &&& V4L2_CTRL_ID_MASK) < V4L2_CID_PRIVATE_BASE →
      (∀ x ∈ builtReg.hdl.ctrl_refs,
        node2id builtReg.hdl builtReg.store x = (0x80980001 &&& V4L2_CTRL_ID_MASK) →
        (v4l2_queryctrl (some builtReg.hdl) builtReg.store
          ⟨0x80980001, none, [], 0, 0, 0, 0, 0⟩).1 = 0 ∧
        (v4l2_queryctrl (some builtReg.hdl) builtReg.store
          ⟨0x80980001, none, [], 0, 0, 0, 0, 0⟩).2.1 =
          fill_query (0x80980001 &&& V4L2_CTRL_ID_MASK)
            (builtReg.store.get (builtReg.hdl.ref (some x)).ctrl) ∧
        (v4l2_queryctrl (some builtReg.hdl) builtReg.store
          ⟨0x80980001, none, [], 0, 0, 0, 0, 0⟩).2.1.id = (0x80980001 &&& V4L2_CTRL_ID_MASK)) ∧
      ((∀ x ∈ builtReg.hdl.ctrl_refs,
        node2id builtReg.hdl builtReg.store x ≠ (0x80980001 &&& V4L2_CTRL_ID_MASK)) →
        (v4l2_queryctrl (some builtReg.hdl) builtReg.store
          ⟨0x80980001, none, [], 0, 0, 0, 0, 0⟩).1 = -EINVAL ∧
        (v4l2_queryctrl (some builtReg.hdl) builtReg.store
          ⟨0x80980001, none, [], 0, 0, 0, 0, 0⟩).2.1 = ⟨0x80980001, none, [], 0, 0, 0, 0, 0⟩)) ∧
    enumerate builtReg.store (builtReg.hdl.ctrl_refs.length + 1) builtReg.hdl 0 =
      builtReg.hdl.ctrl_refs.map (node2id builtReg.hdl builtReg.store) :=
  C20_enumeration_order exCatalog builtReg.hdl builtReg.store builtReg_reachable
    ⟨0x80980001, none, [], 0, 0, 0, 0, 0⟩

/-! ## The resolve phase on a registry that satisfies the invariant -/

theorem get_id_lt {s : Store} (hw : s.wf) (p : Option Nat) :
    (s.get p).id < V4L2_CID_PRIVATE_BASE := by
  by_cases hp : s.valid p
  · exact (wf_get hw p hp).2
  · rw [get_of_not_valid s p hp]
    decide

/-- Under the invariant an entry cannot be resolved exactly when its class differs from
the class filter, its ID is a private one, the scan of the sorted list finds no reference
for its ID, or finds the reference of a disabled control. -/
theorem entryUnresolvable_iff {h : Handler} {s : Store} (inv : RegInv h s) (k : Nat)
    (x : ExtControl) :
    entryUnresolvable h s k x ↔
      ((k ≠ 0 ∧ V4L2_CTRL_ID2CLASS (x.id &&& V4L2_CTRL_ID_MASK) ≠ k) ∨
      V4L2_CID_PRIVATE_BASE ≤ (x.id &&& V4L2_CTRL_ID_MASK) ∨
      lookup h s (x.id &&& V4L2_CTRL_ID_MASK) = none ∨
      ∃ r, lookup h s (x.id &&& V4L2_CTRL_ID_MASK) = some r ∧
        hasFlag (s.get (h.ref (some r)).ctrl).flags V4L2_CTRL_FLAG_DISABLED = true) := by
  unfold entryUnresolvable
  constructor
  · rintro (a | a | a | a)
    · exact Or.inl a
    · exact Or.inr (Or.inl a)
    · right; right; left
      rcases hl : lookup h s (x.id &&& V4L2_CTRL_ID_MASK) with _ | r
      · rfl
      · obtain ⟨h1, h2⟩ := lookup_some hl
        exact absurd (by rw [refId_of_mem inv h1, h2]) (a r)
    · right; right
      rcases hl : lookup h s (x.id &&& V4L2_CTRL_ID_MASK) with _ | r
      · exact Or.inl rfl
      · obtain ⟨h1, h2⟩ := lookup_some hl
        exact Or.inr ⟨r, rfl, a r (by rw [refId_of_mem inv h1, h2])⟩
  · rintro (a | a | a | ⟨r, a1, a2⟩)
    · exact Or.inl a
    · exact Or.inr (Or.inl a)
    · right; right; left
      intro r hr
      obtain ⟨h1, h2⟩ := mem_of_refId inv hr
      exact lookup_none a r h1 h2
    · right; right; right
      intro r' hr'
      obtain ⟨h1, h2⟩ := mem_of_refId inv hr'
      obtain ⟨h3, h4⟩ := lookup_some a1
      rw [ref_unique inv h1 h3 (by rw [h2, h4])]
      exact a2

/-- One round of the first loop of `prepare_ext_ctrls` for an entry that cannot be
resolved: the loop stops with `-EINVAL` and the index of the entry. -/
theorem prepare_loop_cons_bad {h : Handler} {s : Store} (inv : RegInv h s) (k : Nat)
    (x : ExtControl) (rest : List ExtControl) (i eidx : Nat) (c : Option Nat)
    (hs : List Helper) (hc : Bool) (hbad : entryUnresolvable h s k x) :
    (prepare_loop s k (x :: rest) i eidx { h with cached := c } hs hc).ret = -EINVAL ∧
    (prepare_loop s k (x :: rest) i eidx { h with cached := c } hs hc).error_idx = i := by
  rw [entryUnresolvable_iff inv] at hbad
  unfold prepare_loop
  simp only
  by_cases h1 : k ≠ 0 ∧ V4L2_CTRL_ID2CLASS (x.id &&& V4L2_CTRL_ID_MASK) ≠ k
  · rw [if_pos h1]; exact ⟨rfl, rfl⟩
  rw [if_neg h1]
  by_cases h2 : V4L2_CID_PRIVATE_BASE ≤ (x.id &&& V4L2_CTRL_ID_MASK)
  · rw [if_pos h2]; exact ⟨rfl, rfl⟩
  rw [if_neg h2]
  obtain ⟨hf1, c', hf2⟩ := find_ref_lookup (RegInv_cached inv c) (x.id &&& V4L2_CTRL_ID_MASK)
    (by rw [and_mask_idem]; omega)
  rw [and_mask_idem] at hf1
  have hf1' : (find_ref { h with cached := c } s (x.id &&& V4L2_CTRL_ID_MASK)).1 =
      lookup h s (x.id &&& V4L2_CTRL_ID_MASK) := hf1
  rcases hbad with a | a | a | ⟨r, a1, a2⟩
  · exact absurd a h1
  · exact absurd a h2
  · rw [hf1', a]
    exact ⟨rfl, rfl⟩
  · rw [hf1', a1]
    simp only
    rw [hf2]
    have : hasFlag (s.get (({ h with cached := c' } : Handler).ref (some r)).ctrl).flags
        V4L2_CTRL_FLAG_DISABLED = true := a2
    rw [if_pos this]
    exact ⟨rfl, rfl⟩

/-- One round of the first loop of `prepare_ext_ctrls` for an entry that can be resolved:
the loop goes on with the next entry and one more helper. -/
theorem prepare_loop_cons_ok {h : Handler} {s : Store} (inv : RegInv h s) (hw : s.wf)
    (k : Nat) (x : ExtControl) (rest : List ExtControl) (i eidx : Nat) (c : Option Nat)
    (hs : List Helper) (hc : Bool) (hok : ¬ entryUnresolvable h s k x) :
    ∃ c' hc', prepare_loop s k (x :: rest) i eidx { h with cached := c } hs hc =
      prepare_loop s k rest (i + 1) i { h with cached := c' } (hs ++ [entryHelper h s x]) hc' := by
  rw [entryUnresolvable_iff inv] at hok
  have h1 : ¬ (k ≠ 0 ∧ V4L2_CTRL_ID2CLASS (x.id &&& V4L2_CTRL_ID_MASK) ≠ k) :=
    fun e => hok (Or.inl e)
  have h2 : ¬ V4L2_CID_PRIVATE_BASE ≤ (x.id &&& V4L2_CTRL_ID_MASK) :=
    fun e => hok (Or.inr (Or.inl e))
  obtain ⟨hf1, c', hf2⟩ := find_ref_lookup (RegInv_cached inv c) (x.id &&& V4L2_CTRL_ID_MASK)
    (by rw [and_mask_idem]; omega)
  rw [and_mask_idem] at hf1
  have hf1' : (find_ref { h with cached := c } s (x.id &&& V4L2_CTRL_ID_MASK)).1 =
      lookup h s (x.id &&& V4L2_CTRL_ID_MASK) := hf1
  rcases hl : lookup h s (x.id &&& V4L2_CTRL_ID_MASK) with _ | r
  · exact absurd (Or.inr (Or.inr (Or.inl hl))) hok
  · have h3 : ¬ hasFlag (s.get (h.ref (some r)).ctrl).flags V4L2_CTRL_FLAG_DISABLED = true :=
      fun e => hok (Or.inr (Or.inr (Or.inr ⟨r, hl, e⟩)))
    have hmid := get_id_lt hw ((s.get (h.ref (some r)).ctrl).cluster.headD none)
    obtain ⟨hg1, c'', hg2⟩ := find_ref_lookup (RegInv_cached inv c')
      (s.get ((s.get (h.ref (some r)).ctrl).cluster.headD none)).id
      (by rw [mask_of_lt_private hmid]; exact hmid)
    rw [mask_of_lt_private hmid] at hg1
    have hhelper : entryHelper h s x =
        ⟨if (s.get (h.ref (some r)).ctrl).cluster.headD none ≠ (h.ref (some r)).ctrl then
            lookup h s (s.get ((s.get (h.ref (some r)).ctrl).cluster.headD none)).id
          else some r, (h.ref (some r)).ctrl, 0⟩ := by
      unfold entryHelper
      simp only [hl]
    rw [hhelper]
    rw [prepare_loop]
    simp only
    rw [if_neg h1, if_neg h2, hf1', hl]
    simp only
    rw [hf2]
    have h3' : ¬ hasFlag (s.get (({ h with cached := c' } : Handler).ref (some r)).ctrl).flags
        V4L2_CTRL_FLAG_DISABLED = true := h3
    rw [if_neg h3']
    by_cases hmp : (s.get (h.ref (some r)).ctrl).cluster.headD none ≠ (h.ref (some r)).ctrl
    · have hmp' : (s.get (({ h with cached := c' } : Handler).ref (some r)).ctrl).cluster.headD
          none ≠ (({ h with cached := c' } : Handler).ref (some r)).ctrl := hmp
      refine ⟨c'', (hc || decide (1 <
        (s.get ((s.get (h.ref (some r)).ctrl).cluster.headD none)).ncontrols)), ?_⟩
      rw [if_pos hmp', if_pos hmp]
      have hg1' : (find_ref { h with cached := c' } s
          (s.get ((s.get (({ h with cached := c' } : Handler).ref (some r)).ctrl).cluster.headD
            none)).id).1 =
          lookup h s (s.get ((s.get (h.ref (some r)).ctrl).cluster.headD none)).id := hg1
      have hg2' : (find_ref { h with cached := c' } s
          (s.get ((s.get (({ h with cached := c' } : Handler).ref (some r)).ctrl).cluster.headD
            none)).id).2 = { h with cached := c'' } := hg2
      rw [hg1', hg2']
      rfl
    · have hmp' : ¬ (s.get (({ h with cached := c' } : Handler).ref (some r)).ctrl).cluster.headD
          none ≠ (({ h with cached := c' } : Handler).ref (some r)).ctrl := hmp
      refine ⟨c', (hc || decide (1 <
        (s.get ((s.get (h.ref (some r)).ctrl).cluster.headD none)).ncontrols)), ?_⟩
      rw [if_neg hmp', if_neg hmp]
      rfl

theorem handler_cached_eta (h : Handler) : ({ h with cached := h.cached } : Handler) = h := by
  cases h; rfl

/-- The first loop of `prepare_ext_ctrls` stops at the first entry that cannot be
resolved, with `-EINVAL` and the index of that entry. -/
theorem prepare_loop_first_bad {h : Handler} {s : Store} (inv : RegInv h s) (hw : s.wf)
    (k : Nat) (l : List ExtControl) :
    ∀ (i eidx : Nat) (c : Option Nat) (hs : List Helper) (hc : Bool) (j : Nat),
    j < l.length → entryUnresolvable h s k (l.getD j ExtControl.null) →
    (∀ n, n < j → ¬ entryUnresolvable h s k (l.getD n ExtControl.null)) →
    (prepare_loop s k l i eidx { h with cached := c } hs hc).ret = -EINVAL ∧
    (prepare_loop s k l i eidx { h with cached := c } hs hc).error_idx = i + j := by
  induction l with
  | nil => intro i eidx c hs hc j hj; simp at hj
  | cons x rest ih =>
    intro i eidx c hs hc j hj hbad hok
    cases j with
    | zero =>
      simp only [List.getD_cons_zero] at hbad
      exact prepare_loop_cons_bad inv k x rest i eidx c hs hc hbad
    | succ j' =>
      have hx : ¬ entryUnresolvable h s k x := by
        have := hok 0 (Nat.succ_pos _)
        simpa using this
      obtain ⟨c', hc', he⟩ := prepare_loop_cons_ok inv hw k x rest i eidx c hs hc hx
      rw [he]
      have := ih (i + 1) i c' (hs ++ [entryHelper h s x]) hc' j'
        (by simpa using hj) (by simpa using hbad)
        (fun n hn => by
          have := hok (n + 1) (by omega)
          simpa using this)
      rw [this.1, this.2]
      exact ⟨rfl, by omega⟩

/-- The first loop of `prepare_ext_ctrls` on a batch whose entries can all be resolved:
it returns 0 with one helper for each entry, and changes the cache only. -/
theorem prepare_loop_all_ok {h : Handler} {s : Store} (inv : RegInv h s) (hw : s.wf)
    (k : Nat) (l : List ExtControl) :
    ∀ (i eidx : Nat) (c : Option Nat) (hs : List Helper) (hc : Bool),
    (∀ x ∈ l, ¬ entryUnresolvable h s k x) →
    ∃ c' hc' e', prepare_loop s k l i eidx { h with cached := c } hs hc =
      ⟨0, e', { h with cached := c' }, hs ++ l.map (entryHelper h s), hc'⟩ := by
  induction l with
  | nil =>
    intro i eidx c hs hc _
    exact ⟨c, hc, eidx, by simp [prepare_loop]⟩
  | cons x rest ih =>
    intro i eidx c hs hc hok
    obtain ⟨c', hc', he⟩ := prepare_loop_cons_ok inv hw k x rest i eidx c hs hc
      (hok x (List.mem_cons_self _ _))
    obtain ⟨c'', hc'', e'', he'⟩ := ih (i + 1) i c' (hs ++ [entryHelper h s x]) hc'
      (fun y hy => hok y (List.mem_cons_of_mem _ hy))
    refine ⟨c'', hc'', e'', ?_⟩
    rw [he, he']
    simp

/-- The loop of `validate_ctrls` stops at the first entry that fails, with the error and
the index of that entry. -/
theorem validate_loop_first_bad (s : Store) (helpers : List Helper) (set : Bool)
    (l : List ExtControl) : ∀ (i eidx : Nat) (done : List ExtControl) (j : Nat),
    j < l.length →
    entryError s set (helpers.getD (i + j) Helper.null) (l.getD j ExtControl.null) ≠ 0 →
    (∀ n, n < j →
      entryError s set (helpers.getD (i + n) Helper.null) (l.getD n ExtControl.null) = 0) →
    (validate_loop s helpers set l i eidx done).1 =
      entryError s set (helpers.getD (i + j) Helper.null) (l.getD j ExtControl.null) ∧
    (validate_loop s helpers set l i eidx done).2.1 = i + j := by
  induction l with
  | nil => intro i eidx done j hj; simp at hj
  | cons x rest ih =>
    intro i eidx done j hj hbad hok
    cases j with
    | zero =>
      simp only [List.getD_cons_zero, Nat.add_zero] at hbad ⊢
      refine ⟨(validate_loop_cons s helpers set x rest i eidx done).1 hbad, ?_⟩
      unfold entryError at hbad
      unfold validate_loop
      simp only
      split_ifs at hbad ⊢ <;> rfl
    | succ j' =>
      have hx : entryError s set (helpers.getD i Helper.null) x = 0 := by
        have := hok 0 (Nat.succ_pos _)
        simpa using this
      rw [(validate_loop_cons s helpers set x rest i eidx done).2 hx]
      have e : i + (j' + 1) = i + 1 + j' := by omega
      have := ih (i + 1) i (done ++ [(validate_new (s.get (helpers.getD i Helper.null).ctrl) x).2])
        j' (by simpa using hj)
        (by rw [← e]; simpa using hbad)
        (fun n hn => by
          have := hok (n + 1) (by omega)
          have e' : i + (n + 1) = i + 1 + n := by omega
          rw [← e']; simpa using this)
      rw [e]
      simpa using this

/-! ## The error index of a try -/

theorem resolved_first_bad {h : Handler} {s : Store} (inv : RegInv h s) (hw : s.wf)
    (cs : ExtControls) (j : Nat) (hj : j < cs.count)
    (hbad : entryUnresolvable h s (V4L2_CTRL_ID2CLASS cs.ctrl_class)
      (cs.controls.getD j ExtControl.null))
    (hok : ∀ n, n < j → ¬ entryUnresolvable h s (V4L2_CTRL_ID2CLASS cs.ctrl_class)
      (cs.controls.getD n ExtControl.null)) :
    (resolved h s cs).ret = -EINVAL ∧ (resolved h s cs).error_idx = j := by
  have := prepare_loop_first_bad inv hw (V4L2_CTRL_ID2CLASS cs.ctrl_class) cs.controls 0
    cs.count h.cached [] false j hj hbad hok
  rw [handler_cached_eta, Nat.zero_add] at this
  unfold resolved prepare_ext_ctrls
  simp only
  rw [if_pos (by rw [this.1]; decide)]
  exact this

theorem resolved_all_ok {h : Handler} {s : Store} (inv : RegInv h s) (hw : s.wf)
    (cs : ExtControls)
    (hok : ∀ n, n < cs.count → ¬ entryUnresolvable h s (V4L2_CTRL_ID2CLASS cs.ctrl_class)
      (cs.controls.getD n ExtControl.null)) :
    (resolved h s cs).ret = 0 := by
  have hall : ∀ x ∈ cs.controls,
      ¬ entryUnresolvable h s (V4L2_CTRL_ID2CLASS cs.ctrl_class) x := by
    intro x hx
    obtain ⟨n, hn, he⟩ := List.getElem_of_mem hx
    have := hok n hn
    rw [List.getD_eq_getElem _ _ hn, he] at this
    exact this
  obtain ⟨c', hc', e', he⟩ := prepare_loop_all_ok inv hw (V4L2_CTRL_ID2CLASS cs.ctrl_class)
    cs.controls 0 cs.count h.cached [] false hall
  rw [handler_cached_eta] at he
  unfold resolved prepare_ext_ctrls
  simp only
  rw [he]
  simp only [ne_eq, not_true_eq_false, if_false]
  split_ifs <;> rfl

/-- The error index of a try in the resolve and the validate phase: on a reachable
registry, when an entry of the batch fails the resolve checks, `v4l2_try_ext_ctrls` fails
and the reported error index is the offset `j` of the first such entry; and when every
entry passes the resolve checks and an entry fails validation (read-only control or value
rejected), it fails with the error of the first such entry and the reported error index is
the offset of that entry. -/
theorem try_error_index_early_phases (cat : Catalog) (h : Handler) (s : Store)
    (hr : Reachable cat h s) (cs : ExtControls) (j : Nat) (hj : j < cs.count) :
    (entryUnresolvable h s (V4L2_CTRL_ID2CLASS cs.ctrl_class)
        (cs.controls.getD j ExtControl.null) →
      (∀ n, n < j → ¬ entryUnresolvable h s (V4L2_CTRL_ID2CLASS cs.ctrl_class)
        (cs.controls.getD n ExtControl.null)) →
      (v4l2_try_ext_ctrls (some h) s cs).ret = -EINVAL ∧
      (v4l2_try_ext_ctrls (some h) s cs).cs.error_idx = j) ∧
    ((∀ n, n < cs.count → ¬ entryUnresolvable h s (V4L2_CTRL_ID2CLASS cs.ctrl_class)
        (cs.controls.getD n ExtControl.null)) →
      entryError s false ((resolved h s cs).helpers.getD j Helper.null)
        (cs.controls.getD j ExtControl.null) ≠ 0 →
      (∀ n, n < j → entryError s false ((resolved h s cs).helpers.getD n Helper.null)
        (cs.controls.getD n ExtControl.null) = 0) →
      (v4l2_try_ext_ctrls (some h) s cs).ret =
        entryError s false ((resolved h s cs).helpers.getD j Helper.null)
          (cs.controls.getD j ExtControl.null) ∧
      (v4l2_try_ext_ctrls (some h) s cs).ret ≠ 0 ∧
      (v4l2_try_ext_ctrls (some h) s cs).cs.error_idx = j) := by
  obtain ⟨inv, hw⟩ := reachable_inv cat h s hr
  have hcount : cs.controls.length ≠ 0 := by
    simp only [ExtControls.count] at hj; omega
  refine ⟨?_, ?_⟩
  · intro hbad hok
    obtain ⟨h1, h2⟩ := resolved_first_bad inv hw cs j hj hbad hok
    have hne : (resolved h s cs).ret ≠ 0 := by rw [h1]; decide
    unfold resolved at h1 h2 hne
    unfold v4l2_try_ext_ctrls try_set_ext_ctrls
    simp only [ExtControls.count] at h1 h2 hne ⊢
    simp only [hcount, if_false, hne, ne_eq, not_false_eq_true, if_true]
    exact ⟨h1, h2⟩
  · intro hok hbad hpass
    have hres := resolved_all_ok inv hw cs hok
    obtain ⟨v1, v2⟩ := validate_loop_first_bad s (resolved h s cs).helpers false cs.controls 0
      cs.count [] j hj
      (by rw [Nat.zero_add]; exact hbad)
      (fun n hn => by rw [Nat.zero_add]; exact hpass n hn)
    rw [Nat.zero_add] at v1 v2
    have hne : (validate_loop s (resolved h s cs).helpers false cs.controls 0
        cs.count []).1 ≠ 0 := by rw [v1]; exact hbad
    unfold resolved at hres v1 v2 hne hbad
    unfold v4l2_try_ext_ctrls try_set_ext_ctrls
    simp only [ExtControls.count] at hres v1 v2 hne hbad ⊢
    simp only [hcount, if_false, hres, ne_eq, not_true_eq_false, validate_ctrls,
      ExtControls.count]
    rw [if_pos hne]
    simp only [Bool.false_eq_true, if_false]
    exact ⟨v1, hne, v2⟩

/-- An instance of `try_error_index_early_phases`: on the built registry, a try of
brightness and an ID that the registry lacks reports the index 1 with `-EINVAL`, and a try
of brightness and the read-only class control reports the index 1 with `-EACCES`. -/
theorem try_error_index_early_phases_built :
    ((v4l2_try_ext_ctrls (some builtReg.hdl) builtReg.store exBatchUnknown).ret = -EINVAL ∧
      (v4l2_try_ext_ctrls (some builtReg.hdl) builtReg.store exBatchUnknown).cs.error_idx = 1) ∧
    ((v4l2_try_ext_ctrls (some builtReg.hdl) builtReg.store builtBatchClass).ret =
        entryError builtReg.store false
          ((resolved builtReg.hdl builtReg.store builtBatchClass).helpers.getD 1 Helper.null)
          (builtBatchClass.controls.getD 1 ExtControl.null) ∧
      (v4l2_try_ext_ctrls (some builtReg.hdl) builtReg.store builtBatchClass).ret ≠ 0 ∧
      (v4l2_try_ext_ctrls (some builtReg.hdl) builtReg.store builtBatchClass).cs.error_idx = 1) :=
  have inv := (reachable_inv exCatalog builtReg.hdl builtReg.store builtReg_reachable).1
  have hres : ∀ id : Nat, ∀ r : Nat, lookup builtReg.hdl builtReg.store id = some r →
      hasFlag (builtReg.store.get (builtReg.hdl.ref (some r)).ctrl).flags
        V4L2_CTRL_FLAG_DISABLED = false := by
    intro id r hl
    have hm := (lookup_some hl).1
    have : r = 0 ∨ r = 1 := by
      have : r ∈ [0, 1] := hm
      simpa using this
    rcases this with e | e <;> subst e <;> decide
  have hgood : ∀ x : ExtControl, x.id = 0x00980900 ∨ x.id = 0x00980001 →
      ¬ entryUnresolvable builtReg.hdl builtReg.store 0 x := by
    intro x hx
    rw [entryUnresolvable_iff inv]
    rintro (a | a | a | ⟨r, a1, a2⟩)
    · exact a.1 rfl
    · rcases hx with e | e <;> rw [e] at a <;> exact absurd a (by decide)
    · rcases hx with e | e <;> rw [e] at a <;> exact absurd a (by decide)
    · rw [hres _ r a1] at a2; cases a2
  ⟨(try_error_index_early_phases exCatalog builtReg.hdl builtReg.store builtReg_reachable
      exBatchUnknown 1 (by decide)).1
      ((entryUnresolvable_iff inv _ _).2 (Or.inr (Or.inr (Or.inl (by decide)))))
      (fun n hn => by
        have : n = 0 := by omega
        subst this
        exact hgood _ (Or.inl rfl)),
    (try_error_index_early_phases exCatalog builtReg.hdl builtReg.store builtReg_reachable
      builtBatchClass 1 (by decide)).2
      (fun n hn => by
        have : n = 0 ∨ n = 1 := by
          have : n < 2 := hn
          omega
        rcases this with e | e <;> subst e
        · exact hgood _ (Or.inl rfl)
        · exact hgood _ (Or.inr rfl))
      (by decide)
      (fun n hn => by
        have : n = 0 := by omega
        subst this
        decide)⟩

/-! ## The links between the helpers of one cluster -/

theorem ref_updRef (h : Handler) (r q : Option Nat) (f : Ref → Ref) :
    (h.updRef r f).ref q =
      if r = q ∧ (∃ i, q = some i ∧ i < h.refs.length) then f (h.ref q) else h.ref q := by
  cases r with
  | none =>
    rw [if_neg]
    · rfl
    · rintro ⟨e, i, hq, _⟩
      rw [← e] at hq; cases hq
  | some a =>
    cases q with
    | none =>
      rw [if_neg]
      · rfl
      · rintro ⟨e, _⟩; cases e
    | some b =>
      simp only [Handler.updRef, Handler.ref, getD_updAt, Option.some.injEq]
      by_cases hc : a = b ∧ b < h.refs.length
      · rw [if_pos hc, if_pos ⟨congrArg some hc.1, b, rfl, hc.2⟩]
      · rw [if_neg hc, if_neg]
        rintro ⟨e, i, hi, hlt⟩
        exact hc ⟨Option.some.inj e, by cases hi; exact hlt⟩

theorem ref_updRef_ctrl (h : Handler) (r q : Option Nat) (v : Option Nat) :
    ((h.updRef r (fun x => { x with helper := v })).ref q).ctrl = (h.ref q).ctrl := by
  rw [ref_updRef]
  split_ifs <;> rfl

theorem updRef_refs_length (h : Handler) (r : Option Nat) (f : Ref → Ref) :
    (h.updRef r f).refs.length = h.refs.length := by
  cases r with
  | none => rfl
  | some a => simp [Handler.updRef, length_updAt]

/-- The loop that zeroes the helper fields leaves the controls of the references, and the
reference of every helper has no helper after it. -/
theorem zero_helpers_spec (hs : List Helper) :
    ∀ h : Handler,
    (zero_helpers h hs).refs.length = h.refs.length ∧
    (∀ q, ((zero_helpers h hs).ref q).ctrl = (h.ref q).ctrl) ∧
    (∀ q, (h.ref q).helper = none → ((zero_helpers h hs).ref q).helper = none) ∧
    (∀ x ∈ hs, ((zero_helpers h hs).ref x.mref).helper = none) := by
  induction hs with
  | nil =>
    intro h
    exact ⟨rfl, fun _ => rfl, fun _ hq => hq, fun x hx => by simp at hx⟩
  | cons y rest ih =>
    intro h
    obtain ⟨i1, i2, i3, i4⟩ := ih (h.updRef y.mref (fun r => { r with helper := none }))
    have hstep : zero_helpers h (y :: rest) =
        zero_helpers (h.updRef y.mref (fun r => { r with helper := none })) rest := rfl
    rw [hstep]
    have hnone : ∀ q, (h.ref q).helper = none →
        ((h.updRef y.mref (fun r => { r with helper := none })).ref q).helper = none := by
      intro q hq
      rw [ref_updRef]
      split_ifs
      · rfl
      · exact hq
    refine ⟨by rw [i1, updRef_refs_length], fun q => by rw [i2, ref_updRef_ctrl],
      fun q hq => i3 q (hnone q hq), ?_⟩
    intro x hx
    rcases List.mem_cons.1 hx with e | m
    · rw [e]
      apply i3
      rw [ref_updRef]
      by_cases hc : y.mref = y.mref ∧ ∃ i, y.mref = some i ∧ i < h.refs.length
      · rw [if_pos hc]
      · rw [if_neg hc]
        cases hm : y.mref with
        | none => rfl
        | some a =>
          have : ¬ a < h.refs.length := fun hlt => hc ⟨rfl, a, hm, hlt⟩
          simp only [Handler.ref]
          rw [List.getD_eq_default _ _ (by omega)]
    · exact i4 x m

theorem getD_updAt_next (hs : List Helper) (j i v : Nat) :
    ((updAt hs j (fun x => { x with next := v })).getD i Helper.null).mref =
      (hs.getD i Helper.null).mref ∧
    ((updAt hs j (fun x => { x with next := v })).getD i Helper.null).ctrl =
      (hs.getD i Helper.null).ctrl := by
  rw [getD_updAt]
  split_ifs <;> exact ⟨rfl, rfl⟩

theorem getD_updAt_mref (hs : List Helper) (k i : Nat) :
    ((updAt hs k (fun x => { x with mref := none })).getD i Helper.null).mref =
      (if i = k then none else (hs.getD i Helper.null).mref) ∧
    ((updAt hs k (fun x => { x with mref := none })).getD i Helper.null).ctrl =
      (hs.getD i Helper.null).ctrl := by
  rw [getD_updAt]
  by_cases hc : k = i ∧ i < hs.length
  · rw [if_pos hc, if_pos hc.1.symm]
    exact ⟨rfl, rfl⟩
  · rw [if_neg hc]
    refine ⟨?_, rfl⟩
    by_cases e : i = k
    · rw [if_pos e]
      have : ¬ i < hs.length := fun hlt => hc ⟨e.symm, hlt⟩
      rw [List.getD_eq_default _ _ (by omega)]
      rfl
    · rw [if_neg e]

/-- The loop that links the helpers, from the index `k` on. `M` gives the master reference
that each helper had before the loop. After the loop a helper has its master reference or
none, and one that has it is the first helper with that master reference. -/
theorem link_helpers_spec (n : Nat) (M : Nat → Option Nat) (d : Nat) :
    ∀ (k : Nat) (h : Handler) (hs : List Helper), k + d = n →
    (∀ i, i < n → ∀ r, M i = some r → r < h.refs.length) →
    (∀ i, k ≤ i → (hs.getD i Helper.null).mref = M i) →
    (∀ i, i < k → (hs.getD i Helper.null).mref = M i ∨ (hs.getD i Helper.null).mref = none) →
    (∀ i, i < k → ∀ r, (hs.getD i Helper.null).mref = some r → ∀ i', i' < i → M i' ≠ some r) →
    (∀ i, i < n → ∀ r, M i = some r →
      ((h.ref (some r)).helper = none ↔ ∀ i', i' < k → M i' ≠ some r)) →
    (∀ i, i < n →
      ((link_helpers h hs (List.range' k d)).2.getD i Helper.null).mref = M i ∨
      ((link_helpers h hs (List.range' k d)).2.getD i Helper.null).mref = none) ∧
    (∀ i, i < n → ∀ r,
      ((link_helpers h hs (List.range' k d)).2.getD i Helper.null).mref = some r →
      ∀ i', i' < i → M i' ≠ some r) ∧
    (∀ i, ((link_helpers h hs (List.range' k d)).2.getD i Helper.null).ctrl =
      (hs.getD i Helper.null).ctrl) ∧
    (∀ q, ((link_helpers h hs (List.range' k d)).1.ref q).ctrl = (h.ref q).ctrl) := by
  induction d with
  | zero =>
    intro k h hs hk _ hb hc hf _
    have hkn : k = n := by omega
    have e0 : link_helpers h hs (List.range' k 0) = (h, hs) := rfl
    rw [e0]
    refine ⟨fun i hi => hc i (by omega), fun i hi => hf i (by omega), fun _ => rfl, fun _ => rfl⟩
  | succ d ih =>
    intro k h hs hk hv hb hc hf he
    have hkn : k < n := by omega
    have hMk : (hs.getD k Helper.null).mref = M k := hb k (Nat.le_refl _)
    rw [List.range'_succ, link_helpers]
    simp only [hMk]
    -- the helper list after the round
    have hround : ∀ hs' : List Helper,
        (∀ i, (hs'.getD i Helper.null).ctrl = (hs.getD i Helper.null).ctrl) →
        (∀ i, i ≠ k → (hs'.getD i Helper.null).mref = (hs.getD i Helper.null).mref) →
        ((hs'.getD k Helper.null).mref = M k ∧
            (∀ r, M k = some r → ∀ i', i' < k → M i' ≠ some r) ∨
          (hs'.getD k Helper.null).mref = none) →
        (∀ i, i < n →
          ((link_helpers (h.updRef (M k) (fun r => { r with helper := some k })) hs'
            (List.range' (k + 1) d)).2.getD i Helper.null).mref = M i ∨
          ((link_helpers (h.updRef (M k) (fun r => { r with helper := some k })) hs'
            (List.range' (k + 1) d)).2.getD i Helper.null).mref = none) ∧
        (∀ i, i < n → ∀ r,
          ((link_helpers (h.updRef (M k) (fun r => { r with helper := some k })) hs'
            (List.range' (k + 1) d)).2.getD i Helper.null).mref = some r →
          ∀ i', i' < i → M i' ≠ some r) ∧
        (∀ i, ((link_helpers (h.updRef (M k) (fun r => { r with helper := some k })) hs'
            (List.range' (k + 1) d)).2.getD i Helper.null).ctrl =
          (hs.getD i Helper.null).ctrl) ∧
        (∀ q, ((link_helpers (h.updRef (M k) (fun r => { r with helper := some k })) hs'
            (List.range' (k + 1) d)).1.ref q).ctrl = (h.ref q).ctrl) := by
      intro hs' hctrl hother hk'
      have := ih (k + 1) (h.updRef (M k) (fun r => { r with helper := some k })) hs'
        (by omega)
        (fun i hi r hr => by rw [updRef_refs_length]; exact hv i hi r hr)
        (fun i hi => by rw [hother i (by omega)]; exact hb i (by omega))
        (fun i hi => by
          by_cases e : i = k
          · rw [e]
            rcases hk' with a | a
            · exact Or.inl a.1
            · exact Or.inr a
          · rw [hother i e]; exact hc i (by omega))
        (fun i hi r hr i' hi' => by
          by_cases e : i = k
          · rw [e] at hr hi'
            rcases hk' with a | a
            · rw [a.1] at hr
              exact a.2 r hr i' hi'
            · rw [a] at hr; cases hr
          · rw [hother i e] at hr
            exact hf i (by omega) r hr i' hi')
        (fun i hi r hr => by
          rw [ref_updRef]
          by_cases e : M k = some r
          · rw [if_pos ⟨e, r, rfl, hv i hi r hr⟩]
            constructor
            · intro hh; cases hh
            · intro hall
              exact absurd e (hall k (Nat.lt_succ_self k))
          · rw [if_neg (fun hh => e hh.1)]
            rw [he i hi r hr]
            constructor
            · intro hall i' hi'
              by_cases e' : i' = k
              · rw [e']; exact e
              · exact hall i' (by omega)
            · intro hall i' hi'
              exact hall i' (by omega))
      obtain ⟨a1, a2, a3, a4⟩ := this
      refine ⟨a1, a2, fun i => by rw [a3, hctrl], fun q => by rw [a4, ref_updRef_ctrl]⟩
    rcases hhelper : (h.ref (M k)).helper with _ | j
    · simp only
      refine hround hs (fun _ => rfl) (fun _ _ => rfl) (Or.inl ⟨hMk, ?_⟩)
      intro r hr
      rw [hr] at hhelper
      exact (he k hkn r hr).1 hhelper
    · simp only
      refine hround _ ?_ ?_ (Or.inr ?_)
      · intro i
        rw [(getD_updAt_mref _ k i).2, (getD_updAt_next hs j i k).2]
      · intro i hi
        rw [(getD_updAt_mref _ k i).1, if_neg hi, (getD_updAt_next hs j i k).1]
      · rw [(getD_updAt_mref _ k k).1, if_pos rfl]

/-! ## The backend calls of a batch -/

/-- A step whose outside effects are all other than the call of `op` on `m` keeps the
number of these calls. -/
theorem callCount_step {E : Ctrl → Ctrl} {op : OpKind} {m : Option Nat} {s s' : Store}
    (h : Step E (fun e => e ≠ LogEntry.call op m) s s') :
    callCount s' op m = callCount s op m := by
  obtain ⟨_, l, hl, hok⟩ := h
  unfold callCount
  rw [hl, List.count_append, List.count_eq_zero.2 (fun hm => hok _ hm rfl)]
  rfl

theorem step_send_event_ok (E : Ctrl → Ctrl) (ok : LogEntry → Prop)
    (hev : ∀ f ev, ok (LogEntry.event f ev)) (s : Store) (fh p : Option Nat) (changes : Nat) :
    Step E ok s (send_event s fh p changes) := by
  unfold send_event
  simp only
  split_ifs
  · exact step_refl _ _ s
  · refine ⟨rfl, _, rfl, ?_⟩
    intro e he
    obtain ⟨sev, _, rfl⟩ := List.mem_map.1 he
    exact hev _ _

theorem step_new_to_cur_ok (ok : LogEntry → Prop) (hev : ∀ f ev, ok (LogEntry.event f ev))
    (s : Store) (fh p : Option Nat) (b : Bool) :
    Step (fun _ => Ctrl.null) ok s (new_to_cur s fh p b) := by
  unfold new_to_cur
  cases p with
  | none => exact step_refl _ _ s
  | some i =>
    simp only
    have hu : ∀ (t : Store) (f : Ctrl → Ctrl),
        Step (fun _ => Ctrl.null) ok t (t.upd (some i) f) :=
      fun t f => step_upd _ _ t _ f (fun _ => rfl)
    split_ifs <;>
      first
      | exact hu _ _
      | exact step_trans (hu _ _) (hu _ _)
      | exact step_trans (step_trans (hu _ _) (hu _ _)) (hu _ _)
      | exact step_trans (hu _ _) (step_send_event_ok _ _ hev _ _ _ _)
      | exact step_trans (step_trans (hu _ _) (hu _ _)) (step_send_event_ok _ _ hev _ _ _ _)
      | exact step_trans (step_trans (step_trans (hu _ _) (hu _ _)) (hu _ _))
          (step_send_event_ok _ _ hev _ _ _ _)

theorem step_commit_cluster_ok (ok : LogEntry → Prop)
    (hev : ∀ f ev, ok (LogEntry.event f ev)) (fh : Option Nat) (uf : Bool)
    (l : List (Option Nat)) :
    ∀ (s : Store) (i : Nat),
      Step (fun _ => Ctrl.null) ok s (commit_cluster fh uf s l i) := by
  induction l with
  | nil => intro s i; exact step_refl _ _ s
  | cons p rest ih =>
    intro s i
    exact step_trans (step_new_to_cur_ok ok hev s fh p _) (ih _ _)

/-- A backend call adds at most one call of `op` on `m` to the trace, and none when it is
a call of another operation or on another master. -/
theorem callCount_call_op (s : Store) (master : Option Nat) (op' op : OpKind)
    (m : Option Nat) :
    callCount (call_op s master op').2 op m ≤ callCount s op m + 1 ∧
    ((op' ≠ op ∨ master ≠ m) →
      callCount (call_op s master op').2 op m = callCount s op m) := by
  constructor
  · unfold call_op
    simp only
    split
    · exact Nat.le_succ _
    · split
      · exact Nat.le_succ _
      · have h : ∀ vs, (setPending s (s.get master).cluster vs).log.count (LogEntry.call op m) =
            s.log.count (LogEntry.call op m) := fun vs => callCount_step
          (@step_setPending erasePending erasePending_idem (fun e => e ≠ LogEntry.call op m)
            (s.get master).cluster vs s)
        unfold callCount
        simp only [List.count_append]
        rw [h]
        exact Nat.add_le_add_left (List.count_le_length _ _) _
  · intro hne
    refine callCount_step (@step_call_op erasePending erasePending_idem _ s master op' ?_)
    intro e
    cases e
    rcases hne with h | h
    · exact h rfl
    · exact h rfl

/-- The try or set of one cluster calls each operation at most once, and on the master of
the cluster only. -/
theorem callCount_try_or_set_cluster (s : Store) (fh master : Option Nat) (set : Bool)
    (op : OpKind) (m : Option Nat) :
    callCount (try_or_set_cluster s fh master set).2 op m ≤ callCount s op m + 1 ∧
    (master ≠ m → callCount (try_or_set_cluster s fh master set).2 op m = callCount s op m) := by
  have hev : ∀ f ev, LogEntry.event f ev ≠ LogEntry.call op m := fun _ _ e => by cases e
  unfold try_or_set_cluster
  have hst := callCount_step (@step_stage_cluster erasePending erasePending_idem
    (fun e => e ≠ LogEntry.call op m) set (s.get master).cluster s)
  generalize stage_cluster set s (s.get master).cluster = r at hst
  obtain ⟨e, s1⟩ := r
  simp only at hst
  cases e with
  | some err => exact ⟨by simp only; omega, fun _ => hst⟩
  | none =>
    simp only
    have t1 := callCount_call_op s1 master .try_ctrl op m
    have t2 := callCount_call_op (call_op s1 master .try_ctrl).2 master .s_ctrl op m
    have t3 := callCount_step (step_commit_cluster_ok (fun e => e ≠ LogEntry.call op m) hev fh
      (is_cur_manual ((call_op (call_op s1 master .try_ctrl).2 master .s_ctrl).2.get master) !=
        is_new_manual ((call_op (call_op s1 master .try_ctrl).2 master .s_ctrl).2.get master))
      ((call_op (call_op s1 master .try_ctrl).2 master .s_ctrl).2.get master).cluster
      (call_op (call_op s1 master .try_ctrl).2 master .s_ctrl).2 0)
    have key : callCount (call_op (call_op s1 master .try_ctrl).2 master .s_ctrl).2 op m ≤
        callCount s1 op m + 1 := by
      by_cases ho : op = .try_ctrl
      · have := t2.2 (Or.inl (by rw [ho]; decide))
        omega
      · have := t1.2 (Or.inl (fun e => ho e.symm))
        omega
    constructor
    · split_ifs <;> simp only <;> omega
    · intro hne
      have a1 := t1.2 (Or.inr hne)
      have a2 := t2.2 (Or.inr hne)
      split_ifs <;> simp only <;> omega

/-- The body of the cluster loop of a try or set calls each operation at most once, and
on the master of the cluster only. -/
theorem callCount_try_set_cluster (fh : Option Nat) (h : Handler) (helpers : List Helper)
    (set : Bool) (i : Nat) (mref : Option Nat) (cs : ExtControls) (s : Store) (op : OpKind)
    (m : Option Nat) :
    callCount (try_set_cluster fh h helpers set i mref cs s).2.2 op m ≤ callCount s op m + 1 ∧
    ((h.ref mref).ctrl ≠ m →
      callCount (try_set_cluster fh h helpers set i mref cs s).2.2 op m = callCount s op m) := by
  unfold try_set_cluster
  simp only
  have h1 := callCount_step (@step_reset_is_new erasePending erasePending_idem
    (fun e => e ≠ LogEntry.call op m) (s.get (h.ref mref).ctrl).cluster s)
  have h2 := callCount_step (@step_user_to_new_chain erasePending erasePending_idem
    (fun e => e ≠ LogEntry.call op m) helpers cs.controls
    ({ cs with error_idx := i } : ExtControls).count i
    (reset_is_new s (s.get (h.ref mref).ctrl).cluster))
  have h3 := callCount_try_or_set_cluster
    (user_to_new_chain helpers cs.controls ({ cs with error_idx := i } : ExtControls).count i
      (reset_is_new s (s.get (h.ref mref).ctrl).cluster)).2 fh (h.ref mref).ctrl set op m
  constructor
  · split_ifs <;> simp only <;> omega
  · intro hne
    have := h3.2 hne
    split_ifs <;> simp only <;> omega

/-- The body of the cluster loop of a get calls each operation at most once, and on the
master of the cluster only. -/
theorem callCount_g_ext_cluster (h : Handler) (helpers : List Helper) (i : Nat)
    (mref : Option Nat) (cs : ExtControls) (s : Store) (op : OpKind) (m : Option Nat) :
    callCount (g_ext_cluster h helpers i mref cs s).2.2 op m ≤ callCount s op m + 1 ∧
    ((h.ref mref).ctrl ≠ m →
      callCount (g_ext_cluster h helpers i mref cs s).2.2 op m = callCount s op m) := by
  unfold g_ext_cluster
  simp only
  have h1 := callCount_step (@step_cluster_cur_to_new erasePending erasePending_idem
    (fun e => e ≠ LogEntry.call op m) (s.get (h.ref mref).ctrl).cluster s)
  have h2 := callCount_call_op (cluster_cur_to_new s (s.get (h.ref mref).ctrl).cluster)
    (h.ref mref).ctrl .g_volatile_ctrl op m
  constructor
  · split_ifs <;> simp only <;> omega
  · intro hne
    have := h2.2 (Or.inr hne)
    split_ifs <;> simp only <;> omega

/-- The cluster loop of a try or set, over indices whose helpers hold master references
to pairwise different controls: each operation is called at most once on a master. -/
theorem callCount_try_set_loop (fh : Option Nat) (h : Handler) (helpers : List Helper)
    (set : Bool) (op : OpKind) (m : Option Nat) (l : List Nat)
    (hp : l.Pairwise (fun i j => ∀ a b, (helpers.getD i Helper.null).mref = some a →
      (helpers.getD j Helper.null).mref = some b →
      (h.ref (some a)).ctrl ≠ (h.ref (some b)).ctrl)) :
    ∀ (cs : ExtControls) (s : Store),
    callCount (try_set_loop fh h helpers set l cs s).2.2 op m ≤ callCount s op m + 1 ∧
    ((∀ i ∈ l, ∀ a, (helpers.getD i Helper.null).mref = some a → (h.ref (some a)).ctrl ≠ m) →
      callCount (try_set_loop fh h helpers set l cs s).2.2 op m = callCount s op m) := by
  induction l with
  | nil => intro cs s; exact ⟨Nat.le_succ _, fun _ => rfl⟩
  | cons i rest ih =>
    intro cs s
    rw [List.pairwise_cons] at hp
    unfold try_set_loop
    split
    · exact ⟨(ih hp.2 cs s).1, fun hq =>
        (ih hp.2 cs s).2 (fun j hj => hq j (List.mem_cons_of_mem _ hj))⟩
    · rename_i a heq
      simp only
      have b := callCount_try_set_cluster fh h helpers set i (some a) cs s op m
      have R := ih hp.2 (try_set_cluster fh h helpers set i (some a) cs s).2.1
        (try_set_cluster fh h helpers set i (some a) cs s).2.2
      split_ifs
      · exact ⟨b.1, fun hq => b.2 (hq i (List.mem_cons_self _ _) a heq)⟩
      · constructor
        · by_cases hm : (h.ref (some a)).ctrl = m
          · have := R.2 (fun j hj c hc => by
              rw [← hm]; exact (hp.1 j hj a c heq hc).symm)
            have := b.1
            omega
          · have := b.2 hm
            have := R.1
            omega
        · intro hq
          have := b.2 (hq i (List.mem_cons_self _ _) a heq)
          have := R.2 (fun j hj => hq j (List.mem_cons_of_mem _ hj))
          omega

/-- The cluster loop of a get, over indices whose helpers hold master references to
pairwise different controls: each operation is called at most once on a master. -/
theorem callCount_g_ext_loop (h : Handler) (helpers : List Helper)
    (op : OpKind) (m : Option Nat) (l : List Nat)
    (hp : l.Pairwise (fun i j => ∀ a b, (helpers.getD i Helper.null).mref = some a →
      (helpers.getD j Helper.null).mref = some b →
      (h.ref (some a)).ctrl ≠ (h.ref (some b)).ctrl)) :
    ∀ (cs : ExtControls) (s : Store),
    callCount (g_ext_loop h helpers l cs s).2.2 op m ≤ callCount s op m + 1 ∧
    ((∀ i ∈ l, ∀ a, (helpers.getD i Helper.null).mref = some a → (h.ref (some a)).ctrl ≠ m) →
      callCount (g_ext_loop h helpers l cs s).2.2 op m = callCount s op m) := by
  induction l with
  | nil => intro cs s; exact ⟨Nat.le_succ _, fun _ => rfl⟩
  | cons i rest ih =>
    intro cs s
    rw [List.pairwise_cons] at hp
    unfold g_ext_loop
    split
    · exact ⟨(ih hp.2 cs s).1, fun hq =>
        (ih hp.2 cs s).2 (fun j hj => hq j (List.mem_cons_of_mem _ hj))⟩
    · rename_i a heq
      simp only
      have b := callCount_g_ext_cluster h helpers i (some a) cs s op m
      have R := ih hp.2 (g_ext_cluster h helpers i (some a) cs s).2.1
        (g_ext_cluster h helpers i (some a) cs s).2.2
      split_ifs
      · exact ⟨b.1, fun hq => b.2 (hq i (List.mem_cons_self _ _) a heq)⟩
      · constructor
        · by_cases hm : (h.ref (some a)).ctrl = m
          · have := R.2 (fun j hj c hc => by
              rw [← hm]; exact (hp.1 j hj a c heq hc).symm)
            have := b.1
            omega
          · have := b.2 hm
            have := R.1
            omega
        · intro hq
          have := b.2 (hq i (List.mem_cons_self _ _) a heq)
          have := R.2 (fun j hj => hq j (List.mem_cons_of_mem _ hj))
          omega

/-- The first loop of `prepare_ext_ctrls` fails, or it builds the helper of every entry
and changes the cache only. -/
theorem prepare_loop_cases {h : Handler} {s : Store} (inv : RegInv h s) (hw : s.wf)
    (k : Nat) (l : List ExtControl) (eidx : Nat) :
    (prepare_loop s k l 0 eidx h [] false).ret ≠ 0 ∨
    ∃ c' hc' e', prepare_loop s k l 0 eidx h [] false =
      ⟨0, e', { h with cached := c' }, l.map (entryHelper h s), hc'⟩ := by
  by_cases hall : ∀ n, n < l.length → ¬ entryUnresolvable h s k (l.getD n ExtControl.null)
  · right
    have hall' : ∀ x ∈ l, ¬ entryUnresolvable h s k x := by
      intro x hx
      obtain ⟨n, hn, he⟩ := List.getElem_of_mem hx
      have := hall n hn
      rw [List.getD_eq_getElem _ _ hn, he] at this
      exact this
    obtain ⟨c', hc', e', he⟩ := prepare_loop_all_ok inv hw k l 0 eidx h.cached [] false hall'
    rw [handler_cached_eta] at he
    exact ⟨c', hc', e', by rw [he]; simp⟩
  · left
    have hex : ∃ n, n < l.length ∧ entryUnresolvable h s k (l.getD n ExtControl.null) := by
      by_contra hno
      exact hall (fun n hn hb => hno ⟨n, hn, hb⟩)
    classical
    have hmin := Nat.find_spec hex
    have hlt : ∀ n, n < Nat.find hex →
        ¬ entryUnresolvable h s k (l.getD n ExtControl.null) := by
      intro n hn hb
      exact Nat.find_min hex hn ⟨Nat.lt_trans hn hmin.1, hb⟩
    have := prepare_loop_first_bad inv hw k l 0 eidx h.cached [] false (Nat.find hex)
      hmin.1 hmin.2 hlt
    rw [handler_cached_eta] at this
    rw [this.1]
    decide

/-- The master reference of the helper of an entry is a reference of the sorted list. -/
theorem entryHelper_mref_mem {h : Handler} {s : Store} {c : ExtControl} {r : Nat}
    (hm : (entryHelper h s c).mref = some r) : r ∈ h.ctrl_refs := by
  unfold entryHelper at hm
  simp only at hm
  split_ifs at hm
  · exact (lookup_some hm).1
  · exact (lookup_some hm).1

theorem getD_map_entryHelper (h : Handler) (s : Store) (l : List ExtControl) (i : Nat)
    (hi : i < l.length) :
    (l.map (entryHelper h s)).getD i Helper.null = entryHelper h s (l.getD i ExtControl.null) := by
  rw [List.getD_eq_getElem _ _ (by simpa using hi), List.getD_eq_getElem _ _ hi,
    List.getElem_map]

/-- The resolve phase of a batch that passes it with an entry of a multi-control cluster:
the handler and the helpers are what the linking loop leaves on the helpers of the
entries. -/
theorem resolved_linked {h : Handler} {s : Store} (inv : RegInv h s) (hw : s.wf)
    (cs : ExtControls) (hret : (resolved h s cs).ret = 0)
    (hc : (resolved h s cs).have_clusters = true) :
    ∃ c', (resolved h s cs).hdl =
        (link_helpers (zero_helpers { h with cached := c' } (cs.controls.map (entryHelper h s)))
          (cs.controls.map (entryHelper h s)) (List.range cs.count)).1 ∧
      (resolved h s cs).helpers =
        (link_helpers (zero_helpers { h with cached := c' } (cs.controls.map (entryHelper h s)))
          (cs.controls.map (entryHelper h s)) (List.range cs.count)).2 := by
  unfold resolved prepare_ext_ctrls at hret hc ⊢
  simp only at hret hc ⊢
  rcases prepare_loop_cases inv hw (V4L2_CTRL_ID2CLASS cs.ctrl_class) cs.controls cs.count
    with hbad | ⟨c', hc', e', he⟩
  · rw [if_pos hbad] at hret
    exact absurd hret hbad
  · rw [he] at hc ⊢
    simp only [ne_eq, not_true_eq_false, if_false] at hc ⊢
    cases hc' with
    | false => simp at hc
    | true =>
      simp only [Bool.true_eq_false, if_false]
      exact ⟨c', rfl, rfl⟩

/-- The entries that keep a master reference after the resolve phase of a batch with an
entry of a multi-control cluster have pairwise different master controls. -/
theorem resolved_masters {h : Handler} {s : Store} (inv : RegInv h s) (hw : s.wf)
    (cs : ExtControls) (hret : (resolved h s cs).ret = 0)
    (hc : (resolved h s cs).have_clusters = true) :
    ∀ i j, i < j → j < cs.count → ∀ a b,
      ((resolved h s cs).helpers.getD i Helper.null).mref = some a →
      ((resolved h s cs).helpers.getD j Helper.null).mref = some b →
      ((resolved h s cs).hdl.ref (some a)).ctrl ≠ ((resolved h s cs).hdl.ref (some b)).ctrl := by
  obtain ⟨c', e1, e2⟩ := resolved_linked inv hw cs hret hc
  rw [e1, e2]
  have hM : ∀ i, i < cs.count → ∀ r,
      ((cs.controls.map (entryHelper h s)).getD i Helper.null).mref = some r →
      r ∈ h.ctrl_refs := by
    intro i hi r hr
    rw [getD_map_entryHelper h s cs.controls i hi] at hr
    exact entryHelper_mref_mem hr
  obtain ⟨z1, z2, _, z4⟩ :=
    zero_helpers_spec (cs.controls.map (entryHelper h s)) { h with cached := c' }
  have L := link_helpers_spec cs.count
    (fun i => ((cs.controls.map (entryHelper h s)).getD i Helper.null).mref) cs.count 0
    (zero_helpers { h with cached := c' } (cs.controls.map (entryHelper h s)))
    (cs.controls.map (entryHelper h s)) (Nat.zero_add _)
    (fun i hi r hr => by
      rw [z1]
      exact (inv.arena r).1 (hM i hi r hr))
    (fun i _ => rfl)
    (fun i hi => absurd hi (Nat.not_lt_zero _))
    (fun i hi => absurd hi (Nat.not_lt_zero _))
    (fun i hi r hr => by
      constructor
      · intro _ i' hi'
        exact absurd hi' (Nat.not_lt_zero _)
      · intro _
        have hmem : (cs.controls.map (entryHelper h s)).getD i Helper.null ∈
            cs.controls.map (entryHelper h s) := by
          rw [List.getD_eq_getElem _ _ (by simpa using hi)]
          exact List.getElem_mem _
        have := z4 _ hmem
        have hr' : ((cs.controls.map (entryHelper h s)).getD i Helper.null).mref = some r := hr
        rw [hr'] at this
        exact this)
  rw [← List.range_eq_range'] at L
  obtain ⟨l1, l2, _, l4⟩ := L
  intro i j hij hj a b ha hb
  have hMi : ((cs.controls.map (entryHelper h s)).getD i Helper.null).mref = some a := by
    rcases l1 i (by omega) with e | e
    · exact e.symm.trans ha
    · rw [e] at ha; cases ha
  have hMj : ((cs.controls.map (entryHelper h s)).getD j Helper.null).mref = some b := by
    rcases l1 j hj with e | e
    · exact e.symm.trans hb
    · rw [e] at hb; cases hb
  have hab : a ≠ b := by
    intro e
    rw [e] at hMi
    exact l2 j hj b hb i hij hMi
  rw [l4, l4, z2, z2]
  intro hctrl
  apply hab
  refine ref_unique inv (hM i (by omega) a hMi) (hM j hj b hMj) ?_
  unfold node2id
  have e : ∀ q, (({ h with cached := c' } : Handler).ref q) = h.ref q := fun _ => rfl
  rw [e, e] at hctrl
  rw [hctrl]

theorem resolved_pairwise {h : Handler} {s : Store} (inv : RegInv h s) (hw : s.wf)
    (cs : ExtControls) (hret : (resolved h s cs).ret = 0)
    (hc : (resolved h s cs).have_clusters = true) :
    (List.range cs.count).Pairwise (fun i j => ∀ a b,
      ((resolved h s cs).helpers.getD i Helper.null).mref = some a →
      ((resolved h s cs).helpers.getD j Helper.null).mref = some b →
      ((resolved h s cs).hdl.ref (some a)).ctrl ≠ ((resolved h s cs).hdl.ref (some b)).ctrl) := by
  refine List.Pairwise.imp_of_mem ?_ (List.pairwise_lt_range cs.count)
  intro i j _ hj hij
  exact resolved_masters inv hw cs hret hc i j hij (List.mem_range.1 hj)

theorem validate_ctrls_count (s : Store) (cs : ExtControls) (helpers : List Helper)
    (set : Bool) : (validate_ctrls s cs helpers set).2.count = cs.count := by
  unfold validate_ctrls ExtControls.count
  simp only
  rw [validate_loop_length]
  simp

/-- A try or set of a batch with an entry of a multi-control cluster calls each operation
at most once on a master control. -/
theorem callCount_try_set_ext {h : Handler} {s : Store} (inv : RegInv h s) (hw : s.wf)
    (cs : ExtControls) (hc : (resolved h s cs).have_clusters = true) (fh : Option Nat)
    (set : Bool) (op : OpKind) (m : Option Nat) :
    callCount (try_set_ext_ctrls fh (some h) s cs set).store op m ≤ callCount s op m + 1 := by
  have hp := resolved_pairwise inv hw cs
  unfold resolved at hp hc
  unfold try_set_ext_ctrls
  simp only
  split_ifs <;> first | exact Nat.le_succ _ | skip
  rename_i h0 h1 h2
  refine (callCount_try_set_loop fh _ _ set op m _ ?_ _ s).1
  rw [validate_ctrls_count]
  exact hp (not_not.1 h1) hc

/-- A get of a batch with an entry of a multi-control cluster calls each operation at
most once on a master control. -/
theorem callCount_g_ext {h : Handler} {s : Store} (inv : RegInv h s) (hw : s.wf)
    (cs : ExtControls) (hc : (resolved h s cs).have_clusters = true)
    (op : OpKind) (m : Option Nat) :
    callCount (v4l2_g_ext_ctrls (some h) s cs).store op m ≤ callCount s op m + 1 := by
  have hp := resolved_pairwise inv hw cs
  unfold resolved at hp hc
  unfold v4l2_g_ext_ctrls
  simp only
  split_ifs <;> first | exact Nat.le_succ _ | skip
  rename_i h0 h1 h2
  refine (callCount_g_ext_loop _ _ op m _ ?_ _ s).1
  exact hp (not_not.1 h1) hc

/-! ## One pass for each cluster of a batch -/

theorem bumpReg_reachable : Reachable exCatalog bumpReg.hdl bumpReg.store :=
  Reachable.new_custom _ _ _ (Reachable.init 1 0 ⟨[], []⟩ (fun c hc => by simp at hc))

theorem pairStore_reachable : Reachable exCatalog pairReg.hdl pairStore :=
  Reachable.outside pairReg.hdl pairReg.store pairStore
    (Reachable.new_std _ _ (some exBumpOps) 0x00980901 0 10 1 5
      (Reachable.new_std _ _ (some exBumpOps) 0x00980900 0 10 1 5
        (Reachable.init 1 0 ⟨[], []⟩ (fun c hc => by simp at hc))))
    (by unfold StoreExt; decide)
    (by unfold Store.wf; decide)

/-- Claim C12, counterexample. The registry `bumpReg` is built through the calls and holds
one control, in a cluster of its own. The batch `bumpBatchTwice` names that control twice.
It passes resolve and validation: the try and the set return 0. The trace holds no call
before, and two calls of `try_ctrl` on the one cluster afterwards: the linking pass of
`prepare_ext_ctrls` is skipped when no entry belongs to a multi-control cluster, so both
entries keep their master reference and the per-cluster phase is entered for each. -/
theorem C12_counterexample :
    Reachable exCatalog bumpReg.hdl bumpReg.store ∧
    (resolved bumpReg.hdl bumpReg.store bumpBatchTwice).have_clusters = false ∧
    (v4l2_try_ext_ctrls (some bumpReg.hdl) bumpReg.store bumpBatchTwice).ret = 0 ∧
    (v4l2_s_ext_ctrls none (some bumpReg.hdl) bumpReg.store bumpBatchTwice).ret = 0 ∧
    callCount bumpReg.store .try_ctrl (some 0) = 0 ∧
    callCount (v4l2_try_ext_ctrls (some bumpReg.hdl) bumpReg.store bumpBatchTwice).store
      .try_ctrl (some 0) = 2 ∧
    callCount (v4l2_s_ext_ctrls none (some bumpReg.hdl) bumpReg.store bumpBatchTwice).store
      .try_ctrl (some 0) = 2 :=
  ⟨bumpReg_reachable, by decide, by decide, by decide, by decide, by decide, by decide⟩

/-- Claim C12, amended. Each cluster touched by a batch is processed once, when the batch has an
entry whose cluster holds more than one control (the case in which `prepare_ext_ctrls`
links the helpers): on a reachable registry and for such a batch, the entries that keep a
master reference after the resolve phase, which are the entries for which
`v4l2_g_ext_ctrls`, `v4l2_try_ext_ctrls` and `v4l2_s_ext_ctrls` enter the per-cluster
phase, have pairwise different master controls, and each of the three calls adds at most
one call of each backend operation `op` on each master control `m` to the trace, however
many entries of the batch (repeated IDs included) refer to the cluster. -/
theorem C12_cluster_once (cat : Catalog) (h : Handler) (s : Store)
    (hr : Reachable cat h s) (cs : ExtControls)
    (hc : (resolved h s cs).have_clusters = true)
    (fh : Option Nat) (op : OpKind) (m : Option Nat) :
    ((resolved h s cs).ret = 0 → ∀ i j, i < j → j < cs.count → ∀ a b,
      ((resolved h s cs).helpers.getD i Helper.null).mref = some a →
      ((resolved h s cs).helpers.getD j Helper.null).mref = some b →
      ((resolved h s cs).hdl.ref (some a)).ctrl ≠
        ((resolved h s cs).hdl.ref (some b)).ctrl) ∧
    callCount (v4l2_g_ext_ctrls (some h) s cs).store op m ≤ callCount s op m + 1 ∧
    callCount (v4l2_try_ext_ctrls (some h) s cs).store op m ≤ callCount s op m + 1 ∧
    callCount (v4l2_s_ext_ctrls fh (some h) s cs).store op m ≤ callCount s op m + 1 := by
  obtain ⟨inv, hw⟩ := reachable_inv cat h s hr
  exact ⟨fun hret => resolved_masters inv hw cs hret hc,
    callCount_g_ext inv hw cs hc op m,
    callCount_try_set_ext inv hw cs hc none false op m,
    callCount_try_set_ext inv hw cs hc fh true op m⟩

/-- The witness of C12: brightness and contrast of the registry `pairReg` are one cluster
in the store `pairStore`, and the batch `pairBatch` names brightness, contrast and
brightness again: a try adds at most one call of `try_ctrl` on the master, and it does add
one. -/
theorem C12_witness :
    Reachable exCatalog pairReg.hdl pairStore ∧
    (resolved pairReg.hdl pairStore pairBatch).have_clusters = true ∧
    callCount (v4l2_try_ext_ctrls (some pairReg.hdl) pairStore pairBatch).store
      .try_ctrl (some 0) ≤ callCount pairStore .try_ctrl (some 0) + 1 ∧
    callCount (v4l2_try_ext_ctrls (some pairReg.hdl) pairStore pairBatch).store
      .try_ctrl (some 0) = 1 :=
  ⟨pairStore_reachable, by decide,
    (C12_cluster_once exCatalog pairReg.hdl pairStore pairStore_reachable pairBatch
      (by decide) none .try_ctrl (some 0)).2.2.1,
    by decide⟩

/-! ## The depth of the calls of `handler_new_ref` -/

/-- The function `v4l2_ctrl_new` for the ID of a class control depends on the hook
function only at controls that have the ID of their own class control. -/
theorem v4l2_ctrl_new_with_congr
    (f g : Handler → Store → Option Nat → Int × Handler × Store)
    (hfg : ∀ h s cp, (s.get cp).id = V4L2_CTRL_ID2CLASS (s.get cp).id ||| 1 →
      f h s cp = g h s cp)
    (h : Handler) (s : Store) (ops : Option Ops) (id : Nat) (name : Option String)
    (type : CtrlType) (min max : Int) (step : Nat) (dflt : Int) (flags : Nat)
    (qmenu : Option (List String)) (hid : id = V4L2_CTRL_ID2CLASS id ||| 1) :
    v4l2_ctrl_new_with f h s ops id name type min max step dflt flags qmenu =
      v4l2_ctrl_new_with g h s ops id name type min max step dflt flags qmenu := by
  have key : ∀ fl, f h { s with ctrls := s.ctrls ++
        [ctrl_alloc h ops id name type min max step dflt fl qmenu] } (some s.ctrls.length) =
      g h { s with ctrls := s.ctrls ++
        [ctrl_alloc h ops id name type min max step dflt fl qmenu] } (some s.ctrls.length) := by
    intro fl
    apply hfg
    rw [get_append_new]
    exact hid
  unfold v4l2_ctrl_new_with
  simp only [key]

/-- The depth bound of `handler_new_ref` is never met: with every greater bound the
function is the same. -/
theorem handler_new_ref_depth_stable (cat : Catalog) (n : Nat) (h : Handler) (s : Store)
    (cp : Option Nat) :
    handler_new_ref_depth cat (n + 2) h s cp = handler_new_ref cat h s cp := by
  have inner : v4l2_ctrl_new_std_with (handler_new_ref_depth cat (n + 1)) cat
        (find_ref h s (V4L2_CTRL_ID2CLASS (s.get cp).id ||| 1)).2 s none
        (V4L2_CTRL_ID2CLASS (s.get cp).id ||| 1) 0 0 0 0 =
      v4l2_ctrl_new_std_with (handler_new_ref_depth cat 1) cat
        (find_ref h s (V4L2_CTRL_ID2CLASS (s.get cp).id ||| 1)).2 s none
        (V4L2_CTRL_ID2CLASS (s.get cp).id ||| 1) 0 0 0 0 := by
    unfold v4l2_ctrl_new_std_with
    simp only
    split_ifs
    · rfl
    · apply v4l2_ctrl_new_with_congr
      · intro h' s' cp' hk
        rw [handler_new_ref_depth_class cat n h' s' cp' hk,
          handler_new_ref_depth_class cat 0 h' s' cp' hk]
      · exact (class_of_class _).symm
  unfold handler_new_ref
  rw [handler_new_ref_depth, handler_new_ref_depth]
  simp only
  rw [inner]

/-! ## Validation by the type of the control -/

theorem and_two_pow_ne_zero (m n : Nat) : (m &&& 2 ^ n != 0) = m.testBit n := by
  cases h : m.testBit n
  · have : m &&& 2 ^ n = 0 := by
      apply Nat.eq_of_testBit_eq
      intro i
      rw [Nat.testBit_and, Nat.testBit_two_pow, Nat.zero_testBit]
      by_cases e : n = i
      · subst e; simp [h]
      · simp [e]
    simp [this]
  · have : (m &&& 2 ^ n).testBit n = true := by
      rw [Nat.testBit_and, Nat.testBit_two_pow, h]; simp
    have hne : m &&& 2 ^ n ≠ 0 := by
      intro e; rw [e, Nat.zero_testBit] at this; cases this
    simp [hne]

/-- The test of the skip mask is the test of the bit `v` of the mask, for a shift that C
defines. -/
theorem menuSkipped_testBit (c : Ctrl) (v : Int) (h1 : v < 32) :
    menuSkipped c v = c.menu_skip_mask.testBit v.toNat := by
  unfold menuSkipped
  have hn : v.toNat < 32 := by omega
  rw [Nat.one_shiftLeft, Nat.mod_eq_of_lt, and_two_pow_ne_zero]
  calc 2 ^ v.toNat < 2 ^ 32 := Nat.pow_lt_pow_right (by decide) hn
    _ = 4294967296 := by norm_num

/-- The test of the empty label, for an index that the option list has. -/
theorem menuEntryEmpty_getD (c : Ctrl) (m : List String) (v : Int) (hq : c.qmenu = some m)
    (hlen : v.toNat < m.length) :
    menuEntryEmpty c v = true ↔ m.getD v.toNat "" = "" := by
  unfold menuEntryEmpty
  rw [hq]
  simp only [List.get?_eq_getElem?, List.getElem?_eq_getElem hlen, List.getD_eq_getElem _ _ hlen]
  exact String.isEmpty_iff _

/-- Claim C21. Menu value validation: for every menu control and every candidate index
`v`, where a candidate inside `[min,max]` addresses a label of the option list `m` of the
control and is a shift count that C defines (`0 ≤ v`, `v` below the length of `m` and
below 32; for any other candidate inside the range the C code reads outside the label
array or shifts by 32 or more): validation fails with `-ERANGE` iff `v < min` or
`v > max`; otherwise it fails with `-EINVAL` iff the label at the index `v` is the empty
string or the bit `v` of the skip mask is set; otherwise it succeeds; and it leaves `v`
unchanged in every case. -/
theorem C21_menu_validation (c : Ctrl) (m : List String) (v : Int)
    (hty : c.type = .MENU)
    (hdef : c.minimum ≤ v → v ≤ c.maximum →
      c.qmenu = some m ∧ 0 ≤ v ∧ v < m.length ∧ v < 32) :
    ((validate_new_int c v).1 = -ERANGE ↔ (v < c.minimum ∨ v > c.maximum)) ∧
    (¬ (v < c.minimum ∨ v > c.maximum) →
      ((validate_new_int c v).1 = -EINVAL ↔
        (m.getD v.toNat "" = "" ∨ c.menu_skip_mask.testBit v.toNat = true))) ∧
    ((validate_new_int c v).1 = 0 ↔
      (¬ (v < c.minimum ∨ v > c.maximum) ∧
        ¬ (m.getD v.toNat "" = "" ∨ c.menu_skip_mask.testBit v.toNat = true))) ∧
    (validate_new_int c v).2 = v := by
  have c1 : (-ERANGE : Int) ≠ 0 := by decide
  have c2 : (-EINVAL : Int) ≠ 0 := by decide
  have c3 : (-EINVAL : Int) ≠ -ERANGE := by decide
  have hdef' : validate_new_int c v =
      if v < c.minimum ∨ v > c.maximum then (-ERANGE, v)
      else if menuEntryEmpty c v || menuSkipped c v then (-EINVAL, v)
      else (0, v) := by
    unfold validate_new_int
    rw [hty]
  rw [hdef']
  by_cases hr : v < c.minimum ∨ v > c.maximum
  · rw [if_pos hr]
    exact ⟨⟨fun _ => hr, fun _ => rfl⟩, fun h => absurd hr h,
      ⟨fun h => absurd h c1, fun h => absurd hr h.1⟩, rfl⟩
  · rw [if_neg hr]
    obtain ⟨hq, h0, hlen, h32⟩ := hdef (by omega) (by omega)
    have hn : v.toNat < m.length := by omega
    have he := menuEntryEmpty_getD c m v hq hn
    have hs := menuSkipped_testBit c v h32
    have hcond : (menuEntryEmpty c v || menuSkipped c v) = true ↔
        (m.getD v.toNat "" = "" ∨ c.menu_skip_mask.testBit v.toNat = true) := by
      rw [Bool.or_eq_true, he, hs]
    by_cases hb : (menuEntryEmpty c v || menuSkipped c v) = true
    · rw [if_pos hb]
      exact ⟨⟨fun h => absurd h c3, fun h => absurd h hr⟩,
        fun _ => ⟨fun _ => hcond.1 hb, fun _ => rfl⟩,
        ⟨fun h => absurd h c2, fun h => absurd (hcond.1 hb) h.2⟩, rfl⟩
    · rw [if_neg hb]
      exact ⟨⟨fun h => absurd h.symm c1, fun h => absurd h hr⟩,
        fun _ => ⟨fun h => absurd h.symm c2, fun h => absurd (hcond.2 h) hb⟩,
        ⟨fun _ => ⟨hr, fun h => hb (hcond.2 h)⟩, fun _ => rfl⟩, rfl⟩

/-- The witness of C21: the menu of the example registry has the labels `Disabled`,
`50 Hz` and `60 Hz`; the index 1 passes and the index 7 is out of range. In the menu
`exBigMenu` of 40 options with the bit 2 of the skip mask set, the index 2 fails with
`-EINVAL` and the index 3 passes. -/
theorem C21_witness :
    ((validate_new_int exMenu 1).1 = 0 ↔
      (¬ ((1 : Int) < exMenu.minimum ∨ (1 : Int) > exMenu.maximum) ∧
        ¬ (["Disabled", "50 Hz", "60 Hz"].getD (1 : Int).toNat "" = "" ∨
          exMenu.menu_skip_mask.testBit (1 : Int).toNat = true))) ∧
    (validate_new_int exMenu 1).1 = 0 ∧
    ((validate_new_int exMenu 7).1 = -ERANGE ↔
      ((7 : Int) < exMenu.minimum ∨ (7 : Int) > exMenu.maximum)) ∧
    (validate_new_int exMenu 7).1 = -ERANGE ∧
    ((validate_new_int exBigMenu 2).1 = -EINVAL ↔
      ((List.replicate 40 "Option").getD (2 : Int).toNat "" = "" ∨
        exBigMenu.menu_skip_mask.testBit (2 : Int).toNat = true)) ∧
    (validate_new_int exBigMenu 2).1 = -EINVAL ∧
    (validate_new_int exBigMenu 3).1 = 0 :=
  ⟨(C21_menu_validation exMenu ["Disabled", "50 Hz", "60 Hz"] 1 rfl
      (fun _ _ => ⟨rfl, by decide, by decide, by decide⟩)).2.2.1,
    by decide,
    (C21_menu_validation exMenu ["Disabled", "50 Hz", "60 Hz"] 7 rfl
      (fun _ h => absurd h (by decide))).1,
    by decide,
    (C21_menu_validation exBigMenu (List.replicate 40 "Option") 2 rfl
      (fun _ _ => ⟨rfl, by decide, by decide, by decide⟩)).2.1 (by decide),
    by decide, by decide⟩

/-- Claim C25. Non-failing coercions: validation of a scalar candidate `v` never fails
for boolean, bitmask, button and class-marker controls, in `validate_new_int` and through
`validate_new`. It yields 1 if `v ≠ 0` and 0 otherwise for a boolean; `v AND max` for a
bitmask, so every bit of the result is a bit of `max` and validating the result again
returns it unchanged; and 0 for a button or class marker, whatever `v` is. -/
theorem C25_nonfailing_coercions (c : Ctrl) (v : Int) (e : ExtControl)
    (hty : c.type = .BOOLEAN ∨ c.type = .BITMASK ∨ c.type = .BUTTON ∨ c.type = .CTRL_CLASS) :
    (validate_new_int c v).1 = 0 ∧
    (validate_new c e).1 = 0 ∧
    (validate_new c e).2 = { e with value := (validate_new_int c e.value).2 } ∧
    (c.type = .BOOLEAN → (validate_new_int c v).2 = if v ≠ 0 then 1 else 0) ∧
    (c.type = .BITMASK →
      (validate_new_int c v).2 = and32 v c.maximum ∧
      (∀ k, (u32 (validate_new_int c v).2).toNat.testBit k = true →
        (u32 c.maximum).toNat.testBit k = true) ∧
      validate_new_int c (validate_new_int c v).2 = (0, (validate_new_int c v).2)) ∧
    ((c.type = .BUTTON ∨ c.type = .CTRL_CLASS) → (validate_new_int c v).2 = 0) := by
  have hbits : ∀ k, (u32 (and32 v c.maximum)).toNat.testBit k = true →
      (u32 c.maximum).toNat.testBit k = true := by
    intro k hk
    unfold and32 at hk
    rw [u32_s32] at hk
    have hm : 0 ≤ u32 c.maximum ∧ u32 c.maximum < 4294967296 := by unfold u32; omega
    have hlt : ((u32 v).toNat &&& (u32 c.maximum).toNat) < 2 ^ 32 := by
      apply Nat.and_lt_two_pow
      have : (u32 c.maximum).toNat < 4294967296 := by omega
      simpa using this
    have hu : u32 (((u32 v).toNat &&& (u32 c.maximum).toNat : Nat) : Int) =
        (((u32 v).toNat &&& (u32 c.maximum).toNat : Nat) : Int) := by
      apply u32_of_range
      · exact Int.ofNat_nonneg _
      · have : (2 : Nat) ^ 32 = 4294967296 := by norm_num
        omega
    rw [hu, Int.toNat_ofNat, Nat.testBit_and, Bool.and_eq_true] at hk
    exact hk.2
  have e_bool : c.type = .BOOLEAN → ∀ x, validate_new_int c x = (0, if x ≠ 0 then 1 else 0) := by
    intro h x; unfold validate_new_int; rw [h]
  have e_mask : c.type = .BITMASK → ∀ x, validate_new_int c x = (0, and32 x c.maximum) := by
    intro h x; unfold validate_new_int; rw [h]
  have e_btn : (c.type = .BUTTON ∨ c.type = .CTRL_CLASS) →
      ∀ x, validate_new_int c x = (0, 0) := by
    intro h x; unfold validate_new_int
    rcases h with h | h <;> rw [h]
  have e_new : validate_new c e =
      ((validate_new_int c e.value).1, { e with value := (validate_new_int c e.value).2 }) := by
    unfold validate_new
    rcases hty with h | h | h | h <;> rw [h]
  have e_ok : ∀ x, (validate_new_int c x).1 = 0 := by
    intro x
    rcases hty with h | h | h | h
    · rw [e_bool h]
    · rw [e_mask h]
    · rw [e_btn (Or.inl h)]
    · rw [e_btn (Or.inr h)]
  refine ⟨e_ok v, by rw [e_new]; exact e_ok _, by rw [e_new], ?_, ?_, ?_⟩
  · intro h; rw [e_bool h]
  · intro h
    rw [e_mask h, e_mask h]
    exact ⟨rfl, hbits, by rw [and32_idem]⟩
  · intro h; rw [e_btn h]

/-- The witness of C25: the bitmask control with the mask 6 turns the candidate 13 into
4. -/
theorem C25_witness :
    (validate_new_int exMask 13).1 = 0 ∧ (validate_new_int exMask 13).2 = 4 :=
  ⟨(C25_nonfailing_coercions exMask 13 ExtControl.null (Or.inr (Or.inl rfl))).1, by decide⟩

/-! ## Strings -/

/-- Claim C23. String length quantization: for every string control with `0 ≤ min` and a
step that is not zero, validation of a candidate string of the length `len` (the bytes
before the first terminator of the caller memory) succeeds iff `len ≥ min` and
`(len - min) mod step = 0`, and fails with `-ERANGE` otherwise; the entry is left as it
is. -/
theorem C23_string_length_grid (c : Ctrl) (e : ExtControl) (hty : c.type = .STRING)
    (hmin : 0 ≤ c.minimum) (hmin' : c.minimum ≤ 2147483647) (_hstep : 0 < c.step)
    (hlen : ((cstr e.string).length : Int) < 18446744073709551616) :
    ((validate_new c e).1 = 0 ↔
      (c.minimum ≤ ((cstr e.string).length : Int) ∧
        (((cstr e.string).length : Int) - c.minimum) % (c.step : Int) = 0)) ∧
    ((validate_new c e).1 ≠ 0 → (validate_new c e).1 = -ERANGE) ∧
    (validate_new c e).2 = e := by
  have c1 : (-ERANGE : Int) ≠ 0 := by decide
  have hu : usize c.minimum = c.minimum := by unfold usize; omega
  have hdef : validate_new c e =
      if ((cstr e.string).length : Int) < usize c.minimum then (-ERANGE, e)
      else if usize (((cstr e.string).length : Int) - usize c.minimum) % (c.step : Int) ≠ 0 then
        (-ERANGE, e)
      else (0, e) := by
    unfold validate_new
    rw [hty]
  rw [hdef, hu]
  by_cases h1 : ((cstr e.string).length : Int) < c.minimum
  · rw [if_pos h1]
    exact ⟨⟨fun h => absurd h c1, fun h => by omega⟩, fun _ => rfl, rfl⟩
  · rw [if_neg h1]
    have hu2 : usize (((cstr e.string).length : Int) - c.minimum) =
        ((cstr e.string).length : Int) - c.minimum := by unfold usize; omega
    rw [hu2]
    by_cases h2 : (((cstr e.string).length : Int) - c.minimum) % (c.step : Int) ≠ 0
    · rw [if_pos h2]
      exact ⟨⟨fun h => absurd h c1, fun h => absurd h.2 h2⟩, fun _ => rfl, rfl⟩
    · rw [if_neg h2]
      exact ⟨⟨fun _ => ⟨by omega, not_not.1 h2⟩, fun _ => rfl⟩, fun h => absurd rfl h, rfl⟩

/-- The witness of C23: with `min = 2` and `step = 3` the lengths 2, 5 and 8 are accepted
and the lengths 3, 4, 6 and 7 are rejected. -/
theorem C23_witness :
    ((validate_new exString23 ⟨0, 3, 0, 0, [97, 98, 0]⟩).1 = 0 ↔
      (exString23.minimum ≤ ((cstr [97, 98, 0]).length : Int) ∧
        (((cstr [97, 98, 0]).length : Int) - exString23.minimum) %
          (exString23.step : Int) = 0)) ∧
    (validate_new exString23 ⟨0, 3, 0, 0, [97, 98, 0]⟩).1 = 0 ∧
    (validate_new exString23 ⟨0, 6, 0, 0, [97, 98, 99, 100, 101, 0]⟩).1 = 0 ∧
    (validate_new exString23 ⟨0, 9, 0, 0, [97, 98, 99, 100, 101, 102, 103, 104, 0]⟩).1 = 0 ∧
    (validate_new exString23 ⟨0, 4, 0, 0, [97, 98, 99, 0]⟩).1 = -ERANGE ∧
    (validate_new exString23 ⟨0, 5, 0, 0, [97, 98, 99, 100, 0]⟩).1 = -ERANGE ∧
    (validate_new exString23 ⟨0, 7, 0, 0, [97, 98, 99, 100, 101, 102, 0]⟩).1 = -ERANGE ∧
    (validate_new exString23 ⟨0, 8, 0, 0, [97, 98, 99, 100, 101, 102, 103, 0]⟩).1 = -ERANGE :=
  ⟨(C23_string_length_grid exString23 ⟨0, 3, 0, 0, [97, 98, 0]⟩ rfl (by decide) (by decide)
      (by decide) (by decide)).1,
    by decide, by decide, by decide, by decide, by decide, by decide, by decide⟩

theorem cstr_append_zero (l : List Nat) : cstr (l ++ [0]) = cstr l := by
  unfold cstr
  induction l with
  | nil => rfl
  | cons x rest ih =>
    simp only [List.cons_append, List.takeWhile_cons]
    split
    · rw [ih]
    · rfl

theorem cstr_length_le (l : List Nat) : (cstr l).length ≤ l.length := by
  unfold cstr
  exact (List.takeWhile_sublist _).length_le

theorem cstr_length_eq_iff (l : List Nat) : (cstr l).length = l.length ↔ ∀ b ∈ l, b ≠ 0 := by
  unfold cstr
  constructor
  · intro h
    have := (List.takeWhile_sublist (fun b : Nat => b != 0) (l := l)).eq_of_length h
    rw [List.takeWhile_eq_self_iff] at this
    intro b hb
    simpa using this b hb
  · intro h
    have : l.takeWhile (fun b => b != 0) = l := by
      rw [List.takeWhile_eq_self_iff]
      intro b hb
      simpa using h b hb
    rw [this]

/-- The function `user_to_new` on a string control, with the number `n` of bytes it
takes. -/
theorem user_to_new_string (s : Store) (e : ExtControl) (p : Option Nat) (hv : s.valid p)
    (hty : (s.get p).type = .STRING) (hmax : 0 ≤ (s.get p).maximum)
    (hmax' : (s.get p).maximum < 2147483647) (n : Nat) (hs : e.size ≠ 0)
    (hn : (n : Int) = min (e.size : Int) ((s.get p).maximum + 1))
    (hmem : n ≤ e.string.length) :
    user_to_new s e p =
      (if ((cstr (e.string.take (n - 1))).length : Int) = (s.get p).maximum ∧
          e.string.getD (n - 1) 0 ≠ 0 then -ERANGE else 0,
        (s.upd p (fun ctrl => { ctrl with is_new := true })).upd p
          (fun ctrl => { ctrl with
            new := { ctrl.new with string := cstr (e.string.take (n - 1)) } })) := by
  have hg : (s.upd p (fun ctrl => { ctrl with is_new := true })).get p =
      { s.get p with is_new := true } := by
    rw [get_upd, if_pos ⟨rfl, hv⟩]
  have hu : u32 ((s.get p).maximum + 1) = (s.get p).maximum + 1 := by unfold u32; omega
  have hsize : (if u32 ((s.get p).maximum + 1) < (e.size : Int) then
      (u32 ((s.get p).maximum + 1)).toNat else e.size) = n := by
    rw [hu]
    split_ifs with h
    · omega
    · omega
  unfold user_to_new
  simp only [hg, hty, hsize, if_neg hs, if_neg (Nat.not_lt.2 hmem)]
  split_ifs <;> rfl

/-- Claim C24. String staging and truncation: staging a caller buffer of the size `s`
into a string control of the capacity `max` fails with `-ERANGE` when `s = 0`; otherwise,
with `n = min(s, max+1)` bytes taken from readable caller memory, the byte `n-1` is forced
to the terminator, the pending string is the input cut at its first terminator within
those `n` bytes, its length never exceeds `max`, and the result is `-ERANGE` iff that
pending length equals `max` while the overwritten byte `n-1` was not a terminator, which
is the case iff `s > max` and none of the `max+1` bytes taken is a terminator (the input
did not fit); the result is success otherwise. -/
theorem C24_string_staging (s : Store) (e : ExtControl) (p : Option Nat) (hv : s.valid p)
    (hty : (s.get p).type = .STRING) (hmax : 0 ≤ (s.get p).maximum)
    (hmax' : (s.get p).maximum < 2147483647) :
    (e.size = 0 → (user_to_new s e p).1 = -ERANGE) ∧
    (∀ n : Nat, e.size ≠ 0 → (n : Int) = min (e.size : Int) ((s.get p).maximum + 1) →
      n ≤ e.string.length →
      ((user_to_new s e p).2.get p).new.string = cstr (e.string.take (n - 1) ++ [0]) ∧
      ((((user_to_new s e p).2.get p).new.string.length : Int) ≤ (s.get p).maximum) ∧
      ((user_to_new s e p).1 = -ERANGE ↔
        ((((user_to_new s e p).2.get p).new.string.length : Int) = (s.get p).maximum ∧
          e.string.getD (n - 1) 0 ≠ 0)) ∧
      ((user_to_new s e p).1 = -ERANGE ↔
        ((s.get p).maximum < (e.size : Int) ∧ ∀ b ∈ e.string.take n, b ≠ 0)) ∧
      ((user_to_new s e p).1 ≠ -ERANGE → (user_to_new s e p).1 = 0)) := by
  have c1 : (0 : Int) ≠ -ERANGE := by decide
  constructor
  · intro h0
    have hg : (s.upd p (fun ctrl => { ctrl with is_new := true })).get p =
        { s.get p with is_new := true } := by
      rw [get_upd, if_pos ⟨rfl, hv⟩]
    unfold user_to_new
    simp only [hg, hty, if_pos h0]
  · intro n hs hn hmem
    have hv1 : (s.upd p (fun ctrl => { ctrl with is_new := true })).valid p :=
      (valid_upd s p p _).2 hv
    have hstr : ((user_to_new s e p).2.get p).new.string = cstr (e.string.take (n - 1)) := by
      rw [user_to_new_string s e p hv hty hmax hmax' n hs hn hmem]
      simp only
      rw [get_upd, if_pos ⟨rfl, hv1⟩]
    have hret : (user_to_new s e p).1 =
        if ((cstr (e.string.take (n - 1))).length : Int) = (s.get p).maximum ∧
          e.string.getD (n - 1) 0 ≠ 0 then -ERANGE else 0 := by
      rw [user_to_new_string s e p hv hty hmax hmax' n hs hn hmem]
    have hn1 : 1 ≤ n := by
      have : 0 < e.size := Nat.pos_of_ne_zero hs
      omega
    have hlen : (cstr (e.string.take (n - 1))).length ≤ n - 1 := by
      have := cstr_length_le (e.string.take (n - 1))
      rw [List.length_take] at this
      omega
    have hfit : (((cstr (e.string.take (n - 1))).length : Int) = (s.get p).maximum ∧
          e.string.getD (n - 1) 0 ≠ 0) ↔
        ((s.get p).maximum < (e.size : Int) ∧ ∀ b ∈ e.string.take n, b ≠ 0) := by
      have hsplit : e.string.take n = e.string.take (n - 1) ++ [e.string.getD (n - 1) 0] := by
        have e1 : n = (n - 1) + 1 := by omega
        have hlt : n - 1 < e.string.length := by omega
        conv_lhs => rw [e1]
        rw [List.take_succ, List.getD_eq_getElem _ _ hlt, List.getElem?_eq_getElem hlt]
        rfl
      have htl : (e.string.take (n - 1)).length = n - 1 := by
        rw [List.length_take]; omega
      constructor
      · rintro ⟨h1, h2⟩
        have hnmax : (n : Int) = (s.get p).maximum + 1 := by omega
        refine ⟨by omega, ?_⟩
        have hall := (cstr_length_eq_iff (e.string.take (n - 1))).1 (by omega)
        intro b hb
        rw [hsplit] at hb
        rcases List.mem_append.1 hb with hb | hb
        · exact hall b hb
        · simp only [List.mem_singleton] at hb
          rw [hb]; exact h2
      · rintro ⟨h1, h2⟩
        have hnmax : (n : Int) = (s.get p).maximum + 1 := by omega
        have hall : ∀ b ∈ e.string.take (n - 1), b ≠ 0 := by
          intro b hb
          apply h2
          rw [hsplit]
          exact List.mem_append_left _ hb
        have := (cstr_length_eq_iff (e.string.take (n - 1))).2 hall
        refine ⟨by omega, ?_⟩
        apply h2
        rw [hsplit]
        exact List.mem_append_right _ (List.mem_singleton.2 rfl)
    rw [hstr, hret, cstr_append_zero]
    refine ⟨rfl, by omega, ?_, ?_, ?_⟩
    · by_cases hc : ((cstr (e.string.take (n - 1))).length : Int) = (s.get p).maximum ∧
          e.string.getD (n - 1) 0 ≠ 0
      · rw [if_pos hc]; exact ⟨fun _ => hc, fun _ => rfl⟩
      · rw [if_neg hc]; exact ⟨fun h => absurd h c1, fun h => absurd h hc⟩
    · rw [← hfit]
      by_cases hc : ((cstr (e.string.take (n - 1))).length : Int) = (s.get p).maximum ∧
          e.string.getD (n - 1) 0 ≠ 0
      · rw [if_pos hc]; exact ⟨fun _ => hc, fun _ => rfl⟩
      · rw [if_neg hc]; exact ⟨fun h => absurd h c1, fun h => absurd h hc⟩
    · intro h
      by_cases hc : ((cstr (e.string.take (n - 1))).length : Int) = (s.get p).maximum ∧
          e.string.getD (n - 1) 0 ≠ 0
      · rw [if_pos hc] at h; exact absurd rfl h
      · rw [if_neg hc]

/-- The witness of C24: the string control of the example registry has the capacity 4;
the eight characters `abcdefgh` in a buffer of the size 9 are cut to `abcd`, which is an
error, and the three characters `abc` in a buffer of the size 4 are staged. -/
theorem C24_witness :
    ((user_to_new exStore ⟨0x00981001, 9, 0, 0, [97, 98, 99, 100, 101, 102, 103, 104, 0]⟩
        (some 3)).1 = -ERANGE ↔
      (((exStore.get (some 3)).maximum < ((9 : Nat) : Int)) ∧
        ∀ b ∈ [97, 98, 99, 100, 101, 102, 103, 104, 0].take 5, b ≠ 0)) ∧
    (user_to_new exStore ⟨0x00981001, 9, 0, 0, [97, 98, 99, 100, 101, 102, 103, 104, 0]⟩
      (some 3)).1 = -ERANGE ∧
    ((user_to_new exStore ⟨0x00981001, 9, 0, 0, [97, 98, 99, 100, 101, 102, 103, 104, 0]⟩
      (some 3)).2.get (some 3)).new.string = [97, 98, 99, 100] ∧
    (user_to_new exStore ⟨0x00981001, 4, 0, 0, [97, 98, 99, 0]⟩ (some 3)).1 = 0 ∧
    ((user_to_new exStore ⟨0x00981001, 4, 0, 0, [97, 98, 99, 0]⟩ (some 3)).2.get
      (some 3)).new.string = [97, 98, 99] :=
  ⟨((C24_string_staging exStore
        ⟨0x00981001, 9, 0, 0, [97, 98, 99, 100, 101, 102, 103, 104, 0]⟩ (some 3) (by decide)
        rfl (by decide) (by decide)).2 5 (by decide) (by decide) (by decide)).2.2.2.1,
    by decide, by decide, by decide, by decide⟩

/-! ## The query of a menu option -/

theorem longReg_reachable : Reachable exCatalog longReg.hdl longReg.store :=
  Reachable.new_custom _ _ _ (Reachable.init 1 0 ⟨[], []⟩ (fun c hc => by simp at hc))

/-- The counterexample to C22 as stated: on the reachable registry `longReg`, whose menu
control `0x00981002` has the range `[0,1]`, no skip bit and at the index 1 a label of 42
characters, `v4l2_querymenu` with the name field of 32 bytes succeeds for the index 1 and
returns the first 31 characters of the label, not the label. -/
theorem C22_counterexample :
    Reachable exCatalog longReg.hdl longReg.store ∧
    (v4l2_ctrl_find (some longReg.hdl) longReg.store 0x00981002).1 = some 0 ∧
    (longReg.store.get (some 0)).qmenu =
      some ["Off", "A label of more than thirty-one characters"] ∧
    (longReg.store.get (some 0)).minimum = 0 ∧ (longReg.store.get (some 0)).maximum = 1 ∧
    (longReg.store.get (some 0)).menu_skip_mask = 0 ∧
    (v4l2_querymenu 32 (some longReg.hdl) longReg.store ⟨0x00981002, 1, [], 0⟩).1 = 0 ∧
    (v4l2_querymenu 32 (some longReg.hdl) longReg.store ⟨0x00981002, 1, [], 0⟩).2.1.name =
      "A label of more than thirty-one".toList ∧
    (v4l2_querymenu 32 (some longReg.hdl) longReg.store ⟨0x00981002, 1, [], 0⟩).2.1.name ≠
      "A label of more than thirty-one characters".toList :=
  ⟨longReg_reachable, by decide, by decide, by decide, by decide, by decide, by decide,
    by decide, by decide⟩

/-- Claim C22, amended. Menu option query: for every control that the registry finds for
the ID and that has an option list, with `0 ≤ min` and `max < 32` (the indices for which
the C shift `1 << i` is defined), and for every index `i`: `v4l2_querymenu` fails iff `i`
is outside `[min,max]`, or the bit `i` of the skip mask is set, or the label at `i` is
absent or empty; a failure is `-EINVAL` and leaves the name of the caller; otherwise it
succeeds and returns the label at the index `i` cut to the `name_size - 1` characters that
the name field of the caller takes besides the terminator, which is exactly the label when
the label is shorter than the name field. -/
theorem C22_menu_option_query (name_size : Nat) (h : Handler) (s : Store) (qm : QueryMenu)
    (p : Nat) (hn : 0 < name_size)
    (m : List String) (hfind : (v4l2_ctrl_find (some h) s qm.id).1 = some p)
    (hq : (s.get (some p)).qmenu = some m) (hmin : 0 ≤ (s.get (some p)).minimum)
    (hle : (s.get (some p)).minimum ≤ (s.get (some p)).maximum)
    (h32 : (s.get (some p)).maximum < 32) :
    ((v4l2_querymenu name_size (some h) s qm).1 ≠ 0 ↔
      ((qm.index : Int) < (s.get (some p)).minimum ∨
        (qm.index : Int) > (s.get (some p)).maximum ∨
        (s.get (some p)).menu_skip_mask.testBit qm.index = true ∨
        m.get? qm.index = none ∨ m.get? qm.index = some "")) ∧
    ((v4l2_querymenu name_size (some h) s qm).1 ≠ 0 →
      (v4l2_querymenu name_size (some h) s qm).1 = -EINVAL ∧
      (v4l2_querymenu name_size (some h) s qm).2.1.name = qm.name) ∧
    (∀ label, (v4l2_querymenu name_size (some h) s qm).1 = 0 → m.get? qm.index = some label →
      (v4l2_querymenu name_size (some h) s qm).2.1.name = label.toList.take (name_size - 1) ∧
      (label.length < name_size → (v4l2_querymenu name_size (some h) s qm).2.1.name = label.toList)) := by
  have c2 : (-EINVAL : Int) ≠ 0 := by decide
  have hu1 : u32 (s.get (some p)).minimum = (s.get (some p)).minimum := by unfold u32; omega
  have hu2 : u32 (s.get (some p)).maximum = (s.get (some p)).maximum := by unfold u32; omega
  unfold v4l2_querymenu
  simp only [hfind, hq, hu1, hu2]
  by_cases hlo : (qm.index : Int) < (s.get (some p)).minimum
  · rw [if_pos (Or.inl hlo)]
    exact ⟨⟨fun _ => Or.inl hlo, fun _ => c2⟩, fun _ => ⟨rfl, rfl⟩, fun _ h0 => absurd h0 c2⟩
  · by_cases hhi : (qm.index : Int) > (s.get (some p)).maximum
    · rw [if_pos (Or.inr hhi)]
      exact ⟨⟨fun _ => Or.inr (Or.inl hhi), fun _ => c2⟩, fun _ => ⟨rfl, rfl⟩,
        fun _ h0 => absurd h0 c2⟩
    · rw [if_neg (by omega)]
      have hi : qm.index < 32 := by omega
      have hskip : (((s.get (some p)).menu_skip_mask &&&
          ((1 <<< qm.index) % 4294967296)) ≠ 0) ↔
          (s.get (some p)).menu_skip_mask.testBit qm.index = true := by
        have := menuSkipped_testBit (s.get (some p)) (qm.index : Int) (by omega)
        unfold menuSkipped at this
        rw [Int.toNat_ofNat] at this
        rw [← this]
        simp
      by_cases hs : ((s.get (some p)).menu_skip_mask &&& ((1 <<< qm.index) % 4294967296)) ≠ 0
      · rw [if_pos hs]
        exact ⟨⟨fun _ => Or.inr (Or.inr (Or.inl (hskip.1 hs))), fun _ => c2⟩,
          fun _ => ⟨rfl, rfl⟩, fun _ h0 => absurd h0 c2⟩
      · rw [if_neg hs]
        have hs' : ¬ (s.get (some p)).menu_skip_mask.testBit qm.index = true :=
          fun a => hs (hskip.2 a)
        cases hg : m.get? qm.index with
        | none =>
          refine ⟨⟨fun _ => Or.inr (Or.inr (Or.inr (Or.inl rfl))), fun _ => c2⟩,
            fun _ => ⟨rfl, rfl⟩, fun _ h0 => absurd h0 c2⟩
        | some l =>
          dsimp only
          by_cases he : l.isEmpty = true
          · rw [if_pos he]
            have : l = "" := (String.isEmpty_iff l).1 he
            exact ⟨⟨fun _ => Or.inr (Or.inr (Or.inr (Or.inr (by rw [this])))), fun _ => c2⟩,
              fun _ => ⟨rfl, rfl⟩, fun _ h0 => absurd h0 c2⟩
          · rw [if_neg he]
            have hne : l ≠ "" := fun a => he ((String.isEmpty_iff l).2 a)
            refine ⟨⟨fun a => absurd rfl a, ?_⟩, fun a => absurd rfl a, ?_⟩
            · rintro (a | a | a | a | a)
              · exact absurd a hlo
              · exact absurd a hhi
              · exact absurd a hs'
              · cases a
              · exact absurd (Option.some.inj a) hne
            · intro label _ hl
              have : l = label := Option.some.inj hl
              subst this
              have hcp : strlcpy qm.name l.toList name_size = l.toList.take (name_size - 1) := by
                unfold strlcpy
                rw [if_neg (by omega)]
              refine ⟨hcp, fun hlen => ?_⟩
              exact hcp.trans (List.take_of_length_le (by
                have : l.toList.length = l.length := rfl
                omega))

/-- The witness of C22: the option 1 of the menu of the example registry is `50 Hz`, and
the index 3 is out of the range. -/
theorem C22_witness :
    ((v4l2_querymenu 32 (some exHdl) exStore ⟨0x00980918, 1, [], 0⟩).1 = 0 →
      ["Disabled", "50 Hz", "60 Hz"].get? 1 = some "50 Hz" →
      (v4l2_querymenu 32 (some exHdl) exStore ⟨0x00980918, 1, [], 0⟩).2.1.name =
          "50 Hz".toList.take (32 - 1) ∧
        ("50 Hz".length < 32 →
          (v4l2_querymenu 32 (some exHdl) exStore ⟨0x00980918, 1, [], 0⟩).2.1.name =
            "50 Hz".toList)) ∧
    (v4l2_querymenu 32 (some exHdl) exStore ⟨0x00980918, 1, [], 0⟩).1 = 0 ∧
    (v4l2_querymenu 32 (some exHdl) exStore ⟨0x00980918, 1, [], 0⟩).2.1.name = "50 Hz".toList ∧
    (v4l2_querymenu 32 (some exHdl) exStore ⟨0x00980918, 3, [], 0⟩).1 = -EINVAL :=
  ⟨(C22_menu_option_query 32 exHdl exStore ⟨0x00980918, 1, [], 0⟩ 2 (by decide)
      ["Disabled", "50 Hz", "60 Hz"] (by decide) rfl (by decide) (by decide)
      (by decide)).2.2 "50 Hz",
    by decide, by decide, by decide⟩

/-! ## The errors of the scalar get and set -/

theorem step_false_log {E : Ctrl → Ctrl} {s s' : Store} (h : Step E (fun _ => False) s s') :
    s'.log = s.log := by
  obtain ⟨_, l, hl, hno⟩ := h
  cases l with
  | nil => simpa using hl
  | cons e rest => exact (hno e (List.mem_cons_self _ _)).elim

/-- A set of a cluster fails with `-EBUSY` in its first loop, before any backend call,
when a member with a new value is grabbed; it has changed pending values only. -/
theorem try_or_set_cluster_busy (s : Store) (fh m p : Option Nat)
    (hmem : p ∈ (s.get m).cluster) (hnew : (s.get p).is_new = true)
    (hg : hasFlag (s.get p).flags V4L2_CTRL_FLAG_GRABBED = true) :
    (try_or_set_cluster s fh m true).1 = -EBUSY ∧
    Step erasePending (fun _ => False) s (try_or_set_cluster s fh m true).2 := by
  have hstep := step_stage_cluster erasePending_idem (fun _ => False) true (s.get m).cluster s
  have hiff := stage_cluster_none_iff (s.get m).cluster s
  have herr := stage_cluster_err true (s.get m).cluster s
  unfold try_or_set_cluster
  generalize stage_cluster true s (s.get m).cluster = st at hstep hiff herr ⊢
  obtain ⟨e, s3⟩ := st
  cases e with
  | some err =>
    simp only at hstep herr ⊢
    exact ⟨herr err rfl, hstep⟩
  | none =>
    have := hiff.1 rfl p hmem hnew
    rw [hg] at this
    cases this

/-- Claim C26. Scalar API error mapping: `v4l2_g_ctrl` and `v4l2_s_ctrl` fail with
`-EINVAL` when the lookup finds no control for the ID or the control found is a 64-bit
integer or a string; for a control of another type, `v4l2_g_ctrl` fails with `-EACCES`
when the control is write-only, and `v4l2_s_ctrl` fails with `-EACCES` when the control is
read-only and with `-EBUSY` when the control is not read-only, is grabbed, is a member of
the cluster of its master and its value passes validation. In the first four failures the
store is left as it is; in the `-EBUSY` failure every control keeps all but its pending
value and its `is_new` mark (so its committed value and flags), and nothing is added to
the trace: no backend callback is invoked and no event is sent. -/
theorem C26_scalar_error_mapping (fh : Option Nat) (h : Handler) (s : Store) (id : Nat)
    (v : Int) :
    ((v4l2_ctrl_find (some h) s id).1 = none →
      (v4l2_g_ctrl (some h) s id v).1 = -EINVAL ∧ (v4l2_g_ctrl (some h) s id v).2.2.2 = s ∧
      (v4l2_s_ctrl fh (some h) s id v).1 = -EINVAL ∧
      (v4l2_s_ctrl fh (some h) s id v).2.2.2 = s) ∧
    (∀ p, (v4l2_ctrl_find (some h) s id).1 = some p →
      (((s.get (some p)).type = .INTEGER64 ∨ (s.get (some p)).type = .STRING) →
        (v4l2_g_ctrl (some h) s id v).1 = -EINVAL ∧ (v4l2_g_ctrl (some h) s id v).2.2.2 = s ∧
        (v4l2_s_ctrl fh (some h) s id v).1 = -EINVAL ∧
        (v4l2_s_ctrl fh (some h) s id v).2.2.2 = s) ∧
      (type_is_int (s.get (some p)) = true →
        hasFlag (s.get (some p)).flags V4L2_CTRL_FLAG_WRITE_ONLY = true →
        (v4l2_g_ctrl (some h) s id v).1 = -EACCES ∧ (v4l2_g_ctrl (some h) s id v).2.2.2 = s) ∧
      (type_is_int (s.get (some p)) = true →
        hasFlag (s.get (some p)).flags V4L2_CTRL_FLAG_READ_ONLY = true →
        (v4l2_s_ctrl fh (some h) s id v).1 = -EACCES ∧
        (v4l2_s_ctrl fh (some h) s id v).2.2.2 = s) ∧
      (type_is_int (s.get (some p)) = true →
        hasFlag (s.get (some p)).flags V4L2_CTRL_FLAG_READ_ONLY = false →
        hasFlag (s.get (some p)).flags V4L2_CTRL_FLAG_GRABBED = true →
        s.valid (some p) →
        some p ∈ (s.get ((s.get (some p)).cluster.headD none)).cluster →
        (validate_new_int (s.get (some p)) v).1 = 0 →
        (v4l2_s_ctrl fh (some h) s id v).1 = -EBUSY ∧
        (v4l2_s_ctrl fh (some h) s id v).2.2.2.ctrls.map erasePending =
          s.ctrls.map erasePending ∧
        (v4l2_s_ctrl fh (some h) s id v).2.2.2.log = s.log)) := by
  constructor
  · intro hf
    unfold v4l2_g_ctrl v4l2_s_ctrl
    simp only [hf]
    exact ⟨trivial, trivial, trivial, trivial⟩
  · intro p hf
    rw [v4l2_g_ctrl_found (some h) s id v p hf, v4l2_s_ctrl_found fh (some h) s id v p hf]
    refine ⟨?_, ?_, ?_, ?_⟩
    · intro hty
      have : type_is_int (s.get (some p)) = false := by
        unfold type_is_int
        rcases hty with e | e <;> rw [e]
      rw [if_pos this, if_pos this]
      exact ⟨rfl, rfl, rfl, rfl⟩
    · intro hty hw
      have hne : ¬ type_is_int (s.get (some p)) = false := by rw [hty]; decide
      rw [if_neg hne]
      unfold get_ctrl
      simp only [hw, if_true]
      exact ⟨trivial, trivial⟩
    · intro hty hro
      have hne : ¬ type_is_int (s.get (some p)) = false := by rw [hty]; decide
      rw [if_neg hne, if_pos hro]
      exact ⟨rfl, rfl⟩
    · intro hty hro hg hv hmem hval
      have hne : ¬ type_is_int (s.get (some p)) = false := by rw [hty]; decide
      have hro' : ¬ hasFlag (s.get (some p)).flags V4L2_CTRL_FLAG_READ_ONLY = true := by
        rw [hro]; decide
      rw [if_neg hne, if_neg hro', set_ctrl_eq, if_neg (not_not.2 hval)]
      simp only
      have hst := set_ctrl_staged_step s (some p) (validate_new_int (s.get (some p)) v).2
      have hself := set_ctrl_staged_get_self s (some p)
        (validate_new_int (s.get (some p)) v).2 hv
      have hf1 := erasePending_fields
        (step_get hst ((s.get (some p)).cluster.headD none))
      have hf2 := erasePending_fields (step_get hst (some p))
      obtain ⟨hb1, hb2⟩ := try_or_set_cluster_busy
        (set_ctrl_staged s (some p) (validate_new_int (s.get (some p)) v).2) fh
        ((s.get (some p)).cluster.headD none) (some p)
        (by rw [hf1.1]; exact hmem) hself.2 (by rw [hf2.2.2.2.1]; exact hg)
      have htot := step_trans hst hb2
      exact ⟨hb1, htot.1, step_false_log htot⟩

/-- The witness of C26: brightness of the example registry after `v4l2_ctrl_grab` grabbed
it: a set of the value 7 fails with `-EBUSY`, the committed value stays 0 and nothing is
traced. -/
theorem C26_witness :
    ((v4l2_s_ctrl (some 1) (some exHdl) exGrabbed 0x00980900 7).1 = -EBUSY ∧
      (v4l2_s_ctrl (some 1) (some exHdl) exGrabbed 0x00980900 7).2.2.2.ctrls.map erasePending =
        exGrabbed.ctrls.map erasePending ∧
      (v4l2_s_ctrl (some 1) (some exHdl) exGrabbed 0x00980900 7).2.2.2.log = exGrabbed.log) ∧
    ((v4l2_s_ctrl (some 1) (some exHdl) exGrabbed 0x00980900 7).2.2.2.get (some 1)).cur.val =
      0 ∧
    (v4l2_g_ctrl (some exHdl) exStore 0x00981002 0).1 = -EACCES ∧
    (v4l2_s_ctrl none (some exHdl) exStore 0x00980001 0).1 = -EACCES ∧
    (v4l2_s_ctrl none (some exHdl) exStore 0x00981001 0).1 = -EINVAL ∧
    (v4l2_g_ctrl (some exHdl) exStore 0x00980999 0).1 = -EINVAL :=
  ⟨((C26_scalar_error_mapping (some 1) exHdl exGrabbed 0x00980900 7).2 1 (by decide)).2.2.2
      (by decide) (by decide) (by decide) (by decide) (by decide) (by decide),
    by decide, by decide, by decide, by decide, by decide⟩

/-! ## The batch without entries -/

/-- Under the invariant `class_check` succeeds, without a class, when the sorted list has
a reference, and with a class, when it has a reference with the ID of the class control;
it fails with `-EINVAL` otherwise and it changes the cache only. -/
theorem class_check_spec {h : Handler} {s : Store} (inv : RegInv h s) (k : Nat)
    (hk : k ||| 1 < V4L2_CID_PRIVATE_BASE) :
    ((class_check h s k).1 ≠ 0 → (class_check h s k).1 = -EINVAL) ∧
    (k = 0 → ((class_check h s k).1 = 0 ↔ h.ctrl_refs ≠ [])) ∧
    (k ≠ 0 → ((class_check h s k).1 = 0 ↔ ∃ r ∈ h.ctrl_refs, node2id h s r = k ||| 1)) ∧
    ∃ c, (class_check h s k).2 = { h with cached := c } := by
  have c2 : (-EINVAL : Int) ≠ 0 := by decide
  unfold class_check
  by_cases h0 : k = 0
  · rw [if_pos h0]
    simp only
    refine ⟨?_, fun _ => ?_, fun hne => absurd h0 hne, h.cached, (handler_cached_eta h).symm⟩
    · intro hne
      split_ifs at hne ⊢
      · rfl
      · exact absurd rfl hne
    · cases hl : h.ctrl_refs with
      | nil => simp [c2]
      | cons a l => simp
  · rw [if_neg h0]
    simp only
    have hm := mask_of_lt_private hk
    obtain ⟨hf, c, hc⟩ := find_ref_lookup inv (k ||| 1) (by rw [hm]; exact hk)
    rw [hm] at hf
    rw [hf]
    refine ⟨?_, fun he => absurd he h0, fun _ => ?_, c, hc⟩
    · intro hne
      split_ifs at hne ⊢
      · exact absurd rfl hne
      · rfl
    · cases hl : lookup h s (k ||| 1) with
      | none =>
        simp only [Option.isSome_none, Bool.false_eq_true, if_false]
        constructor
        · intro a; exact absurd a c2
        · rintro ⟨r, hr, hid⟩
          exact absurd hid (lookup_none hl r hr)
      | some r =>
        simp only [Option.isSome_some, if_true, true_iff]
        exact ⟨r, (lookup_some hl).1, (lookup_some hl).2⟩

theorem g_ext_zero (h : Handler) (s : Store) (cs : ExtControls) (hcs : cs.controls = []) :
    v4l2_g_ext_ctrls (some h) s cs =
      ⟨(class_check h s (V4L2_CTRL_ID2CLASS cs.ctrl_class)).1,
        { cs with error_idx := cs.count, ctrl_class := V4L2_CTRL_ID2CLASS cs.ctrl_class },
        some (class_check h s (V4L2_CTRL_ID2CLASS cs.ctrl_class)).2, s⟩ := by
  unfold v4l2_g_ext_ctrls
  simp only [ExtControls.count, hcs, List.length_nil, if_true]

theorem try_set_ext_zero (fh : Option Nat) (h : Handler) (s : Store) (cs : ExtControls)
    (set : Bool) (hcs : cs.controls = []) :
    try_set_ext_ctrls fh (some h) s cs set =
      ⟨(class_check h s (V4L2_CTRL_ID2CLASS cs.ctrl_class)).1,
        { cs with error_idx := cs.count, ctrl_class := V4L2_CTRL_ID2CLASS cs.ctrl_class },
        some (class_check h s (V4L2_CTRL_ID2CLASS cs.ctrl_class)).2, s⟩ := by
  unfold try_set_ext_ctrls
  simp only [ExtControls.count, hcs, List.length_nil, if_true]

theorem class_or_lt (k : Nat) (hk : k < V4L2_CID_PRIVATE_BASE) :
    k ||| 1 < V4L2_CID_PRIVATE_BASE := by
  have h1 : (1 : Nat) < 2 ^ 27 := by norm_num
  have h2 : k < 2 ^ 27 := hk
  exact Nat.or_lt_two_pow h2 h1

theorem foreignHdl_reachable : Reachable exCatalog foreignHdl foreignReg.2.2 :=
  Reachable.add_ctrl (v4l2_ctrl_handler_init 2 0).2 builtReg.store (some 1)
    (Reachable.init 2 0 builtReg.store
      (reachable_inv exCatalog builtReg.hdl builtReg.store builtReg_reachable).2)
    (Or.inr (by decide))

/-- The counterexample to C27 as stated: the registry `foreignHdl` was given the class
control of another registry with `v4l2_ctrl_add_ctrl`; it owns no control, and the batch
without entries and without a class filter succeeds on it, for the get, the try and the
set. -/
theorem C27_counterexample :
    Reachable exCatalog foreignHdl foreignReg.2.2 ∧
    foreignHdl.ctrls = [] ∧
    (v4l2_g_ext_ctrls (some foreignHdl) foreignReg.2.2 ⟨0, 0, []⟩).ret = 0 ∧
    (v4l2_try_ext_ctrls (some foreignHdl) foreignReg.2.2 ⟨0, 0, []⟩).ret = 0 ∧
    (v4l2_s_ext_ctrls none (some foreignHdl) foreignReg.2.2 ⟨0, 0, []⟩).ret = 0 :=
  ⟨foreignHdl_reachable, by decide, by decide, by decide, by decide⟩

/-- Claim C27, amended. Zero-entry batch is an existence check: on a reachable registry,
for a batch with zero entries, `v4l2_g_ext_ctrls`, `v4l2_try_ext_ctrls` and
`v4l2_s_ext_ctrls` succeed, when the class filter (normalised to its class bits, below the
private base) is not zero, iff the registry has a reference to a control with the ID of
that class's marker, and, when the filter is zero, iff the registry has at least one
reference, to a control that it owns or to one that it was given from another registry;
otherwise they fail with `-EINVAL`. In both cases the store is left as it is and the
registry differs in its lookup cache only. -/
theorem C27_zero_entry_batch (cat : Catalog) (h : Handler) (s : Store)
    (hr : Reachable cat h s) (cs : ExtControls) (hcs : cs.controls = [])
    (hk : V4L2_CTRL_ID2CLASS cs.ctrl_class < V4L2_CID_PRIVATE_BASE) (fh : Option Nat)
    (b : Batch)
    (hb : b = v4l2_g_ext_ctrls (some h) s cs ∨ b = v4l2_try_ext_ctrls (some h) s cs ∨
      b = v4l2_s_ext_ctrls fh (some h) s cs) :
    (V4L2_CTRL_ID2CLASS cs.ctrl_class = 0 → (b.ret = 0 ↔ h.ctrl_refs ≠ [])) ∧
    (V4L2_CTRL_ID2CLASS cs.ctrl_class ≠ 0 →
      (b.ret = 0 ↔
        ∃ r ∈ h.ctrl_refs, node2id h s r = V4L2_CTRL_ID2CLASS cs.ctrl_class ||| 1)) ∧
    (b.ret ≠ 0 → b.ret = -EINVAL) ∧
    b.store = s ∧
    ∃ c, b.hdl = some { h with cached := c } := by
  obtain ⟨inv, _⟩ := reachable_inv cat h s hr
  obtain ⟨k1, k2, k3, c, k4⟩ :=
    class_check_spec inv (V4L2_CTRL_ID2CLASS cs.ctrl_class) (class_or_lt _ hk)
  have hall : b = ⟨(class_check h s (V4L2_CTRL_ID2CLASS cs.ctrl_class)).1,
      { cs with error_idx := cs.count, ctrl_class := V4L2_CTRL_ID2CLASS cs.ctrl_class },
      some (class_check h s (V4L2_CTRL_ID2CLASS cs.ctrl_class)).2, s⟩ := by
    rcases hb with e | e | e
    · rw [e, g_ext_zero h s cs hcs]
    · rw [e]; exact try_set_ext_zero none h s cs false hcs
    · rw [e]; exact try_set_ext_zero fh h s cs true hcs
  rw [hall]
  exact ⟨k2, k3, k1, rfl, c, by rw [k4]⟩

/-- The witness of C27: the built registry has the class control of the user class, so
the batch without entries and with the filter of the user class succeeds. -/
theorem C27_witness :
    (V4L2_CTRL_ID2CLASS (⟨0x00980000, 0, []⟩ : ExtControls).ctrl_class ≠ 0 →
      ((v4l2_g_ext_ctrls (some builtReg.hdl) builtReg.store ⟨0x00980000, 0, []⟩).ret = 0 ↔
        ∃ r ∈ builtReg.hdl.ctrl_refs, node2id builtReg.hdl builtReg.store r =
          V4L2_CTRL_ID2CLASS (⟨0x00980000, 0, []⟩ : ExtControls).ctrl_class ||| 1)) ∧
    (v4l2_g_ext_ctrls (some builtReg.hdl) builtReg.store ⟨0x00980000, 0, []⟩).ret = 0 ∧
    (v4l2_g_ext_ctrls (some builtReg.hdl) builtReg.store ⟨0x00990000, 0, []⟩).ret = -EINVAL :=
  ⟨(C27_zero_entry_batch exCatalog builtReg.hdl builtReg.store builtReg_reachable
      ⟨0x00980000, 0, []⟩ rfl (by decide) none _ (Or.inl rfl)).2.1,
    by decide, by decide⟩

/-! ## Volatile reads in an auto-cluster -/

/-- A backend call of an operation that the master has adds itself to the trace. -/
theorem call_op_log (s : Store) (m : Option Nat) (op : OpKind)
    (h : has_op (s.get m) op = true) :
    (call_op s m op).2.log = s.log ++ [LogEntry.call op m] := by
  unfold has_op at h
  unfold call_op
  simp only
  cases ho : (s.get m).ops with
  | none => rw [ho] at h; cases h
  | some o =>
    rw [ho] at h
    simp only at h ⊢
    cases hs : o.sel op with
    | none => rw [hs] at h; cases h
    | some f =>
      simp only
      rw [step_false_log (step_setPending erasePending_idem (fun _ => False) _ _ s)]

/-- A loop that applies one idempotent write to the controls of a list: every control of
the list that the store has is written, no other is. -/
theorem foldl_upd_get (f : Ctrl → Ctrl) (hf : ∀ c, f (f c) = f c) (l : List (Option Nat)) :
    ∀ (s : Store) (x : Option Nat),
    (l.foldl (fun s p => s.upd p f) s).get x =
      if x ∈ l ∧ s.valid x then f (s.get x) else s.get x := by
  induction l with
  | nil => intro s x; simp
  | cons p rest ih =>
    intro s x
    rw [List.foldl_cons, ih, get_upd]
    by_cases hv : s.valid x
    · have hv' : (s.upd p f).valid x := (valid_upd s p x f).2 hv
      by_cases h1 : x ∈ rest <;> by_cases h2 : p = x
      · subst h2; simp [h1, hv, hv', hf]
      · have : ¬ x = p := fun e => h2 e.symm
        simp [h1, h2, hv, hv', this]
      · subst h2; simp [h1, hv, hv']
      · have : ¬ x = p := fun e => h2 e.symm
        simp [h1, h2, hv, hv', this]
    · have hv' : ¬ (s.upd p f).valid x := fun a => hv ((valid_upd s p x f).1 a)
      simp [hv, hv']

theorem cluster_loop_eq (cl : List (Option Nat)) (l : List (Option Nat)) : ∀ s : Store,
    cluster_loop cl s l =
      l.foldl (fun s p => s.upd p (fun c => { c with cluster := cl })) s := by
  induction l with
  | nil => intro s; rfl
  | cons p rest ih => intro s; rw [cluster_loop, ih, List.foldl_cons]

theorem auto_cluster_loop_eq (vol : Bool) (flag : Nat) (l : List (Option Nat)) :
    ∀ s : Store, auto_cluster_loop vol flag s l =
      l.foldl (fun s p =>
        s.upd p (fun c => { c with is_volatile := vol, flags := c.flags ||| flag })) s := by
  induction l with
  | nil => intro s; rfl
  | cons p rest ih => intro s; rw [auto_cluster_loop, ih, List.foldl_cons]

theorem foldl_upd_valid (f : Ctrl → Ctrl) (l : List (Option Nat)) :
    ∀ (s : Store) (x : Option Nat), (l.foldl (fun s p => s.upd p f) s).valid x ↔ s.valid x := by
  induction l with
  | nil => intro s x; rfl
  | cons p rest ih =>
    intro s x
    rw [List.foldl_cons, ih, valid_upd]

theorem cluster_loop_get (cl l : List (Option Nat)) (s : Store) (x : Option Nat) :
    (cluster_loop cl s l).get x =
      if x ∈ l ∧ s.valid x then { s.get x with cluster := cl } else s.get x := by
  rw [cluster_loop_eq]
  exact foldl_upd_get (fun c : Ctrl => { c with cluster := cl }) (fun _ => rfl) l s x

theorem cluster_loop_valid (cl l : List (Option Nat)) (s : Store) (x : Option Nat) :
    (cluster_loop cl s l).valid x ↔ s.valid x := by
  rw [cluster_loop_eq]
  exact foldl_upd_valid (fun c : Ctrl => { c with cluster := cl }) l s x

theorem auto_cluster_loop_get (vol : Bool) (flag : Nat) (l : List (Option Nat)) (s : Store)
    (x : Option Nat) :
    (auto_cluster_loop vol flag s l).get x =
      if x ∈ l ∧ s.valid x then
        { s.get x with is_volatile := vol, flags := (s.get x).flags ||| flag }
      else s.get x := by
  rw [auto_cluster_loop_eq]
  exact foldl_upd_get
    (fun c : Ctrl => { c with is_volatile := vol, flags := c.flags ||| flag })
    (fun c => by simp only [Nat.or_assoc, Nat.or_self]) l s x

/-- What `v4l2_ctrl_auto_cluster` sets up for the master `m` and the other controls of the
array: the master is marked `is_auto` with the manual value and keeps its committed value,
and every other control of the array has the array as its cluster, so the master as the
head of its cluster, and is volatile as asked. -/
theorem v4l2_ctrl_auto_cluster_spec (s s' : Store) (m : Nat) (rest : List (Option Nat))
    (M : Nat) (vol : Bool)
    (hs : v4l2_ctrl_auto_cluster s (some m :: rest) M vol = some s')
    (hv : s.valid (some m)) :
    (s'.get (some m)).is_auto = true ∧
    (s'.get (some m)).manual_mode_value = M % 256 ∧
    (s'.get (some m)).cur = (s.get (some m)).cur ∧
    (s'.get (some m)).cluster = some m :: rest ∧
    ∀ q ∈ rest, s.valid q →
      (s'.get q).is_volatile = vol ∧ (s'.get q).cluster = some m :: rest ∧
      (s'.get q).cluster.headD none = some m := by
  unfold v4l2_ctrl_auto_cluster v4l2_ctrl_cluster at hs
  simp only [List.length_cons, List.headD_cons, List.tail_cons] at hs
  rw [if_neg (by simp)] at hs
  simp only [Option.some.injEq] at hs
  have key : ∀ x, x ∈ some m :: rest → s.valid x →
      ((s'.get x).cluster = some m :: rest) ∧
      (x = some m → (s'.get x).is_auto = true ∧ (s'.get x).manual_mode_value = M % 256 ∧
        (s'.get x).cur = (s.get x).cur) ∧
      (x ∈ rest → (s'.get x).is_volatile = vol) := by
    intro x hx hvx
    rw [← hs, auto_cluster_loop_get]
    simp only [valid_upd, cluster_loop_valid, get_upd, cluster_loop_get, hx, hvx, and_true,
      true_and, if_true]
    by_cases h1 : x ∈ rest <;> by_cases h2 : some m = x
    · subst h2
      simp [h1]
    · have h3 : ¬ x = some m := fun e => h2 e.symm
      simp [h1, h2, h3]
    · subst h2
      simp [h1]
    · have h3 : ¬ x = some m := fun e => h2 e.symm
      simp [h1, h2, h3]
  obtain ⟨k1, k2, _⟩ := key (some m) (List.mem_cons_self _ _) hv
  obtain ⟨k3, k4, k5⟩ := k2 rfl
  refine ⟨k3, k4, k5, k1, ?_⟩
  intro q hq hvq
  obtain ⟨a1, _, a3⟩ := key q (List.mem_cons_of_mem _ hq) hvq
  exact ⟨a3 hq, a1, by rw [a1]; rfl⟩

/-! ## Events and flag toggles -/

/-- The trace after `send_event`: one event for every subscriber that is to receive it,
in the order of the subscriptions. -/
theorem send_event_log (s : Store) (fh p : Option Nat) (ch : Nat) :
    (send_event s fh p ch).log = s.log ++
      ((s.get p).ev_subs.filter (sev_receives fh)).map
        (fun sev => LogEntry.event (sev.fh.getD 0) (fill_event (s.get p) ch)) := by
  unfold send_event
  simp only
  split_ifs with h
  · have : (s.get p).ev_subs = [] := List.isEmpty_iff.1 h
    rw [this]
    simp
  · rfl

theorem send_event_get (s : Store) (fh p : Option Nat) (ch : Nat) (q : Option Nat) :
    (send_event s fh p ch).get q = s.get q :=
  get_congr (send_event_ctrls s fh p ch) q

theorem sev_receives_none : sev_receives none = fun sev => sev.fh.isSome := by
  funext sev
  unfold sev_receives
  cases sev.fh <;> rfl

theorem updAt_self {α : Type} (f : α → α) (d : α) : ∀ (l : List α) (i : Nat),
    f (l.getD i d) = l.getD i d → i < l.length → updAt l i f = l := by
  intro l
  induction l with
  | nil => intro i _ h; simp at h
  | cons x xs ih =>
    intro i hf hi
    cases i with
    | zero =>
      simp only [List.getD_cons_zero] at hf
      simp only [updAt, hf]
    | succ n =>
      simp only [List.getD_cons_succ] at hf
      simp only [updAt]
      rw [ih n hf (by simpa using hi)]

/-- A write that leaves the control as it is leaves the store as it is. -/
theorem upd_self (s : Store) (p : Nat) (f : Ctrl → Ctrl) (hv : s.valid (some p))
    (hf : f (s.get (some p)) = s.get (some p)) : s.upd (some p) f = s := by
  unfold Store.upd
  simp only
  have : updAt s.ctrls p f = s.ctrls := updAt_self f Ctrl.null s.ctrls p hf hv
  rw [this]

theorem or_bit_testBit (f b k : Nat) :
    (f ||| (1 <<< b)).testBit k = (f.testBit k || decide (b = k)) := by
  rw [Nat.testBit_or, Nat.one_shiftLeft, Nat.testBit_two_pow]

theorem clear_bit_testBit (f b k : Nat) :
    (clearFlag f (1 <<< b)).testBit k = (f.testBit k && !decide (b = k)) := by
  rw [clearFlag_testBit, Nat.one_shiftLeft, Nat.testBit_two_pow]

theorem or_bit_self (f b : Nat) (h : f.testBit b = true) : f ||| (1 <<< b) = f := by
  apply Nat.eq_of_testBit_eq
  intro k
  rw [or_bit_testBit]
  by_cases e : b = k
  · subst e; simp [h]
  · simp [e]

theorem clear_bit_self (f b : Nat) (h : f.testBit b = false) : clearFlag f (1 <<< b) = f := by
  apply Nat.eq_of_testBit_eq
  intro k
  rw [clear_bit_testBit]
  by_cases e : b = k
  · subst e; simp [h]
  · simp [e]

/-- The store after a write of the bit `b` of the flags of a control to the state `st`,
by a set or a clear of the bit. -/
theorem toggle_write (s : Store) (p : Nat) (hv : s.valid (some p)) (b : Nat) (st : Bool)
    (W : Store)
    (hW : W = if st = true then
        s.upd (some p) (fun c => { c with flags := c.flags ||| (1 <<< b) })
      else s.upd (some p) (fun c => { c with flags := clearFlag c.flags (1 <<< b) })) :
    (W.get (some p)).flags.testBit b = st ∧
    (∀ k, k ≠ b → (W.get (some p)).flags.testBit k = (s.get (some p)).flags.testBit k) ∧
    W.get (some p) = { s.get (some p) with flags := (W.get (some p)).flags } ∧
    (∀ q, q ≠ some p → W.get q = s.get q) ∧
    W.log = s.log ∧
    (W.valid (some p)) ∧
    ((s.get (some p)).flags.testBit b = st → W = s) := by
  cases st with
  | true =>
    simp only [if_true] at hW
    have hg : W.get (some p) =
        { s.get (some p) with flags := (s.get (some p)).flags ||| (1 <<< b) } := by
      rw [hW, get_upd, if_pos ⟨rfl, hv⟩]
    refine ⟨?_, ?_, ?_, ?_, ?_, ?_, ?_⟩
    · rw [hg]; simp only [or_bit_testBit]; simp
    · intro k hk
      rw [hg]; simp only [or_bit_testBit]
      have : ¬ b = k := fun e => hk e.symm
      simp [this]
    · rw [hg]
    · intro q hq
      rw [hW, get_upd, if_neg (fun a => hq a.1.symm)]
    · rw [hW]; rfl
    · rw [hW]; exact (valid_upd s _ _ _).2 hv
    · intro hb
      rw [hW]
      apply upd_self s p _ hv
      simp only [or_bit_self _ _ hb]
  | false =>
    simp only [Bool.false_eq_true, if_false] at hW
    have hg : W.get (some p) =
        { s.get (some p) with flags := clearFlag (s.get (some p)).flags (1 <<< b) } := by
      rw [hW, get_upd, if_pos ⟨rfl, hv⟩]
    refine ⟨?_, ?_, ?_, ?_, ?_, ?_, ?_⟩
    · rw [hg]; simp only [clear_bit_testBit]; simp
    · intro k hk
      rw [hg]; simp only [clear_bit_testBit]
      have : ¬ b = k := fun e => hk e.symm
      simp [this]
    · rw [hg]
    · intro q hq
      rw [hW, get_upd, if_neg (fun a => hq a.1.symm)]
    · rw [hW]; rfl
    · rw [hW]; exact (valid_upd s _ _ _).2 hv
    · intro hb
      rw [hW]
      apply upd_self s p _ hv
      simp only [clear_bit_self _ _ hb]

/-- A toggle of the bit `b` of the flags of a control to the state `st`, with the event of
a change of the flags when the bit was in the other state. -/
theorem toggle_spec (s : Store) (p : Nat) (hv : s.valid (some p)) (b : Nat) (st : Bool)
    (T : Store → Store)
    (hT : ∀ t : Store, T t =
      if ((t.get (some p)).flags.testBit b != st) = true then
        send_event
          (if st = true then
            t.upd (some p) (fun c => { c with flags := c.flags ||| (1 <<< b) })
          else t.upd (some p) (fun c => { c with flags := clearFlag c.flags (1 <<< b) }))
          none (some p) V4L2_EVENT_CTRL_CH_FLAGS
      else
        (if st = true then
          t.upd (some p) (fun c => { c with flags := c.flags ||| (1 <<< b) })
        else t.upd (some p) (fun c => { c with flags := clearFlag c.flags (1 <<< b) }))) :
    ((T s).get (some p)).flags.testBit b = st ∧
    (∀ k, k ≠ b → ((T s).get (some p)).flags.testBit k = (s.get (some p)).flags.testBit k) ∧
    (T s).get (some p) = { s.get (some p) with flags := ((T s).get (some p)).flags } ∧
    (∀ q, q ≠ some p → (T s).get q = s.get q) ∧
    (T s).log = s.log ++
      (if (s.get (some p)).flags.testBit b = st then []
      else ((s.get (some p)).ev_subs.filter (fun sev => sev.fh.isSome)).map
        (fun sev => LogEntry.event (sev.fh.getD 0)
          (fill_event ((T s).get (some p)) V4L2_EVENT_CTRL_CH_FLAGS))) ∧
    T (T s) = T s := by
  obtain ⟨w1, w2, w3, w4, w5, w6, w7⟩ := toggle_write s p hv b st _ rfl
  have hout : ∀ t : Store, t.valid (some p) → (t.get (some p)).flags.testBit b = st →
      T t = t := by
    intro t ht hb
    have hc : ¬ ((t.get (some p)).flags.testBit b != st) = true := by rw [hb]; simp
    rw [hT, if_neg hc]
    exact (toggle_write t p ht b st _ rfl).2.2.2.2.2.2 hb
  by_cases hb : (s.get (some p)).flags.testBit b = st
  · have hTs : T s = s := hout s hv hb
    rw [hTs, if_pos hb]
    exact ⟨hb, fun _ _ => rfl, rfl, fun _ _ => rfl, by simp, hTs⟩
  · have hc : ((s.get (some p)).flags.testBit b != st) = true := by
      cases h1 : (s.get (some p)).flags.testBit b <;> cases st <;> simp_all
    have hget : ∀ q, (T s).get q =
        (if st = true then
            s.upd (some p) (fun c => { c with flags := c.flags ||| (1 <<< b) })
          else s.upd (some p) (fun c => { c with flags := clearFlag c.flags (1 <<< b) })).get
          q := by
      intro q
      rw [hT, if_pos hc, send_event_get]
    refine ⟨by rw [hget]; exact w1, fun k hk => by rw [hget]; exact w2 k hk,
      by rw [hget]; exact w3, fun q hq => by rw [hget]; exact w4 q hq, ?_, ?_⟩
    · rw [if_neg hb, hget]
      conv_lhs => rw [hT, if_pos hc]
      rw [send_event_log, w5, sev_receives_none, w3]
    · apply hout
      · have hc' : (T s).ctrls =
            (if st = true then
              s.upd (some p) (fun c => { c with flags := c.flags ||| (1 <<< b) })
            else
              s.upd (some p) (fun c => { c with flags := clearFlag c.flags (1 <<< b) })).ctrls := by
          rw [hT, if_pos hc, send_event_ctrls]
        exact (valid_congr hc' (some p)).2 w6
      · rw [hget]; exact w1

theorem hasFlag_inactive_testBit (f : Nat) :
    hasFlag f V4L2_CTRL_FLAG_INACTIVE = f.testBit 4 := and_two_pow_ne_zero f 4

theorem hasFlag_grabbed_testBit (f : Nat) :
    hasFlag f V4L2_CTRL_FLAG_GRABBED = f.testBit 1 := and_two_pow_ne_zero f 1

/-- Claim C30. Flag toggles notify only on transition: `v4l2_ctrl_activate` and
`v4l2_ctrl_grab` leave the control with the inactive (resp. grabbed) flag equal to the
requested state, every other flag and everything else of the control unchanged, and every
other control unchanged; they add to the trace one flags-changed event for each subscriber
of the control that has a file handle, in the order of the subscriptions and with the new
flags, iff the flag was in the other state, and nothing otherwise; and the same toggle
called a second time leaves the store, the trace included, as the first call left it. -/
theorem C30_flag_toggles (s : Store) (p : Nat) (hv : s.valid (some p)) (act : Bool) :
    (hasFlag ((v4l2_ctrl_activate s (some p) act).get (some p)).flags V4L2_CTRL_FLAG_INACTIVE =
        !act ∧
      (∀ k, k ≠ 4 → ((v4l2_ctrl_activate s (some p) act).get (some p)).flags.testBit k =
        (s.get (some p)).flags.testBit k) ∧
      (v4l2_ctrl_activate s (some p) act).get (some p) =
        { s.get (some p) with
          flags := ((v4l2_ctrl_activate s (some p) act).get (some p)).flags } ∧
      (∀ q, q ≠ some p → (v4l2_ctrl_activate s (some p) act).get q = s.get q) ∧
      (v4l2_ctrl_activate s (some p) act).log = s.log ++
        (if hasFlag (s.get (some p)).flags V4L2_CTRL_FLAG_INACTIVE = !act then []
        else ((s.get (some p)).ev_subs.filter (fun sev => sev.fh.isSome)).map
          (fun sev => LogEntry.event (sev.fh.getD 0)
            (fill_event ((v4l2_ctrl_activate s (some p) act).get (some p))
              V4L2_EVENT_CTRL_CH_FLAGS))) ∧
      v4l2_ctrl_activate (v4l2_ctrl_activate s (some p) act) (some p) act =
        v4l2_ctrl_activate s (some p) act) ∧
    (hasFlag ((v4l2_ctrl_grab s (some p) act).get (some p)).flags V4L2_CTRL_FLAG_GRABBED = act ∧
      (∀ k, k ≠ 1 → ((v4l2_ctrl_grab s (some p) act).get (some p)).flags.testBit k =
        (s.get (some p)).flags.testBit k) ∧
      (v4l2_ctrl_grab s (some p) act).get (some p) =
        { s.get (some p) with flags := ((v4l2_ctrl_grab s (some p) act).get (some p)).flags } ∧
      (∀ q, q ≠ some p → (v4l2_ctrl_grab s (some p) act).get q = s.get q) ∧
      (v4l2_ctrl_grab s (some p) act).log = s.log ++
        (if hasFlag (s.get (some p)).flags V4L2_CTRL_FLAG_GRABBED = act then []
        else ((s.get (some p)).ev_subs.filter (fun sev => sev.fh.isSome)).map
          (fun sev => LogEntry.event (sev.fh.getD 0)
            (fill_event ((v4l2_ctrl_grab s (some p) act).get (some p))
              V4L2_EVENT_CTRL_CH_FLAGS))) ∧
      v4l2_ctrl_grab (v4l2_ctrl_grab s (some p) act) (some p) act =
        v4l2_ctrl_grab s (some p) act) := by
  constructor
  · have := toggle_spec s p hv 4 (!act) (fun t => v4l2_ctrl_activate t (some p) act)
      (fun t => rfl)
    simp only [hasFlag_inactive_testBit]
    exact this
  · have := toggle_spec s p hv 1 act (fun t => v4l2_ctrl_grab t (some p) act) (fun t => rfl)
    simp only [hasFlag_grabbed_testBit]
    exact this

/-- The witness of C30: brightness of the built registry with the two subscribers of
`subStore`: the first grab sends two events, one to each file handle, and the second grab
sends none. -/
theorem C30_witness :
    ((v4l2_ctrl_grab subStore (some 0) true).log = subStore.log ++
        (if hasFlag (subStore.get (some 0)).flags V4L2_CTRL_FLAG_GRABBED = true then []
        else ((subStore.get (some 0)).ev_subs.filter (fun sev => sev.fh.isSome)).map
          (fun sev => LogEntry.event (sev.fh.getD 0)
            (fill_event ((v4l2_ctrl_grab subStore (some 0) true).get (some 0))
              V4L2_EVENT_CTRL_CH_FLAGS)))) ∧
    (v4l2_ctrl_grab subStore (some 0) true).log.length = 2 ∧
    (v4l2_ctrl_grab (v4l2_ctrl_grab subStore (some 0) true) (some 0) true).log.length = 2 ∧
    (v4l2_ctrl_activate subStore (some 0) true).log.length = 0 ∧
    (v4l2_ctrl_activate subStore (some 0) false).log.length = 2 :=
  ⟨(C30_flag_toggles subStore 0 (by decide) true).2.2.2.2.2.1,
    by decide, by decide, by decide, by decide⟩

/-! ## The events of a commit -/

theorem sev_receives_iff (fh : Option Nat) (sev : Sev) :
    sev_receives fh sev = true ↔
      (sev.fh ≠ none ∧ (sev.fh ≠ fh ∨ hasFlag sev.flags V4L2_EVENT_SUB_FL_ALLOW_FEEDBACK = true)) := by
  unfold sev_receives
  cases h : sev.fh <;> simp

/-- The function `new_to_cur` on a control of the store: writes to the control that keep
its subscriptions and its `is_new` mark, then the event when the value changed or the
inactive flag is updated. -/
theorem new_to_cur_shape (s : Store) (fh : Option Nat) (p : Nat) (b : Bool)
    (hv : s.valid (some p)) :
    ∃ t : Store, t.log = s.log ∧ (t.get (some p)).ev_subs = (s.get (some p)).ev_subs ∧
      (t.get (some p)).is_new = (s.get (some p)).is_new ∧
      new_to_cur s fh (some p) b =
        if (value_changed (s.get (some p)) || b) = true then
          send_event t (if (!(t.get (some p)).is_new) = true then none else fh) (some p)
            ((if value_changed (s.get (some p)) = true then V4L2_EVENT_CTRL_CH_VALUE else 0) |||
              (if b = true then V4L2_EVENT_CTRL_CH_FLAGS else 0))
        else t := by
  have hg1 : ∀ (t : Store) (f : Ctrl → Ctrl), t.valid (some p) →
      (∀ c, (f c).ev_subs = c.ev_subs ∧ (f c).is_new = c.is_new) →
      (t.upd (some p) f).log = t.log ∧
      ((t.upd (some p) f).get (some p)).ev_subs = (t.get (some p)).ev_subs ∧
      ((t.upd (some p) f).get (some p)).is_new = (t.get (some p)).is_new ∧
      (t.upd (some p) f).valid (some p) := by
    intro t f ht hf
    rw [get_upd, if_pos ⟨rfl, ht⟩]
    exact ⟨rfl, (hf _).1, (hf _).2, (valid_upd t _ _ f).2 ht⟩
  have hcopy : ∀ c, (copy_new_to_cur c).ev_subs = c.ev_subs ∧
      (copy_new_to_cur c).is_new = c.is_new := by
    intro c
    unfold copy_new_to_cur
    split <;> exact ⟨rfl, rfl⟩
  obtain ⟨a1, a2, a3, a4⟩ := hg1 s copy_new_to_cur hv hcopy
  obtain ⟨b1, b2, b3, b4⟩ := hg1 (s.upd (some p) copy_new_to_cur)
    (fun c => { c with flags := clearFlag c.flags V4L2_CTRL_FLAG_INACTIVE }) a4
    (fun _ => ⟨rfl, rfl⟩)
  obtain ⟨c1, c2, c3, _⟩ := hg1 ((s.upd (some p) copy_new_to_cur).upd (some p)
    (fun c => { c with flags := clearFlag c.flags V4L2_CTRL_FLAG_INACTIVE }))
    (fun c => { c with flags := c.flags ||| V4L2_CTRL_FLAG_INACTIVE }) b4
    (fun _ => ⟨rfl, rfl⟩)
  unfold new_to_cur
  cases b with
  | false => exact ⟨_, a1, a2, a3, rfl⟩
  | true =>
    by_cases hm : (!is_cur_manual
        (((s.upd (some p) copy_new_to_cur).upd (some p)
          (fun c => { c with flags := clearFlag c.flags V4L2_CTRL_FLAG_INACTIVE })).get
          ((((s.upd (some p) copy_new_to_cur).upd (some p)
            (fun c => { c with flags := clearFlag c.flags V4L2_CTRL_FLAG_INACTIVE })).get
              (some p)).cluster.headD none))) = true
    · refine ⟨_, c1.trans (b1.trans a1), c2.trans (b2.trans a2), c3.trans (b3.trans a3), ?_⟩
      simp only [if_true, hm]
    · refine ⟨_, b1.trans a1, b2.trans a2, b3.trans a3, ?_⟩
      simp only [if_true, hm, Bool.false_eq_true, if_false]

/-- The trace after `new_to_cur` on a control of the store: when the value changes or the
inactive flag is updated, one event for every subscriber of the control that is to receive
it, with the control as the call leaves it; the originator is `fh` when the control has a
new value from the caller and nobody otherwise. -/
theorem new_to_cur_log (s : Store) (fh : Option Nat) (p : Nat) (b : Bool)
    (hv : s.valid (some p)) :
    (new_to_cur s fh (some p) b).log = s.log ++
      (if (value_changed (s.get (some p)) || b) = true then
        ((s.get (some p)).ev_subs.filter
          (sev_receives (if (s.get (some p)).is_new = true then fh else none))).map
          (fun sev => LogEntry.event (sev.fh.getD 0)
            (fill_event ((new_to_cur s fh (some p) b).get (some p))
              ((if value_changed (s.get (some p)) = true then V4L2_EVENT_CTRL_CH_VALUE else 0) |||
                (if b = true then V4L2_EVENT_CTRL_CH_FLAGS else 0))))
      else []) := by
  obtain ⟨t, hl, he, hn, heq⟩ := new_to_cur_shape s fh p b hv
  rw [heq]
  by_cases hc : (value_changed (s.get (some p)) || b) = true
  · simp only [if_pos hc]
    rw [send_event_log, send_event_get, hl, he, hn]
    cases (s.get (some p)).is_new <;> rfl
  · simp only [if_neg hc]
    rw [hl]
    simp

/-- A set of a cluster of one control without a validate and an apply callback, whose new
value differs from the committed one and which is not grabbed: the value is committed with
`new_to_cur`. -/
theorem try_or_set_single (s : Store) (fh : Option Nat) (p : Nat)
    (hcl : (s.get (some p)).cluster = [some p])
    (hnew : (s.get (some p)).is_new = true)
    (hgr : hasFlag (s.get (some p)).flags V4L2_CTRL_FLAG_GRABBED = false)
    (hT : opAbsent (s.get (some p)) .try_ctrl) (hS : opAbsent (s.get (some p)) .s_ctrl)
    (hch : value_changed (s.get (some p)) = true) :
    try_or_set_cluster s fh (some p) true = (0, new_to_cur s fh (some p) false) := by
  have hstage : stage_cluster true s [some p] = (none, s) := by
    rw [stage_cluster_cons_some, if_neg (by rw [hnew]; decide),
      if_neg (by rw [hgr]; decide)]
    rfl
  have hchg : cluster_changed s (some p) = true := by
    unfold cluster_changed
    rw [hcl]
    cases hc : cluster_changed_loop s [some p] with
    | true => rfl
    | false =>
      have := ((cluster_changed_loop_false_iff s [some p]).1 hc p
        (List.mem_singleton.2 rfl)).2
      rw [hch] at this
      cases this
  unfold try_or_set_cluster
  rw [hcl, hstage]
  simp only [call_op_absent s (some p) .try_ctrl hT, call_op_absent s (some p) .s_ctrl hS, hchg,
    hcl]
  simp [commit_cluster]

/-- A scalar set through the registry of a control in a cluster of its own, without a
validate and an apply callback, that changes the committed value: it succeeds and the
trace grows by one event of a changed value for every subscriber of the control that is to
receive it from the originator `fh`. -/
theorem v4l2_s_ctrl_events (fh : Option Nat) (h : Handler) (s : Store) (id : Nat) (v : Int)
    (p : Nat) (hfind : (v4l2_ctrl_find (some h) s id).1 = some p)
    (hv : s.valid (some p)) (hcl : (s.get (some p)).cluster = [some p])
    (hty : scalarType (s.get (some p)).type)
    (hro : hasFlag (s.get (some p)).flags V4L2_CTRL_FLAG_READ_ONLY = false)
    (hgr : hasFlag (s.get (some p)).flags V4L2_CTRL_FLAG_GRABBED = false)
    (hT : opAbsent (s.get (some p)) .try_ctrl) (hS : opAbsent (s.get (some p)) .s_ctrl)
    (hval : (validate_new_int (s.get (some p)) v).1 = 0)
    (hch : (validate_new_int (s.get (some p)) v).2 ≠ (s.get (some p)).cur.val) :
    (v4l2_s_ctrl fh (some h) s id v).1 = 0 ∧
    (v4l2_s_ctrl fh (some h) s id v).2.2.2.log = s.log ++
      ((s.get (some p)).ev_subs.filter (sev_receives fh)).map
        (fun sev => LogEntry.event (sev.fh.getD 0)
          (fill_event ((v4l2_s_ctrl fh (some h) s id v).2.2.2.get (some p))
            V4L2_EVENT_CTRL_CH_VALUE)) := by
  have htype : ¬ type_is_int (s.get (some p)) = false := by
    obtain ⟨_, h2, h3⟩ := hty
    unfold type_is_int
    cases ht : (s.get (some p)).type <;> simp_all
  have hro' : ¬ hasFlag (s.get (some p)).flags V4L2_CTRL_FLAG_READ_ONLY = true := by
    rw [hro]; decide
  rw [v4l2_s_ctrl_found fh (some h) s id v p hfind, if_neg htype, if_neg hro', set_ctrl_eq,
    if_neg (not_not.2 hval)]
  simp only
  have hst := set_ctrl_staged_step s (some p) (validate_new_int (s.get (some p)) v).2
  have hself := set_ctrl_staged_get_self s (some p) (validate_new_int (s.get (some p)) v).2 hv
  have he := step_get hst (some p)
  have hf := erasePending_fields he
  have hev : ((set_ctrl_staged s (some p) (validate_new_int (s.get (some p)) v).2).get
      (some p)).ev_subs = (s.get (some p)).ev_subs := by
    have h1 := congrArg Ctrl.ev_subs he
    exact h1
  have hv1 := (step_valid hst (some p)).2 hv
  have hty1 : scalarType ((set_ctrl_staged s (some p)
      (validate_new_int (s.get (some p)) v).2).get (some p)).type := by
    rw [hf.2.2.1]; exact hty
  have hchg : value_changed ((set_ctrl_staged s (some p)
      (validate_new_int (s.get (some p)) v).2).get (some p)) = true := by
    rw [value_changed_scalar hty1, hself.1, hf.2.2.2.2]
    simpa using hch
  have hopT : opAbsent ((set_ctrl_staged s (some p)
      (validate_new_int (s.get (some p)) v).2).get (some p)) .try_ctrl := by
    intro o ho; rw [hf.2.1] at ho; exact hT o ho
  have hopS : opAbsent ((set_ctrl_staged s (some p)
      (validate_new_int (s.get (some p)) v).2).get (some p)) .s_ctrl := by
    intro o ho; rw [hf.2.1] at ho; exact hS o ho
  rw [hcl]
  simp only [List.headD_cons]
  rw [try_or_set_single _ fh p (by rw [hf.1]; exact hcl) hself.2
    (by rw [hf.2.2.2.1]; exact hgr) hopT hopS hchg]
  simp only
  refine ⟨trivial, ?_⟩
  rw [new_to_cur_log _ fh p false hv1, hchg, hself.2, hev, step_false_log hst]
  simp

theorem sev_receives_eq (fh : Option Nat) :
    sev_receives fh = fun sev => decide (sev.fh ≠ none ∧
      (sev.fh ≠ fh ∨ hasFlag sev.flags V4L2_EVENT_SUB_FL_ALLOW_FEEDBACK = true)) := by
  funext sev
  rw [Bool.eq_iff_iff, sev_receives_iff, decide_eq_true_iff]

/-- Claim C29. Event feedback suppression: when `new_to_cur` commits, for the caller
context `fh`, a change of the value of a control that has a new value from that caller
(`is_new`), the trace grows by the change event for exactly the subscribers of the control
that have a file handle and whose file handle differs from `fh` or that opted into
feedback, one event each in the order of the subscriptions. In particular a scalar set
through the registry that changes the committed value of a control in a cluster of its
own, without a validate and an apply callback, succeeds and sends the event of a changed
value to exactly these subscribers: a subscriber with feedback disabled does not receive
the event of its own set but does receive the event of the set of a different caller. -/
theorem C29_event_feedback (fh : Option Nat) (s : Store) (p : Nat) (hv : s.valid (some p)) :
    (∀ b : Bool, (s.get (some p)).is_new = true → value_changed (s.get (some p)) = true →
      (new_to_cur s fh (some p) b).log = s.log ++
        ((s.get (some p)).ev_subs.filter (fun sev => decide (sev.fh ≠ none ∧
          (sev.fh ≠ fh ∨ hasFlag sev.flags V4L2_EVENT_SUB_FL_ALLOW_FEEDBACK = true)))).map
          (fun sev => LogEntry.event (sev.fh.getD 0)
            (fill_event ((new_to_cur s fh (some p) b).get (some p))
              (V4L2_EVENT_CTRL_CH_VALUE |||
                (if b = true then V4L2_EVENT_CTRL_CH_FLAGS else 0))))) ∧
    (∀ (h : Handler) (id : Nat) (v : Int),
      (v4l2_ctrl_find (some h) s id).1 = some p →
      (s.get (some p)).cluster = [some p] →
      scalarType (s.get (some p)).type →
      hasFlag (s.get (some p)).flags V4L2_CTRL_FLAG_READ_ONLY = false →
      hasFlag (s.get (some p)).flags V4L2_CTRL_FLAG_GRABBED = false →
      opAbsent (s.get (some p)) .try_ctrl → opAbsent (s.get (some p)) .s_ctrl →
      (validate_new_int (s.get (some p)) v).1 = 0 →
      (validate_new_int (s.get (some p)) v).2 ≠ (s.get (some p)).cur.val →
      (v4l2_s_ctrl fh (some h) s id v).1 = 0 ∧
      (v4l2_s_ctrl fh (some h) s id v).2.2.2.log = s.log ++
        ((s.get (some p)).ev_subs.filter (fun sev => decide (sev.fh ≠ none ∧
          (sev.fh ≠ fh ∨ hasFlag sev.flags V4L2_EVENT_SUB_FL_ALLOW_FEEDBACK = true)))).map
          (fun sev => LogEntry.event (sev.fh.getD 0)
            (fill_event ((v4l2_s_ctrl fh (some h) s id v).2.2.2.get (some p))
              V4L2_EVENT_CTRL_CH_VALUE))) := by
  constructor
  · intro b hnew hch
    rw [new_to_cur_log s fh p b hv, hch, hnew, sev_receives_eq]
    simp only [Bool.true_or, if_true]
  · intro h id v hfind hcl hty hro hgr hT hS hval hchg
    rw [← sev_receives_eq]
    exact v4l2_s_ctrl_events fh h s id v p hfind hv hcl hty hro hgr hT hS hval hchg

/-- The witness of C29: the file handles 1 and 2 subscribed to brightness of the built
registry without the feedback flag: a set by the file handle 1 sends the event to the file
handle 2 only, and a set by the file handle 2 sends it to the file handle 1 only. -/
theorem C29_witness :
    ((v4l2_s_ctrl (some 1) (some builtReg.hdl) subStore 0x00980900 7).1 = 0 ∧
      (v4l2_s_ctrl (some 1) (some builtReg.hdl) subStore 0x00980900 7).2.2.2.log =
        subStore.log ++
        ((subStore.get (some 0)).ev_subs.filter (fun sev => decide (sev.fh ≠ none ∧
          (sev.fh ≠ some 1 ∨
            hasFlag sev.flags V4L2_EVENT_SUB_FL_ALLOW_FEEDBACK = true)))).map
          (fun sev => LogEntry.event (sev.fh.getD 0)
            (fill_event ((v4l2_s_ctrl (some 1) (some builtReg.hdl) subStore 0x00980900
              7).2.2.2.get (some 0)) V4L2_EVENT_CTRL_CH_VALUE))) ∧
    eventHandles (v4l2_s_ctrl (some 1) (some builtReg.hdl) subStore 0x00980900 7).2.2.2.log =
      [2] ∧
    eventHandles (v4l2_s_ctrl (some 2) (some builtReg.hdl) subStore 0x00980900 7).2.2.2.log =
      [1] ∧
    eventHandles (v4l2_s_ctrl none (some builtReg.hdl) subStore 0x00980900 7).2.2.2.log =
      [1, 2] :=
  ⟨(C29_event_feedback (some 1) subStore 0 (by decide)).2 builtReg.hdl 0x00980900 7
      (by decide) (by decide) (by unfold scalarType; decide) (by decide) (by decide)
      (fun o ho => by cases ho) (fun o ho => by cases ho) (by decide) (by decide),
    by decide, by decide, by decide⟩

/-! ## The closest legal value -/

/-- The offset of the snapped value and the offset of any other legal value are a whole
step apart, or equal. -/
theorem grid_gap (step k : Nat) (q : Int) :
    (k : Int) * step = step * q ∨ (k : Int) * step + step ≤ step * q ∨
      step * q + step ≤ (k : Int) * step := by
  rcases lt_trichotomy (k : Int) q with h | h | h
  · right; left
    have : ((k : Int) + 1) * step ≤ q * step :=
      Int.mul_le_mul_of_nonneg_right (by omega) (Int.ofNat_nonneg _)
    have e1 : ((k : Int) + 1) * step = (k : Int) * step + step := by ring
    have e2 : q * (step : Int) = step * q := by ring
    omega
  · left; rw [h]; ring
  · right; right
    have : (q + 1) * step ≤ (k : Int) * step :=
      Int.mul_le_mul_of_nonneg_right (by omega) (Int.ofNat_nonneg _)
    have e1 : (q + 1) * (step : Int) = step * q + step := by ring
    omega

/-- Claim C31. Quantization rounds to the closest legal value: for every integer control
with `min ≤ max` and `step > 0` and every candidate `v` with `min ≤ v ≤ max` for which
`v + step/2` does not overflow 32 bits, `validate_new_int` succeeds and the validated value
`r` is a legal value (`r = min + k * step` for some `k ≥ 0`, and `r ≤ max`), and no legal
value is strictly closer to `v` than `r`: the distance from `v` to `r` is at most the
distance from `v` to any `min + k * step ≤ max`. -/
theorem C31_rounds_to_closest (c : Ctrl) (v : Int) (ht : c.type = .INTEGER)
    (hmin : isS32 c.minimum) (hmax : isS32 c.maximum) (hpos : 0 < c.step)
    (hlo : c.minimum ≤ v) (hhi : v ≤ c.maximum)
    (hno : v + (c.step / 2 : Nat) ≤ 2147483647) :
    (validate_new_int c v).1 = 0 ∧
    (∃ k : Nat, (validate_new_int c v).2 = c.minimum + k * c.step) ∧
    (validate_new_int c v).2 ≤ c.maximum ∧
    ∀ k : Nat, c.minimum + k * c.step ≤ c.maximum →
      |v - (validate_new_int c v).2| ≤ |v - (c.minimum + k * c.step)| := by
  have hle : c.minimum ≤ c.maximum := le_trans hlo hhi
  rw [validate_new_int_integer c v ht hmin hmax hle hpos]
  have hb : isS32 (v + (c.step / 2 : Nat)) := by
    unfold isS32 at hmin hmax ⊢; omega
  rw [s32_of_isS32 hb]
  obtain ⟨hx0, hx1⟩ := clamp_bounds (v + (c.step / 2 : Nat)) c.minimum c.maximum hle
  have hx : clamp (v + (c.step / 2 : Nat)) c.minimum c.maximum =
      if v + (c.step / 2 : Nat) > c.maximum then c.maximum else v + (c.step / 2 : Nat) := by
    unfold clamp
    simp only
    split_ifs <;> omega
  have hs' : (0 : Int) < c.step := by exact_mod_cast hpos
  obtain ⟨hq0, hq1⟩ := snap_bounds c.step
    (clamp (v + (c.step / 2 : Nat)) c.minimum c.maximum - c.minimum) hpos (by omega)
  have hq2 := Int.lt_mul_ediv_self_add
    (x := clamp (v + (c.step / 2 : Nat)) c.minimum c.maximum - c.minimum) hs'
  have hdiv : 0 ≤ (clamp (v + (c.step / 2 : Nat)) c.minimum c.maximum - c.minimum) / c.step :=
    Int.ediv_nonneg (by omega) (le_of_lt hs')
  have hh : (2 : Int) * ((c.step / 2 : Nat) : Int) ≤ c.step ∧
      (c.step : Int) ≤ 2 * ((c.step / 2 : Nat) : Int) + 1 := by omega
  generalize hQ : (clamp (v + (c.step / 2 : Nat)) c.minimum c.maximum - c.minimum) / c.step = q
    at hq0 hq1 hq2 hdiv ⊢
  refine ⟨rfl, ⟨q.toNat, ?_⟩, ?_, ?_⟩
  · simp only
    rw [Int.toNat_of_nonneg hdiv]; ring
  · simp only; omega
  · intro k hk
    simp only
    have hg := grid_gap c.step k q
    generalize ((c.step / 2 : Nat) : Int) = hf at *
    generalize (c.step : Int) * q = a at *
    generalize (k : Int) * (c.step : Int) = b at *
    generalize clamp (v + hf) c.minimum c.maximum = x at *
    rcases abs_cases (v - (c.minimum + a)) with ⟨e1, _⟩ | ⟨e1, _⟩ <;>
    rcases abs_cases (v - (c.minimum + b)) with ⟨e2, _⟩ | ⟨e2, _⟩ <;>
    rw [e1, e2] <;> split_ifs at hx <;> omega

/-- The witness of C31: range `[0,10]`, step 3, the candidate 5 lands on 6. -/
theorem C31_witness :
    ((validate_new_int scenarioCtrl 5).1 = 0 ∧
      (∃ k : Nat, (validate_new_int scenarioCtrl 5).2 =
        scenarioCtrl.minimum + k * scenarioCtrl.step) ∧
      (validate_new_int scenarioCtrl 5).2 ≤ scenarioCtrl.maximum ∧
      ∀ k : Nat, scenarioCtrl.minimum + k * scenarioCtrl.step ≤ scenarioCtrl.maximum →
        |(5 : Int) - (validate_new_int scenarioCtrl 5).2| ≤
          |(5 : Int) - (scenarioCtrl.minimum + k * scenarioCtrl.step)|) ∧
    (validate_new_int scenarioCtrl 5).2 = 6 :=
  ⟨C31_rounds_to_closest scenarioCtrl 5 rfl (by decide) (by decide) (by decide) (by decide)
      (by decide) (by decide), by decide⟩

/-! ## Monotonicity of the quantization -/

/-- Without an overflow of the biased candidates the quantization of an integer control is
monotone. -/
theorem validate_new_int_mono (c : Ctrl) (v1 v2 : Int) (ht : c.type = .INTEGER)
    (hmin : isS32 c.minimum) (hmax : isS32 c.maximum) (hle : c.minimum ≤ c.maximum)
    (hpos : 0 < c.step) (h1 : isS32 v1) (h12 : v1 ≤ v2)
    (hno : v2 + (c.step / 2 : Nat) ≤ 2147483647) :
    (validate_new_int c v1).2 ≤ (validate_new_int c v2).2 := by
  rw [validate_new_int_integer c v1 ht hmin hmax hle hpos,
    validate_new_int_integer c v2 ht hmin hmax hle hpos]
  have hb1 : isS32 (v1 + (c.step / 2 : Nat)) := by unfold isS32 at h1 ⊢; omega
  have hb2 : isS32 (v2 + (c.step / 2 : Nat)) := by unfold isS32 at h1 ⊢; omega
  rw [s32_of_isS32 hb1, s32_of_isS32 hb2]
  have hs' : (0 : Int) < c.step := by exact_mod_cast hpos
  have hc : clamp (v1 + (c.step / 2 : Nat)) c.minimum c.maximum ≤
      clamp (v2 + (c.step / 2 : Nat)) c.minimum c.maximum := by
    unfold clamp
    simp only
    split_ifs <;> omega
  have hd := Int.ediv_le_ediv hs' (Int.sub_le_sub_right hc c.minimum)
  have hm := Int.mul_le_mul_of_nonneg_left hd (le_of_lt hs')
  simp only
  omega

/-- Claim C37 fails on the code: for the integer control with the range `[0,10]` and the
step 3, the candidates `5 ≤ 2147483647` are validated to 6 and to 0. The bias
`val += step / 2` wraps the candidate `2147483647` to `-2147483648`, which is clamped to
the minimum, although the closest legal value, which the comment of the code promises, is
9. -/
theorem C37_wrap_breaks_monotonicity :
    scenarioCtrl.type = .INTEGER ∧ scenarioCtrl.minimum = 0 ∧ scenarioCtrl.maximum = 10 ∧
    scenarioCtrl.step = 3 ∧ isS32 5 ∧ isS32 2147483647 ∧
    validate_new_int scenarioCtrl 5 = (0, 6) ∧
    validate_new_int scenarioCtrl 2147483647 = (0, 0) ∧
    ¬ ((validate_new_int scenarioCtrl 5).2 ≤ (validate_new_int scenarioCtrl 2147483647).2) := by
  decide

/-! ## A created control and the lookup -/

/-- The counterexample to C38 as stated: on the reachable registry `builtReg`, which has a
reference with the ID of brightness, `v4l2_ctrl_new` for the same ID returns the new
control 2, but the lookup of the ID that follows returns the control 0, and no reference
of the sorted list addresses the control 2. -/
theorem C38_counterexample :
    Reachable exCatalog builtReg.hdl builtReg.store ∧
    (v4l2_ctrl_new exCatalog builtReg.hdl builtReg.store none 0x00980900 (some "Brightness")
      .INTEGER 0 20 1 7 0 none).ctrl = some 2 ∧
    (v4l2_ctrl_find
      (some (v4l2_ctrl_new exCatalog builtReg.hdl builtReg.store none 0x00980900
        (some "Brightness") .INTEGER 0 20 1 7 0 none).hdl)
      (v4l2_ctrl_new exCatalog builtReg.hdl builtReg.store none 0x00980900
        (some "Brightness") .INTEGER 0 20 1 7 0 none).store 0x00980900).1 = some 0 ∧
    ∀ r ∈ (v4l2_ctrl_new exCatalog builtReg.hdl builtReg.store none 0x00980900
        (some "Brightness") .INTEGER 0 20 1 7 0 none).hdl.ctrl_refs,
      ((v4l2_ctrl_new exCatalog builtReg.hdl builtReg.store none 0x00980900
        (some "Brightness") .INTEGER 0 20 1 7 0 none).hdl.ref (some r)).ctrl ≠ some 2 :=
  ⟨builtReg_reachable, by decide, by decide, by decide⟩

/-- Claim C38, amended. A created control is findable when its ID is new: whenever
`v4l2_ctrl_new` returns a control `p` for the ID `id` on a reachable registry, the sorted
reference list of the registry has afterwards a reference with the ID `id`, and
`v4l2_ctrl_find` for `id` returns the control of that reference. When the registry had no
reference with the ID before the call, that control is `p`; when it had one, that control
is the control registered before, which is not `p`. -/
theorem C38_created_control_findable (cat : Catalog) (h : Handler) (s : Store)
    (hr : Reachable cat h s) (ops : Option Ops) (id : Nat) (name : Option String)
    (type : CtrlType) (min max : Int) (step : Nat) (dflt : Int) (flags : Nat)
    (qmenu : Option (List String)) (p : Nat)
    (hp : (v4l2_ctrl_new cat h s ops id name type min max step dflt flags qmenu).ctrl = some p) :
    ∃ r ∈ (v4l2_ctrl_new cat h s ops id name type min max step dflt flags qmenu).hdl.ctrl_refs,
      node2id (v4l2_ctrl_new cat h s ops id name type min max step dflt flags qmenu).hdl
        (v4l2_ctrl_new cat h s ops id name type min max step dflt flags qmenu).store r = id ∧
      (v4l2_ctrl_find
        (some (v4l2_ctrl_new cat h s ops id name type min max step dflt flags qmenu).hdl)
        (v4l2_ctrl_new cat h s ops id name type min max step dflt flags qmenu).store id).1 =
        ((v4l2_ctrl_new cat h s ops id name type min max step dflt flags qmenu).hdl.ref
          (some r)).ctrl ∧
      ((∀ r0 ∈ h.ctrl_refs, node2id h s r0 ≠ id) →
        ((v4l2_ctrl_new cat h s ops id name type min max step dflt flags qmenu).hdl.ref
          (some r)).ctrl = some p) ∧
      (∀ r0 ∈ h.ctrl_refs, node2id h s r0 = id →
        r = r0 ∧
        ((v4l2_ctrl_new cat h s ops id name type min max step dflt flags qmenu).hdl.ref
          (some r)).ctrl = (h.ref (some r0)).ctrl ∧
        (h.ref (some r0)).ctrl ≠ some p) := by
  obtain ⟨inv, hw⟩ := reachable_inv cat h s hr
  have spec := v4l2_ctrl_new_with_spec cat 0 inv hw ops id name type min max step dflt flags
    qmenu (v4l2_ctrl_new cat h s ops id name type min max step dflt flags qmenu) rfl
  generalize v4l2_ctrl_new cat h s ops id name type min max step dflt flags qmenu = m
    at hp spec ⊢
  rcases spec with ⟨hn, _⟩ | ⟨_, hc, inv1, hw1, g, _, hid, ⟨r, hr1, hrid, hfresh⟩, _⟩
  · rw [hn] at hp; cases hp
  · have hpe : p = s.ctrls.length := by
      rw [hc] at hp; exact (Option.some.inj hp).symm
    have hv : m.store.valid (m.hdl.ref (some r)).ctrl := inv1.valid r hr1
    have hlt : id < V4L2_CID_PRIVATE_BASE := by
      have := (wf_get hw1 _ hv).2
      unfold node2id at hrid
      rw [hrid] at this; exact this
    have hmask : id &&& V4L2_CTRL_ID_MASK = id := mask_of_lt_private hlt
    refine ⟨r, hr1, hrid, ?_, ?_, ?_⟩
    · rw [v4l2_ctrl_find_lookup inv1 id (by rw [hmask]; exact hlt), hmask]
      have := lookup_of_mem inv1 hr1
      rw [hrid] at this
      rw [this]
    · intro hf
      rw [hpe]; exact hfresh hf
    · intro r0 hr0 hid0
      have e1 : node2id m.hdl m.store r0 = id := (node2id_grows inv g r0 hr0).trans hid0
      have hrr : r = r0 := ref_unique inv1 hr1 (g.old r0 hr0).1 (hrid.trans e1.symm)
      refine ⟨hrr, ?_, ?_⟩
      · rw [hrr]; exact (g.old r0 hr0).2
      · intro hcontra
        have hv0 := inv.valid r0 hr0
        rw [hcontra, hpe] at hv0
        simp only [Store.valid] at hv0
        omega

/-- The witness of C38: brightness on the fresh registry is found after its creation; the
second control with the ID of brightness is not. -/
theorem C38_witness :
    (∃ r ∈ (v4l2_ctrl_new exCatalog builtReg.hdl builtReg.store none 0x00980901
        (some "Contrast") .INTEGER 0 10 1 5 0 none).hdl.ctrl_refs,
      node2id (v4l2_ctrl_new exCatalog builtReg.hdl builtReg.store none 0x00980901
        (some "Contrast") .INTEGER 0 10 1 5 0 none).hdl
        (v4l2_ctrl_new exCatalog builtReg.hdl builtReg.store none 0x00980901
        (some "Contrast") .INTEGER 0 10 1 5 0 none).store r = 0x00980901 ∧
      (v4l2_ctrl_find
        (some (v4l2_ctrl_new exCatalog builtReg.hdl builtReg.store none 0x00980901
          (some "Contrast") .INTEGER 0 10 1 5 0 none).hdl)
        (v4l2_ctrl_new exCatalog builtReg.hdl builtReg.store none 0x00980901
          (some "Contrast") .INTEGER 0 10 1 5 0 none).store 0x00980901).1 =
        ((v4l2_ctrl_new exCatalog builtReg.hdl builtReg.store none 0x00980901
          (some "Contrast") .INTEGER 0 10 1 5 0 none).hdl.ref (some r)).ctrl ∧
      ((∀ r0 ∈ builtReg.hdl.ctrl_refs,
          node2id builtReg.hdl builtReg.store r0 ≠ 0x00980901) →
        ((v4l2_ctrl_new exCatalog builtReg.hdl builtReg.store none 0x00980901
          (some "Contrast") .INTEGER 0 10 1 5 0 none).hdl.ref (some r)).ctrl = some 2) ∧
      (∀ r0 ∈ builtReg.hdl.ctrl_refs,
        node2id builtReg.hdl builtReg.store r0 = 0x00980901 →
        r = r0 ∧
        ((v4l2_ctrl_new exCatalog builtReg.hdl builtReg.store none 0x00980901
          (some "Contrast") .INTEGER 0 10 1 5 0 none).hdl.ref (some r)).ctrl =
          (builtReg.hdl.ref (some r0)).ctrl ∧
        (builtReg.hdl.ref (some r0)).ctrl ≠ some 2)) ∧
    (v4l2_ctrl_find
      (some (v4l2_ctrl_new exCatalog builtReg.hdl builtReg.store none 0x00980901
        (some "Contrast") .INTEGER 0 10 1 5 0 none).hdl)
      (v4l2_ctrl_new exCatalog builtReg.hdl builtReg.store none 0x00980901
        (some "Contrast") .INTEGER 0 10 1 5 0 none).store 0x00980901).1 = some 2 :=
  ⟨C38_created_control_findable exCatalog builtReg.hdl builtReg.store builtReg_reachable none
      0x00980901 (some "Contrast") .INTEGER 0 10 1 5 0 none 2 (by decide),
    by decide⟩

/-! ## The step of a string control -/

/-- Claim C40 fails on the code: `v4l2_ctrl_new` tests `step == 0` for the type `INTEGER`
only, so it accepts the string control of `zeroStepReg` with the step 0, stores no error
and makes the control findable; `validate_new` computes `(len - minimum) % step` for every
string of this control whose length is at least the minimum, a division by zero in C. -/
theorem C40_string_step_zero_accepted :
    zeroStepReg.ctrl = some 0 ∧ zeroStepReg.hdl.error = 0 ∧
    Reachable exCatalog zeroStepReg.hdl zeroStepReg.store ∧
    (v4l2_ctrl_find (some zeroStepReg.hdl) zeroStepReg.store 0x00981003).1 = some 0 ∧
    (zeroStepReg.store.get (some 0)).type = .STRING ∧
    (zeroStepReg.store.get (some 0)).minimum = 0 ∧
    (zeroStepReg.store.get (some 0)).maximum = 8 ∧
    (zeroStepReg.store.get (some 0)).step = 0 :=
  ⟨by decide, by decide,
    Reachable.new_custom _ _ _ (Reachable.init 1 0 ⟨[], []⟩ (fun c hc => by simp at hc)),
    by decide, by decide, by decide, by decide, by decide⟩

/-! ## The paths of a set of a cluster -/

theorem try_or_set_cluster_staged_err (s : Store) (fh m : Option Nat) (e : Int)
    (h : (set_staged s m).1 = some e) :
    try_or_set_cluster s fh m true = (e, (set_staged s m).2) := by
  unfold set_staged at h ⊢
  unfold try_or_set_cluster
  generalize stage_cluster true s (s.get m).cluster = st at h ⊢
  obtain ⟨e', s3⟩ := st
  cases e' with
  | some err => simp only at h ⊢; rw [Option.some.inj h]
  | none => cases h

theorem try_or_set_cluster_staged_ok (s : Store) (fh m : Option Nat)
    (h : (set_staged s m).1 = none) :
    try_or_set_cluster s fh m true =
      if (set_tried s m).1 ≠ 0 ∨ cluster_changed (set_tried s m).2 m = false then
        ((set_tried s m).1, (set_tried s m).2)
      else if (set_applied s m).1 ≠ 0 then ((set_applied s m).1, (set_applied s m).2)
      else (0, commit_cluster fh
        (is_cur_manual ((set_applied s m).2.get m) != is_new_manual ((set_applied s m).2.get m))
        (set_applied s m).2 ((set_applied s m).2.get m).cluster 0) := by
  unfold set_applied set_tried
  unfold set_staged at h ⊢
  unfold try_or_set_cluster
  generalize stage_cluster true s (s.get m).cluster = st at h ⊢
  obtain ⟨e', s3⟩ := st
  cases e' with
  | some err => cases h
  | none =>
    simp only
    by_cases h1 : (call_op s3 m OpKind.try_ctrl).1 ≠ 0 ∨
        cluster_changed (call_op s3 m OpKind.try_ctrl).2 m = false
    · rw [if_pos h1, if_pos (by
        rcases h1 with h1 | h1
        · exact Or.inl h1
        · exact Or.inr (Or.inr h1))]
    · rw [if_neg h1, if_neg (by
        intro hh
        rcases hh with hh | hh | hh
        · exact h1 (Or.inl hh)
        · cases hh
        · exact h1 (Or.inr hh))]

/-- The first loop of a set changes pending values only and calls nothing. -/
theorem step_set_staged (s : Store) (m : Option Nat) :
    Step erasePending (fun _ => False) s (set_staged s m).2 :=
  step_stage_cluster erasePending_idem (fun _ => False) true (s.get m).cluster s

/-- Up to the validate callback a set changes pending values only, and it calls nothing but
`try_ctrl` of the master. -/
theorem step_set_tried (s : Store) (m : Option Nat) :
    Step erasePending (fun e => e = LogEntry.call .try_ctrl m) s (set_tried s m).2 :=
  step_trans (step_mono (step_set_staged s m) (fun _ h => h.elim))
    (step_call_op erasePending_idem _ _ m .try_ctrl rfl)

/-- Up to the apply callback a set changes pending values only, and it calls nothing but
`try_ctrl` and `s_ctrl` of the master. -/
theorem step_set_applied (s : Store) (m : Option Nat) :
    Step erasePending (fun e => e = LogEntry.call .try_ctrl m ∨ e = LogEntry.call .s_ctrl m) s
      (set_applied s m).2 :=
  step_trans (step_mono (step_set_tried s m) (fun _ h => Or.inl h))
    (step_call_op erasePending_idem _ _ m .s_ctrl (Or.inr rfl))

theorem set_staged_none_iff (s : Store) (m : Option Nat) :
    (set_staged s m).1 = none ↔
      ∀ x ∈ (s.get m).cluster, (s.get x).is_new = true →
        hasFlag (s.get x).flags V4L2_CTRL_FLAG_GRABBED = false :=
  stage_cluster_none_iff (s.get m).cluster s

theorem set_staged_err (s : Store) (m : Option Nat) (e : Int) (h : (set_staged s m).1 = some e) :
    e = -EBUSY :=
  stage_cluster_err true (s.get m).cluster s e h

/-! ## Atomicity of a failed set of a cluster -/

/-- Claim C33. Per-cluster atomicity on failure: in `try_or_set_cluster` on a set, if a
member of the cluster with a new value is grabbed the result is `-EBUSY` and nothing is
called; otherwise, if the validate callback `try_ctrl` returns an error, that error is the
result; otherwise, if the cluster changed and the apply callback `s_ctrl` returns an error,
that error is the result; and these are the only failures. In every failure every control
of the store keeps all but its pending value (so no member of the cluster has its committed
value or its flags changed), and the trace grows by calls of `try_ctrl` and `s_ctrl` of the
master only: no event is sent. -/
theorem C33_cluster_failure_atomic (s : Store) (fh m : Option Nat) :
    ((∃ x ∈ (s.get m).cluster, (s.get x).is_new = true ∧
        hasFlag (s.get x).flags V4L2_CTRL_FLAG_GRABBED = true) →
      (try_or_set_cluster s fh m true).1 = -EBUSY ∧
      (try_or_set_cluster s fh m true).2.log = s.log) ∧
    ((set_staged s m).1 = none → (set_tried s m).1 ≠ 0 →
      (try_or_set_cluster s fh m true).1 = (set_tried s m).1) ∧
    ((set_staged s m).1 = none → (set_tried s m).1 = 0 →
      cluster_changed (set_tried s m).2 m = true → (set_applied s m).1 ≠ 0 →
      (try_or_set_cluster s fh m true).1 = (set_applied s m).1) ∧
    ((try_or_set_cluster s fh m true).1 ≠ 0 →
      ((∃ x ∈ (s.get m).cluster, (s.get x).is_new = true ∧
          hasFlag (s.get x).flags V4L2_CTRL_FLAG_GRABBED = true) ∨
        ((set_staged s m).1 = none ∧ (set_tried s m).1 ≠ 0) ∨
        ((set_staged s m).1 = none ∧ (set_tried s m).1 = 0 ∧
          cluster_changed (set_tried s m).2 m = true ∧ (set_applied s m).1 ≠ 0)) ∧
      (∀ x, ((try_or_set_cluster s fh m true).2.get x).cur = (s.get x).cur ∧
        ((try_or_set_cluster s fh m true).2.get x).flags = (s.get x).flags) ∧
      (try_or_set_cluster s fh m true).2.ctrls.map erasePending = s.ctrls.map erasePending ∧
      ∃ l, (try_or_set_cluster s fh m true).2.log = s.log ++ l ∧
        ∀ e ∈ l, e = LogEntry.call .try_ctrl m ∨ e = LogEntry.call .s_ctrl m) := by
  refine ⟨?_, ?_, ?_, ?_⟩
  · rintro ⟨x, hx, hn, hg⟩
    obtain ⟨h1, h2⟩ := try_or_set_cluster_busy s fh m x hx hn hg
    exact ⟨h1, step_false_log h2⟩
  · intro h0 h1
    rw [try_or_set_cluster_staged_ok s fh m h0, if_pos (Or.inl h1)]
  · intro h0 h1 h2 h3
    rw [try_or_set_cluster_staged_ok s fh m h0, if_neg (by
      intro hh
      rcases hh with hh | hh
      · exact hh h1
      · rw [h2] at hh; cases hh), if_pos h3]
  · intro hret
    have frame : ∀ t : Store,
        Step erasePending
          (fun e => e = LogEntry.call .try_ctrl m ∨ e = LogEntry.call .s_ctrl m) s t →
        (∀ x, (t.get x).cur = (s.get x).cur ∧ (t.get x).flags = (s.get x).flags) ∧
        t.ctrls.map erasePending = s.ctrls.map erasePending ∧
        ∃ l, t.log = s.log ++ l ∧
          ∀ e ∈ l, e = LogEntry.call .try_ctrl m ∨ e = LogEntry.call .s_ctrl m := by
      intro t ht
      refine ⟨fun x => ?_, ht.1, ht.2⟩
      have := erasePending_fields (step_get ht x)
      exact ⟨this.2.2.2.2, this.2.2.2.1⟩
    cases h0 : (set_staged s m).1 with
    | some e =>
      rw [try_or_set_cluster_staged_err s fh m e h0] at hret ⊢
      refine ⟨Or.inl ?_, frame _ (step_mono (step_set_staged s m) (fun _ h => h.elim))⟩
      by_contra hcon
      have : (set_staged s m).1 = none := by
        rw [set_staged_none_iff]
        intro x hx hn
        by_contra hg
        exact hcon ⟨x, hx, hn, by simpa using hg⟩
      rw [this] at h0; cases h0
    | none =>
      rw [try_or_set_cluster_staged_ok s fh m h0] at hret ⊢
      by_cases h1 : (set_tried s m).1 ≠ 0 ∨ cluster_changed (set_tried s m).2 m = false
      · rw [if_pos h1] at hret ⊢
        simp only at hret
        exact ⟨Or.inr (Or.inl ⟨rfl, hret⟩),
          frame _ (step_mono (step_set_tried s m) (fun _ h => Or.inl h))⟩
      · rw [if_neg h1] at hret ⊢
        have h1a : (set_tried s m).1 = 0 := by
          by_contra hh; exact h1 (Or.inl hh)
        have h1b : cluster_changed (set_tried s m).2 m = true := by
          by_contra hh; exact h1 (Or.inr (by simpa using hh))
        by_cases h2 : (set_applied s m).1 ≠ 0
        · rw [if_pos h2]
          exact ⟨Or.inr (Or.inr ⟨rfl, h1a, h1b, h2⟩), frame _ (step_set_applied s m)⟩
        · rw [if_neg h2] at hret
          exact absurd rfl hret

/-- The witness of C33: a set of the grabbed brightness fails with `-EBUSY`; a set of
brightness with the backend `exRejectOps` fails with the `-ERANGE` of `try_ctrl`; with the
backend `exFailOps` it fails with the `-EFAULT` of `s_ctrl`. The committed value stays 5
and the subscriber is sent nothing. -/
theorem C33_witness :
    ((try_or_set_cluster (set_ctrl_staged exGrabbed (some 1) 3) (some 9) (some 1) true).1 =
        -EBUSY ∧
      (try_or_set_cluster (set_ctrl_staged exGrabbed (some 1) 3) (some 9) (some 1) true).2.log =
        (set_ctrl_staged exGrabbed (some 1) 3).log) ∧
    (try_or_set_cluster (set_ctrl_staged rejectStore (some 0) 3) (some 9) (some 0) true).1 =
      (set_tried (set_ctrl_staged rejectStore (some 0) 3) (some 0)).1 ∧
    (try_or_set_cluster (set_ctrl_staged failStore (some 0) 3) (some 9) (some 0) true).1 =
      (set_applied (set_ctrl_staged failStore (some 0) 3) (some 0)).1 ∧
    (try_or_set_cluster (set_ctrl_staged rejectStore (some 0) 3) (some 9) (some 0) true).1 =
      -ERANGE ∧
    (try_or_set_cluster (set_ctrl_staged failStore (some 0) 3) (some 9) (some 0) true).1 =
      -EFAULT ∧
    ((try_or_set_cluster (set_ctrl_staged failStore (some 0) 3) (some 9) (some 0) true).2.get
      (some 0)).cur.val = 5 ∧
    (try_or_set_cluster (set_ctrl_staged failStore (some 0) 3) (some 9) (some 0) true).2.log =
      [LogEntry.call .s_ctrl (some 0)] :=
  ⟨(C33_cluster_failure_atomic (set_ctrl_staged exGrabbed (some 1) 3) (some 9) (some 1)).1
      ⟨some 1, by decide, by decide, by decide⟩,
    (C33_cluster_failure_atomic (set_ctrl_staged rejectStore (some 0) 3) (some 9)
      (some 0)).2.1 (by decide) (by decide),
    (C33_cluster_failure_atomic (set_ctrl_staged failStore (some 0) 3) (some 9)
      (some 0)).2.2.1 (by decide) (by decide) (by decide) (by decide),
    by decide, by decide, by decide, by decide⟩

/-! ## The commit of a cluster -/

theorem is_cur_manual_congr {c c' : Ctrl} (h1 : c'.is_auto = c.is_auto)
    (h2 : c'.cur.val = c.cur.val) (h3 : c'.manual_mode_value = c.manual_mode_value) :
    is_cur_manual c' = is_cur_manual c := by
  unfold is_cur_manual; rw [h1, h2, h3]

theorem copy_new_to_cur_fields (c : Ctrl) :
    (copy_new_to_cur c).cluster = c.cluster ∧ (copy_new_to_cur c).flags = c.flags ∧
    (copy_new_to_cur c).is_new = c.is_new ∧ (copy_new_to_cur c).ev_subs = c.ev_subs ∧
    (copy_new_to_cur c).is_auto = c.is_auto ∧
    (copy_new_to_cur c).manual_mode_value = c.manual_mode_value ∧
    (copy_new_to_cur c).id = c.id := by
  unfold copy_new_to_cur; split <;> exact ⟨rfl, rfl, rfl, rfl, rfl, rfl, rfl⟩

/-- What `new_to_cur` does to the store: the control gets its new value as the current
value and the flags `commitFlags`; no other control changes. -/
theorem new_to_cur_get (s : Store) (fh : Option Nat) (p : Nat) (b : Bool) (x : Option Nat) :
    (new_to_cur s fh (some p) b).get x =
      if some p = x ∧ s.valid x then
        { copy_new_to_cur (s.get x) with flags := commitFlags s (some p) b }
      else s.get x := by
  have hcl : ((s.upd (some p) copy_new_to_cur).get (some p)).cluster =
      (s.get (some p)).cluster := by
    rw [get_upd]; split_ifs
    · exact (copy_new_to_cur_fields _).1
    · rfl
  unfold new_to_cur commitFlags
  simp only
  cases b with
  | false =>
    simp only [Bool.false_eq_true, if_false, Bool.or_false]
    have key : (s.upd (some p) copy_new_to_cur).get x =
        if some p = x ∧ s.valid x then
          { copy_new_to_cur (s.get x) with flags := (s.get (some p)).flags }
        else s.get x := by
      rw [get_upd]
      split_ifs with h
      · obtain ⟨rfl, _⟩ := h
        have := (copy_new_to_cur_fields (s.get (some p))).2.1
        rw [← this]
      · rfl
    split_ifs <;> (try simp only [send_event_get]) <;> rw [key] <;> simp_all
  | true =>
    simp only [if_true, Bool.or_true]
    rw [send_event_get, upd_upd]
    have hA : ((s.upd (some p) ((fun c : Ctrl =>
        { c with flags := clearFlag c.flags V4L2_CTRL_FLAG_INACTIVE }) ∘ copy_new_to_cur)).get
          (some p)).cluster = (s.get (some p)).cluster := by
      rw [get_upd]; split_ifs
      · exact (copy_new_to_cur_fields _).1
      · rfl
    have hB : ∀ m, is_cur_manual ((s.upd (some p) ((fun c : Ctrl =>
        { c with flags := clearFlag c.flags V4L2_CTRL_FLAG_INACTIVE }) ∘ copy_new_to_cur)).get m) =
        is_cur_manual ((s.upd (some p) copy_new_to_cur).get m) := by
      intro m
      rw [get_upd, get_upd]; split_ifs <;> rfl
    rw [hA, hB]
    have hfl := (copy_new_to_cur_fields (s.get (some p))).2.1
    cases hm : is_cur_manual ((s.upd (some p) copy_new_to_cur).get
        ((s.get (some p)).cluster.headD none))
    · simp only [Bool.not_false, if_true, Bool.false_eq_true, if_false]
      rw [upd_upd, get_upd]
      split_ifs with h
      · obtain ⟨rfl, _⟩ := h
        simp only [Function.comp, hfl]
      · rfl
    · simp only [Bool.not_true, Bool.false_eq_true, if_false, if_true]
      rw [get_upd]
      split_ifs with h
      · obtain ⟨rfl, _⟩ := h
        simp only [Function.comp, hfl]
      · rfl

theorem eraseNew_fields {c c' : Ctrl} (h : eraseNew c' = eraseNew c) :
    c'.cluster = c.cluster ∧ c'.ops = c.ops ∧ c'.type = c.type ∧ c'.flags = c.flags ∧
    c'.cur = c.cur ∧ c'.is_new = c.is_new ∧ c'.ev_subs = c.ev_subs ∧ c'.id = c.id ∧
    c'.is_auto = c.is_auto ∧ c'.manual_mode_value = c.manual_mode_value := by
  have h1 := congrArg Ctrl.cluster h
  have h2 := congrArg Ctrl.ops h
  have h3 := congrArg Ctrl.type h
  have h4 := congrArg Ctrl.flags h
  have h5 := congrArg Ctrl.cur h
  have h6 := congrArg Ctrl.is_new h
  have h7 := congrArg Ctrl.ev_subs h
  have h8 := congrArg Ctrl.id h
  have h9 := congrArg Ctrl.is_auto h
  have h10 := congrArg Ctrl.manual_mode_value h
  exact ⟨h1, h2, h3, h4, h5, h6, h7, h8, h9, h10⟩

theorem eraseNew_copy_cur_to_new (c : Ctrl) : eraseNew (copy_cur_to_new c) = eraseNew c := by
  unfold copy_cur_to_new; split <;> rfl

theorem step_stage_cluster_new (ok : LogEntry → Prop) (set : Bool) (l : List (Option Nat)) :
    ∀ s, Step eraseNew ok s (stage_cluster set s l).2 := by
  induction l with
  | nil => intro s; exact step_refl _ ok s
  | cons p rest ih =>
    intro s
    cases p with
    | none => unfold stage_cluster; exact ih s
    | some i =>
      unfold stage_cluster
      simp only
      split_ifs
      · exact step_trans (step_upd _ ok s (some i) _ eraseNew_copy_cur_to_new) (ih _)
      · exact step_refl _ ok s
      · exact ih s

theorem step_setPending_new (ok : LogEntry → Prop) (ps : List (Option Nat)) :
    ∀ (vs : List (Option Pending)) (s : Store), Step eraseNew ok s (setPending s ps vs) := by
  induction ps with
  | nil => intro vs s; exact step_refl _ ok s
  | cons p rest ih =>
    intro vs s
    cases p with
    | none =>
      cases vs with
      | nil => exact step_refl _ ok s
      | cons v vs => exact ih vs s
    | some i =>
      cases vs with
      | nil => exact step_refl _ ok s
      | cons v vs =>
        cases v with
        | none => exact ih vs s
        | some v =>
          exact step_trans
            (step_upd _ ok s (some i) (fun c => { c with new := v }) (fun c => rfl)) (ih vs _)

theorem step_call_op_new (ok : LogEntry → Prop) (s : Store) (master : Option Nat)
    (op : OpKind) (hok : ok (LogEntry.call op master)) :
    Step eraseNew ok s (call_op s master op).2 := by
  unfold call_op
  simp only
  split
  · exact step_refl _ ok s
  · split
    · exact step_refl _ ok s
    · refine step_trans (step_setPending_new ok _ _ s) ⟨rfl, [LogEntry.call op master], rfl, ?_⟩
      intro e he
      simp at he
      subst he
      exact hok

/-- Up to the apply callback a set changes nothing of a control but its pending value. -/
theorem step_set_applied_new (s : Store) (m : Option Nat) :
    Step eraseNew (fun _ => True) s (set_tried s m).2 ∧
    Step eraseNew (fun _ => True) s (set_applied s m).2 := by
  have h1 : Step eraseNew (fun _ => True) s (set_tried s m).2 :=
    step_trans (step_stage_cluster_new _ true (s.get m).cluster s)
      (step_call_op_new _ _ m .try_ctrl trivial)
  exact ⟨h1, step_trans h1 (step_call_op_new _ _ m .s_ctrl trivial)⟩

theorem value_changed_copy_new_to_cur (c : Ctrl) (f : Nat) (h : c.type ≠ .BUTTON) :
    value_changed { copy_new_to_cur c with flags := f } = false := by
  unfold copy_new_to_cur value_changed
  cases ht : c.type <;> simp_all

theorem value_changed_null : value_changed Ctrl.null = false := by decide

/-- After the last loop of `try_or_set_cluster` a member that is not a button has a new
value that does not differ from its current value; the loop leaves the new values and the
types. -/
theorem commit_cluster_settled (fh : Option Nat) (uf : Bool) (x : Option Nat)
    (l : List (Option Nat)) : ∀ (s : Store) (i : Nat),
    (s.get x).type ≠ .BUTTON →
    (value_changed (s.get x) = false ∨ x ∈ l) →
    value_changed ((commit_cluster fh uf s l i).get x) = false ∧
    ((commit_cluster fh uf s l i).get x).new = (s.get x).new ∧
    ((commit_cluster fh uf s l i).get x).type = (s.get x).type := by
  induction l with
  | nil =>
    intro s i _ h
    rcases h with h | h
    · exact ⟨h, rfl, rfl⟩
    · simp at h
  | cons y rest ih =>
    intro s i hty h
    unfold commit_cluster
    cases y with
    | none =>
      have e : new_to_cur s fh none (uf && decide (0 < i)) = s := rfl
      rw [e]
      refine ih s (i + 1) hty ?_
      rcases h with h | h
      · exact Or.inl h
      · rcases List.mem_cons.1 h with rfl | h
        · exact Or.inl value_changed_null
        · exact Or.inr h
    | some p =>
      have hg := new_to_cur_get s fh p (uf && decide (0 < i)) x
      by_cases hc : some p = x ∧ s.valid x
      · rw [if_pos hc] at hg
        have h1 : ((new_to_cur s fh (some p) (uf && decide (0 < i))).get x).type ≠ .BUTTON := by
          rw [hg]; simpa [copy_new_to_cur_type] using hty
        obtain ⟨r1, r2, r3⟩ := ih (new_to_cur s fh (some p) (uf && decide (0 < i))) (i + 1) h1
          (Or.inl (by rw [hg]; exact value_changed_copy_new_to_cur _ _ hty))
        refine ⟨r1, ?_, ?_⟩
        · rw [r2, hg]; exact copy_new_to_cur_new _
        · rw [r3, hg]; exact copy_new_to_cur_type _
      · rw [if_neg hc] at hg
        have h1 : ((new_to_cur s fh (some p) (uf && decide (0 < i))).get x).type ≠ .BUTTON := by
          rw [hg]; exact hty
        have h2 : value_changed ((new_to_cur s fh (some p) (uf && decide (0 < i))).get x) =
            false ∨ x ∈ rest := by
          rw [hg]
          rcases h with h | h
          · exact Or.inl h
          · rcases List.mem_cons.1 h with e | h
            · left
              have hnv : ¬ s.valid x := fun hv => hc ⟨e.symm, hv⟩
              rw [get_of_not_valid s x hnv]; exact value_changed_null
            · exact Or.inr h
        obtain ⟨r1, r2, r3⟩ := ih (new_to_cur s fh (some p) (uf && decide (0 < i))) (i + 1) h1 h2
        exact ⟨r1, by rw [r2, hg], by rw [r3, hg]⟩

theorem cluster_changed_true_iff (s : Store) (m : Option Nat) :
    cluster_changed s m = true ↔
      ∃ i, some i ∈ (s.get m).cluster ∧
        ((s.get (some i)).type = .BUTTON ∨ value_changed (s.get (some i)) = true) := by
  unfold cluster_changed
  have h := cluster_changed_loop_false_iff s (s.get m).cluster
  constructor
  · intro ht
    by_contra hcon
    have : cluster_changed_loop s (s.get m).cluster = false := by
      rw [h]
      intro i hi
      constructor
      · intro hb; exact hcon ⟨i, hi, Or.inl hb⟩
      · cases hv : value_changed (s.get (some i))
        · rfl
        · exact absurd ⟨i, hi, Or.inr hv⟩ hcon
    rw [this] at ht; cases ht
  · rintro ⟨i, hi, hb⟩
    cases hcc : cluster_changed_loop s (s.get m).cluster
    · have := h.1 hcc i hi
      rcases hb with hb | hb
      · exact absurd hb this.1
      · rw [this.2] at hb; cases hb
    · rfl

theorem has_op_congr {c c' : Ctrl} (h : c'.ops = c.ops) (op : OpKind) :
    has_op c' op = has_op c op := by
  unfold has_op; rw [h]

theorem value_changed_false (c : Ctrl) (h : value_changed c = false) :
    (c.type = .STRING → c.cur.string = c.new.string) ∧
    (c.type = .INTEGER64 → c.cur.val64 = c.new.val64) ∧
    (scalarType c.type → c.cur.val = c.new.val) := by
  unfold scalarType
  unfold value_changed at h
  cases ht : c.type <;> simp_all

theorem callCount_append_call (s t : Store) (op : OpKind) (m : Option Nat)
    (h : t.log = s.log ++ [LogEntry.call op m]) : callCount t op m = callCount s op m + 1 := by
  unfold callCount
  rw [h, List.count_append]
  simp

/-- The counterexample to C32 as stated: the button of `buttonReg` has the default value 5
in its storage; a set of the button stages the pending value 0, the first loop passes, both
callbacks are absent and count as success, and the set succeeds; afterwards the committed
value of the button, a non-null member of the cluster, is still 5 while its pending value
is 0, because `new_to_cur` copies nothing for a button. -/
theorem C32_counterexample :
    buttonReg.ctrl = some 0 ∧ (buttonReg.store.get (some 0)).type = .BUTTON ∧
    (buttonReg.store.get (some 0)).cluster = [some 0] ∧
    (validate_new_int (buttonReg.store.get (some 0)) 1).2 = 0 ∧
    (set_staged (set_ctrl_staged buttonReg.store (some 0) 0) (some 0)).1 = none ∧
    (set_tried (set_ctrl_staged buttonReg.store (some 0) 0) (some 0)).1 = 0 ∧
    (set_applied (set_ctrl_staged buttonReg.store (some 0) 0) (some 0)).1 = 0 ∧
    (try_or_set_cluster (set_ctrl_staged buttonReg.store (some 0) 0) none (some 0) true).1 = 0 ∧
    ((try_or_set_cluster (set_ctrl_staged buttonReg.store (some 0) 0) none (some 0) true).2.get
      (some 0)).cur.val = 5 ∧
    ((try_or_set_cluster (set_ctrl_staged buttonReg.store (some 0) 0) none (some 0) true).2.get
      (some 0)).new.val = 0 ∧
    (v4l2_s_ctrl none (some buttonReg.hdl) buttonReg.store 0x00981005 1).1 = 0 ∧
    ((v4l2_s_ctrl none (some buttonReg.hdl) buttonReg.store 0x00981005 1).2.2.2.get
      (some 0)).cur.val = 5 ∧
    ((v4l2_s_ctrl none (some buttonReg.hdl) buttonReg.store 0x00981005 1).2.2.2.get
      (some 0)).new.val = 0 := by
  decide

/-- Claim C32, amended. Cluster commit rule: in `try_or_set_cluster` on a set whose first
loop passes, the cluster counts as changed iff, in the store that the validate callback
`try_ctrl` left, at least one member is a button or has a new value that differs from its
current value; when the master has the apply callback `s_ctrl`, that callback is invoked
iff `try_ctrl` returned 0 and the cluster changed, and then once; and when `try_ctrl`
returned 0, the cluster changed and `s_ctrl` returned 0, the result is 0 and every member
that is not a button has afterwards the new value that `s_ctrl` left and a current value
equal to it, in the field of its type. For a button `new_to_cur` copies nothing. -/
theorem C32_cluster_commit_rule (s : Store) (fh m : Option Nat)
    (hst : (set_staged s m).1 = none) :
    (cluster_changed (set_tried s m).2 m = true ↔
      ∃ i, some i ∈ (s.get m).cluster ∧
        (((set_tried s m).2.get (some i)).type = .BUTTON ∨
          value_changed ((set_tried s m).2.get (some i)) = true)) ∧
    (has_op (s.get m) .s_ctrl = true →
      callCount (try_or_set_cluster s fh m true).2 .s_ctrl m =
        callCount s .s_ctrl m +
          (if (set_tried s m).1 = 0 ∧ cluster_changed (set_tried s m).2 m = true then 1
            else 0)) ∧
    ((set_tried s m).1 = 0 → cluster_changed (set_tried s m).2 m = true →
      (set_applied s m).1 = 0 →
      (try_or_set_cluster s fh m true).1 = 0 ∧
      ∀ i, some i ∈ (s.get m).cluster → (s.get (some i)).type ≠ .BUTTON →
        ((try_or_set_cluster s fh m true).2.get (some i)).new =
          ((set_applied s m).2.get (some i)).new ∧
        ((try_or_set_cluster s fh m true).2.get (some i)).type = (s.get (some i)).type ∧
        value_changed ((try_or_set_cluster s fh m true).2.get (some i)) = false ∧
        ((s.get (some i)).type = .STRING →
          ((try_or_set_cluster s fh m true).2.get (some i)).cur.string =
            ((try_or_set_cluster s fh m true).2.get (some i)).new.string) ∧
        ((s.get (some i)).type = .INTEGER64 →
          ((try_or_set_cluster s fh m true).2.get (some i)).cur.val64 =
            ((try_or_set_cluster s fh m true).2.get (some i)).new.val64) ∧
        (scalarType (s.get (some i)).type →
          ((try_or_set_cluster s fh m true).2.get (some i)).cur.val =
            ((try_or_set_cluster s fh m true).2.get (some i)).new.val)) := by
  obtain ⟨hT, hA⟩ := step_set_applied_new s m
  have hclT : ((set_tried s m).2.get m).cluster = (s.get m).cluster :=
    (eraseNew_fields (step_get hT m)).1
  have hclA : ((set_applied s m).2.get m).cluster = (s.get m).cluster :=
    (eraseNew_fields (step_get hA m)).1
  have hcT : callCount (set_tried s m).2 .s_ctrl m = callCount s .s_ctrl m :=
    callCount_step (step_mono (step_set_tried s m) (fun e he => by rw [he]; simp))
  rw [try_or_set_cluster_staged_ok s fh m hst]
  refine ⟨?_, ?_, ?_⟩
  · rw [cluster_changed_true_iff, hclT]
  · intro hop
    by_cases h1 : (set_tried s m).1 ≠ 0 ∨ cluster_changed (set_tried s m).2 m = false
    · have hc : ¬ ((set_tried s m).1 = 0 ∧ cluster_changed (set_tried s m).2 m = true) := by
        rintro ⟨a, b⟩
        rcases h1 with h1 | h1
        · exact h1 a
        · rw [b] at h1; cases h1
      rw [if_pos h1, if_neg hc]
      exact hcT
    · rw [if_neg h1]
      have h1a : (set_tried s m).1 = 0 := by
        by_contra hh; exact h1 (Or.inl hh)
      have h1b : cluster_changed (set_tried s m).2 m = true := by
        by_contra hh; exact h1 (Or.inr (by simpa using hh))
      have hc : (set_tried s m).1 = 0 ∧ cluster_changed (set_tried s m).2 m = true :=
        ⟨h1a, h1b⟩
      rw [if_pos hc]
      have hopT : has_op ((set_tried s m).2.get m) .s_ctrl = true := by
        rw [has_op_congr (eraseNew_fields (step_get hT m)).2.1]; exact hop
      have hcA : callCount (set_applied s m).2 .s_ctrl m = callCount s .s_ctrl m + 1 := by
        rw [← hcT]
        exact callCount_append_call _ _ _ _ (call_op_log (set_tried s m).2 m .s_ctrl hopT)
      by_cases h2 : (set_applied s m).1 ≠ 0
      · rw [if_pos h2]; exact hcA
      · rw [if_neg h2]
        simp only
        rw [← hcA]
        exact callCount_step (step_commit_cluster_ok _ (fun f ev => by simp) fh _ _ _ 0)
  · intro h1a h1b h2
    have hc1 : ¬ ((set_tried s m).1 ≠ 0 ∨ cluster_changed (set_tried s m).2 m = false) := by
      rintro (a | a)
      · exact a h1a
      · rw [h1b] at a; cases a
    have hc2 : ¬ (set_applied s m).1 ≠ 0 := fun a => a h2
    rw [if_neg hc1, if_neg hc2]
    refine ⟨rfl, ?_⟩
    intro i hi hty
    simp only
    have htyA : ((set_applied s m).2.get (some i)).type = (s.get (some i)).type :=
      (eraseNew_fields (step_get hA (some i))).2.2.1
    obtain ⟨r1, r2, r3⟩ := commit_cluster_settled fh
      (is_cur_manual ((set_applied s m).2.get m) != is_new_manual ((set_applied s m).2.get m))
      (some i) ((set_applied s m).2.get m).cluster (set_applied s m).2 0
      (by rw [htyA]; exact hty) (Or.inr (by rw [hclA]; exact hi))
    have r3' := r3.trans htyA
    obtain ⟨v1, v2, v3⟩ := value_changed_false _ r1
    refine ⟨r2, r3', r1, ?_, ?_, ?_⟩
    · intro ht; exact v1 (r3'.trans ht)
    · intro ht; exact v2 (r3'.trans ht)
    · intro ht; exact v3 (by rw [r3']; exact ht)

/-- The witness of C32: a set of brightness to 3 with the backend `exApplyOps`: the apply
callback is invoked once and the committed value is 3. -/
theorem C32_witness :
    ((cluster_changed (set_tried (set_ctrl_staged applyStore (some 0) 3) (some 0)).2 (some 0) =
        true ↔
      ∃ i, some i ∈ ((set_ctrl_staged applyStore (some 0) 3).get (some 0)).cluster ∧
        (((set_tried (set_ctrl_staged applyStore (some 0) 3) (some 0)).2.get (some i)).type =
            .BUTTON ∨
          value_changed ((set_tried (set_ctrl_staged applyStore (some 0) 3) (some 0)).2.get
            (some i)) = true))) ∧
    callCount (try_or_set_cluster (set_ctrl_staged applyStore (some 0) 3) (some 9) (some 0)
      true).2 .s_ctrl (some 0) = 1 ∧
    ((try_or_set_cluster (set_ctrl_staged applyStore (some 0) 3) (some 9) (some 0) true).2.get
      (some 0)).cur.val = 3 ∧
    ((try_or_set_cluster (set_ctrl_staged applyStore (some 0) 3) (some 9) (some 0) true).2.get
      (some 0)).new.val = 3 :=
  ⟨(C32_cluster_commit_rule (set_ctrl_staged applyStore (some 0) 3) (some 9) (some 0)
      (by decide)).1, by decide, by decide, by decide⟩

/-! ## The inactive flags of an auto cluster -/

theorem commitFlags_false (s : Store) (p : Option Nat) : commitFlags s p false = (s.get p).flags := by
  unfold commitFlags
  rw [if_neg (by decide)]

theorem new_to_cur_valid (s : Store) (fh p : Option Nat) (b : Bool) (x : Option Nat) :
    (new_to_cur s fh p b).valid x ↔ s.valid x :=
  step_valid (step_new_to_cur s fh p b) x

/-- The last loop of `try_or_set_cluster` leaves the controls that are not in the list. -/
theorem commit_cluster_other (fh : Option Nat) (uf : Bool) (x : Option Nat)
    (l : List (Option Nat)) : ∀ (s : Store) (i : Nat), x ∉ l →
    (commit_cluster fh uf s l i).get x = s.get x := by
  induction l with
  | nil => intro s i _; rfl
  | cons y rest ih =>
    intro s i hx
    unfold commit_cluster
    rw [ih _ _ (fun h => hx (List.mem_cons_of_mem _ h))]
    cases y with
    | none => rfl
    | some p =>
      rw [new_to_cur_get, if_neg]
      rintro ⟨e, _⟩
      exact hx (by rw [e]; exact List.mem_cons_self _ _)

/-- Without `update_inactive` the last loop of `try_or_set_cluster` leaves all flags. -/
theorem commit_cluster_flags_false (fh : Option Nat) (x : Option Nat)
    (l : List (Option Nat)) : ∀ (s : Store) (i : Nat),
    ((commit_cluster fh false s l i).get x).flags = (s.get x).flags := by
  induction l with
  | nil => intro s i; rfl
  | cons y rest ih =>
    intro s i
    unfold commit_cluster
    rw [ih]
    cases y with
    | none => rfl
    | some p =>
      rw [new_to_cur_get]
      split_ifs with h
      · obtain ⟨rfl, _⟩ := h
        simp only [Bool.false_and]
        exact commitFlags_false s (some p)
      · rfl

theorem hasFlag_or_self (a f : Nat) (hf : f ≠ 0) : hasFlag (a ||| f) f = true := by
  unfold hasFlag
  have : (a ||| f) &&& f = f := by
    apply Nat.eq_of_testBit_eq
    intro k
    simp only [Nat.testBit_and, Nat.testBit_or]
    cases a.testBit k <;> cases f.testBit k <;> rfl
  rw [this]
  simpa using hf

theorem commit_log_extends (fh : Option Nat) (uf : Bool) (l : List (Option Nat)) (s : Store)
    (i : Nat) : ∃ l', (commit_cluster fh uf s l i).log = s.log ++ l' :=
  let ⟨_, l', h, _⟩ := step_commit_cluster fh uf l s i
  ⟨l', h⟩

/-- A member `q` of the slots after the master, in the last loop of `try_or_set_cluster`
with `update_flag` set: the master is left, the inactive flag of `q` is cleared and then
set when the master is not in manual mode, and every subscriber of `q` that the event of
the change is sent to gets an event with the flags-changed bit. -/
theorem commit_tail_member (fh m : Option Nat) (q : Nat) (l : List (Option Nat)) :
    ∀ (s : Store) (i : Nat), 0 < i → m ∉ l → m ≠ some q → s.valid (some q) →
    (s.get (some q)).cluster.headD none = m → some q ∈ l →
    (commit_cluster fh true s l i).get m = s.get m ∧
    ((commit_cluster fh true s l i).get (some q)).flags =
      (if is_cur_manual (s.get m) = true then
        clearFlag (s.get (some q)).flags V4L2_CTRL_FLAG_INACTIVE
      else clearFlag (s.get (some q)).flags V4L2_CTRL_FLAG_INACTIVE |||
        V4L2_CTRL_FLAG_INACTIVE) ∧
    ∃ l', (commit_cluster fh true s l i).log = s.log ++ l' ∧
      ∀ sev ∈ (s.get (some q)).ev_subs,
        sev_receives (if (s.get (some q)).is_new = true then fh else none) sev = true →
        ∃ ev, LogEntry.event (sev.fh.getD 0) ev ∈ l' ∧ ev.id = (s.get (some q)).id ∧
          hasFlag ev.changes V4L2_EVENT_CTRL_CH_FLAGS = true ∧
          ev.flags = ((commit_cluster fh true s l i).get (some q)).flags := by
  induction l with
  | nil => intro s i _ _ _ _ _ h; simp at h
  | cons y rest ih =>
    intro s i hi hm hmq hv hcl hq
    have hmy : m ≠ y := fun e => hm (by rw [e]; exact List.mem_cons_self _ _)
    have hmr : m ∉ rest := fun h => hm (List.mem_cons_of_mem _ h)
    have hb : (true && decide (0 < i)) = true := by simp [hi]
    have e0 : commit_cluster fh true s (y :: rest) i =
        commit_cluster fh true (new_to_cur s fh y true) rest (i + 1) := by
      rw [commit_cluster, hb]
    rw [e0]
    have hm' : (new_to_cur s fh y true).get m = s.get m := by
      cases y with
      | none => rfl
      | some p =>
        rw [new_to_cur_get, if_neg]
        rintro ⟨e, _⟩
        exact hmy e.symm
    by_cases hy : y = some q
    · subst hy
      -- the step on `q`
      have hg := new_to_cur_get s fh q true (some q)
      rw [if_pos ⟨rfl, hv⟩] at hg
      have hF : commitFlags s (some q) true =
          (if is_cur_manual (s.get m) = true then
            clearFlag (s.get (some q)).flags V4L2_CTRL_FLAG_INACTIVE
          else clearFlag (s.get (some q)).flags V4L2_CTRL_FLAG_INACTIVE |||
            V4L2_CTRL_FLAG_INACTIVE) := by
        have hgm : (s.upd (some q) copy_new_to_cur).get m = s.get m := by
          rw [get_upd, if_neg]
          rintro ⟨e, _⟩
          exact hmq e.symm
        unfold commitFlags
        rw [if_pos rfl, hcl, hgm]
      have hfl : ((new_to_cur s fh (some q) true).get (some q)).flags =
          (if is_cur_manual (s.get m) = true then
            clearFlag (s.get (some q)).flags V4L2_CTRL_FLAG_INACTIVE
          else clearFlag (s.get (some q)).flags V4L2_CTRL_FLAG_INACTIVE |||
            V4L2_CTRL_FLAG_INACTIVE) := by
        rw [hg]; exact hF
      have hlog := new_to_cur_log s fh q true hv
      simp only [Bool.or_true, if_true] at hlog
      have hfin : ((commit_cluster fh true (new_to_cur s fh (some q) true) rest (i + 1)).get
          (some q)).flags = ((new_to_cur s fh (some q) true).get (some q)).flags := by
        by_cases hqr : some q ∈ rest
        · obtain ⟨_, r2, _⟩ := ih (new_to_cur s fh (some q) true) (i + 1) (Nat.succ_pos _) hmr
            hmq ((new_to_cur_valid s fh _ true _).2 hv)
            (by
              rw [hg]
              show (copy_new_to_cur (s.get (some q))).cluster.headD none = m
              rw [(copy_new_to_cur_fields _).1]; exact hcl) hqr
          rw [r2, hm', hfl]
          split_ifs
          · exact clearFlag_clearFlag _ _
          · rw [clearFlag_or, clearFlag_clearFlag]
        · rw [commit_cluster_other fh true (some q) rest _ _ hqr]
      obtain ⟨l2, hl2⟩ := commit_log_extends fh true rest (new_to_cur s fh (some q) true) (i + 1)
      refine ⟨?_, ?_, ?_⟩
      · rw [commit_cluster_other fh true m rest _ _ hmr, hm']
      · rw [hfin, hfl]
      · refine ⟨_, by rw [hl2, hlog, List.append_assoc], ?_⟩
        intro sev hsev hrec
        refine ⟨fill_event ((new_to_cur s fh (some q) true).get (some q))
          ((if value_changed (s.get (some q)) = true then V4L2_EVENT_CTRL_CH_VALUE else 0) |||
            V4L2_EVENT_CTRL_CH_FLAGS), ?_, ?_, ?_, ?_⟩
        · apply List.mem_append_left
          apply List.mem_map.2
          exact ⟨sev, List.mem_filter.2 ⟨hsev, hrec⟩, rfl⟩
        · show ((new_to_cur s fh (some q) true).get (some q)).id = _
          rw [hg]; exact (copy_new_to_cur_fields _).2.2.2.2.2.2
        · exact hasFlag_or_self _ _ (by decide)
        · show ((new_to_cur s fh (some q) true).get (some q)).flags = _
          rw [hfin]
    · have hqr : some q ∈ rest := by
        rcases List.mem_cons.1 hq with e | h
        · exact absurd e.symm hy
        · exact h
      have hgq : (new_to_cur s fh y true).get (some q) = s.get (some q) := by
        cases y with
        | none => rfl
        | some p =>
          rw [new_to_cur_get, if_neg]
          rintro ⟨e, _⟩
          exact hy e
      obtain ⟨r1, r2, l2, hl2, r3⟩ := ih (new_to_cur s fh y true) (i + 1) (Nat.succ_pos _) hmr
        hmq ((new_to_cur_valid s fh _ true _).2 hv) (by rw [hgq]; exact hcl) hqr
      obtain ⟨_, l1, hl1, _⟩ := step_new_to_cur s fh y true
      refine ⟨r1.trans hm', ?_, l1 ++ l2, by rw [hl2, hl1, List.append_assoc], ?_⟩
      · rw [r2, hm', hgq]
      · intro sev hsev hrec
        rw [hgq] at r3
        obtain ⟨ev, h1, h2, h3, h4⟩ := r3 sev hsev hrec
        exact ⟨ev, List.mem_append_right _ h1, h2, h3, h4⟩

theorem inactive_testBit (k : Nat) : V4L2_CTRL_FLAG_INACTIVE.testBit k = decide (4 = k) := by
  show (2 ^ 4).testBit k = _
  exact Nat.testBit_two_pow

/-- Claim C34. Auto-cluster activity flags follow the master: in an auto cluster (the
master `mi` is the first slot of its cluster, is in no other slot, is marked `is_auto` with
the manual value `M` and keeps its value in `val`; every other member has the master as the
first slot of its cluster), after a successful commit by `try_or_set_cluster` (the first
loop passes, `try_ctrl` returns 0, the cluster changed, `s_ctrl` returns 0) the master has
its new value committed and its flags unchanged. When the master moved between the manual
value and another value, every other member has its inactive flag set iff the new
committed value of the master differs from `M`, keeps every other flag, and each of its
subscribers that the change is sent to gets an event with the flags-changed bit and the new
flags. When the master did not move, no flag of any control is changed. -/
theorem C34_auto_cluster_flags (s : Store) (fh : Option Nat) (mi : Nat)
    (rest : List (Option Nat)) (M : Nat)
    (hvm : s.valid (some mi)) (hcl : (s.get (some mi)).cluster = some mi :: rest)
    (hm : some mi ∉ rest) (hauto : (s.get (some mi)).is_auto = true)
    (hM : (s.get (some mi)).manual_mode_value = M) (hty : scalarType (s.get (some mi)).type)
    (hmem : ∀ q, some q ∈ rest →
      s.valid (some q) ∧ (s.get (some q)).cluster.headD none = some mi)
    (h0 : (set_staged s (some mi)).1 = none) (h1 : (set_tried s (some mi)).1 = 0)
    (h2 : cluster_changed (set_tried s (some mi)).2 (some mi) = true)
    (h3 : (set_applied s (some mi)).1 = 0) :
    (try_or_set_cluster s fh (some mi) true).1 = 0 ∧
    ((try_or_set_cluster s fh (some mi) true).2.get (some mi)).cur.val =
      ((set_applied s (some mi)).2.get (some mi)).new.val ∧
    ((try_or_set_cluster s fh (some mi) true).2.get (some mi)).flags =
      (s.get (some mi)).flags ∧
    ((decide ((s.get (some mi)).cur.val = M) !=
        decide (((try_or_set_cluster s fh (some mi) true).2.get (some mi)).cur.val = M)) = true →
      ∀ q, some q ∈ rest →
        (hasFlag ((try_or_set_cluster s fh (some mi) true).2.get (some q)).flags
            V4L2_CTRL_FLAG_INACTIVE = true ↔
          ((try_or_set_cluster s fh (some mi) true).2.get (some mi)).cur.val ≠ M) ∧
        (∀ k, k ≠ 4 →
          ((try_or_set_cluster s fh (some mi) true).2.get (some q)).flags.testBit k =
            (s.get (some q)).flags.testBit k) ∧
        ∃ l', (try_or_set_cluster s fh (some mi) true).2.log = s.log ++ l' ∧
          ∀ sev ∈ (s.get (some q)).ev_subs,
            sev_receives (if (s.get (some q)).is_new = true then fh else none) sev = true →
            ∃ ev, LogEntry.event (sev.fh.getD 0) ev ∈ l' ∧ ev.id = (s.get (some q)).id ∧
              hasFlag ev.changes V4L2_EVENT_CTRL_CH_FLAGS = true ∧
              ev.flags = ((try_or_set_cluster s fh (some mi) true).2.get (some q)).flags) ∧
    ((decide ((s.get (some mi)).cur.val = M) !=
        decide (((try_or_set_cluster s fh (some mi) true).2.get (some mi)).cur.val = M)) = false →
      ∀ x, ((try_or_set_cluster s fh (some mi) true).2.get x).flags = (s.get x).flags) := by
  obtain ⟨_, hA⟩ := step_set_applied_new s (some mi)
  have fA : ∀ x, _ := fun x => eraseNew_fields (step_get hA x)
  have hvA : ∀ x, (set_applied s (some mi)).2.valid x ↔ s.valid x := fun x => step_valid hA x
  obtain ⟨lA, hlA, _⟩ := hA.2
  have hc1 : ¬ ((set_tried s (some mi)).1 ≠ 0 ∨
      cluster_changed (set_tried s (some mi)).2 (some mi) = false) := by
    rintro (a | a)
    · exact a h1
    · rw [h2] at a; cases a
  have hc2 : ¬ (set_applied s (some mi)).1 ≠ 0 := fun a => a h3
  have hb0 : ∀ u : Bool, (u && decide (0 < 0)) = false := by intro u; cases u <;> rfl
  have hR : try_or_set_cluster s fh (some mi) true =
      (0, commit_cluster fh
        (is_cur_manual ((set_applied s (some mi)).2.get (some mi)) !=
          is_new_manual ((set_applied s (some mi)).2.get (some mi)))
        (new_to_cur (set_applied s (some mi)).2 fh (some mi) false) rest 1) := by
    rw [try_or_set_cluster_staged_ok s fh (some mi) h0, if_neg hc1, if_neg hc2, (fA (some mi)).1,
      hcl, commit_cluster, hb0]
  generalize hAdef : (set_applied s (some mi)).2 = A at fA hvA hlA hR ⊢
  -- the store after the commit of the master
  have gA' : ∀ x, (new_to_cur A fh (some mi) false).get x =
      if some mi = x ∧ A.valid x then
        { copy_new_to_cur (A.get x) with flags := (A.get x).flags }
      else A.get x := by
    intro x
    rw [new_to_cur_get]
    split_ifs with h
    · obtain ⟨rfl, _⟩ := h
      rw [commitFlags_false]
    · rfl
  have gm : (new_to_cur A fh (some mi) false).get (some mi) =
      { copy_new_to_cur (A.get (some mi)) with flags := (A.get (some mi)).flags } := by
    rw [gA', if_pos ⟨rfl, (hvA _).2 hvm⟩]
  have gq : ∀ q, some q ∈ rest →
      (new_to_cur A fh (some mi) false).get (some q) = A.get (some q) := by
    intro q hq
    rw [gA', if_neg]
    rintro ⟨e, _⟩
    exact hm (by rw [e]; exact hq)
  have hRm : ∀ u, (commit_cluster fh u (new_to_cur A fh (some mi) false) rest 1).get (some mi) =
      { copy_new_to_cur (A.get (some mi)) with flags := (A.get (some mi)).flags } := by
    intro u
    rw [commit_cluster_other fh u (some mi) rest _ _ hm, gm]
  have htyA : scalarType (A.get (some mi)).type := by rw [(fA (some mi)).2.2.1]; exact hty
  have hcur : ∀ u,
      ((commit_cluster fh u (new_to_cur A fh (some mi) false) rest 1).get (some mi)).cur.val =
        (A.get (some mi)).new.val := by
    intro u
    rw [hRm]
    exact copy_new_to_cur_scalar htyA
  have hautoA : (A.get (some mi)).is_auto = true := by rw [(fA (some mi)).2.2.2.2.2.2.2.2.1]; exact hauto
  have hMA : (A.get (some mi)).manual_mode_value = M := by
    rw [(fA (some mi)).2.2.2.2.2.2.2.2.2]; exact hM
  have huf : (is_cur_manual (A.get (some mi)) != is_new_manual (A.get (some mi))) =
      (decide ((s.get (some mi)).cur.val = M) != decide ((A.get (some mi)).new.val = M)) := by
    unfold is_cur_manual is_new_manual
    rw [hautoA, hMA, (fA (some mi)).2.2.2.2.1]
    simp only [Bool.true_and]
  rw [hR]
  dsimp only
  refine ⟨rfl, hcur _, ?_, ?_, ?_⟩
  · rw [hRm]; exact (fA (some mi)).2.2.2.1
  · intro hmv
    rw [hcur] at hmv
    have hu : (is_cur_manual (A.get (some mi)) != is_new_manual (A.get (some mi))) = true :=
      huf.trans hmv
    rw [hu]
    intro q hq
    obtain ⟨hvq, hclq⟩ := hmem q hq
    have hmq : some mi ≠ some q := fun e => hm (by rw [e]; exact hq)
    obtain ⟨r1, r2, l2, hl2, r3⟩ := commit_tail_member fh (some mi) q rest
      (new_to_cur A fh (some mi) false) 1 (by decide) hm hmq
      ((new_to_cur_valid A fh _ false _).2 ((hvA _).2 hvq))
      (by rw [gq q hq, (fA (some q)).1]; exact hclq) hq
    rw [gq q hq] at r2 r3
    rw [(fA (some q)).2.2.2.1] at r2
    rw [(fA (some q)).2.2.2.2.2.2.1, (fA (some q)).2.2.2.2.2.1,
      (fA (some q)).2.2.2.2.2.2.2.1] at r3
    have hman : is_cur_manual ((new_to_cur A fh (some mi) false).get (some mi)) =
        decide ((A.get (some mi)).new.val = M) := by
      rw [gm]
      unfold is_cur_manual
      simp only [(copy_new_to_cur_fields _).2.2.2.2.1, (copy_new_to_cur_fields _).2.2.2.2.2.1,
        hautoA, hMA, copy_new_to_cur_scalar htyA, Bool.true_and]
    rw [hman] at r2
    refine ⟨?_, ?_, ?_⟩
    · rw [r2, hcur]
      by_cases hd : (A.get (some mi)).new.val = M
      · simp only [hd, decide_True, if_true, ne_eq, not_true_eq_false, iff_false,
          Bool.not_eq_true]
        rw [hasFlag_inactive_testBit, clearFlag_testBit, inactive_testBit]
        simp
      · simp only [hd, decide_False, Bool.false_eq_true, if_false, ne_eq, not_false_eq_true,
          iff_true]
        exact hasFlag_or_self _ _ (by decide)
    · intro k hk
      rw [r2]
      have h4 : (4 = k) = False := by simp; omega
      split_ifs <;>
        simp only [clearFlag_testBit, Nat.testBit_or, inactive_testBit, h4, decide_False,
          Bool.not_false, Bool.and_true, Bool.or_false]
    · obtain ⟨_, l1, hl1, _⟩ := step_new_to_cur A fh (some mi) false
      refine ⟨lA ++ (l1 ++ l2), ?_, ?_⟩
      · rw [hl2, hl1, hlA]; simp only [List.append_assoc]
      · intro sev hsev hrec
        obtain ⟨ev, e1, e2, e3, e4⟩ := r3 sev hsev hrec
        exact ⟨ev, List.mem_append_right _ (List.mem_append_right _ e1), e2, e3, e4⟩
  · intro hmv
    rw [hcur] at hmv
    have hu : (is_cur_manual (A.get (some mi)) != is_new_manual (A.get (some mi))) = false :=
      huf.trans hmv
    rw [hu]
    intro x
    rw [commit_cluster_flags_false, gA']
    split_ifs
    · exact (fA x).2.2.2.1
    · exact (fA x).2.2.2.1

/-- The witness of C34: in the auto cluster of `autoSubStore` the master brightness has the
manual value 5 committed; a set of brightness to 6 commits 6, sets the inactive flag of
contrast and sends the subscriber of contrast one event with the flags-changed bit. -/
theorem C34_witness :
    ((try_or_set_cluster (set_ctrl_staged autoSubStore (some 0) 6) (some 9) (some 0) true).1 =
        0 ∧
      ((try_or_set_cluster (set_ctrl_staged autoSubStore (some 0) 6) (some 9) (some 0)
        true).2.get (some 0)).cur.val =
        ((set_applied (set_ctrl_staged autoSubStore (some 0) 6) (some 0)).2.get
          (some 0)).new.val ∧
      ((try_or_set_cluster (set_ctrl_staged autoSubStore (some 0) 6) (some 9) (some 0)
        true).2.get (some 0)).flags =
        ((set_ctrl_staged autoSubStore (some 0) 6).get (some 0)).flags) ∧
    ((try_or_set_cluster (set_ctrl_staged autoSubStore (some 0) 6) (some 9) (some 0)
      true).2.get (some 0)).cur.val = 6 ∧
    hasFlag (autoSubStore.get (some 2)).flags V4L2_CTRL_FLAG_INACTIVE = false ∧
    hasFlag ((try_or_set_cluster (set_ctrl_staged autoSubStore (some 0) 6) (some 9) (some 0)
      true).2.get (some 2)).flags V4L2_CTRL_FLAG_INACTIVE = true ∧
    (try_or_set_cluster (set_ctrl_staged autoSubStore (some 0) 6) (some 9) (some 0)
      true).2.log =
      [LogEntry.event 1 (fill_event
        ((try_or_set_cluster (set_ctrl_staged autoSubStore (some 0) 6) (some 9) (some 0)
          true).2.get (some 2)) V4L2_EVENT_CTRL_CH_FLAGS)] :=
  ⟨⟨(C34_auto_cluster_flags (set_ctrl_staged autoSubStore (some 0) 6) (some 9) 0 [some 2] 5
        (by decide) (by decide) (by decide) (by decide) (by decide)
        (by unfold scalarType; decide)
        (fun q hq => by
          have e : q = 2 := by simpa using hq
          subst e
          decide)
        (by decide) (by decide) (by decide) (by decide)).1,
      (C34_auto_cluster_flags (set_ctrl_staged autoSubStore (some 0) 6) (some 9) 0 [some 2] 5
        (by decide) (by decide) (by decide) (by decide) (by decide)
        (by unfold scalarType; decide)
        (fun q hq => by
          have e : q = 2 := by simpa using hq
          subst e
          decide)
        (by decide) (by decide) (by decide) (by decide)).2.1,
      (C34_auto_cluster_flags (set_ctrl_staged autoSubStore (some 0) 6) (some 9) 0 [some 2] 5
        (by decide) (by decide) (by decide) (by decide) (by decide)
        (by unfold scalarType; decide)
        (fun q hq => by
          have e : q = 2 := by simpa using hq
          subst e
          decide)
        (by decide) (by decide) (by decide) (by decide)).2.2.1⟩,
    by decide, by decide, by decide, by decide⟩

/-! ## The scalar get and the batch get of one entry -/

/-- The resolve phase of a batch with one entry that can be resolved: it succeeds, the one
helper is the helper of the entry with its master reference, and the references address
the controls they addressed. -/
theorem resolved_single {h : Handler} {s : Store} (inv : RegInv h s) (hw : s.wf)
    (cs : ExtControls) (c : ExtControl) (hcs : cs.controls = [c])
    (hok : ¬ entryUnresolvable h s (V4L2_CTRL_ID2CLASS cs.ctrl_class) c) :
    (resolved h s cs).ret = 0 ∧ (resolved h s cs).helpers = [entryHelper h s c] ∧
    ∀ q, ((resolved h s cs).hdl.ref q).ctrl = (h.ref q).ctrl := by
  unfold resolved prepare_ext_ctrls
  simp only
  rcases prepare_loop_cases inv hw (V4L2_CTRL_ID2CLASS cs.ctrl_class) cs.controls cs.count
    with hbad | ⟨c', hc', e', he⟩
  · exfalso
    rw [hcs] at hbad
    have := (prepare_loop_cons_bad inv (V4L2_CTRL_ID2CLASS cs.ctrl_class) c [] 0 cs.count
      h.cached [] false)
    obtain ⟨c2, hc2, h2⟩ := prepare_loop_cons_ok inv hw (V4L2_CTRL_ID2CLASS cs.ctrl_class) c []
      0 cs.count h.cached [] false hok
    rw [handler_cached_eta] at h2
    rw [h2] at hbad
    exact hbad rfl
  · rw [he]
    simp only [ne_eq, not_true_eq_false, if_false]
    rw [hcs]
    cases hc' with
    | false => exact ⟨rfl, rfl, fun q => rfl⟩
    | true =>
      simp only [Bool.true_eq_false, if_false, List.map_cons, List.map_nil]
      have hz := (zero_helpers_spec [entryHelper h s c] { h with cached := c' })
      have hnone : ((zero_helpers { h with cached := c' } [entryHelper h s c]).ref
          (entryHelper h s c).mref).helper = none :=
        hz.2.2.2 _ (List.mem_singleton.2 rfl)
      have e1 : List.range (0 + 1) = [0] := rfl
      simp only [ExtControls.count, hcs, List.length_cons, List.length_nil, e1]
      have e2 : link_helpers (zero_helpers { h with cached := c' } [entryHelper h s c])
          [entryHelper h s c] [0] =
          ((zero_helpers { h with cached := c' } [entryHelper h s c]).updRef
            (entryHelper h s c).mref (fun r => { r with helper := some 0 }),
            [entryHelper h s c]) := by
        simp only [link_helpers, List.getD_cons_zero, hnone]
      rw [e2]
      refine ⟨trivial, rfl, fun q => ?_⟩
      simp only
      rw [ref_updRef_ctrl, hz.2.1]
      rfl

theorem id_lt_private {s : Store} (hw : s.wf) (q : Option Nat) :
    (s.get q).id < V4L2_CID_PRIVATE_BASE := by
  by_cases hv : s.valid q
  · exact (wf_get hw q hv).2
  · rw [get_of_not_valid s q hv]; decide

/-- Under the invariant a successful `v4l2_ctrl_find` names a reference of the sorted list
that addresses the control found. -/
theorem v4l2_ctrl_find_ref {h : Handler} {s : Store} (inv : RegInv h s) (id : Nat) (p : Nat)
    (hid : (id &&& V4L2_CTRL_ID_MASK) < V4L2_CID_PRIVATE_BASE)
    (hf : (v4l2_ctrl_find (some h) s id).1 = some p) :
    ∃ r, lookup h s (id &&& V4L2_CTRL_ID_MASK) = some r ∧ (h.ref (some r)).ctrl = some p := by
  rw [v4l2_ctrl_find_lookup inv id hid] at hf
  cases hl : lookup h s (id &&& V4L2_CTRL_ID_MASK) with
  | none => rw [hl] at hf; cases hf
  | some r => rw [hl] at hf; exact ⟨r, rfl, hf⟩

theorem autoReg_reachable : Reachable exCatalog autoReg.hdl autoReg.store :=
  Reachable.new_std _ _ _ 0x00980901 0 10 1 5
    (Reachable.new_std _ _ _ 0x00980900 0 10 1 5
      (Reachable.init 1 0 ⟨[], []⟩ (fun c hc => by simp at hc)))

theorem to_user_scalar (c : ExtControl) (ctrl : Ctrl) (hty : type_is_int ctrl = true) :
    cur_to_user c ctrl = (0, { c with value := ctrl.cur.val }) ∧
    new_to_user c ctrl = (0, { c with value := ctrl.new.val }) := by
  unfold type_is_int at hty
  unfold cur_to_user new_to_user
  cases ht : ctrl.type <;> simp_all

theorem type_is_int_of_type {c c' : Ctrl} (h : c'.type = c.type) :
    type_is_int c' = type_is_int c := by
  unfold type_is_int; rw [h]

theorem exists_last (P : Nat → Prop) : ∀ k, (∃ i, i < k ∧ P i) →
    ∃ j, j < k ∧ P j ∧ ∀ j', j < j' → j' < k → ¬ P j' := by
  intro k
  induction k with
  | zero => rintro ⟨i, hi, _⟩; omega
  | succ k ih =>
    rintro ⟨i, hi, hp⟩
    by_cases hk : P k
    · exact ⟨k, Nat.lt_succ_self k, hk, fun j' h1 h2 => by omega⟩
    · have hik : i < k := by
        rcases Nat.lt_succ_iff_lt_or_eq.1 hi with h | h
        · exact h
        · rw [h] at hp; exact absurd hp hk
      obtain ⟨j, hj, hpj, hl⟩ := ih ⟨i, hik, hp⟩
      refine ⟨j, by omega, hpj, fun j' h1 h2 => ?_⟩
      by_cases e : j' = k
      · rw [e]; exact hk
      · exact hl j' h1 (by omega)

theorem getD_updAt_next_val (hs : List Helper) (j i v : Nat) :
    ((updAt hs j (fun x => { x with next := v })).getD i Helper.null).next =
      if j = i ∧ i < hs.length then v else (hs.getD i Helper.null).next := by
  rw [getD_updAt]
  split_ifs <;> rfl

theorem getD_updAt_mref_next (hs : List Helper) (k i : Nat) :
    ((updAt hs k (fun x => { x with mref := none })).getD i Helper.null).next =
      (hs.getD i Helper.null).next := by
  rw [getD_updAt]
  split_ifs <;> rfl

/-- One round of the linking loop keeps the invariant. -/
theorem linkInv_round {n : Nat} {M : Nat → Option Nat} {k : Nat} {h : Handler}
    {hs : List Helper} (inv : LinkInv n M k h hs) (hk : k < n) (r : Nat) (hr : M k = some r) :
    LinkInv n M (k + 1) (h.updRef (some r) (fun x => { x with helper := some k }))
      (match (h.ref (some r)).helper with
        | some j =>
          updAt (updAt hs j (fun x => { x with next := k })) k (fun x => { x with mref := none })
        | none => hs) := by
  have hrl : r < h.refs.length := inv.refs k hk r hr
  -- the helper field of the master reference after the round
  have hlast : ∀ i, i < n → ∀ r', M i = some r' → ∀ j,
      (((h.updRef (some r) (fun x => { x with helper := some k })).ref (some r')).helper =
          some j ↔
        (j < k + 1 ∧ M j = some r' ∧ ∀ j', j < j' → j' < k + 1 → M j' ≠ some r')) := by
    intro i hi r' hr' j
    rw [ref_updRef]
    by_cases e : r = r'
    · subst e
      rw [if_pos ⟨rfl, r, rfl, hrl⟩]
      simp only [Option.some.injEq]
      constructor
      · intro hj
        subst hj
        exact ⟨Nat.lt_succ_self _, hr, fun j' h1 h2 => by omega⟩
      · rintro ⟨h1, h2, h3⟩
        by_contra hne
        exact h3 k (by omega) (Nat.lt_succ_self _) hr
    · rw [if_neg (fun hh => e (Option.some.inj hh.1))]
      rw [inv.last i hi r' hr' j]
      have hkr : M k ≠ some r' := by
        rw [hr]; intro hh; exact e (Option.some.inj hh)
      constructor
      · rintro ⟨h1, h2, h3⟩
        refine ⟨by omega, h2, fun j' a b => ?_⟩
        by_cases e' : j' = k
        · rw [e']; exact hkr
        · exact h3 j' a (by omega)
      · rintro ⟨h1, h2, h3⟩
        have : j ≠ k := fun e' => hkr (by rw [← e']; exact h2)
        exact ⟨by omega, h2, fun j' a b => h3 j' a (by omega)⟩
  have hrefs : ∀ i, i < n → ∀ r', M i = some r' →
      r' < (h.updRef (some r) (fun x => { x with helper := some k })).refs.length := by
    intro i hi r' hr'
    rw [updRef_refs_length]; exact inv.refs i hi r' hr'
  rcases hh : (h.ref (some r)).helper with _ | jl
  · -- no earlier helper has the master reference
    simp only
    have hno : ∀ j, j < k → M j ≠ some r := by
      intro j hj hm
      obtain ⟨j0, h1, h2, h3⟩ := exists_last (fun i => M i = some r) k ⟨j, hj, hm⟩
      have := (inv.last k hk r hr j0).2 ⟨h1, h2, h3⟩
      rw [hh] at this; cases this
    refine ⟨inv.len, fun i hi => inv.todo i (by omega), ?_, ?_, ?_, ?_, hlast, hrefs⟩
    · intro i hi hf
      by_cases e : i = k
      · rw [e]; exact inv.todo k (Nat.le_refl _)
      · exact inv.first i (by omega) hf
    · intro i hi j hj hm
      by_cases e : i = k
      · rw [e] at hj hm
        rw [hr] at hm
        exact absurd hm (hno j hj)
      · exact inv.later i (by omega) j hj hm
    · intro i j hij hj hm hbt
      by_cases e : j = k
      · rw [e] at hm hij
        rw [hr] at hm
        exact absurd hm.symm (hno i hij)
      · exact inv.next_some i j hij (by omega) hm hbt
    · intro i hz
      exact inv.next_zero i (fun j a b => hz j a (by omega))
  · -- the helper `jl` is the last one before `k` with the master reference
    simp only
    obtain ⟨hjl, hMjl, hjlast⟩ := (inv.last k hk r hr jl).1 hh
    have hlen : (updAt (updAt hs jl (fun x => { x with next := k })) k
        (fun x => { x with mref := none })).length = n := by
      rw [length_updAt, length_updAt]; exact inv.len
    have gm : ∀ i, ((updAt (updAt hs jl (fun x => { x with next := k })) k
        (fun x => { x with mref := none })).getD i Helper.null).mref =
        if i = k then none else (hs.getD i Helper.null).mref := by
      intro i
      rw [(getD_updAt_mref _ k i).1, (getD_updAt_next hs jl i k).1]
    have gn : ∀ i, ((updAt (updAt hs jl (fun x => { x with next := k })) k
        (fun x => { x with mref := none })).getD i Helper.null).next =
        if i = jl then k else (hs.getD i Helper.null).next := by
      intro i
      rw [getD_updAt_mref_next, getD_updAt_next_val]
      by_cases e : i = jl
      · rw [if_pos e, if_pos ⟨e.symm, by rw [inv.len]; omega⟩]
      · rw [if_neg e, if_neg (fun hh => e hh.1.symm)]
    refine ⟨hlen, ?_, ?_, ?_, ?_, ?_, hlast, hrefs⟩
    · intro i hi
      rw [gm, if_neg (by omega)]
      exact inv.todo i (by omega)
    · intro i hi hf
      by_cases e : i = k
      · rw [e] at hf
        exact absurd (hMjl.trans hr.symm) (hf jl hjl)
      · rw [gm, if_neg e]
        exact inv.first i (by omega) hf
    · intro i hi j hj hm
      by_cases e : i = k
      · rw [gm, if_pos e]
      · rw [gm, if_neg e]
        exact inv.later i (by omega) j hj hm
    · intro i j hij hj hm hbt
      rw [gn]
      by_cases e : j = k
      · subst e
        have hi : M i = some r := hm.symm.trans hr
        have hil : (h.ref (some r)).helper = some i :=
          (inv.last j hk r hr i).2 ⟨hij, hi, fun j' a b => by
            rw [← hi]; exact hbt j' a b⟩
        rw [hh] at hil
        rw [if_pos (Option.some.inj hil).symm]
      · have hjk : j < k := by omega
        by_cases e' : i = jl
        · exfalso
          rw [e'] at hij hm
          exact hjlast j hij hjk (hm.trans hMjl)
        · rw [if_neg e']
          exact inv.next_some i j hij hjk hm hbt
    · intro i hz
      rw [gn]
      by_cases e' : i = jl
      · exfalso
        rw [e'] at hz
        exact hz k hjl (Nat.lt_succ_self _) (hr.trans hMjl.symm)
      · rw [if_neg e']
        exact inv.next_zero i (fun j a b => hz j a (by omega))

/-- The linking loop from the round `k` on: the invariant holds after the last round. -/
theorem link_helpers_inv (n : Nat) (M : Nat → Option Nat)
    (hM : ∀ i, i < n → ∃ r, M i = some r) (d : Nat) :
    ∀ (k : Nat) (h : Handler) (hs : List Helper), k + d = n → LinkInv n M k h hs →
    LinkInv n M n (link_helpers h hs (List.range' k d)).1
      (link_helpers h hs (List.range' k d)).2 := by
  induction d with
  | zero =>
    intro k h hs hk inv
    have hkn : k = n := by omega
    have e0 : link_helpers h hs (List.range' k 0) = (h, hs) := rfl
    rw [e0]
    rw [hkn] at inv
    exact inv
  | succ d ih =>
    intro k h hs hk inv
    have hkn : k < n := by omega
    obtain ⟨r, hr⟩ := hM k hkn
    have hMk : (hs.getD k Helper.null).mref = some r := (inv.todo k (Nat.le_refl _)).trans hr
    rw [List.range'_succ, link_helpers]
    simp only [hMk]
    exact ih (k + 1) _ _ (by omega) (linkInv_round inv hkn r hr)

theorem exists_least (P : Nat → Prop) (i n : Nat) (h : ∃ j, i < j ∧ j < n ∧ P j) :
    ∃ j, i < j ∧ j < n ∧ P j ∧ ∀ j', i < j' → j' < j → ¬ P j' := by
  classical
  have h' : ∃ j, i < j ∧ j < n ∧ P j := h
  refine ⟨Nat.find h', (Nat.find_spec h').1, (Nat.find_spec h').2.1, (Nat.find_spec h').2.2, ?_⟩
  intro j' a b hp
  exact Nat.find_min h' b ⟨a, by have := (Nat.find_spec h').2.1; omega, hp⟩

theorem filter_range'_none (p : Nat → Bool) (a d : Nat)
    (h : ∀ j, a ≤ j → j < a + d → p j = false) : (List.range' a d).filter p = [] := by
  rw [List.filter_eq_nil_iff]
  intro j hj
  rw [List.mem_range'_1] at hj
  rw [h j hj.1 hj.2]
  decide

/-- Along the `next` links after the linking loop: from an entry `i` the loop visits the
entries from `i` on with the master reference of `i`, in ascending order. -/
theorem chain_from_filter {n : Nat} {M : Nat → Option Nat} {h : Handler} {hs : List Helper}
    (inv : LinkInv n M n h hs) :
    ∀ (d i fuel : Nat), i + d = n → 0 < d → d ≤ fuel →
    chain_from hs fuel i = (List.range' i d).filter (fun j => decide (M j = M i)) := by
  intro d
  induction d using Nat.strong_induction_on with
  | _ d ih =>
    intro i fuel hid hd hfuel
    obtain ⟨f, rfl⟩ : ∃ f, fuel = f + 1 := ⟨fuel - 1, by omega⟩
    obtain ⟨d', rfl⟩ : ∃ d', d = d' + 1 := ⟨d - 1, by omega⟩
    rw [chain_from, List.range'_succ, List.filter_cons_of_pos (by simp)]
    congr 1
    by_cases hex : ∃ j, i < j ∧ j < n ∧ M j = M i
    · obtain ⟨j, hij, hjn, hm, hmin⟩ := exists_least (fun j => M j = M i) i n hex
      have hnext : (hs.getD i Helper.null).next = j :=
        inv.next_some i j hij hjn hm (fun j' a b => hmin j' a b)
      have hj0 : j ≠ 0 := by omega
      have hA : (List.range' (i + 1) (j - i - 1)).filter (fun j' => decide (M j' = M i)) = [] :=
        filter_range'_none _ _ _ (fun j' a b => by
          have := hmin j' (by omega) (by omega)
          simpa using this)
      have hB : chain_from hs f j =
          (List.range' j (n - j)).filter (fun j' => decide (M j' = M j)) :=
        ih (n - j) (by omega) j f (by omega) (by omega) (by omega)
      have hsplit : List.range' (i + 1) d' =
          List.range' (i + 1) (j - i - 1) ++ List.range' j (n - j) := by
        have := List.range'_append_1 (i + 1) (j - i - 1) (n - j)
        rw [show i + 1 + (j - i - 1) = j by omega,
          show n - j + (j - i - 1) = d' by omega] at this
        exact this.symm
      rw [hnext, if_neg hj0, hB, hsplit, List.filter_append, hA, List.nil_append, hm]
    · have hno : ∀ j, i < j → j < n → M j ≠ M i := fun j a b hm => hex ⟨j, a, b, hm⟩
      rw [inv.next_zero i hno, if_pos rfl]
      symm
      exact filter_range'_none _ _ _ (fun j a b => by
        have := hno j (by omega) (by omega)
        simpa using this)

/-- The helpers after the resolve phase of a batch with an entry of a multi-control cluster,
when every entry has a master reference: the state after the last round of the linking
loop. -/
theorem resolved_linkInv {h : Handler} {s : Store} (inv : RegInv h s) (hw : s.wf)
    (cs : ExtControls) (hret : (resolved h s cs).ret = 0)
    (hc : (resolved h s cs).have_clusters = true)
    (hM : ∀ i, i < cs.count → entryMaster h s cs i ≠ none) :
    LinkInv cs.count (entryMaster h s cs) cs.count (resolved h s cs).hdl
      (resolved h s cs).helpers := by
  obtain ⟨c', e1, e2⟩ := resolved_linked inv hw cs hret hc
  rw [e1, e2, List.range_eq_range']
  have hget : ∀ i, ((cs.controls.map (entryHelper h s)).getD i Helper.null).next = 0 ∧
      (i < cs.count → ((cs.controls.map (entryHelper h s)).getD i Helper.null).mref =
        (entryHelper h s (cs.controls.getD i ExtControl.null)).mref) := by
    intro i
    by_cases hi : i < cs.count
    · rw [getD_map_entryHelper h s cs.controls i hi]
      exact ⟨rfl, fun _ => rfl⟩
    · rw [List.getD_eq_default _ _ (by
        rw [List.length_map]; unfold ExtControls.count at hi; omega)]
      exact ⟨rfl, fun a => absurd a hi⟩
  have hz := zero_helpers_spec (cs.controls.map (entryHelper h s)) { h with cached := c' }
  have key : LinkInv cs.count (entryMaster h s cs) 0
      (zero_helpers { h with cached := c' } (cs.controls.map (entryHelper h s)))
      (cs.controls.map (entryHelper h s)) := by
    refine ⟨by rw [List.length_map]; rfl, fun _ _ => rfl, fun i hi => by omega,
      fun i hi => by omega, fun i j _ hj => by omega, fun i _ => (hget i).1, ?_, ?_⟩
    · intro i hi r hr j
      have hmem : (cs.controls.map (entryHelper h s)).getD i Helper.null ∈
          cs.controls.map (entryHelper h s) := by
        rw [List.getD_eq_getElem _ _ (by rw [List.length_map]; exact hi)]
        exact List.getElem_mem _
      have hnone := hz.2.2.2 _ hmem
      unfold entryMaster at hr
      rw [hr] at hnone
      rw [hnone]
      constructor
      · intro hh; cases hh
      · rintro ⟨hh, _⟩; omega
    · intro i hi r hr
      rw [hz.1]
      unfold entryMaster at hr
      rw [(hget i).2 hi] at hr
      exact (inv.arena r).1 (entryHelper_mref_mem hr)
  exact link_helpers_inv cs.count _ (fun i hi => by
    cases hm : entryMaster h s cs i with
    | none => exact absurd hm (hM i hi)
    | some r => exact ⟨r, rfl⟩) cs.count 0 _ _ (by omega) key

theorem chain_from_sorted (hs : List Helper) (n i : Nat) (p : Nat → Bool)
    (h : chain_from hs n i = (List.range n).filter p) :
    (chain_from hs n i).Pairwise (fun a b => a < b) := by
  rw [h]
  exact List.Pairwise.sublist (List.filter_sublist _) (List.pairwise_lt_range n)

theorem eraseSetup_erasePending (c : Ctrl) : eraseSetup (erasePending c) = eraseSetup c := rfl

theorem eraseSetup_fields {c c' : Ctrl} (h : eraseSetup c' = eraseSetup c) :
    c'.cluster = c.cluster ∧ c'.ops = c.ops ∧ c'.type = c.type ∧ c'.flags = c.flags ∧
    c'.cur = c.cur := by
  have h1 := congrArg Ctrl.cluster h
  have h2 := congrArg Ctrl.ops h
  have h3 := congrArg Ctrl.type h
  have h4 := congrArg Ctrl.flags h
  have h5 := congrArg Ctrl.cur h
  exact ⟨h1, h2, h3, h4, h5⟩

theorem erasePending_done {c c' : Ctrl} (h : erasePending c' = erasePending c) :
    c'.done = c.done := by
  have h1 := congrArg Ctrl.done h
  exact h1

theorem setupMark_idem (c : Ctrl) : setupMark (setupMark c) = setupMark c := by
  unfold setupMark copy_cur_to_new
  cases h : c.type <;> simp [h]

theorem eraseSetup_setupMark (c : Ctrl) : eraseSetup (setupMark c) = eraseSetup c := by
  unfold setupMark copy_cur_to_new
  split <;> rfl

theorem step_setup_clear_done (ok : LogEntry → Prop) (l : List Nat) :
    ∀ s, Step eraseSetup ok s (setup_clear_done s l) := by
  induction l with
  | nil => intro s; exact step_refl _ ok s
  | cons p rest ih =>
    intro s
    unfold setup_clear_done
    exact step_trans
      (step_upd eraseSetup ok s (some p) (fun c => { c with done := false }) (fun c => rfl))
      (ih _)

theorem setup_clear_done_get (l : List Nat) : ∀ (s : Store) (x : Option Nat),
    (setup_clear_done s l).get x =
      if (∃ p ∈ l, x = some p) then { s.get x with done := false } else s.get x := by
  induction l with
  | nil => intro s x; simp [setup_clear_done]
  | cons p rest ih =>
    intro s x
    unfold setup_clear_done
    rw [ih, get_upd_null _ _ _ _ rfl]
    by_cases h1 : ∃ q ∈ rest, x = some q
    · have h2 : ∃ q ∈ p :: rest, x = some q := by
        obtain ⟨q, hq, e⟩ := h1; exact ⟨q, List.mem_cons_of_mem _ hq, e⟩
      rw [if_pos h1, if_pos h2]
      split <;> rfl
    · rw [if_neg h1]
      by_cases h3 : some p = x
      · have h2 : ∃ q ∈ p :: rest, x = some q := ⟨p, List.mem_cons_self _ _, h3.symm⟩
        rw [if_pos h3, if_pos h2]
      · have h2 : ¬ ∃ q ∈ p :: rest, x = some q := by
          rintro ⟨q, hq, e⟩
          rcases List.mem_cons.1 hq with a | a
          · exact h3 (by rw [e, a])
          · exact h1 ⟨q, a, e⟩
        rw [if_neg h3, if_neg h2]

theorem setup_cluster_upd (s : Store) (i : Nat) :
    (cur_to_new s (some i)).upd (some i) (fun c => { c with is_new := true, done := true }) =
      s.upd (some i) setupMark := by
  unfold cur_to_new
  rw [upd_upd]
  rfl

theorem setup_cluster_get (l : List (Option Nat)) : ∀ (s : Store) (x : Option Nat),
    (setup_cluster s l).get x =
      if x ∈ l ∧ s.valid x then setupMark (s.get x) else s.get x := by
  induction l with
  | nil => intro s x; simp [setup_cluster]
  | cons p rest ih =>
    intro s x
    cases p with
    | none =>
      unfold setup_cluster
      rw [ih]
      by_cases hx : s.valid x
      · have hne : x ≠ none := by rintro rfl; exact hx
        simp [hx, hne]
      · simp [hx]
    | some i =>
      unfold setup_cluster
      rw [setup_cluster_upd, ih, get_upd]
      have hvu := valid_upd s (some i) x setupMark
      by_cases hv : s.valid x
      · have hv' := hvu.2 hv
        by_cases h1 : x ∈ rest
        · by_cases h2 : some i = x
          · subst h2
            simp [hv, hv', h1, setupMark_idem]
          · have h3 : ¬ x = some i := fun e => h2 e.symm
            simp [hv, hv', h1, h2, h3]
        · by_cases h2 : some i = x
          · subst h2
            simp [hv, hv', h1]
          · have h3 : ¬ x = some i := fun e => h2 e.symm
            simp [hv, hv', h1, h2, h3]
      · have hv' : ¬ (s.upd (some i) setupMark).valid x := fun a => hv (hvu.1 a)
        simp [hv, hv']

theorem step_setup_cluster (ok : LogEntry → Prop) (l : List (Option Nat)) :
    ∀ s, Step eraseSetup ok s (setup_cluster s l) := by
  induction l with
  | nil => intro s; exact step_refl _ ok s
  | cons p rest ih =>
    intro s
    cases p with
    | none => unfold setup_cluster; exact ih s
    | some i =>
      unfold setup_cluster
      rw [setup_cluster_upd]
      exact step_trans (step_upd _ ok s (some i) _ eraseSetup_setupMark) (ih _)

theorem valid_of_master {s : Store} {p : Nat} (h : masterOf s p ≠ none) :
    s.valid (some p) := by
  by_contra hv
  apply h
  unfold masterOf
  rw [get_of_not_valid s _ hv]
  rfl

theorem setup_call_done (s : Store) (cl : List (Option Nat)) (m x : Option Nat) :
    ((call_op (setup_cluster s cl) m .s_ctrl).2.get x).done =
      (if x ∈ cl ∧ s.valid x then true else (s.get x).done) := by
  have h1 := step_get (@step_call_op erasePending erasePending_idem (fun _ => True)
    (setup_cluster s cl) m .s_ctrl trivial) x
  rw [erasePending_done h1, setup_cluster_get]
  split <;> rfl

theorem step_setup_call (s : Store) (cl : List (Option Nat)) (m : Option Nat) :
    Step eraseSetup (fun e => e = LogEntry.call .s_ctrl m) s
      (call_op (setup_cluster s cl) m .s_ctrl).2 :=
  step_trans (step_setup_cluster _ cl s)
    (@step_call_op eraseSetup eraseSetup_erasePending _ (setup_cluster s cl) m .s_ctrl rfl)

theorem call_op_no_op (s : Store) (m : Option Nat) (op : OpKind)
    (h : has_op (s.get m) op = false) : call_op s m op = (0, s) := by
  apply call_op_absent
  intro o ho
  unfold has_op at h
  rw [ho] at h
  simp only at h
  cases hs : o.sel op with
  | none => rfl
  | some f => rw [hs] at h; cases h

theorem setup_loop_cons (s : Store) (p : Nat) (rest : List Nat) :
    setup_loop s (p :: rest) =
      if ((s.get (some p)).done || (s.get (some p)).type == .BUTTON ||
          hasFlag (s.get (some p)).flags V4L2_CTRL_FLAG_READ_ONLY) = true then
        setup_loop s rest
      else if (call_op (setup_cluster s (s.get ((s.get (some p)).cluster.headD none)).cluster)
          ((s.get (some p)).cluster.headD none) .s_ctrl).1 ≠ 0 then
        call_op (setup_cluster s (s.get ((s.get (some p)).cluster.headD none)).cluster)
          ((s.get (some p)).cluster.headD none) .s_ctrl
      else setup_loop
        (call_op (setup_cluster s (s.get ((s.get (some p)).cluster.headD none)).cluster)
          ((s.get (some p)).cluster.headD none) .s_ctrl).2 rest := rfl

theorem setup_visit_cons (s0 s : Store) (p : Nat) (rest : List Nat) :
    setup_visit s0 s (p :: rest) =
      if (call_op (setup_cluster s (s0.get (masterOf s0 p)).cluster) (masterOf s0 p)
          .s_ctrl).1 ≠ 0 then
        call_op (setup_cluster s (s0.get (masterOf s0 p)).cluster) (masterOf s0 p) .s_ctrl
      else setup_visit s0
        (call_op (setup_cluster s (s0.get (masterOf s0 p)).cluster) (masterOf s0 p)
          .s_ctrl).2 rest := rfl

theorem setupFirsts_cons (s : Store) (before : List Nat) (p : Nat) (rest : List Nat) :
    setupFirsts s before (p :: rest) =
      if setupEligible s p = true ∧
          ∀ q ∈ before, setupEligible s q = true → masterOf s q ≠ masterOf s p then
        p :: setupFirsts s (before ++ [p]) rest
      else setupFirsts s (before ++ [p]) rest := rfl

/-- The loop of the setup with its `done` marks visits the first eligible control of each
cluster: it is the reference on the list `setupFirsts`. -/
theorem setup_loop_visit {h : Handler} {s0 : Store} (hwf : ClusterWf h s0) :
    ∀ (l before : List Nat) (s : Store), before ++ l = h.ctrls →
      Step eraseSetup (fun _ => True) s0 s →
      (∀ p ∈ l, (s.get (some p)).done = true ↔
        ∃ q ∈ before, setupEligible s0 q = true ∧ masterOf s0 q = masterOf s0 p) →
      setup_loop s l = setup_visit s0 s (setupFirsts s0 before l) := by
  intro l
  induction l with
  | nil => intro before s _ _ _; rfl
  | cons p rest ih =>
    intro before s hbl hst hdone
    have hp : p ∈ h.ctrls := by rw [← hbl]; simp
    have hrest : ∀ q ∈ rest, q ∈ h.ctrls := by
      intro q hq; rw [← hbl]; simp [hq]
    have hbl' : (before ++ [p]) ++ rest = h.ctrls := by rw [← hbl]; simp
    obtain ⟨hcl, _, hty, hfl, _⟩ := eraseSetup_fields (step_get hst (some p))
    have helig : setupEligible s0 p = (!((s.get (some p)).type == .BUTTON) &&
        !hasFlag (s.get (some p)).flags V4L2_CTRL_FLAG_READ_ONLY) := by
      unfold setupEligible; rw [hty, hfl]
    have hmaster : (s.get (some p)).cluster.headD none = masterOf s0 p := by
      unfold masterOf; rw [hcl]
    have hd := hdone p (List.mem_cons_self _ _)
    rw [setup_loop_cons, setupFirsts_cons]
    by_cases hskip : ((s.get (some p)).done || (s.get (some p)).type == .BUTTON ||
        hasFlag (s.get (some p)).flags V4L2_CTRL_FLAG_READ_ONLY) = true
    · rw [if_pos hskip]
      have hcond : ¬ (setupEligible s0 p = true ∧
          ∀ q ∈ before, setupEligible s0 q = true → masterOf s0 q ≠ masterOf s0 p) := by
        rintro ⟨he, hno⟩
        rw [helig] at he
        have hdn : (s.get (some p)).done = true := by
          simp only [Bool.and_eq_true, Bool.not_eq_true', Bool.or_eq_true] at he hskip
          rcases hskip with (a | a) | a
          · exact a
          · rw [he.1] at a; cases a
          · rw [he.2] at a; cases a
        obtain ⟨q, hq, heq, hm⟩ := hd.1 hdn
        exact hno q hq heq hm
      rw [if_neg hcond]
      refine ih _ _ hbl' hst ?_
      intro p' hp'
      rw [hdone p' (List.mem_cons_of_mem _ hp')]
      constructor
      · rintro ⟨q, hq, a, b⟩
        exact ⟨q, List.mem_append_left _ hq, a, b⟩
      · rintro ⟨q, hq, a, b⟩
        rcases List.mem_append.1 hq with hq | hq
        · exact ⟨q, hq, a, b⟩
        · have e : q = p := by simpa using hq
          subst e
          by_cases hdn : (s.get (some q)).done = true
          · obtain ⟨q', hq', a', b'⟩ := hd.1 hdn
            exact ⟨q', hq', a', b'.trans b⟩
          · exfalso
            rw [helig] at a
            simp only [Bool.and_eq_true, Bool.not_eq_true', Bool.or_eq_true] at a hskip
            rcases hskip with (c | c) | c
            · exact hdn c
            · rw [a.1] at c; cases c
            · rw [a.2] at c; cases c
    · rw [if_neg hskip]
      have hnd : (s.get (some p)).done = false := by
        cases hx : (s.get (some p)).done with
        | false => rfl
        | true => rw [hx] at hskip; simp at hskip
      have hcond : setupEligible s0 p = true ∧
          ∀ q ∈ before, setupEligible s0 q = true → masterOf s0 q ≠ masterOf s0 p := by
        constructor
        · rw [helig]
          rw [hnd] at hskip
          cases h1 : ((s.get (some p)).type == CtrlType.BUTTON) <;>
            cases h2 : hasFlag (s.get (some p)).flags V4L2_CTRL_FLAG_READ_ONLY <;>
              simp [h1, h2] at hskip ⊢
        · intro q hq a b
          have := hd.2 ⟨q, hq, a, b⟩
          rw [hnd] at this
          cases this
      rw [if_pos hcond, setup_visit_cons, hmaster]
      have hclm : (s.get (masterOf s0 p)).cluster = (s0.get (masterOf s0 p)).cluster :=
        (eraseSetup_fields (step_get hst (masterOf s0 p))).1
      rw [hclm]
      by_cases hr : (call_op (setup_cluster s (s0.get (masterOf s0 p)).cluster)
          (masterOf s0 p) .s_ctrl).1 ≠ 0
      · rw [if_pos hr, if_pos hr]
      · rw [if_neg hr, if_neg hr]
        refine ih _ _ hbl' (step_trans hst
          (step_mono (step_setup_call s _ (masterOf s0 p)) (fun _ _ => trivial))) ?_
        intro p' hp'
        have hp'c := hrest p' hp'
        obtain ⟨w1, w2, w3⟩ := hwf p' hp'c
        have hv' : s.valid (some p') := (step_valid hst _).2 (valid_of_master w1)
        rw [setup_call_done]
        have hdp := hdone p' (List.mem_cons_of_mem _ hp')
        constructor
        · intro hx
          by_cases hin : some p' ∈ (s0.get (masterOf s0 p)).cluster
          · exact ⟨p, by simp, hcond.1, ((hwf p hp).2.2 p' hp'c hin).symm⟩
          · have hc : ¬ (some p' ∈ (s0.get (masterOf s0 p)).cluster ∧ s.valid (some p')) :=
              fun a => hin a.1
            rw [if_neg hc] at hx
            obtain ⟨q, hq, a, b⟩ := hdp.1 hx
            exact ⟨q, List.mem_append_left _ hq, a, b⟩
        · rintro ⟨q, hq, a, b⟩
          rcases List.mem_append.1 hq with hq | hq
          · have := hdp.2 ⟨q, hq, a, b⟩
            rw [this]
            split <;> rfl
          · have e : q = p := by simpa using hq
            subst e
            have hc : some p' ∈ (s0.get (masterOf s0 q)).cluster ∧ s.valid (some p') := by
              rw [b]; exact ⟨w2, hv'⟩
            rw [if_pos hc]

theorem step_setup_visit (s0 : Store) : ∀ (fs : List Nat) (s : Store),
    Step eraseSetup (fun e => ∃ p ∈ fs, e = LogEntry.call .s_ctrl (masterOf s0 p)) s
      (setup_visit s0 s fs).2 := by
  intro fs
  induction fs with
  | nil => intro s; exact step_refl _ _ s
  | cons p rest ih =>
    intro s
    rw [setup_visit_cons]
    have h1 : Step eraseSetup
        (fun e => ∃ q ∈ p :: rest, e = LogEntry.call .s_ctrl (masterOf s0 q)) s
        (call_op (setup_cluster s (s0.get (masterOf s0 p)).cluster) (masterOf s0 p)
          .s_ctrl).2 :=
      step_mono (step_setup_call s _ (masterOf s0 p))
        (fun e he => ⟨p, List.mem_cons_self _ _, he⟩)
    split
    · exact h1
    · exact step_trans h1 (step_mono (ih _)
        (fun e he => by
          obtain ⟨q, hq, e1⟩ := he
          exact ⟨q, List.mem_cons_of_mem _ hq, e1⟩))

/-- The trace of the reference setup: the calls of `s_ctrl` on the masters of the first `k`
controls of the list, where `k` is the whole list when the setup returns 0 and the
position of the failing call otherwise. -/
theorem setup_visit_log (s0 : Store) : ∀ (fs : List Nat) (s : Store),
    Step eraseSetup (fun _ => True) s0 s →
    ∃ k, k ≤ fs.length ∧
      (setup_visit s0 s fs).2.log = s.log ++
        ((fs.take k).filter (fun p => has_op (s0.get (masterOf s0 p)) .s_ctrl)).map
          (fun p => LogEntry.call .s_ctrl (masterOf s0 p)) ∧
      ((setup_visit s0 s fs).1 = 0 → k = fs.length) ∧
      ((setup_visit s0 s fs).1 ≠ 0 → 0 < k ∧ ∃ p, fs.get? (k - 1) = some p ∧
        has_op (s0.get (masterOf s0 p)) .s_ctrl = true) := by
  intro fs
  induction fs with
  | nil =>
    intro s _
    exact ⟨0, Nat.le_refl _, by simp [setup_visit], fun _ => rfl,
      fun h => absurd rfl h⟩
  | cons p rest ih =>
    intro s hst
    have hS1 : (setup_cluster s (s0.get (masterOf s0 p)).cluster).log = s.log :=
      step_false_log (step_setup_cluster (fun _ => False) _ s)
    have hops : has_op ((setup_cluster s (s0.get (masterOf s0 p)).cluster).get (masterOf s0 p))
        .s_ctrl = has_op (s0.get (masterOf s0 p)) .s_ctrl :=
      has_op_congr (eraseSetup_fields (step_get
        (step_trans hst (step_setup_cluster (fun _ => True) _ s)) (masterOf s0 p))).2.1 _
    have hst' : Step eraseSetup (fun _ => True) s0
        (call_op (setup_cluster s (s0.get (masterOf s0 p)).cluster) (masterOf s0 p)
          .s_ctrl).2 :=
      step_trans hst (step_mono (step_setup_call s _ (masterOf s0 p)) (fun _ _ => trivial))
    rw [setup_visit_cons]
    cases hop : has_op (s0.get (masterOf s0 p)) .s_ctrl with
    | false =>
      rw [hop] at hops
      have hcall := call_op_no_op _ _ _ hops
      have hr : ¬ (call_op (setup_cluster s (s0.get (masterOf s0 p)).cluster) (masterOf s0 p)
          .s_ctrl).1 ≠ 0 := by rw [hcall]; simp
      rw [if_neg hr]
      obtain ⟨k, hk, hlog, hz, hnz⟩ := ih _ hst'
      refine ⟨k + 1, by simp only [List.length_cons]; omega, ?_, ?_, ?_⟩
      · rw [hlog, hcall, List.take_succ_cons, List.filter_cons_of_neg (by rw [hop]; simp)]
        simp only [hS1]
      · intro h0; rw [hz h0]; rfl
      · intro h0
        obtain ⟨hk0, q, hq, hqo⟩ := hnz h0
        refine ⟨Nat.succ_pos _, q, ?_, hqo⟩
        obtain ⟨j, rfl⟩ : ∃ j, k = j + 1 := ⟨k - 1, by omega⟩
        simpa using hq
    | true =>
      rw [hop] at hops
      have hlogc := call_op_log _ _ _ hops
      rw [hS1] at hlogc
      by_cases hr : (call_op (setup_cluster s (s0.get (masterOf s0 p)).cluster) (masterOf s0 p)
          .s_ctrl).1 ≠ 0
      · rw [if_pos hr]
        refine ⟨1, by simp, ?_, fun h0 => absurd h0 hr, fun _ => ⟨Nat.one_pos, p, rfl, hop⟩⟩
        rw [hlogc]
        simp [hop]
      · rw [if_neg hr]
        obtain ⟨k, hk, hlog, hz, hnz⟩ := ih _ hst'
        refine ⟨k + 1, by simp only [List.length_cons]; omega, ?_, ?_, ?_⟩
        · rw [hlog, hlogc, List.take_succ_cons, List.filter_cons_of_pos (by rw [hop])]
          simp
        · intro h0; rw [hz h0]; rfl
        · intro h0
          obtain ⟨hk0, q, hq, hqo⟩ := hnz h0
          refine ⟨Nat.succ_pos _, q, ?_, hqo⟩
          obtain ⟨j, rfl⟩ : ∃ j, k = j + 1 := ⟨k - 1, by omega⟩
          simpa using hq

theorem setupFirsts_sublist (s : Store) : ∀ (l before : List Nat),
    (setupFirsts s before l).Sublist l := by
  intro l
  induction l with
  | nil => intro before; exact List.Sublist.refl _
  | cons p rest ih =>
    intro before
    rw [setupFirsts_cons]
    split
    · exact (ih _).cons₂ p
    · exact (ih _).cons p

theorem setupFirsts_mem (s : Store) : ∀ (l before : List Nat) (p : Nat),
    p ∈ setupFirsts s before l → setupEligible s p = true ∧
      ∀ q ∈ before, setupEligible s q = true → masterOf s q ≠ masterOf s p := by
  intro l
  induction l with
  | nil => intro before p hp; simp [setupFirsts] at hp
  | cons x rest ih =>
    intro before p hp
    rw [setupFirsts_cons] at hp
    have hrest : p ∈ setupFirsts s (before ++ [x]) rest → setupEligible s p = true ∧
        ∀ q ∈ before, setupEligible s q = true → masterOf s q ≠ masterOf s p := by
      intro a
      obtain ⟨b, c⟩ := ih _ p a
      exact ⟨b, fun q hq => c q (List.mem_append_left _ hq)⟩
    split at hp
    · rename_i hc
      rcases List.mem_cons.1 hp with a | a
      · rw [a]; exact hc
      · exact hrest a
    · exact hrest hp

theorem setupFirsts_nodup (s : Store) : ∀ (l before : List Nat),
    ((setupFirsts s before l).map (masterOf s)).Nodup := by
  intro l
  induction l with
  | nil => intro before; simp [setupFirsts]
  | cons x rest ih =>
    intro before
    rw [setupFirsts_cons]
    split
    · rename_i hc
      rw [List.map_cons, List.nodup_cons]
      refine ⟨?_, ih _⟩
      intro hm
      obtain ⟨q, hq, e⟩ := List.mem_map.1 hm
      exact (setupFirsts_mem s rest _ q hq).2 x (by simp) hc.1 e.symm
    · exact ih _

theorem setupFirsts_cover (s : Store) : ∀ (l before : List Nat) (p : Nat), p ∈ l →
    setupEligible s p = true →
    (∃ q ∈ before, setupEligible s q = true ∧ masterOf s q = masterOf s p) ∨
      masterOf s p ∈ (setupFirsts s before l).map (masterOf s) := by
  intro l
  induction l with
  | nil => intro before p hp; cases hp
  | cons x rest ih =>
    intro before p hp he
    rw [setupFirsts_cons]
    by_cases hc : setupEligible s x = true ∧
        ∀ q ∈ before, setupEligible s q = true → masterOf s q ≠ masterOf s x
    · rw [if_pos hc]
      rcases List.mem_cons.1 hp with a | a
      · right; rw [a]; simp
      · rcases ih (before ++ [x]) p a he with ⟨q, hq, b, c⟩ | b
        · rcases List.mem_append.1 hq with hq | hq
          · exact Or.inl ⟨q, hq, b, c⟩
          · have e : q = x := by simpa using hq
            right
            rw [← c, e]
            simp
        · right
          rw [List.map_cons]
          exact List.mem_cons_of_mem _ b
    · rw [if_neg hc]
      have hx : setupEligible s x = true →
          ∃ q ∈ before, setupEligible s q = true ∧ masterOf s q = masterOf s x := by
        intro a
        by_contra hno
        apply hc
        refine ⟨a, fun q hq b c => hno ⟨q, hq, b, c⟩⟩
      rcases List.mem_cons.1 hp with a | a
      · left; rw [a]; exact hx (a ▸ he)
      · rcases ih (before ++ [x]) p a he with ⟨q, hq, b, c⟩ | b
        · rcases List.mem_append.1 hq with hq | hq
          · exact Or.inl ⟨q, hq, b, c⟩
          · have e : q = x := by simpa using hq
            subst e
            obtain ⟨q', hq', b', c'⟩ := hx b
            exact Or.inl ⟨q', hq', b', c'.trans c⟩
        · exact Or.inr b

theorem chainStore_reachable : Reachable exCatalog chainReg.hdl chainStore :=
  Reachable.outside chainReg.hdl chainReg.store chainStore
    (Reachable.new_custom _ _ _
      (Reachable.new_std _ _ none 0x00980900 0 10 1 5
        (Reachable.init 1 0 ⟨[], []⟩ (fun c hc => by simp at hc))))
    (by unfold StoreExt; decide)
    (by unfold Store.wf; decide)

/-- Claim C11 fails on the code: in the reachable registry `chainReg` with brightness and
the string control in one cluster, a try of the batch `exBatchEmptyString` (brightness 5,
then the string control with a buffer of size 0) passes the resolve checks and the
validation of both entries, and the entry 1 is chained to the entry 0; the loop over the
clusters sets the error index to 0, the
index of the first entry of the cluster, and `user_to_new` then rejects the chained entry 1
with `-ERANGE`. The call reports the error index 0, although the entry 0 is processed
without error (a try of the entry 0 alone succeeds) and the entry that fails is the entry
1 (a try of the entry 1 alone fails with the same error), against the comment of the code
that for a try the error index is the control that has an invalid value. -/
theorem C11_chained_entry_reports_first_index :
    (resolved chainReg.hdl chainStore exBatchEmptyString).ret = 0 ∧
    (resolved chainReg.hdl chainStore exBatchEmptyString).helpers.map (fun x => x.ctrl) =
      [some 0, some 2] ∧
    (resolved chainReg.hdl chainStore exBatchEmptyString).helpers.map
      (fun x => x.mref.isSome) = [true, false] ∧
    (resolved chainReg.hdl chainStore exBatchEmptyString).helpers.map (fun x => x.next) =
      [1, 0] ∧
    (∀ n, n < 2 → entryError chainStore false
      ((resolved chainReg.hdl chainStore exBatchEmptyString).helpers.getD n Helper.null)
      (exBatchEmptyString.controls.getD n ExtControl.null) = 0) ∧
    (v4l2_try_ext_ctrls (some chainReg.hdl) chainStore exBatchEmptyString).ret = -ERANGE ∧
    (v4l2_try_ext_ctrls (some chainReg.hdl) chainStore exBatchEmptyString).cs.error_idx = 0 ∧
    (v4l2_try_ext_ctrls (some chainReg.hdl) chainStore
      ⟨0, 0, [⟨0x00980900, 0, 5, 0, []⟩]⟩).ret = 0 ∧
    (v4l2_try_ext_ctrls (some chainReg.hdl) chainStore
      ⟨0, 0, [⟨0x00981001, 0, 0, 0, [0]⟩]⟩).ret = -ERANGE ∧
    (user_to_new chainStore ⟨0x00980900, 0, 5, 0, []⟩ (some 0)).1 = 0 ∧
    (user_to_new chainStore ⟨0x00981001, 0, 0, 0, [0]⟩ (some 2)).1 = -ERANGE := by
  decide

end V4L2
